import Mathlib

/-!
cpp-libuv: the event loop, closing a handle, and the poll, process and
fs-event handles.

A shallow embedding of `src/win/core.cpp`, `src/win/handle.cpp`,
`src/win/poll.cpp`, `src/win/process.cpp` and `src/win/fs-event.cpp`
of the C++ port of libuv, and theorems about it.

Conventions of the embedding:
* a C pointer that heads a linked list is the list itself (`nullptr` is `[]`);
* an `int` is an `Int`, an unsigned machine integer a `Nat`;
* user callbacks and the parts of the library that are not in these files are
  parameters (fields of an `ops` record), so a theorem that quantifies over
  the record holds for every behaviour of those parts;
* a `while` loop that need not terminate takes a fuel argument that bounds
  the number of iterations and returns `none` when the fuel runs out.
-/

namespace Uv

/-! ## The loop (`core.cpp`) -/

/-- The run modes of `uv_run` (`uv_run_mode` in `uv.h`). -/
inductive uv_run_mode
  | UV_RUN_DEFAULT
  | UV_RUN_ONCE
  | UV_RUN_NOWAIT
  deriving DecidableEq, Repr

/-- The fields of `uv_loop_t` that `core.cpp` reads or writes in `uv_run`,
`uv_backend_timeout` and `uv__loop_alive`. `world` stands for everything else
a callback can read and write (user data, the rest of the loop, the OS). -/
structure uv_loop_t (W : Type) where
  /-- The cached loop time, `loop->time`. -/
  time : Nat
  /-- Counter `loop->active_handles`. -/
  active_handles : Nat
  /-- Counter `loop->active_reqs.count`. -/
  active_reqs_count : Nat
  /-- The pending-request queue headed by `loop->pending_reqs_tail`. -/
  pending_reqs_tail : List Nat
  /-- The endgame list headed by `loop->endgame_handles`. -/
  endgame_handles : List Nat
  /-- The idle handles headed by `loop->idle_handles`. -/
  idle_handles : List Nat
  /-- The deadlines of the timers in `loop->timer_heap`. -/
  timer_heap : List Nat
  /-- Field `loop->stop_flag`. -/
  stop_flag : Nat
  /-- Everything else. -/
  world : W
  deriving DecidableEq, Repr

/-- The phases `uv_run` calls, as they appear in its trace. -/
inductive uv_phase
  | update_time
  | run_timers
  | process_reqs
  | idle_invoke
  | prepare_invoke
  | poll (timeout : Nat)
  | poll_wine (timeout : Nat)
  | check_invoke
  | process_endgames
  deriving DecidableEq, Repr

/-- The functions `uv_run` calls that are not in `core.cpp` (timers, request
processing, loop watchers, endgames), the two pollers and the clock. Each may
run user callbacks, so each is an arbitrary function of the loop. -/
structure uv_loop_ops (W : Type) where
  /-- The clock `uv__hrtime(1000)`. -/
  uv__hrtime : W → Nat
  uv__run_timers : uv_loop_t W → uv_loop_t W
  /-- Returns the loop and `ran_pending`. -/
  uv_process_reqs : uv_loop_t W → uv_loop_t W × Int
  uv_idle_invoke : uv_loop_t W → uv_loop_t W
  uv_prepare_invoke : uv_loop_t W → uv_loop_t W
  /-- Whether `pGetQueuedCompletionStatusEx` is available. -/
  pGetQueuedCompletionStatusEx : Bool
  uv__poll : uv_loop_t W → Nat → uv_loop_t W
  uv__poll_wine : uv_loop_t W → Nat → uv_loop_t W
  uv_check_invoke : uv_loop_t W → uv_loop_t W
  uv_process_endgames : uv_loop_t W → uv_loop_t W

/-- Constant `INT_MAX`. -/
def INT_MAX : Nat := 2147483647

/-- Modelled from the spec: the macro `uv__has_active_handles` of
`uv-common.h`, the active-handle count is positive. -/
def uv__has_active_handles {W : Type} (loop : uv_loop_t W) : Bool :=
  decide (0 < loop.active_handles)

/-- Modelled from the spec: the macro `uv__has_active_reqs` of
`uv-common.h`, the active-request count is positive. -/
def uv__has_active_reqs {W : Type} (loop : uv_loop_t W) : Bool :=
  decide (0 < loop.active_reqs_count)

/-- Modelled from the spec: `uv__next_timeout` of the timer module, which is
not in these files: `-1` when there is no timer, else the time from the loop
time to the earliest deadline, at least `0` and at most `INT_MAX`. -/
def uv__next_timeout {W : Type} (loop : uv_loop_t W) : Int :=
  match loop.timer_heap.min? with
  | none => -1
  | some deadline => ((min (deadline - loop.time) INT_MAX : Nat) : Int)

/-- Function `uv_update_time`: the loop time becomes the clock's reading. -/
def uv_update_time {W : Type} (ops : uv_loop_ops W) (loop : uv_loop_t W) : uv_loop_t W :=
  { loop with time := ops.uv__hrtime loop.world }

/-- Function `uv_backend_timeout`. -/
def uv_backend_timeout {W : Type} (loop : uv_loop_t W) : Int :=
  if loop.stop_flag ≠ 0 then 0
  else if !uv__has_active_handles loop && !uv__has_active_reqs loop then 0
  else if loop.pending_reqs_tail ≠ [] then 0
  else if loop.endgame_handles ≠ [] then 0
  else if loop.idle_handles ≠ [] then 0
  else uv__next_timeout loop

/-- Function `uv__loop_alive`: the `int` value of the disjunction. -/
def uv__loop_alive {W : Type} (loop : uv_loop_t W) : Int :=
  if uv__has_active_handles loop || uv__has_active_reqs loop
      || decide (loop.endgame_handles ≠ []) then 1 else 0

/-- Function `uv_loop_alive`. -/
def uv_loop_alive {W : Type} (loop : uv_loop_t W) : Int :=
  uv__loop_alive loop

/-- The conversion of an `int` to the `DWORD` it is assigned to. -/
def to_DWORD (x : Int) : Nat := (x % 4294967296).toNat

/-- The variables of `uv_run` while it runs: `r`, the loop, and the trace of
the phases called so far. -/
structure uv_run_state (W : Type) where
  r : Int
  loop : uv_loop_t W
  trace : List uv_phase
  deriving DecidableEq, Repr

/-- One call of a phase: the loop is transformed and the call is logged. -/
def uv_call {W : Type} (p : uv_phase) (f : uv_loop_t W → uv_loop_t W)
    (st : uv_loop_t W × List uv_phase) : uv_loop_t W × List uv_phase :=
  (f st.1, st.2 ++ [p])

/-- The poller `uv_run` calls: `uv__poll` when `pGetQueuedCompletionStatusEx`
is set, else `uv__poll_wine`. -/
def uv_run_poll {W : Type} (ops : uv_loop_ops W) (timeout : Nat)
    (st : uv_loop_t W × List uv_phase) : uv_loop_t W × List uv_phase :=
  if ops.pGetQueuedCompletionStatusEx then
    uv_call (.poll timeout) (fun l => ops.uv__poll l timeout) st
  else
    uv_call (.poll_wine timeout) (fun l => ops.uv__poll_wine l timeout) st

/-- The timeout `uv_run` passes to the poller, from the mode, `ran_pending`
and the loop after the prepare callbacks. -/
def uv_run_timeout {W : Type} (mode : uv_run_mode) (ran_pending : Int)
    (loop : uv_loop_t W) : Nat :=
  if (mode = .UV_RUN_ONCE ∧ ran_pending = 0) ∨ mode = .UV_RUN_DEFAULT then
    to_DWORD (uv_backend_timeout loop)
  else 0

/-- The body of the `while` loop of `uv_run`, up to and including the
assignment `r = uv__loop_alive(loop)`. -/
def uv_run_body {W : Type} (ops : uv_loop_ops W) (mode : uv_run_mode)
    (st : uv_run_state W) : uv_run_state W :=
  let s := (st.loop, st.trace)
  let s := uv_call .update_time (uv_update_time ops) s
  let s := uv_call .run_timers ops.uv__run_timers s
  let ran_pending := (ops.uv_process_reqs s.1).2
  let s := uv_call .process_reqs (fun l => (ops.uv_process_reqs l).1) s
  let s := uv_call .idle_invoke ops.uv_idle_invoke s
  let s := uv_call .prepare_invoke ops.uv_prepare_invoke s
  let timeout := uv_run_timeout mode ran_pending s.1
  let s := uv_run_poll ops timeout s
  let s := uv_call .check_invoke ops.uv_check_invoke s
  let s := uv_call .process_endgames ops.uv_process_endgames s
  let s := if mode = .UV_RUN_ONCE then uv_call .run_timers ops.uv__run_timers s else s
  { r := uv__loop_alive s.1, loop := s.1, trace := s.2 }

/-- The condition of the `while` loop of `uv_run`. -/
def uv_run_cond {W : Type} (st : uv_run_state W) : Prop :=
  st.r ≠ 0 ∧ st.loop.stop_flag = 0

instance {W : Type} (st : uv_run_state W) : Decidable (uv_run_cond st) := by
  unfold uv_run_cond; infer_instance

/-- The `while` loop of `uv_run`; `fuel` bounds the number of iterations. -/
def uv_run_while {W : Type} (ops : uv_loop_ops W) (mode : uv_run_mode) :
    Nat → uv_run_state W → Option (uv_run_state W)
  | 0, st => if uv_run_cond st then none else some st
  | fuel + 1, st =>
    if uv_run_cond st then
      let st1 := uv_run_body ops mode st
      if mode = .UV_RUN_ONCE ∨ mode = .UV_RUN_NOWAIT then some st1
      else uv_run_while ops mode fuel st1
    else some st

/-- The statements of `uv_run` before the `while` loop. -/
def uv_run_enter {W : Type} (ops : uv_loop_ops W) (loop : uv_loop_t W) : uv_run_state W :=
  let r := uv__loop_alive loop
  if r = 0 then
    let s := uv_call .update_time (uv_update_time ops) (loop, [])
    { r := r, loop := s.1, trace := s.2 }
  else { r := r, loop := loop, trace := [] }

/-- The statements of `uv_run` after the `while` loop: the stop flag is reset. -/
def uv_run_leave {W : Type} (st : uv_run_state W) : uv_run_state W :=
  if st.loop.stop_flag ≠ 0 then { st with loop := { st.loop with stop_flag := 0 } } else st

/-- Function `uv_run`: the returned `r`, the loop it leaves and the phases it
called, or `none` when `fuel` iterations were not enough. -/
def uv_run {W : Type} (ops : uv_loop_ops W) (fuel : Nat) (mode : uv_run_mode)
    (loop : uv_loop_t W) : Option (uv_run_state W) :=
  (uv_run_while ops mode fuel (uv_run_enter ops loop)).map uv_run_leave

/-- The phases of one iteration in the order the specification lists them,
for a poll timeout; `ex` tells which of the two pollers is in use. -/
def uv_iteration_phases (ex : Bool) (mode : uv_run_mode) (timeout : Nat) : List uv_phase :=
  [.update_time, .run_timers, .process_reqs, .idle_invoke, .prepare_invoke,
    (if ex then .poll timeout else .poll_wine timeout), .check_invoke, .process_endgames]
    ++ (if mode = .UV_RUN_ONCE then [.run_timers] else [])

/-- The timeouts passed to the poller in a trace. -/
def uv_poll_timeouts : List uv_phase → List Nat
  | [] => []
  | .poll t :: tr => t :: uv_poll_timeouts tr
  | .poll_wine t :: tr => t :: uv_poll_timeouts tr
  | _ :: tr => uv_poll_timeouts tr

/-- A loop has nothing that keeps it alive: no active handle, no active
request and an empty endgame list. -/
def uv_loop_idle {W : Type} (loop : uv_loop_t W) : Prop :=
  loop.active_handles = 0 ∧ loop.active_reqs_count = 0 ∧ loop.endgame_handles = []

instance {W : Type} (loop : uv_loop_t W) : Decidable (uv_loop_idle loop) := by
  unfold uv_loop_idle; infer_instance

/-! ## Handles: the common part (`handle-inl.h`, `req-inl.h`) -/

/-- The C expression `a & ~b` on non-negative operands: the bits of `a` that
are not bits of `b`. -/
def and_not (a b : Nat) : Nat := a ^^^ (a &&& b)

/-- Modelled from the spec: the flag bitset of a handle, one Boolean for each
flag bit the functions below test or change (the bit values are declared in
`uv-common.h`, which is not in these files). -/
structure uv_handle_flags where
  /-- Bit `UV_HANDLE_CLOSING`. -/
  closing : Bool
  /-- Bit `UV_HANDLE_CLOSED`. -/
  closed : Bool
  /-- Bit `UV_HANDLE_ACTIVE`. -/
  active : Bool
  /-- Bit `UV_HANDLE_REF`. -/
  ref : Bool
  /-- Bit `UV_HANDLE_ENDGAME_QUEUED`. -/
  endgame_queued : Bool
  /-- Bit `UV_HANDLE_POLL_SLOW`. -/
  poll_slow : Bool
  deriving DecidableEq, Repr

/-- What a run leaves behind for an observer: the user callbacks invoked, with
their arguments, the calls of `uv_close`, the handles put on the endgame list,
and the assertions that failed. -/
inductive uv_event
  /-- Call `poll_cb(handle, status, events)`; `watching` is `handle->events`
  when the callback is entered. -/
  | poll_cb (cb : Option Nat) (status : Int) (events : Nat) (watching : Nat)
  /-- Call `exit_cb(handle, exit_status, term_signal)`. -/
  | exit_cb (cb : Option Nat) (exit_status : Int) (term_signal : Int)
  /-- Call `cb(handle, filename, events, status)` of an fs-event handle. -/
  | fs_event_cb (cb : Option Nat) (filename : Option (List Nat)) (events : Nat) (status : Int)
  /-- Call `close_cb(handle)`. -/
  | close_cb (cb : Nat)
  /-- A call of `uv_close` on the handle at `addr`. -/
  | close_called (addr : Nat)
  /-- The handle at `addr` was put on the endgame list. -/
  | endgame_queued (addr : Nat)
  /-- An `assert` whose condition was false. -/
  | assert_failed
  /-- A call of `abort()`. -/
  | aborted
  /-- A call of `uv_fatal_error`. -/
  | fatal_error
  deriving DecidableEq, Repr

/-- Whether an event is the call of a user callback other than the close
callback. -/
def uv_event.is_user_cb : uv_event → Bool
  | .poll_cb _ _ _ _ => true
  | .exit_cb _ _ _ => true
  | .fs_event_cb _ _ _ _ => true
  | _ => false

/-- The loop, one handle of type `H` and the events so far. -/
structure uv_state (W : Type) (H : Type) where
  loop : uv_loop_t W
  handle : H
  log : List uv_event
  deriving DecidableEq, Repr

/-- Modelled from the spec: the macro `uv__active_handle_add` of
`uv-common.h`, the `unsigned int` counter of active handles is incremented. -/
def uv__active_handle_add {W : Type} (loop : uv_loop_t W) : uv_loop_t W :=
  { loop with active_handles := (loop.active_handles + 1) % 4294967296 }

/-- Modelled from the spec: the macro `uv__active_handle_rm` of
`uv-common.h`, the `unsigned int` counter of active handles is decremented. -/
def uv__active_handle_rm {W : Type} (loop : uv_loop_t W) : uv_loop_t W :=
  { loop with active_handles := (loop.active_handles + 4294967295) % 4294967296 }

/-- Modelled from the spec: the macro `uv__is_active` of `uv-common.h`. -/
def uv__is_active (flags : uv_handle_flags) : Bool := flags.active

/-- Modelled from the spec: the macro `uv__handle_start` of `uv-common.h`:
sets the `ACTIVE` flag and counts the handle as active if and only if `REF` is
set; it does nothing on a handle that is active already. -/
def uv__handle_start {W : Type} (loop : uv_loop_t W) (flags : uv_handle_flags) :
    uv_loop_t W × uv_handle_flags :=
  if flags.active then (loop, flags)
  else
    let flags := { flags with active := true }
    if flags.ref then (uv__active_handle_add loop, flags) else (loop, flags)

/-- Modelled from the spec: the macro `uv__handle_stop` of `uv-common.h`:
clears the `ACTIVE` flag and discounts the handle if and only if `REF` is set;
it does nothing on a handle that is not active. -/
def uv__handle_stop {W : Type} (loop : uv_loop_t W) (flags : uv_handle_flags) :
    uv_loop_t W × uv_handle_flags :=
  if !flags.active then (loop, flags)
  else
    let flags := { flags with active := false }
    if flags.ref then (uv__active_handle_rm loop, flags) else (loop, flags)

/-- Modelled from the spec: the macro `uv__handle_closing` of `handle-inl.h`:
the handle goes to `CLOSING` and is not `ACTIVE` any more; it stays counted as
active until its endgame. The macro asserts that `CLOSING` was not set. -/
def uv__handle_closing {W : Type} (loop : uv_loop_t W) (flags : uv_handle_flags)
    (log : List uv_event) : uv_loop_t W × uv_handle_flags × List uv_event :=
  let log := if flags.closing then log ++ [.assert_failed] else log
  let loop := if !(flags.active && flags.ref) then uv__active_handle_add loop else loop
  (loop, { flags with closing := true, active := false }, log)

/-- Modelled from the spec: `uv_want_endgame` of `handle-inl.h`: the handle is
put at the head of the endgame list, unless it is on the list already. -/
def uv_want_endgame {W : Type} (loop : uv_loop_t W) (addr : Nat) (flags : uv_handle_flags)
    (log : List uv_event) : uv_loop_t W × uv_handle_flags × List uv_event :=
  if !flags.endgame_queued then
    ({ loop with endgame_handles := addr :: loop.endgame_handles },
      { flags with endgame_queued := true }, log ++ [.endgame_queued addr])
  else (loop, flags, log)

/-- Modelled from the spec: the macro `uv__handle_close` of `handle-inl.h`:
the handle is discounted, the close callback is called if there is one and
the handle is `CLOSED`. -/
def uv__handle_close {W : Type} (loop : uv_loop_t W) (flags : uv_handle_flags)
    (close_cb : Option Nat) (log : List uv_event) :
    uv_loop_t W × uv_handle_flags × List uv_event :=
  (uv__active_handle_rm loop, { flags with closed := true },
    match close_cb with
    | some cb => log ++ [.close_cb cb]
    | none => log)

/-- Modelled from the spec: `uv_insert_pending_req` of `req-inl.h`: the
request is appended to the loop's pending-request queue. -/
def uv_insert_pending_req {W : Type} (loop : uv_loop_t W) (req : Nat) : uv_loop_t W :=
  { loop with pending_reqs_tail := loop.pending_reqs_tail ++ [req] }

/-- The fields of `uv_req_t` the functions below use: its address, the status
in `u.io.overlapped.Internal` and `u.io.overlapped.InternalHigh`. -/
structure uv_req_t where
  addr : Nat
  status : Int
  InternalHigh : Nat
  deriving DecidableEq, Repr

/-- The macros of `req-inl.h` on the status of a request and
`uv_translate_sys_error` of `error.cpp`; none of them is in these files. -/
structure uv_req_ops where
  REQ_SUCCESS : uv_req_t → Bool
  GET_REQ_ERROR : uv_req_t → Nat
  GET_REQ_SOCK_ERROR : uv_req_t → Nat
  SET_REQ_ERROR : uv_req_t → Nat → uv_req_t
  uv_translate_sys_error : Int → Int

/-! ## The poll handle (`poll.cpp`) -/

/-- Event bit `UV_READABLE` of `uv.h`. -/
def UV_READABLE : Nat := 1
/-- Event bit `UV_WRITABLE` of `uv.h`. -/
def UV_WRITABLE : Nat := 2
/-- Event bit `UV_DISCONNECT` of `uv.h`. -/
def UV_DISCONNECT : Nat := 4

/-- AFD event bit of `winapi.h`. -/
def AFD_POLL_RECEIVE : Nat := 0x0001
/-- AFD event bit of `winapi.h`. -/
def AFD_POLL_SEND : Nat := 0x0004
/-- AFD event bit of `winapi.h`. -/
def AFD_POLL_DISCONNECT : Nat := 0x0008
/-- AFD event bit of `winapi.h`. -/
def AFD_POLL_ABORT : Nat := 0x0010
/-- AFD event bit of `winapi.h`. -/
def AFD_POLL_LOCAL_CLOSE : Nat := 0x0020
/-- AFD event bit of `winapi.h`. -/
def AFD_POLL_ACCEPT : Nat := 0x0080
/-- AFD event bit of `winapi.h`. -/
def AFD_POLL_CONNECT_FAIL : Nat := 0x0100
/-- Winsock error `WSAEINTR`. -/
def WSAEINTR : Nat := 10004

/-- The fields of `AFD_POLL_INFO` with its single entry `Handles[0]`. -/
structure AFD_POLL_INFO where
  Exclusive : Bool
  NumberOfHandles : Nat
  Timeout : Int
  Handle : Nat
  Status : Nat
  Events : Nat
  deriving DecidableEq, Repr

/-- The fields of `uv_poll_t`. -/
structure uv_poll_t where
  addr : Nat
  flags : uv_handle_flags
  close_cb : Option Nat
  poll_cb : Option Nat
  socket : Nat
  peer_socket : Nat
  events : Nat
  submitted_events_1 : Nat
  submitted_events_2 : Nat
  mask_events_1 : Nat
  mask_events_2 : Nat
  poll_req_1 : uv_req_t
  poll_req_2 : uv_req_t
  afd_poll_info_1 : AFD_POLL_INFO
  afd_poll_info_2 : AFD_POLL_INFO
  deriving DecidableEq, Repr

/-- A call a user makes on a poll handle. `os_error` is the outcome of the
system call the library makes to submit or cancel a poll request, should the
call come to make one: `none` when it succeeds or is pending. -/
inductive uv_poll_call
  | start (events : Nat) (cb : Option Nat) (os_error : Option Nat)
  | stop
  | close (cb : Option Nat) (os_error : Option Nat)
  deriving DecidableEq, Repr

/-- The request pointer `uv_process_poll_req` receives, compared with the
addresses of the two requests of the handle. -/
inductive uv_poll_req_ref
  | poll_req_1
  | poll_req_2
  | other
  deriving DecidableEq, Repr

/-- What the functions of `poll.cpp` take from outside: the request macros and
the user: `poll_cb cb log handle status events` is the list of calls the
callback `cb` makes on the handle when invoked with these arguments after the
events of `log`. -/
structure uv_poll_ops extends uv_req_ops where
  poll_cb : Option Nat → List uv_event → uv_poll_t → Int → Nat → List uv_poll_call

/-- The value of `INT64_MAX`, the timeout of a poll request. -/
def INT64_MAX : Int := 9223372036854775807

/-- The `AFD_POLL_INFO` that `uv__fast_poll_submit_poll_req` fills in. -/
def uv__fast_poll_afd_info (handle : uv_poll_t) : AFD_POLL_INFO :=
  let ev : Nat := 0
  let ev :=
    if handle.events &&& UV_READABLE ≠ 0 then
      ev ||| (AFD_POLL_RECEIVE ||| AFD_POLL_DISCONNECT ||| AFD_POLL_ACCEPT ||| AFD_POLL_ABORT)
    else if handle.events &&& UV_DISCONNECT ≠ 0 then ev ||| AFD_POLL_DISCONNECT
    else ev
  let ev :=
    if handle.events &&& UV_WRITABLE ≠ 0 then ev ||| (AFD_POLL_SEND ||| AFD_POLL_CONNECT_FAIL)
    else ev
  { Exclusive := true, NumberOfHandles := 1, Timeout := INT64_MAX,
    Handle := handle.socket, Status := 0, Events := ev }

/-- The end of both submit functions: the system call (`uv_msafd_poll` or
`QueueUserWorkItem`) failed with error `e`, so the request is given the error
and made pending. -/
def uv_poll_submit_failed {W : Type} (ops : uv_poll_ops) (slot : uv_poll_req_ref) (e : Nat)
    (st : uv_state W uv_poll_t) : uv_state W uv_poll_t :=
  match slot with
  | .poll_req_1 =>
    let req := ops.SET_REQ_ERROR st.handle.poll_req_1 e
    { st with handle := { st.handle with poll_req_1 := req },
              loop := uv_insert_pending_req st.loop req.addr }
  | .poll_req_2 =>
    let req := ops.SET_REQ_ERROR st.handle.poll_req_2 e
    { st with handle := { st.handle with poll_req_2 := req },
              loop := uv_insert_pending_req st.loop req.addr }
  | .other => st

/-- Function `uv__fast_poll_submit_poll_req`. -/
def uv__fast_poll_submit_poll_req {W : Type} (ops : uv_poll_ops) (os_error : Option Nat)
    (st : uv_state W uv_poll_t) : uv_state W uv_poll_t :=
  let handle := st.handle
  if handle.submitted_events_1 = 0 then
    let handle := { handle with
      submitted_events_1 := handle.events, mask_events_1 := 0, mask_events_2 := handle.events }
    let handle := { handle with
      afd_poll_info_1 := uv__fast_poll_afd_info handle,
      poll_req_1 := { handle.poll_req_1 with status := 0, InternalHigh := 0 } }
    match os_error with
    | some e => uv_poll_submit_failed ops .poll_req_1 e { st with handle := handle }
    | none => { st with handle := handle }
  else if handle.submitted_events_2 = 0 then
    let handle := { handle with
      submitted_events_2 := handle.events, mask_events_1 := handle.events, mask_events_2 := 0 }
    let handle := { handle with
      afd_poll_info_2 := uv__fast_poll_afd_info handle,
      poll_req_2 := { handle.poll_req_2 with status := 0, InternalHigh := 0 } }
    match os_error with
    | some e => uv_poll_submit_failed ops .poll_req_2 e { st with handle := handle }
    | none => { st with handle := handle }
  else st

/-- Function `uv__fast_poll_cancel_poll_req`: the error of the cancelling poll
request, 0 when it succeeds or is pending. -/
def uv__fast_poll_cancel_poll_req (os_error : Option Nat) : Int :=
  match os_error with
  | some e => (e : Int)
  | none => 0

/-- The statements of `uv__fast_poll_set` and `uv__slow_poll_set` before the
submission: the assertions that the handle is not closing and that `events`
has no bit outside `valid`, the assignment of the events and the start or stop
of the handle. -/
def uv_poll_set_events {W : Type} (valid events : Nat) (st : uv_state W uv_poll_t) :
    uv_state W uv_poll_t :=
  let log := if st.handle.flags.closing then st.log ++ [.assert_failed] else st.log
  let log := if and_not events valid ≠ 0 then log ++ [.assert_failed] else log
  let handle : uv_poll_t := { st.handle with events := events % 256 }
  let lf := if handle.events ≠ 0 then uv__handle_start st.loop handle.flags
    else uv__handle_stop st.loop handle.flags
  { loop := lf.1, handle := { handle with flags := lf.2 }, log := log }

/-- Function `uv__fast_poll_set`. -/
def uv__fast_poll_set {W : Type} (ops : uv_poll_ops) (events : Nat) (os_error : Option Nat)
    (st : uv_state W uv_poll_t) : uv_state W uv_poll_t × Int :=
  let st := uv_poll_set_events (UV_READABLE ||| UV_WRITABLE ||| UV_DISCONNECT) events st
  if and_not st.handle.events (st.handle.submitted_events_1 ||| st.handle.submitted_events_2) ≠ 0
  then (uv__fast_poll_submit_poll_req ops os_error st, 0)
  else (st, 0)

/-- Function `uv__slow_poll_submit_poll_req`. -/
def uv__slow_poll_submit_poll_req {W : Type} (ops : uv_poll_ops) (os_error : Option Nat)
    (st : uv_state W uv_poll_t) : uv_state W uv_poll_t :=
  let handle := st.handle
  if handle.submitted_events_1 = 0 then
    let handle := { handle with
      submitted_events_1 := handle.events, mask_events_1 := 0, mask_events_2 := handle.events }
    match os_error with
    | some e => uv_poll_submit_failed ops .poll_req_1 e { st with handle := handle }
    | none => { st with handle := handle }
  else if handle.submitted_events_2 = 0 then
    let handle := { handle with
      submitted_events_2 := handle.events, mask_events_1 := handle.events, mask_events_2 := 0 }
    match os_error with
    | some e => uv_poll_submit_failed ops .poll_req_2 e { st with handle := handle }
    | none => { st with handle := handle }
  else { st with log := st.log ++ [.assert_failed] }

/-- Function `uv__slow_poll_set`. -/
def uv__slow_poll_set {W : Type} (ops : uv_poll_ops) (events : Nat) (os_error : Option Nat)
    (st : uv_state W uv_poll_t) : uv_state W uv_poll_t × Int :=
  let st := uv_poll_set_events (UV_READABLE ||| UV_WRITABLE) events st
  if and_not st.handle.events (st.handle.submitted_events_1 ||| st.handle.submitted_events_2) ≠ 0
  then (uv__slow_poll_submit_poll_req ops os_error st, 0)
  else (st, 0)

/-- The call `uv_want_endgame(loop, handle)` on a poll handle. -/
def uv_poll_want_endgame {W : Type} (st : uv_state W uv_poll_t) : uv_state W uv_poll_t :=
  let r := uv_want_endgame st.loop st.handle.addr st.handle.flags st.log
  { loop := r.1, handle := { st.handle with flags := r.2.1 }, log := r.2.2 }

/-- The call `uv__handle_closing(handle)` on a poll handle. -/
def uv_poll_handle_closing {W : Type} (st : uv_state W uv_poll_t) : uv_state W uv_poll_t :=
  let r := uv__handle_closing st.loop st.handle.flags st.log
  { loop := r.1, handle := { st.handle with flags := r.2.1 }, log := r.2.2 }

/-- Function `uv__fast_poll_close`. -/
def uv__fast_poll_close {W : Type} (os_error : Option Nat) (st : uv_state W uv_poll_t) :
    uv_state W uv_poll_t × Int :=
  let st := { st with handle := { st.handle with events := 0 } }
  let st := uv_poll_handle_closing st
  if st.handle.submitted_events_1 = 0 ∧ st.handle.submitted_events_2 = 0 then
    (uv_poll_want_endgame st, 0)
  else (st, uv__fast_poll_cancel_poll_req os_error)

/-- Function `uv__slow_poll_close`. -/
def uv__slow_poll_close {W : Type} (st : uv_state W uv_poll_t) : uv_state W uv_poll_t × Int :=
  let st := { st with handle := { st.handle with events := 0 } }
  let st := uv_poll_handle_closing st
  if st.handle.submitted_events_1 = 0 ∧ st.handle.submitted_events_2 = 0 then
    (uv_poll_want_endgame st, 0)
  else (st, 0)

/-- Function `uv_poll_start`. -/
def uv_poll_start {W : Type} (ops : uv_poll_ops) (events : Nat) (cb : Option Nat)
    (os_error : Option Nat) (st : uv_state W uv_poll_t) : uv_state W uv_poll_t × Int :=
  let r := if !st.handle.flags.poll_slow then uv__fast_poll_set ops events os_error st
    else uv__slow_poll_set ops events os_error st
  if r.2 ≠ 0 then (r.1, ops.uv_translate_sys_error r.2)
  else ({ r.1 with handle := { r.1.handle with poll_cb := cb } }, 0)

/-- Function `uv_poll_stop`. -/
def uv_poll_stop {W : Type} (ops : uv_poll_ops) (st : uv_state W uv_poll_t) :
    uv_state W uv_poll_t × Int :=
  let r := if !st.handle.flags.poll_slow then uv__fast_poll_set ops 0 none st
    else uv__slow_poll_set ops 0 none st
  (r.1, ops.uv_translate_sys_error r.2)

/-- Function `uv_poll_close`. -/
def uv_poll_close {W : Type} (os_error : Option Nat) (st : uv_state W uv_poll_t) :
    uv_state W uv_poll_t × Int :=
  if !st.handle.flags.poll_slow then uv__fast_poll_close os_error st
  else uv__slow_poll_close st

/-- Function `uv_poll_endgame`. -/
def uv_poll_endgame {W : Type} (st : uv_state W uv_poll_t) : uv_state W uv_poll_t :=
  let log := st.log
  let log := if !st.handle.flags.closing then log ++ [.assert_failed] else log
  let log := if st.handle.flags.closed then log ++ [.assert_failed] else log
  let log := if st.handle.submitted_events_1 ≠ 0 then log ++ [.assert_failed] else log
  let log := if st.handle.submitted_events_2 ≠ 0 then log ++ [.assert_failed] else log
  let r := uv__handle_close st.loop st.handle.flags st.handle.close_cb log
  { loop := r.1, handle := { st.handle with flags := r.2.1 }, log := r.2.2 }

/-! ## The process handle (`process.cpp`) -/

/-- The buffer `child_stdio_buffer` of `process-stdio.cpp`, which has the
layout `int number_of_fds`, `unsigned char crt_flags[number_of_fds]`,
`HANDLE os_handle[number_of_fds]`: the count field and the two arrays. -/
structure child_stdio_buffer where
  count : Nat
  crt_flags : List Nat
  os_handle : List Nat
  deriving DecidableEq, Repr

/-- The fields of `uv_process_t` that the functions of `process.cpp` use;
`wait_handle` is `none` for `INVALID_HANDLE_VALUE` and `child_stdio_buffer` is
`none` for `nullptr`. -/
structure uv_process_t where
  addr : Nat
  flags : uv_handle_flags
  close_cb : Option Nat
  exit_cb : Option Nat
  exit_cb_pending : Nat
  wait_handle : Option Nat
  process_handle : Nat
  exit_signal : Int
  exit_req : uv_req_t
  pid : Nat
  child_stdio_buffer : Option child_stdio_buffer
  deriving DecidableEq, Repr

/-- A call a user makes on a process handle: `uv_close`. `unregister_ok` is
the result of `UnregisterWaitEx` and `fired` tells whether the exit wait
callback completed before that call returned. -/
inductive uv_process_call
  | close (cb : Option Nat) (unregister_ok : Bool) (fired : Bool)
  deriving DecidableEq, Repr

/-- What the functions of `process.cpp` take from outside: the request macros
and the calls the exit callback makes on its handle. -/
structure uv_process_ops extends uv_req_ops where
  exit_cb : Option Nat → List uv_event → uv_process_t → Int → Int → List uv_process_call

/-- Function `exit_wait_callback`, run on a thread of the thread pool: the
exit request becomes pending. -/
def exit_wait_callback (process : uv_process_t) (log : List uv_event) :
    uv_process_t × List uv_event :=
  let log := if process.exit_cb_pending ≠ 0 then log ++ [.assert_failed] else log
  ({ process with exit_cb_pending := 1 }, log)

/-- The call `uv_want_endgame(loop, handle)` on a process handle. -/
def uv_process_want_endgame {W : Type} (st : uv_state W uv_process_t) :
    uv_state W uv_process_t :=
  let r := uv_want_endgame st.loop st.handle.addr st.handle.flags st.log
  { loop := r.1, handle := { st.handle with flags := r.2.1 }, log := r.2.2 }

/-- Function `uv_process_close`. -/
def uv_process_close {W : Type} (unregister_ok fired : Bool) (st : uv_state W uv_process_t) :
    uv_state W uv_process_t :=
  let r := uv__handle_closing st.loop st.handle.flags st.log
  let st : uv_state W uv_process_t :=
    { loop := r.1, handle := { st.handle with flags := r.2.1 }, log := r.2.2 }
  let st :=
    if st.handle.wait_handle ≠ none then
      let hl := if fired then exit_wait_callback st.handle st.log else (st.handle, st.log)
      let log := if !unregister_ok then hl.2 ++ [.fatal_error] else hl.2
      { st with handle := { hl.1 with wait_handle := none }, log := log }
    else st
  if st.handle.exit_cb_pending = 0 then uv_process_want_endgame st else st

/-- Function `uv_process_endgame`. -/
def uv_process_endgame {W : Type} (st : uv_state W uv_process_t) : uv_state W uv_process_t :=
  let log := st.log
  let log := if st.handle.exit_cb_pending ≠ 0 then log ++ [.assert_failed] else log
  let log := if !st.handle.flags.closing then log ++ [.assert_failed] else log
  let log := if st.handle.flags.closed then log ++ [.assert_failed] else log
  let r := uv__handle_close st.loop st.handle.flags st.handle.close_cb log
  { loop := r.1, handle := { st.handle with flags := r.2.1 }, log := r.2.2 }

/-! ## The fs-event handle (`fs-event.cpp`) -/

/-- One record of the buffer `ReadDirectoryChangesW` fills; the records of a
buffer are chained by `NextEntryOffset`, which is 0 in the last one, and are
the elements of a list here. -/
structure FILE_NOTIFY_INFORMATION where
  Action : Nat
  FileName : List Nat
  deriving DecidableEq, Repr

/-- Constant `FILE_ACTION_ADDED`. -/
def FILE_ACTION_ADDED : Nat := 1
/-- Constant `FILE_ACTION_REMOVED`. -/
def FILE_ACTION_REMOVED : Nat := 2
/-- Constant `FILE_ACTION_MODIFIED`. -/
def FILE_ACTION_MODIFIED : Nat := 3
/-- Constant `FILE_ACTION_RENAMED_OLD_NAME`. -/
def FILE_ACTION_RENAMED_OLD_NAME : Nat := 4
/-- Constant `FILE_ACTION_RENAMED_NEW_NAME`. -/
def FILE_ACTION_RENAMED_NEW_NAME : Nat := 5
/-- Event `UV_RENAME` of `uv.h`. -/
def UV_RENAME : Nat := 1
/-- Event `UV_CHANGE` of `uv.h`. -/
def UV_CHANGE : Nat := 2

/-- The fields of `uv_fs_event_t`; `dir_handle` is `none` for
`INVALID_HANDLE_VALUE`, a string pointer is `none` for `nullptr`, and `buffer`
holds the records the last directory read wrote. -/
structure uv_fs_event_t where
  addr : Nat
  flags : uv_handle_flags
  close_cb : Option Nat
  cb : Option Nat
  path : Option (List Nat)
  dir_handle : Option Nat
  buffer : Option (List FILE_NOTIFY_INFORMATION)
  req_pending : Nat
  filew : Option (List Nat)
  short_filew : Option (List Nat)
  dirw : Option (List Nat)
  req : uv_req_t
  deriving DecidableEq, Repr

/-- A call a user makes on an fs-event handle from its callback. -/
inductive uv_fs_event_call
  | stop
  | close (cb : Option Nat)
  deriving DecidableEq, Repr

/-- What the functions of `fs-event.cpp` take from outside: the request
macros, the comparison `_wcsnicmp`, the file name handed to the callback for a
record (long-path resolution and conversion to UTF-8), and the calls the
callback makes on its handle. -/
structure uv_fs_event_ops extends uv_req_ops where
  _wcsnicmp : List Nat → List Nat → Nat → Int
  filename : uv_fs_event_t → FILE_NOTIFY_INFORMATION → Option (List Nat)
  cb : Option Nat → List uv_event → uv_fs_event_t → Option (List Nat) → Nat → Int →
    List uv_fs_event_call

/-- Function `uv_fs_event_queue_readdirchanges`; `os_error` is the error of
`ReadDirectoryChangesW` when it fails. -/
def uv_fs_event_queue_readdirchanges {W : Type} (ops : uv_fs_event_ops)
    (os_error : Option Nat) (st : uv_state W uv_fs_event_t) : uv_state W uv_fs_event_t :=
  let log := if st.handle.dir_handle = none then st.log ++ [.assert_failed] else st.log
  let log := if st.handle.req_pending ≠ 0 then log ++ [.assert_failed] else log
  let req : uv_req_t := { st.handle.req with status := 0, InternalHigh := 0 }
  let st : uv_state W uv_fs_event_t := { st with handle := { st.handle with req := req }, log := log }
  let st : uv_state W uv_fs_event_t :=
    match os_error with
    | some e =>
      let req := ops.SET_REQ_ERROR st.handle.req e
      { st with handle := { st.handle with req := req },
                loop := uv_insert_pending_req st.loop req.addr }
    | none => st
  { st with handle := { st.handle with req_pending := 1 } }

/-- Function `uv_fs_event_stop`. -/
def uv_fs_event_stop {W : Type} (st : uv_state W uv_fs_event_t) :
    uv_state W uv_fs_event_t × Int :=
  if !uv__is_active st.handle.flags then (st, 0)
  else
    let handle := { st.handle with dir_handle := none }
    let lf := uv__handle_stop st.loop handle.flags
    let handle := { handle with flags := lf.2, filew := none, short_filew := none,
                                path := none, dirw := none }
    ({ st with loop := lf.1, handle := handle }, 0)

/-- Function `file_info_cmp`. -/
def file_info_cmp (ops : uv_fs_event_ops) (str : Option (List Nat)) (file_name : List Nat)
    (file_name_len : Nat) : Int :=
  match str with
  | none => -1
  | some s =>
    if s.length ≠ file_name_len / 2 then -1
    else ops._wcsnicmp s file_name s.length

/-- The call `uv_want_endgame(loop, handle)` on an fs-event handle. -/
def uv_fs_event_want_endgame {W : Type} (st : uv_state W uv_fs_event_t) :
    uv_state W uv_fs_event_t :=
  let r := uv_want_endgame st.loop st.handle.addr st.handle.flags st.log
  { loop := r.1, handle := { st.handle with flags := r.2.1 }, log := r.2.2 }

/-- Function `uv_fs_event_close`. -/
def uv_fs_event_close {W : Type} (st : uv_state W uv_fs_event_t) : uv_state W uv_fs_event_t :=
  let st := (uv_fs_event_stop st).1
  let r := uv__handle_closing st.loop st.handle.flags st.log
  let st : uv_state W uv_fs_event_t :=
    { loop := r.1, handle := { st.handle with flags := r.2.1 }, log := r.2.2 }
  if st.handle.req_pending = 0 then uv_fs_event_want_endgame st else st

/-- Function `uv_fs_event_endgame`. -/
def uv_fs_event_endgame {W : Type} (st : uv_state W uv_fs_event_t) : uv_state W uv_fs_event_t :=
  if st.handle.flags.closing ∧ st.handle.req_pending = 0 then
    let log := if st.handle.flags.closed then st.log ++ [.assert_failed] else st.log
    let handle := { st.handle with buffer := none }
    let r := uv__handle_close st.loop handle.flags handle.close_cb log
    { loop := r.1, handle := { handle with flags := r.2.1 }, log := r.2.2 }
  else st

/-! ## Closing a handle (`handle.cpp`) -/

/-- The handle types, `uv_handle_type` of `uv.h`. -/
inductive uv_handle_type
  | UV_UNKNOWN_HANDLE | UV_ASYNC | UV_CHECK | UV_FS_EVENT | UV_FS_POLL | UV_HANDLE
  | UV_IDLE | UV_NAMED_PIPE | UV_POLL | UV_PREPARE | UV_PROCESS | UV_STREAM | UV_TCP
  | UV_TIMER | UV_TTY | UV_UDP | UV_SIGNAL | UV_FILE
  deriving DecidableEq, Repr

/-- The common fields of a handle whose type has its close function outside
these files. -/
structure uv_other_t where
  addr : Nat
  type : uv_handle_type
  flags : uv_handle_flags
  close_cb : Option Nat
  deriving DecidableEq, Repr

/-- A handle as `uv_close` receives it: the pointer is cast to the type the
tag `handle->type` names. Poll, process and fs-event handles carry their own
fields; a handle of another type carries its tag and the common fields. -/
inductive uv_handle_t
  | poll (h : uv_poll_t)
  | process (h : uv_process_t)
  | fs_event (h : uv_fs_event_t)
  | other (h : uv_other_t)
  deriving DecidableEq, Repr

/-- Field `handle->flags`. -/
def uv_handle_t.flags : uv_handle_t → uv_handle_flags
  | .poll h => h.flags
  | .process h => h.flags
  | .fs_event h => h.flags
  | .other h => h.flags

/-- Field `handle->addr`, the address of the handle. -/
def uv_handle_t.addr : uv_handle_t → Nat
  | .poll h => h.addr
  | .process h => h.addr
  | .fs_event h => h.addr
  | .other h => h.addr

/-- The assignment `handle->close_cb = cb`. -/
def uv_handle_t.set_close_cb (cb : Option Nat) : uv_handle_t → uv_handle_t
  | .poll h => .poll { h with close_cb := cb }
  | .process h => .process { h with close_cb := cb }
  | .fs_event h => .fs_event { h with close_cb := cb }
  | .other h => .other { h with close_cb := cb }

/-- Field `handle->close_cb`. -/
def uv_handle_t.close_cb : uv_handle_t → Option Nat
  | .poll h => h.close_cb
  | .process h => h.close_cb
  | .fs_event h => h.close_cb
  | .other h => h.close_cb

/-- The close functions of the handle types outside these files, and the stop
functions of timer, prepare, check and idle handles. -/
structure uv_close_ops (W : Type) where
  uv_tcp_close : uv_state W uv_other_t → uv_state W uv_other_t
  uv_pipe_close : uv_state W uv_other_t → uv_state W uv_other_t
  uv_tty_close : uv_state W uv_other_t → uv_state W uv_other_t
  uv_udp_close : uv_state W uv_other_t → uv_state W uv_other_t
  uv_timer_stop : uv_state W uv_other_t → uv_state W uv_other_t
  uv_prepare_stop : uv_state W uv_other_t → uv_state W uv_other_t
  uv_check_stop : uv_state W uv_other_t → uv_state W uv_other_t
  uv_idle_stop : uv_state W uv_other_t → uv_state W uv_other_t
  uv_async_close : uv_state W uv_other_t → uv_state W uv_other_t
  uv_signal_close : uv_state W uv_other_t → uv_state W uv_other_t
  uv__fs_poll_close : uv_state W uv_other_t → uv_state W uv_other_t

/-- The outcomes of the system calls a close makes: of the cancelling poll
request (poll handle) and of `UnregisterWaitEx` (process handle). -/
structure uv_close_os where
  poll_cancel_error : Option Nat
  unregister_ok : Bool
  wait_fired : Bool
  deriving DecidableEq, Repr

/-- The call `uv__handle_closing(handle)` on a handle of another type. -/
def uv_other_handle_closing {W : Type} (st : uv_state W uv_other_t) : uv_state W uv_other_t :=
  let r := uv__handle_closing st.loop st.handle.flags st.log
  { loop := r.1, handle := { st.handle with flags := r.2.1 }, log := r.2.2 }

/-- The call `uv_want_endgame(loop, handle)` on a handle of another type. -/
def uv_other_want_endgame {W : Type} (st : uv_state W uv_other_t) : uv_state W uv_other_t :=
  let r := uv_want_endgame st.loop st.handle.addr st.handle.flags st.log
  { loop := r.1, handle := { st.handle with flags := r.2.1 }, log := r.2.2 }

/-- A state with its handle seen as a `uv_handle_t`. -/
def uv_state.lift {W H : Type} (f : H → uv_handle_t) (st : uv_state W H) :
    uv_state W uv_handle_t :=
  { loop := st.loop, handle := f st.handle, log := st.log }

/-- The `switch (handle->type)` of `uv_close` for a handle of another type. -/
def uv_close_other {W : Type} (ops : uv_close_ops W) (st : uv_state W uv_other_t) :
    uv_state W uv_other_t :=
  match st.handle.type with
  | .UV_TCP => ops.uv_tcp_close st
  | .UV_NAMED_PIPE => ops.uv_pipe_close st
  | .UV_TTY => ops.uv_tty_close st
  | .UV_UDP => ops.uv_udp_close st
  | .UV_TIMER => uv_other_want_endgame (uv_other_handle_closing (ops.uv_timer_stop st))
  | .UV_PREPARE => uv_other_want_endgame (uv_other_handle_closing (ops.uv_prepare_stop st))
  | .UV_CHECK => uv_other_want_endgame (uv_other_handle_closing (ops.uv_check_stop st))
  | .UV_IDLE => uv_other_want_endgame (uv_other_handle_closing (ops.uv_idle_stop st))
  | .UV_ASYNC => ops.uv_async_close st
  | .UV_SIGNAL => ops.uv_signal_close st
  | .UV_FS_POLL => uv_other_handle_closing (ops.uv__fs_poll_close st)
  | _ => { st with log := st.log ++ [.aborted] }

/-- Function `uv_close`. The call is logged; a call on a handle whose
`CLOSING` flag is set fails the assertion and returns. -/
def uv_close {W : Type} (ops : uv_close_ops W) (os : uv_close_os) (cb : Option Nat)
    (st : uv_state W uv_handle_t) : uv_state W uv_handle_t :=
  let st : uv_state W uv_handle_t :=
    { st with log := st.log ++ [uv_event.close_called st.handle.addr] }
  if st.handle.flags.closing then { st with log := st.log ++ [uv_event.assert_failed] }
  else
    match st.handle.set_close_cb cb with
    | .poll h =>
      (uv_poll_close os.poll_cancel_error { loop := st.loop, handle := h, log := st.log }).1.lift
        uv_handle_t.poll
    | .process h =>
      (uv_process_close os.unregister_ok os.wait_fired
        { loop := st.loop, handle := h, log := st.log }).lift uv_handle_t.process
    | .fs_event h =>
      (uv_fs_event_close { loop := st.loop, handle := h, log := st.log }).lift
        uv_handle_t.fs_event
    | .other h =>
      (uv_close_other ops { loop := st.loop, handle := h, log := st.log }).lift
        uv_handle_t.other

/-- Function `uv_is_closing`. -/
def uv_is_closing (handle : uv_handle_t) : Bool :=
  handle.flags.closing || handle.flags.closed

/-- Function `uv_is_active`. -/
def uv_is_active (handle : uv_handle_t) : Bool :=
  handle.flags.active && !handle.flags.closing

/-- Close functions that do nothing, for calls of `uv_close` on a poll, process
or fs-event handle, which use none of them. -/
def uv_close_ops.unused (W : Type) : uv_close_ops W :=
  { uv_tcp_close := id, uv_pipe_close := id, uv_tty_close := id, uv_udp_close := id,
    uv_timer_stop := id, uv_prepare_stop := id, uv_check_stop := id, uv_idle_stop := id,
    uv_async_close := id, uv_signal_close := id, uv__fs_poll_close := id }

/-! ### Calls a user makes on a poll handle, and its callback -/

/-- The call `uv_close(handle, cb)` on a poll handle. -/
def uv_poll_do_close {W : Type} (cb : Option Nat) (os_error : Option Nat)
    (st : uv_state W uv_poll_t) : uv_state W uv_poll_t :=
  let r := uv_close (uv_close_ops.unused W)
    { poll_cancel_error := os_error, unregister_ok := true, wait_fired := false } cb
    (st.lift uv_handle_t.poll)
  { loop := r.loop, log := r.log,
    handle := match r.handle with
      | .poll h => h
      | _ => st.handle }

/-- One call of the user on a poll handle. -/
def uv_poll_do_call {W : Type} (ops : uv_poll_ops) (c : uv_poll_call)
    (st : uv_state W uv_poll_t) : uv_state W uv_poll_t :=
  match c with
  | .start events cb os_error => (uv_poll_start ops events cb os_error st).1
  | .stop => (uv_poll_stop ops st).1
  | .close cb os_error => uv_poll_do_close cb os_error st

/-- The call `handle->poll_cb(handle, status, events)`: the call is logged and
the calls the callback makes on the handle are carried out. -/
def uv_poll_invoke_cb {W : Type} (ops : uv_poll_ops) (status : Int) (events : Nat)
    (st : uv_state W uv_poll_t) : uv_state W uv_poll_t :=
  let calls := ops.poll_cb st.handle.poll_cb st.log st.handle status events
  let st := { st with
    log := st.log ++ [.poll_cb st.handle.poll_cb status events st.handle.events] }
  calls.foldl (fun s c => uv_poll_do_call ops c s) st

/-- The events `uv__fast_poll_process_poll_req` derives from the AFD events
of a completed poll request. -/
def uv__fast_poll_reported (afd_poll_info : AFD_POLL_INFO) : Nat :=
  let events : Nat := 0
  let events :=
    if afd_poll_info.Events &&&
        (AFD_POLL_RECEIVE ||| AFD_POLL_DISCONNECT ||| AFD_POLL_ACCEPT ||| AFD_POLL_ABORT) ≠ 0 then
      let events := events ||| UV_READABLE
      if afd_poll_info.Events &&& AFD_POLL_DISCONNECT ≠ 0 then events ||| UV_DISCONNECT
      else events
    else events
  if afd_poll_info.Events &&& (AFD_POLL_SEND ||| AFD_POLL_CONNECT_FAIL) ≠ 0 then
    events ||| UV_WRITABLE
  else events

/-- The last statement of both `process_poll_req` functions: a new request is
submitted when an event is watched that no outstanding request covers, else a
closing handle without outstanding request is put on the endgame list. -/
def uv_poll_process_end {W : Type}
    (submit : uv_state W uv_poll_t → uv_state W uv_poll_t)
    (st : uv_state W uv_poll_t) : uv_state W uv_poll_t :=
  if and_not st.handle.events (st.handle.submitted_events_1 ||| st.handle.submitted_events_2) ≠ 0
  then submit st
  else if st.handle.flags.closing ∧ st.handle.submitted_events_1 = 0 ∧
      st.handle.submitted_events_2 = 0 then
    uv_poll_want_endgame st
  else st

/-- The statements `handle->events = 0` and `uv__handle_stop(handle)` that
`uv__fast_poll_process_poll_req` makes when the socket was closed locally. -/
def uv__fast_poll_local_close {W : Type} (st : uv_state W uv_poll_t) : uv_state W uv_poll_t :=
  let st := { st with handle := { st.handle with events := 0 } }
  if uv__is_active st.handle.flags then
    let lf := uv__handle_stop st.loop st.handle.flags
    { st with loop := lf.1, handle := { st.handle with flags := lf.2 } }
  else st

/-- The statements of `uv__fast_poll_process_poll_req` between the
identification of the request and the last statement: the error or the events
of the request are reported to the callback. `mask_events` is the mask of the
request slot, `afd_poll_info` its poll info and `req` the request. -/
def uv__fast_poll_process_events {W : Type} (ops : uv_poll_ops)
    (mask_events : Nat) (afd_poll_info : AFD_POLL_INFO) (req : uv_req_t)
    (st : uv_state W uv_poll_t) : uv_state W uv_poll_t :=
  if !ops.REQ_SUCCESS req then
    let error := ops.GET_REQ_SOCK_ERROR req
    if error ≠ WSAEINTR ∧ st.handle.events ≠ 0 then
      let st := { st with handle := { st.handle with events := 0 } }
      uv_poll_invoke_cb ops (ops.uv_translate_sys_error error) 0 st
    else st
  else if afd_poll_info.NumberOfHandles ≥ 1 then
    let events := uv__fast_poll_reported afd_poll_info
    let events := events &&& and_not st.handle.events mask_events
    let st :=
      if afd_poll_info.Events &&& AFD_POLL_LOCAL_CLOSE ≠ 0 then uv__fast_poll_local_close st
      else st
    if events ≠ 0 then uv_poll_invoke_cb ops 0 events st else st
  else st

/-- The statements of `uv__fast_poll_process_poll_req` after the request has
been identified. -/
def uv__fast_poll_process_body {W : Type} (ops : uv_poll_ops) (os_error : Option Nat)
    (mask_events : Nat) (afd_poll_info : AFD_POLL_INFO) (req : uv_req_t)
    (st : uv_state W uv_poll_t) : uv_state W uv_poll_t :=
  uv_poll_process_end (uv__fast_poll_submit_poll_req ops os_error)
    (uv__fast_poll_process_events ops mask_events afd_poll_info req st)

/-- Function `uv__fast_poll_process_poll_req`. -/
def uv__fast_poll_process_poll_req {W : Type} (ops : uv_poll_ops) (os_error : Option Nat)
    (req : uv_poll_req_ref) (st : uv_state W uv_poll_t) : uv_state W uv_poll_t :=
  match req with
  | .poll_req_1 =>
    let st := { st with handle := { st.handle with submitted_events_1 := 0 } }
    uv__fast_poll_process_body ops os_error st.handle.mask_events_1
      st.handle.afd_poll_info_1 st.handle.poll_req_1 st
  | .poll_req_2 =>
    let st := { st with handle := { st.handle with submitted_events_2 := 0 } }
    uv__fast_poll_process_body ops os_error st.handle.mask_events_2
      st.handle.afd_poll_info_2 st.handle.poll_req_2 st
  | .other => { st with log := st.log ++ [.assert_failed] }

/-- The statements of `uv__slow_poll_process_poll_req` between the
identification of the request and the last statement: the error or the events
of the request are reported to the callback. `mask_events` is the mask of the
request slot and `req` the request. -/
def uv__slow_poll_process_events {W : Type} (ops : uv_poll_ops)
    (mask_events : Nat) (req : uv_req_t)
    (st : uv_state W uv_poll_t) : uv_state W uv_poll_t :=
  if !ops.REQ_SUCCESS req then
    if st.handle.events ≠ 0 then
      let err := ops.GET_REQ_ERROR req
      let st := { st with handle := { st.handle with events := 0 } }
      uv_poll_invoke_cb ops (ops.uv_translate_sys_error err) 0 st
    else st
  else
    let events := and_not (req.InternalHigh &&& st.handle.events) mask_events
    if events ≠ 0 then uv_poll_invoke_cb ops 0 events st else st

/-- The statements of `uv__slow_poll_process_poll_req` after the request has
been identified. -/
def uv__slow_poll_process_body {W : Type} (ops : uv_poll_ops) (os_error : Option Nat)
    (mask_events : Nat) (req : uv_req_t)
    (st : uv_state W uv_poll_t) : uv_state W uv_poll_t :=
  uv_poll_process_end (uv__slow_poll_submit_poll_req ops os_error)
    (uv__slow_poll_process_events ops mask_events req st)

/-- Function `uv__slow_poll_process_poll_req`. -/
def uv__slow_poll_process_poll_req {W : Type} (ops : uv_poll_ops) (os_error : Option Nat)
    (req : uv_poll_req_ref) (st : uv_state W uv_poll_t) : uv_state W uv_poll_t :=
  match req with
  | .poll_req_1 =>
    let st := { st with handle := { st.handle with submitted_events_1 := 0 } }
    uv__slow_poll_process_body ops os_error st.handle.mask_events_1 st.handle.poll_req_1 st
  | .poll_req_2 =>
    let st := { st with handle := { st.handle with submitted_events_2 := 0 } }
    uv__slow_poll_process_body ops os_error st.handle.mask_events_2 st.handle.poll_req_2 st
  | .other => { st with log := st.log ++ [.assert_failed] }

/-- Function `uv_process_poll_req`. -/
def uv_process_poll_req {W : Type} (ops : uv_poll_ops) (os_error : Option Nat)
    (req : uv_poll_req_ref) (st : uv_state W uv_poll_t) : uv_state W uv_poll_t :=
  if !st.handle.flags.poll_slow then uv__fast_poll_process_poll_req ops os_error req st
  else uv__slow_poll_process_poll_req ops os_error req st

/-! ### The exit request of a process handle -/

/-- The call `uv_close(handle, cb)` on a process handle. -/
def uv_process_do_close {W : Type} (cb : Option Nat) (unregister_ok fired : Bool)
    (st : uv_state W uv_process_t) : uv_state W uv_process_t :=
  let r := uv_close (uv_close_ops.unused W)
    { poll_cancel_error := none, unregister_ok := unregister_ok, wait_fired := fired } cb
    (st.lift uv_handle_t.process)
  { loop := r.loop, log := r.log,
    handle := match r.handle with
      | .process h => h
      | _ => st.handle }

/-- One call of the user on a process handle. -/
def uv_process_do_call {W : Type} (c : uv_process_call)
    (st : uv_state W uv_process_t) : uv_state W uv_process_t :=
  match c with
  | .close cb unregister_ok fired => uv_process_do_close cb unregister_ok fired st

/-- Function `uv_process_proc_exit`. `exit_status` is what `GetExitCodeProcess`
stores when it succeeds, `last_error` the error when it fails. -/
def uv_process_proc_exit {W : Type} (ops : uv_process_ops) (exit_status : Option Nat)
    (last_error : Nat) (st : uv_state W uv_process_t) : uv_state W uv_process_t :=
  let log := if st.handle.exit_cb_pending = 0 then st.log ++ [.assert_failed] else st.log
  let st : uv_state W uv_process_t :=
    { st with handle := { st.handle with exit_cb_pending := 0 }, log := log }
  if st.handle.flags.closing then uv_process_want_endgame st
  else
    let st : uv_state W uv_process_t :=
      if st.handle.wait_handle ≠ none then
        { st with handle := { st.handle with wait_handle := none } }
      else st
    let lf := uv__handle_stop st.loop st.handle.flags
    let st : uv_state W uv_process_t :=
      { st with loop := lf.1, handle := { st.handle with flags := lf.2 } }
    let exit_code : Int :=
      match exit_status with
      | some status => (status : Int)
      | none => ops.uv_translate_sys_error (last_error : Int)
    if st.handle.exit_cb ≠ none then
      let calls := ops.exit_cb st.handle.exit_cb st.log st.handle exit_code st.handle.exit_signal
      let st := { st with
        log := st.log ++ [.exit_cb st.handle.exit_cb exit_code st.handle.exit_signal] }
      calls.foldl (fun s c => uv_process_do_call c s) st
    else st

/-! ### The request of an fs-event handle -/

/-- The call `uv_close(handle, cb)` on an fs-event handle. -/
def uv_fs_event_do_close {W : Type} (cb : Option Nat)
    (st : uv_state W uv_fs_event_t) : uv_state W uv_fs_event_t :=
  let r := uv_close (uv_close_ops.unused W)
    { poll_cancel_error := none, unregister_ok := true, wait_fired := false } cb
    (st.lift uv_handle_t.fs_event)
  { loop := r.loop, log := r.log,
    handle := match r.handle with
      | .fs_event h => h
      | _ => st.handle }

/-- One call of the user on an fs-event handle. -/
def uv_fs_event_do_call {W : Type} (c : uv_fs_event_call)
    (st : uv_state W uv_fs_event_t) : uv_state W uv_fs_event_t :=
  match c with
  | .stop => (uv_fs_event_stop st).1
  | .close cb => uv_fs_event_do_close cb st

/-- The call `handle->cb(handle, filename, events, status)`: the call is logged
and the calls the callback makes on the handle are carried out. -/
def uv_fs_event_invoke_cb {W : Type} (ops : uv_fs_event_ops) (filename : Option (List Nat))
    (events : Nat) (status : Int) (st : uv_state W uv_fs_event_t) : uv_state W uv_fs_event_t :=
  let calls := ops.cb st.handle.cb st.log st.handle filename events status
  let st := { st with log := st.log ++ [.fs_event_cb st.handle.cb filename events status] }
  calls.foldl (fun s c => uv_fs_event_do_call c s) st

/-- The body of the `do` loop of `uv_process_fs_event_req` for the record
`file_info`: the callback is called when a directory is watched or the name of
the record matches the file watched, with the event the action of the record
stands for. -/
def uv_fs_event_record {W : Type} (ops : uv_fs_event_ops) (file_info : FILE_NOTIFY_INFORMATION)
    (st : uv_state W uv_fs_event_t) : uv_state W uv_fs_event_t :=
  if st.handle.dirw ≠ none ∨
      file_info_cmp ops st.handle.filew file_info.FileName (2 * file_info.FileName.length) = 0 ∨
      file_info_cmp ops st.handle.short_filew file_info.FileName
        (2 * file_info.FileName.length) = 0 then
    let filename := ops.filename st.handle file_info
    if file_info.Action = FILE_ACTION_ADDED ∨ file_info.Action = FILE_ACTION_REMOVED ∨
        file_info.Action = FILE_ACTION_RENAMED_OLD_NAME ∨
        file_info.Action = FILE_ACTION_RENAMED_NEW_NAME then
      uv_fs_event_invoke_cb ops filename UV_RENAME 0 st
    else if file_info.Action = FILE_ACTION_MODIFIED then
      uv_fs_event_invoke_cb ops filename UV_CHANGE 0 st
    else st
  else st

/-- The `do` loop of `uv_process_fs_event_req` over the records of the buffer:
after a record, the loop goes on while there is a next record and the handle
is not closing. -/
def uv_fs_event_records {W : Type} (ops : uv_fs_event_ops) :
    List FILE_NOTIFY_INFORMATION → uv_state W uv_fs_event_t → uv_state W uv_fs_event_t
  | [], st => st
  | file_info :: rest, st =>
    let st := uv_fs_event_record ops file_info st
    if rest ≠ [] ∧ !st.handle.flags.closing then uv_fs_event_records ops rest st else st

/-- The statements of `uv_process_fs_event_req` that report a completed
directory read on an active handle: the records of the buffer, or a change
without file name when the read returned no data, or the error of the
request. -/
def uv_fs_event_report {W : Type} (ops : uv_fs_event_ops) (st : uv_state W uv_fs_event_t) :
    uv_state W uv_fs_event_t :=
  if ops.REQ_SUCCESS st.handle.req then
    if st.handle.req.InternalHigh > 0 then
      uv_fs_event_records ops (st.handle.buffer.getD []) st
    else uv_fs_event_invoke_cb ops none UV_CHANGE 0 st
  else
    let err := ops.GET_REQ_ERROR st.handle.req
    uv_fs_event_invoke_cb ops none 0 (ops.uv_translate_sys_error (err : Int)) st

/-- The first statements of `uv_process_fs_event_req`: the assertion that the
request is pending, and `handle->req_pending = 0`. -/
def uv_fs_event_req_done {W : Type} (st : uv_state W uv_fs_event_t) : uv_state W uv_fs_event_t :=
  let log := if st.handle.req_pending = 0 then st.log ++ [.assert_failed] else st.log
  { st with handle := { st.handle with req_pending := 0 }, log := log }

/-- Function `uv_process_fs_event_req`; `os_error` is the error of the
`ReadDirectoryChangesW` that re-arms the watch, when it fails. -/
def uv_process_fs_event_req {W : Type} (ops : uv_fs_event_ops) (os_error : Option Nat)
    (st : uv_state W uv_fs_event_t) : uv_state W uv_fs_event_t :=
  let st := uv_fs_event_req_done st
  if !uv__is_active st.handle.flags then
    if st.handle.flags.closing then uv_fs_event_want_endgame st else st
  else
    let st := uv_fs_event_report ops st
    if !st.handle.flags.closing then uv_fs_event_queue_readdirchanges ops os_error st
    else uv_fs_event_want_endgame st

/-! ### Runs of a poll handle -/

/-- The completion of a poll request: the request, what the kernel or the
worker stored for it (`status`, `InternalHigh`, and in fast mode
`NumberOfHandles` and `Events` of the poll info), and the outcome `os_error`
of the submission the processing may make. -/
structure uv_poll_completion where
  req : uv_poll_req_ref
  status : Int
  InternalHigh : Nat
  NumberOfHandles : Nat
  Events : Nat
  os_error : Option Nat
  deriving DecidableEq, Repr

/-- What happens to a poll handle, one step at a time: a call of the user
from outside its callback, the completion of one of its two requests, or the
endgame of the handle. -/
inductive uv_poll_input
  | call (c : uv_poll_call)
  | complete (c : uv_poll_completion)
  | endgame
  deriving DecidableEq, Repr

/-- The completion of a request by the kernel or the worker: a request that
failed at submission is taken from the pending queue as it is, any other gets
the results stored. -/
def uv_poll_completed {W : Type} (c : uv_poll_completion) (st : uv_state W uv_poll_t) :
    uv_state W uv_poll_t :=
  match c.req with
  | .poll_req_1 =>
    if st.handle.poll_req_1.addr ∈ st.loop.pending_reqs_tail then
      { st with loop := { st.loop with
          pending_reqs_tail := st.loop.pending_reqs_tail.erase st.handle.poll_req_1.addr } }
    else
      { st with handle := { st.handle with
          poll_req_1 := { st.handle.poll_req_1 with
            status := c.status, InternalHigh := c.InternalHigh },
          afd_poll_info_1 := { st.handle.afd_poll_info_1 with
            NumberOfHandles := c.NumberOfHandles, Events := c.Events } } }
  | .poll_req_2 =>
    if st.handle.poll_req_2.addr ∈ st.loop.pending_reqs_tail then
      { st with loop := { st.loop with
          pending_reqs_tail := st.loop.pending_reqs_tail.erase st.handle.poll_req_2.addr } }
    else
      { st with handle := { st.handle with
          poll_req_2 := { st.handle.poll_req_2 with
            status := c.status, InternalHigh := c.InternalHigh },
          afd_poll_info_2 := { st.handle.afd_poll_info_2 with
            NumberOfHandles := c.NumberOfHandles, Events := c.Events } } }
  | .other => st

/-- The completion of a request followed by its processing by the loop. -/
def uv_poll_process_completion {W : Type} (ops : uv_poll_ops) (c : uv_poll_completion)
    (st : uv_state W uv_poll_t) : uv_state W uv_poll_t :=
  uv_process_poll_req ops c.os_error c.req (uv_poll_completed c st)

/-- Whether the request is outstanding: submitted and not yet processed. -/
def uv_poll_outstanding (req : uv_poll_req_ref) (handle : uv_poll_t) : Bool :=
  match req with
  | .poll_req_1 => handle.submitted_events_1 != 0
  | .poll_req_2 => handle.submitted_events_2 != 0
  | .other => false

/-- Modelled from the spec: one turn of `uv_process_endgames` of
`handle-inl.h` for a poll handle on the endgame list: the handle is taken off
the list and its endgame function is called. -/
def uv_poll_process_endgame {W : Type} (st : uv_state W uv_poll_t) : uv_state W uv_poll_t :=
  uv_poll_endgame { st with
    loop := { st.loop with endgame_handles := st.loop.endgame_handles.erase st.handle.addr },
    handle := { st.handle with flags := { st.handle.flags with endgame_queued := false } } }

/-- One step of a poll handle, `none` when the step cannot happen: only an
outstanding request completes, and only a handle on the endgame list has its
endgame run. -/
def uv_poll_step {W : Type} (ops : uv_poll_ops) (inp : uv_poll_input)
    (st : uv_state W uv_poll_t) : Option (uv_state W uv_poll_t) :=
  match inp with
  | .call c => some (uv_poll_do_call ops c st)
  | .complete c =>
    if uv_poll_outstanding c.req st.handle then some (uv_poll_process_completion ops c st)
    else none
  | .endgame =>
    if st.handle.flags.endgame_queued then some (uv_poll_process_endgame st) else none

/-- A run of a poll handle: the steps in order, `none` when a step cannot
happen or an assertion has failed (the program is then aborted). -/
def uv_poll_run {W : Type} (ops : uv_poll_ops) :
    List uv_poll_input → uv_state W uv_poll_t → Option (uv_state W uv_poll_t)
  | [], st => some st
  | inp :: rest, st =>
    match uv_poll_step ops inp st with
    | none => none
    | some st1 => if uv_event.assert_failed ∈ st1.log then none else uv_poll_run ops rest st1

/-- The user callbacks of a log, in order. -/
def uv_user_cbs (log : List uv_event) : List uv_event :=
  log.filter uv_event.is_user_cb

/-- The number of times the handle at `addr` was put on the endgame list. -/
def uv_endgame_count (addr : Nat) (log : List uv_event) : Nat :=
  log.count (.endgame_queued addr)

/-- No user callback is logged after a call of `uv_close`. -/
def uv_quiet_after_close : List uv_event → Bool
  | [] => true
  | .close_called _ :: rest => rest.all (fun e => !e.is_user_cb)
  | _ :: rest => uv_quiet_after_close rest

/-- A poll handle as `uv_poll_init_socket` leaves it: not closing, not closed,
not on the endgame list, watching nothing and without outstanding request. -/
def uv_poll_initial {W : Type} (st : uv_state W uv_poll_t) : Prop :=
  st.handle.flags.closing = false ∧ st.handle.flags.closed = false ∧
  st.handle.flags.endgame_queued = false ∧ st.handle.flags.active = false ∧
  st.handle.events = 0 ∧
  st.handle.submitted_events_1 = 0 ∧ st.handle.submitted_events_2 = 0 ∧
  st.log = []

/-- The request of a poll handle that a reference names. -/
def uv_poll_req_of (req : uv_poll_req_ref) (handle : uv_poll_t) : uv_req_t :=
  match req with
  | .poll_req_1 => handle.poll_req_1
  | _ => handle.poll_req_2

/-- The suppression mask `mask_events` of a request slot. -/
def uv_poll_mask_of (req : uv_poll_req_ref) (handle : uv_poll_t) : Nat :=
  match req with
  | .poll_req_1 => handle.mask_events_1
  | _ => handle.mask_events_2

/-- The poll info of a request slot. -/
def uv_poll_info_of (req : uv_poll_req_ref) (handle : uv_poll_t) : AFD_POLL_INFO :=
  match req with
  | .poll_req_1 => handle.afd_poll_info_1
  | _ => handle.afd_poll_info_2

/-- The events a completed request reports, masked against the events the
handle watches and the suppression mask of the request slot. -/
def uv_poll_masked_events (req : uv_poll_req_ref) (handle : uv_poll_t) : Nat :=
  if handle.flags.poll_slow then
    and_not ((uv_poll_req_of req handle).InternalHigh &&& handle.events)
      (uv_poll_mask_of req handle)
  else
    uv__fast_poll_reported (uv_poll_info_of req handle)
      &&& and_not handle.events (uv_poll_mask_of req handle)


/-- The completion of the directory read of an fs-event handle: the kernel
stores the status and the number of bytes, and the records in the buffer. -/
def uv_fs_event_completed {W : Type} (status : Int) (InternalHigh : Nat)
    (records : List FILE_NOTIFY_INFORMATION) (st : uv_state W uv_fs_event_t) :
    uv_state W uv_fs_event_t :=
  { st with handle := { st.handle with
      req := { st.handle.req with status := status, InternalHigh := InternalHigh },
      buffer := st.handle.buffer.map (fun _ => records) } }

/-- Whether an event is a call of `uv_close`. -/
def uv_event.is_close : uv_event → Bool
  | .close_called _ => true
  | _ => false

/-- An event that is not the call of a user callback. -/
def uv_event.is_quiet (e : uv_event) : Bool := !e.is_user_cb

/-- The log `l2` extends the log `l1` by events that all satisfy `p`. -/
def uv_log_ext (p : uv_event → Bool) (l1 l2 : List uv_event) : Prop :=
  ∃ n, l2 = l1 ++ n ∧ ∀ e ∈ n, p e = true

/-! ### The closing protocol of a poll handle -/

/-- The fields of a poll handle that its closing protocol depends on. -/
structure uv_poll_core where
  addr : Nat
  closing : Bool
  closed : Bool
  endgame_queued : Bool
  poll_slow : Bool
  events : Nat
  submitted_events_1 : Nat
  submitted_events_2 : Nat
  deriving DecidableEq, Repr

/-- The core fields of a poll handle. -/
def uv_poll_t.core (h : uv_poll_t) : uv_poll_core :=
  { addr := h.addr, closing := h.flags.closing, closed := h.flags.closed,
    endgame_queued := h.flags.endgame_queued, poll_slow := h.flags.poll_slow, events := h.events,
    submitted_events_1 := h.submitted_events_1, submitted_events_2 := h.submitted_events_2 }

/-- The submitted events after a submission: the first free slot gets the
events watched. -/
def uv_poll_core.submit (c : uv_poll_core) : uv_poll_core :=
  if c.submitted_events_1 = 0 then { c with submitted_events_1 := c.events }
  else if c.submitted_events_2 = 0 then { c with submitted_events_2 := c.events }
  else c

/-- The core fields after `uv__fast_poll_set` or `uv__slow_poll_set`. -/
def uv_poll_core.set (c : uv_poll_core) (events : Nat) : uv_poll_core :=
  let c := { c with events := events % 256 }
  if and_not c.events (c.submitted_events_1 ||| c.submitted_events_2) ≠ 0 then c.submit else c

/-- The invariant of the closing protocol of the poll handle at `addr`, on its
core fields and its log: no assertion has failed; a handle that is not closing
is not on the endgame list, not closed, and `uv_close` has not been called; a
closing handle watches nothing and `uv_close` has been called; the handle was
put on the endgame list once if it is on the list or closed, and never
otherwise; it is on the list or closed only while closing without outstanding
request; and (when `strict`) a closing handle without outstanding request is
on the list or closed. -/
def uv_poll_inv (strict : Bool) (addr : Nat) (c : uv_poll_core) (log : List uv_event) : Prop :=
  c.addr = addr ∧ uv_event.assert_failed ∉ log ∧
  (c.closing = false →
    c.endgame_queued = false ∧ c.closed = false ∧ uv_event.close_called addr ∉ log) ∧
  (c.closing = true → c.events = 0 ∧ uv_event.close_called addr ∈ log) ∧
  uv_endgame_count addr log = (if c.endgame_queued = true ∨ c.closed = true then 1 else 0) ∧
  (c.endgame_queued = true ∨ c.closed = true →
    c.closing = true ∧ c.submitted_events_1 = 0 ∧ c.submitted_events_2 = 0) ∧
  ¬ (c.endgame_queued = true ∧ c.closed = true) ∧
  (strict = true → c.closing = true → c.submitted_events_1 = 0 → c.submitted_events_2 = 0 →
    c.endgame_queued = true ∨ c.closed = true)

/-- The invariant holds in a state unless an assertion has failed. -/
def uv_poll_ok {W : Type} (strict : Bool) (addr : Nat) (st : uv_state W uv_poll_t) : Prop :=
  uv_event.assert_failed ∉ st.log → uv_poll_inv strict addr st.handle.core st.log

/-- The core fields after `uv_poll_close`. -/
def uv_poll_core.close (c : uv_poll_core) : uv_poll_core :=
  if c.submitted_events_1 = 0 ∧ c.submitted_events_2 = 0 then
    { c with closing := true, events := 0, endgame_queued := true }
  else { c with closing := true, events := 0 }

/-- What `uv_want_endgame` adds to the log. -/
def uv_poll_core.endgame_log (c : uv_poll_core) : List uv_event :=
  if c.endgame_queued = true then [] else [uv_event.endgame_queued c.addr]

/-- The invariant of a log and the closing flag: no user callback is logged
after a call of `uv_close`, and once `uv_close` has been called the handle is
closing. -/
def uv_close_inv (log : List uv_event) (closing : Bool) : Prop :=
  uv_quiet_after_close log = true ∧ (log.any uv_event.is_close = true → closing = true)

/-! ### Concrete loops used as examples -/

/-- A loop with one active handle and one idle handle, not stopped. -/
def ex_loop : uv_loop_t Unit :=
  { time := 0, active_handles := 1, active_reqs_count := 0, pending_reqs_tail := [],
    endgame_handles := [], idle_handles := [7], timer_heap := [], stop_flag := 0,
    world := () }

/-- Callbacks that do nothing, except that the idle callback calls `uv_stop`
(it sets the stop flag). -/
def ex_stop_ops : uv_loop_ops Unit :=
  { uv__hrtime := fun _ => 5
    uv__run_timers := id
    uv_process_reqs := fun l => (l, 0)
    uv_idle_invoke := fun l => { l with stop_flag := 1 }
    uv_prepare_invoke := id
    pGetQueuedCompletionStatusEx := true
    uv__poll := fun l _ => l
    uv__poll_wine := fun l _ => l
    uv_check_invoke := id
    uv_process_endgames := id }

/-- Callbacks that do nothing, except that the check callback closes the
last handle: the active-handle count drops to zero. -/
def ex_close_ops : uv_loop_ops Unit :=
  { uv__hrtime := fun _ => 5
    uv__run_timers := id
    uv_process_reqs := fun l => (l, 0)
    uv_idle_invoke := id
    uv_prepare_invoke := id
    pGetQueuedCompletionStatusEx := true
    uv__poll := fun l _ => l
    uv__poll_wine := fun l _ => l
    uv_check_invoke := fun l => { l with active_handles := 0, idle_handles := [] }
    uv_process_endgames := id }

/-! ### Concrete handles used as examples -/

/-- Flags of a handle after its `init`: referenced, nothing else set. -/
def ex_flags : uv_handle_flags :=
  { closing := false, closed := false, active := false, ref := true, endgame_queued := false,
    poll_slow := false }

/-- Request macros for the examples: a request succeeded when its status is not
negative, its error is the absolute value of its status, and a system error is
translated to its negation. -/
def ex_req_ops : uv_req_ops :=
  { REQ_SUCCESS := fun req => decide (0 ≤ req.status),
    GET_REQ_ERROR := fun req => req.status.natAbs,
    GET_REQ_SOCK_ERROR := fun req => req.status.natAbs,
    SET_REQ_ERROR := fun req e => { req with status := -(e : Int) },
    uv_translate_sys_error := fun e => -e }

/-- A loop without handles and requests. -/
def ex_empty_loop : uv_loop_t Unit :=
  { time := 0, active_handles := 0, active_reqs_count := 0, pending_reqs_tail := [],
    endgame_handles := [], idle_handles := [], timer_heap := [], stop_flag := 0, world := () }

/-- An `AFD_POLL_INFO` with nothing reported. -/
def ex_afd_info : AFD_POLL_INFO :=
  { Exclusive := false, NumberOfHandles := 0, Timeout := 0, Handle := 0, Status := 0, Events := 0 }

/-- A fast-mode poll handle as `uv_poll_init_socket` leaves it. -/
def ex_poll_handle : uv_poll_t :=
  { addr := 100, flags := ex_flags, close_cb := none, poll_cb := none, socket := 5,
    peer_socket := 5, events := 0, submitted_events_1 := 0, submitted_events_2 := 0,
    mask_events_1 := 0, mask_events_2 := 0,
    poll_req_1 := { addr := 101, status := 0, InternalHigh := 0 },
    poll_req_2 := { addr := 102, status := 0, InternalHigh := 0 },
    afd_poll_info_1 := ex_afd_info, afd_poll_info_2 := ex_afd_info }

/-- The initial state of the poll handle of the examples. -/
def ex_poll_state : uv_state Unit uv_poll_t :=
  { loop := ex_empty_loop, handle := ex_poll_handle, log := [] }

/-- A poll callback that makes no call on its handle. -/
def ex_poll_ops : uv_poll_ops :=
  { ex_req_ops with poll_cb := fun _ _ _ _ _ => [] }

/-- The poll handle of the examples watching for readability, with its first
request completed by the kernel reporting data to receive. -/
def ex_poll_watching : uv_state Unit uv_poll_t :=
  uv_poll_completed
    { req := .poll_req_1, status := 0, InternalHigh := 0, NumberOfHandles := 1,
      Events := AFD_POLL_RECEIVE, os_error := none }
    (uv_poll_do_call ex_poll_ops (.start UV_READABLE (some 1) none) ex_poll_state)

/-- The poll handle of the examples watching for readability, with its first
request failed with the status -5. -/
def ex_poll_failed : uv_state Unit uv_poll_t :=
  uv_poll_completed
    { req := .poll_req_1, status := -5, InternalHigh := 0, NumberOfHandles := 0,
      Events := 0, os_error := none }
    (uv_poll_do_call ex_poll_ops (.start UV_READABLE (some 1) none) ex_poll_state)

/-- A run of the poll handle of the examples: it is started, closed while its
request is outstanding, the request completes, and the endgame runs. -/
def ex_poll_inputs : List uv_poll_input :=
  [.call (.start UV_READABLE (some 1) none), .call (.close (some 2) none),
   .complete { req := .poll_req_1, status := 0, InternalHigh := 0, NumberOfHandles := 1,
               Events := AFD_POLL_RECEIVE, os_error := none }]


/-- A process handle whose process has exited: the exit request is pending. -/
def ex_process_handle : uv_process_t :=
  { addr := 200, flags := { ex_flags with active := true }, close_cb := none, exit_cb := some 3,
    exit_cb_pending := 1, wait_handle := none, process_handle := 8, exit_signal := 0,
    exit_req := { addr := 201, status := 0, InternalHigh := 0 }, pid := 42,
    child_stdio_buffer := none }

/-- The state of the process handle of the examples. -/
def ex_process_state : uv_state Unit uv_process_t :=
  { loop := { ex_empty_loop with active_handles := 1 }, handle := ex_process_handle, log := [] }

/-- An exit callback that makes no call on its handle. -/
def ex_process_ops : uv_process_ops :=
  { ex_req_ops with exit_cb := fun _ _ _ _ _ => [] }

/-- An fs-event handle watching a directory, its read completed with two
records in the buffer. -/
def ex_fs_event_handle : uv_fs_event_t :=
  { addr := 300, flags := { ex_flags with active := true }, close_cb := none, cb := some 4,
    path := some [100], dir_handle := some 9,
    buffer := some [{ Action := FILE_ACTION_ADDED, FileName := [97] },
                    { Action := FILE_ACTION_MODIFIED, FileName := [98] }],
    req_pending := 1, filew := none, short_filew := none, dirw := some [100],
    req := { addr := 301, status := 0, InternalHigh := 32 } }

/-- The state of the fs-event handle of the examples. -/
def ex_fs_event_state : uv_state Unit uv_fs_event_t :=
  { loop := { ex_empty_loop with active_handles := 1 }, handle := ex_fs_event_handle, log := [] }

/-- An fs-event callback that closes its handle. -/
def ex_fs_event_ops : uv_fs_event_ops :=
  { ex_req_ops with
    _wcsnicmp := fun a b _ => if a = b then 0 else 1,
    filename := fun _ file_info => some file_info.FileName,
    cb := fun _ _ _ _ _ _ => [.close (some 5)] }

/-- The invariant of the request slots of a slow-mode poll handle: the events
watched and the events submitted in either slot are within
`UV_READABLE | UV_WRITABLE`, and when both slots are in use the two requests
together cover `UV_READABLE | UV_WRITABLE`. -/
def uv_poll_slots_inv (c : uv_poll_core) : Prop :=
  c.poll_slow = true →
    c.events ≤ 3 ∧ c.submitted_events_1 ≤ 3 ∧ c.submitted_events_2 ≤ 3 ∧
    (c.submitted_events_1 ≠ 0 → c.submitted_events_2 ≠ 0 →
      c.submitted_events_1 ||| c.submitted_events_2 = 3)

/-- The slot invariant holds in a state unless an assertion has failed. -/
def uv_poll_slots_ok {W : Type} (st : uv_state W uv_poll_t) : Prop :=
  uv_event.assert_failed ∉ st.log → uv_poll_slots_inv st.handle.core

/-- A slow-mode poll handle as `uv_poll_init_socket` leaves it. -/
def ex_slow_poll_state : uv_state Unit uv_poll_t :=
  { ex_poll_state with
    handle := { ex_poll_handle with flags := { ex_flags with poll_slow := true } } }

/-- An fs-event callback that stops its handle with `uv_fs_event_stop`. -/
def ex_fs_event_stop_ops : uv_fs_event_ops :=
  { ex_fs_event_ops with cb := fun _ _ _ _ _ _ => [.stop] }

/-! ## Initialising a loop (`core.cpp`) -/

/-- Constant `ERROR_OUTOFMEMORY` of the Windows headers. -/
def ERROR_OUTOFMEMORY : Int := 14

/-- Modelled from the spec: the portable error code `UV_ENOMEM` of
`uv/errno.h`, which is not under `src/`; a negative number. -/
def UV_ENOMEM : Int := -4057

/-- Constant `UV__LOOPS_CHUNK_SIZE`. -/
def UV__LOOPS_CHUNK_SIZE : Nat := 8

/-- The global registry of loops: the array `uv__loops` with its
`uv__loops_capacity` entries, `uv__loops_size`, and whether `uv__loops_lock`
is held. -/
structure uv__loops_t where
  uv__loops : List (Option Nat)
  uv__loops_size : Nat
  uv__loops_capacity : Nat
  uv__loops_lock : Bool
  deriving DecidableEq, Repr

/-- Function `uv__loops_add`; `realloc_ok` tells whether the reallocation of
the array succeeds, should the function make one. -/
def uv__loops_add (loop : Nat) (realloc_ok : Bool) (g : uv__loops_t) : uv__loops_t × Int :=
  let g := { g with uv__loops_lock := true }
  if g.uv__loops_size = g.uv__loops_capacity then
    let new_capacity := g.uv__loops_capacity + UV__LOOPS_CHUNK_SIZE
    if !realloc_ok then ({ g with uv__loops_lock := false }, ERROR_OUTOFMEMORY)
    else
      let g := { g with
        uv__loops := g.uv__loops ++ List.replicate UV__LOOPS_CHUNK_SIZE none,
        uv__loops_capacity := new_capacity }
      let g := { g with
        uv__loops := g.uv__loops.set g.uv__loops_size (some loop),
        uv__loops_size := g.uv__loops_size + 1 }
      ({ g with uv__loops_lock := false }, 0)
  else
    let g := { g with
      uv__loops := g.uv__loops.set g.uv__loops_size (some loop),
      uv__loops_size := g.uv__loops_size + 1 }
    ({ g with uv__loops_lock := false }, 0)

/-- The outcomes of the system and library calls of `uv_loop_init`: the port
`CreateIoCompletionPort` returns (`none` for `nullptr`) and the error of
`GetLastError` after it, the allocation of the timer heap, the values
`uv_mutex_init` and `uv_async_init` return, and whether the reallocation in
`uv__loops_add` succeeds. -/
structure uv_loop_init_os where
  CreateIoCompletionPort : Option Nat
  GetLastError : Nat
  timer_heap : Option Nat
  uv_mutex_init : Int
  uv_async_init : Int
  loops_realloc_ok : Bool
  deriving DecidableEq, Repr

/-- The resources of a loop that `uv_loop_init` acquires: the completion port
(`none` for `nullptr` or `INVALID_HANDLE_VALUE`), the timer heap, the mutex
`wq_mutex` and the async handle `wq_async`. -/
structure uv_loop_resources where
  iocp : Option Nat
  timer_heap : Option Nat
  wq_mutex : Bool
  wq_async : Bool
  deriving DecidableEq, Repr

/-- Function `uv_loop_init` for the loop at address `loop`: the value it
returns, the resources the loop holds afterwards and the registry of loops.
`uv_translate_sys_error` is the function of `error.cpp`. -/
def uv_loop_init (uv_translate_sys_error : Int → Int) (os : uv_loop_init_os) (loop : Nat)
    (g : uv__loops_t) : Int × uv_loop_resources × uv__loops_t :=
  let res : uv_loop_resources :=
    { iocp := os.CreateIoCompletionPort, timer_heap := none, wq_mutex := false,
      wq_async := false }
  if res.iocp = none then (uv_translate_sys_error (os.GetLastError : Int), res, g)
  else
    let res := { res with timer_heap := os.timer_heap }
    if res.timer_heap = none then
      let err := UV_ENOMEM
      (err, { res with iocp := none }, g)
    else
      let err := os.uv_mutex_init
      if err ≠ 0 then (err, { res with timer_heap := none, iocp := none }, g)
      else
        let res := { res with wq_mutex := true }
        let err := os.uv_async_init
        if err ≠ 0 then
          (err, { res with wq_mutex := false, timer_heap := none, iocp := none }, g)
        else
          let res := { res with wq_async := true }
          let r := uv__loops_add loop os.loops_realloc_ok g
          let err := r.2
          if err ≠ 0 then
            (err, { res with wq_mutex := false, timer_heap := none, iocp := none }, r.1)
          else (0, res, r.1)

/-- The registry of loops before the first loop is initialised. -/
def ex_loops : uv__loops_t :=
  { uv__loops := [], uv__loops_size := 0, uv__loops_capacity := 0, uv__loops_lock := false }

/-- Outcomes of `uv_loop_init` in which every call succeeds but the
reallocation of the registry of loops. -/
def ex_loop_init_os : uv_loop_init_os :=
  { CreateIoCompletionPort := some 1, GetLastError := 0, timer_heap := some 2,
    uv_mutex_init := 0, uv_async_init := 0, loops_realloc_ok := false }

/-! ## Killing a process (`process.cpp`) -/

/-- Constant `SIGINT` of `signal.h`. -/
def SIGINT : Int := 2
/-- Constant `SIGKILL`, defined in `process.cpp`. -/
def SIGKILL : Int := 9
/-- Constant `SIGTERM` of `signal.h`. -/
def SIGTERM : Int := 15
/-- Constant `NSIG` of `signal.h`. -/
def NSIG : Int := 23
/-- Constant `STILL_ACTIVE` of the Windows headers. -/
def STILL_ACTIVE : Nat := 259
/-- Constant `ERROR_ACCESS_DENIED` of the Windows headers. -/
def ERROR_ACCESS_DENIED : Nat := 5
/-- Constant `ERROR_INVALID_PARAMETER` of the Windows headers. -/
def ERROR_INVALID_PARAMETER : Nat := 87
/-- The value of `INVALID_HANDLE_VALUE`, the pointer `-1`. -/
def INVALID_HANDLE_VALUE : Nat := 18446744073709551615

/-- Modelled from the spec: the portable error code `UV_EINVAL` of
`uv/errno.h`, which is not under `src/`. -/
def UV_EINVAL : Int := -4071
/-- Modelled from the spec: the portable error code `UV_ENOSYS` of
`uv/errno.h`, which is not under `src/`. -/
def UV_ENOSYS : Int := -4054
/-- Modelled from the spec: the portable error code `UV_ESRCH` of
`uv/errno.h`, which is not under `src/`. -/
def UV_ESRCH : Int := -4040

/-- The outcomes of the system calls of `uv__kill` and `uv_kill`: whether
`TerminateProcess` succeeds and the error after it, the exit code
`GetExitCodeProcess` stores (`none` when it fails) and the error after it, and
the handle `OpenProcess` returns (`none` for `nullptr`) and the error after
it. -/
structure uv_kill_os where
  TerminateProcess : Bool
  terminate_error : Nat
  GetExitCodeProcess : Option Nat
  exit_code_error : Nat
  OpenProcess : Option Nat
  open_error : Nat
  deriving DecidableEq, Repr

/-- A system call that `uv__kill` makes on the process. -/
inductive uv_kill_call
  | TerminateProcess (process_handle : Nat)
  | GetExitCodeProcess (process_handle : Nat)
  | CloseHandle (process_handle : Nat)
  deriving DecidableEq, Repr

/-- Function `uv__kill`: the value returned and the system calls made on the
process. -/
def uv__kill (uv_translate_sys_error : Int → Int) (os : uv_kill_os) (process_handle : Nat)
    (signum : Int) : Int × List uv_kill_call :=
  if signum < 0 ∨ signum ≥ NSIG then (UV_EINVAL, [])
  else if signum = SIGTERM ∨ signum = SIGKILL ∨ signum = SIGINT then
    if os.TerminateProcess then (0, [.TerminateProcess process_handle])
    else
      let err := os.terminate_error
      if err = ERROR_ACCESS_DENIED then
        match os.GetExitCodeProcess with
        | some status =>
          if status ≠ STILL_ACTIVE then
            (UV_ESRCH, [.TerminateProcess process_handle, .GetExitCodeProcess process_handle])
          else
            (uv_translate_sys_error (err : Int),
              [.TerminateProcess process_handle, .GetExitCodeProcess process_handle])
        | none =>
          (uv_translate_sys_error (err : Int),
            [.TerminateProcess process_handle, .GetExitCodeProcess process_handle])
      else (uv_translate_sys_error (err : Int), [.TerminateProcess process_handle])
  else if signum = 0 then
    match os.GetExitCodeProcess with
    | none =>
      (uv_translate_sys_error (os.exit_code_error : Int), [.GetExitCodeProcess process_handle])
    | some status =>
      if status ≠ STILL_ACTIVE then (UV_ESRCH, [.GetExitCodeProcess process_handle])
      else (0, [.GetExitCodeProcess process_handle])
  else (UV_ENOSYS, [])

/-- Function `uv_process_kill`: the process handle afterwards, the value
returned and the system calls made. -/
def uv_process_kill (uv_translate_sys_error : Int → Int) (os : uv_kill_os)
    (process : uv_process_t) (signum : Int) : uv_process_t × Int × List uv_kill_call :=
  if process.process_handle = INVALID_HANDLE_VALUE then (process, UV_EINVAL, [])
  else
    let r := uv__kill uv_translate_sys_error os process.process_handle signum
    if r.1 ≠ 0 then (process, r.1, r.2)
    else ({ process with exit_signal := signum }, 0, r.2)

/-- Function `uv_kill`; `current_process` is the handle `GetCurrentProcess`
returns. -/
def uv_kill (uv_translate_sys_error : Int → Int) (os : uv_kill_os) (current_process : Nat)
    (pid : Int) (signum : Int) : Int × List uv_kill_call :=
  let process_handle : Option Nat := if pid = 0 then some current_process else os.OpenProcess
  match process_handle with
  | none =>
    let err := os.open_error
    if err = ERROR_INVALID_PARAMETER then (UV_ESRCH, [])
    else (uv_translate_sys_error (err : Int), [])
  | some h =>
    let r := uv__kill uv_translate_sys_error os h signum
    (r.1, r.2 ++ [.CloseHandle h])

/-- Outcomes of the system calls of a kill on a running process that can be
opened and terminated. -/
def ex_kill_os : uv_kill_os :=
  { TerminateProcess := true, terminate_error := 0, GetExitCodeProcess := some STILL_ACTIVE,
    exit_code_error := 0, OpenProcess := some 8, open_error := 0 }

/-! ## The stdio of a child process (`process-stdio.cpp`) -/

/-- Macro `CHILD_STDIO_SIZE`: `sizeof(int)` is 4 and `sizeof(uintptr_t)` is 8. -/
def CHILD_STDIO_SIZE (count : Nat) : Nat := 4 + 1 * count + 8 * count

/-- The byte offset of `CHILD_STDIO_CRT_FLAGS(buffer, fd)` in the buffer. -/
def CHILD_STDIO_CRT_FLAGS_offset (fd : Nat) : Nat := 4 + fd

/-- The byte offset of `CHILD_STDIO_HANDLE(buffer, fd)` in a buffer whose count
field is `count`; a handle takes `sizeof(HANDLE)`, 8 bytes. -/
def CHILD_STDIO_HANDLE_offset (count fd : Nat) : Nat := 4 + 1 * count + 8 * fd

/-- CRT flag `FOPEN`. -/
def FOPEN : Nat := 1
/-- CRT flag `FPIPE`. -/
def FPIPE : Nat := 8
/-- CRT flag `FDEV`. -/
def FDEV : Nat := 64

/-- Modelled from the spec: the stdio flag `UV_IGNORE` of `uv.h`, which is not
under `src/`. -/
def UV_IGNORE : Nat := 0
/-- Modelled from the spec: the stdio flag `UV_CREATE_PIPE` of `uv.h`. -/
def UV_CREATE_PIPE : Nat := 1
/-- Modelled from the spec: the stdio flag `UV_INHERIT_FD` of `uv.h`. -/
def UV_INHERIT_FD : Nat := 2
/-- Modelled from the spec: the stdio flag `UV_INHERIT_STREAM` of `uv.h`. -/
def UV_INHERIT_STREAM : Nat := 4

/-- Constant `ERROR_NOT_SUPPORTED` of the Windows headers. -/
def ERROR_NOT_SUPPORTED : Int := 50
/-- Constant `ERROR_INVALID_HANDLE` of the Windows headers. -/
def ERROR_INVALID_HANDLE : Int := 6
/-- Constant `ERROR_PIPE_CONNECTED` of the Windows headers. -/
def ERROR_PIPE_CONNECTED : Nat := 535
/-- Constant `FILE_TYPE_UNKNOWN` of the Windows headers. -/
def FILE_TYPE_UNKNOWN : Nat := 0
/-- Constant `FILE_TYPE_DISK` of the Windows headers. -/
def FILE_TYPE_DISK : Nat := 1
/-- Constant `FILE_TYPE_CHAR` of the Windows headers. -/
def FILE_TYPE_CHAR : Nat := 2
/-- Constant `FILE_TYPE_PIPE` of the Windows headers. -/
def FILE_TYPE_PIPE : Nat := 3
/-- Constant `FILE_TYPE_REMOTE` of the Windows headers. -/
def FILE_TYPE_REMOTE : Nat := 32768

/-- The fields of the stream of a stdio container that `uv__stdio_create`
reads: its type, the flags `UV_HANDLE_CONNECTION` and `UV_HANDLE_PIPESERVER`,
the `handle` field of a tty or pipe, and the `ipc` field of a pipe. -/
structure uv_stdio_stream where
  type : uv_handle_type
  connection : Bool
  pipeserver : Bool
  handle : Nat
  ipc : Bool
  deriving DecidableEq, Repr

/-- Type `uv_stdio_container_t`: the flags and the data, a stream or a file
descriptor. -/
structure uv_stdio_container_t where
  flags : Nat
  stream : uv_stdio_stream
  fd : Int
  deriving DecidableEq, Repr

/-- Type `uv_process_options_t`; strings are lists of code units, and a null
pointer is `none`. -/
structure uv_process_options_t where
  exit_cb : Option Nat
  file : Option (List Nat)
  args : Option (List (List Nat))
  env : Option (List (List Nat))
  cwd : Option (List Nat)
  flags : Nat
  stdio_count : Int
  stdio : List uv_stdio_container_t
  deriving DecidableEq, Repr

/-- What `uv__stdio_create` does to the resources of the process: the
allocation and release of the buffer, a handle created for the child (by
`CreateFileW`, `CreateFileA` or `DuplicateHandle`), a handle closed, the
creation and the cleanup of the server end of the pipe of an entry, and a
failed assertion. -/
inductive uv_stdio_event
  | malloc
  | free
  | CreateHandle (h : Nat)
  | CloseHandle (h : Nat)
  | pipe_server (i : Nat)
  | uv_pipe_cleanup (i : Nat)
  | assert_failed
  deriving DecidableEq, Repr

/-- The outcomes of the system and library calls `uv__stdio_create` makes for
the entry `i`: whether the allocation of the buffer succeeds; the handle
`CreateFileW` returns for `NUL` and the error after it; the value
`uv_stdio_pipe_server` returns and the handle of the server pipe after it, the
handle `CreateFileA` returns for the child end and the error after it, whether
the pipe is in the mode the debug assertions expect, whether
`ConnectNamedPipe` succeeds and the error after it; the handle
`uv__get_osfhandle` returns for a file descriptor; the handle `DuplicateHandle`
stores (`none` when it fails) and the error after it; the type `GetFileType`
returns and the error after it. -/
structure uv_stdio_os where
  malloc_ok : Bool
  CreateFileW : Nat → Nat
  nul_error : Nat → Nat
  uv_stdio_pipe_server : Nat → Int
  server_handle : Nat → Nat
  CreateFileA : Nat → Nat
  create_file_error : Nat → Nat
  pipe_mode_ok : Nat → Bool
  ConnectNamedPipe : Nat → Bool
  connect_error : Nat → Nat
  uv__get_osfhandle : Int → Nat
  DuplicateHandle : Nat → Option Nat
  duplicate_error : Nat → Nat
  GetFileType : Nat → Nat
  file_type_error : Nat → Nat

/-- The write `CHILD_STDIO_CRT_FLAGS(buffer, fd) = flags`. -/
def child_stdio_buffer.set_crt_flags (buffer : child_stdio_buffer) (fd flags : Nat) :
    child_stdio_buffer :=
  { buffer with crt_flags := buffer.crt_flags.set fd flags }

/-- The write `CHILD_STDIO_HANDLE(buffer, fd) = handle`. -/
def child_stdio_buffer.set_handle (buffer : child_stdio_buffer) (fd handle : Nat) :
    child_stdio_buffer :=
  { buffer with os_handle := buffer.os_handle.set fd handle }

/-- Function `uv__stdio_destroy`: every handle of the buffer that is not
`INVALID_HANDLE_VALUE` is closed and the buffer is released. -/
def uv__stdio_destroy (buffer : child_stdio_buffer) (log : List uv_stdio_event) :
    List uv_stdio_event :=
  log ++ ((buffer.os_handle.take buffer.count).filter (· ≠ INVALID_HANDLE_VALUE)).map
    uv_stdio_event.CloseHandle ++ [.free]

/-- Function `uv__create_nul_handle` for the entry `i`: the value returned,
the handle stored through `handle_ptr`, if any, and the log. -/
def uv__create_nul_handle (os : uv_stdio_os) (i : Nat) (log : List uv_stdio_event) :
    Int × Option Nat × List uv_stdio_event :=
  let handle := os.CreateFileW i
  if handle = INVALID_HANDLE_VALUE then ((os.nul_error i : Int), none, log)
  else (0, some handle, log ++ [.CreateHandle handle])

/-- Function `uv__duplicate_handle` for the entry `i`: the value returned, the
handle stored in `dup`, and the log. -/
def uv__duplicate_handle (os : uv_stdio_os) (i : Nat) (handle : Nat)
    (log : List uv_stdio_event) : Int × Nat × List uv_stdio_event :=
  if handle = INVALID_HANDLE_VALUE ∨ handle = 0 ∨ handle = 18446744073709551614 then
    (ERROR_INVALID_HANDLE, INVALID_HANDLE_VALUE, log)
  else
    match os.DuplicateHandle i with
    | none => ((os.duplicate_error i : Int), INVALID_HANDLE_VALUE, log)
    | some dup => (0, dup, log ++ [.CreateHandle dup])

/-- Function `uv__duplicate_fd` for the entry `i`. -/
def uv__duplicate_fd (os : uv_stdio_os) (i : Nat) (fd : Int) (log : List uv_stdio_event) :
    Int × Nat × List uv_stdio_event :=
  if fd = -1 then (ERROR_INVALID_HANDLE, INVALID_HANDLE_VALUE, log)
  else uv__duplicate_handle os i (os.uv__get_osfhandle fd) log

/-- Function `uv__create_stdio_pipe_pair` for the entry `i`: the value
returned, the handle stored through `child_pipe_ptr` (the caller initialises it
to 0), and the log. -/
def uv__create_stdio_pipe_pair (os : uv_stdio_os) (i : Nat) (log : List uv_stdio_event) :
    Int × Nat × List uv_stdio_event :=
  let err := os.uv_stdio_pipe_server i
  let log := if os.server_handle i ≠ INVALID_HANDLE_VALUE then log ++ [.pipe_server i] else log
  if err ≠ 0 then
    let log :=
      if os.server_handle i ≠ INVALID_HANDLE_VALUE then log ++ [.uv_pipe_cleanup i] else log
    (err, 0, log)
  else
    let child_pipe := os.CreateFileA i
    if child_pipe = INVALID_HANDLE_VALUE then
      let err : Int := (os.create_file_error i : Int)
      let log :=
        if os.server_handle i ≠ INVALID_HANDLE_VALUE then log ++ [.uv_pipe_cleanup i] else log
      (err, 0, log)
    else
      let log := log ++ [.CreateHandle child_pipe]
      let log := if !os.pipe_mode_ok i then log ++ [.assert_failed] else log
      if !os.ConnectNamedPipe i ∧ os.connect_error i ≠ ERROR_PIPE_CONNECTED then
        let err : Int := (os.connect_error i : Int)
        let log :=
          if os.server_handle i ≠ INVALID_HANDLE_VALUE then log ++ [.uv_pipe_cleanup i] else log
        let log := log ++ [.CloseHandle child_pipe]
        (err, 0, log)
      else (0, child_pipe, log)

/-- The first statement of the body of the second `for` loop of
`uv__stdio_create`: the container of the index `i`, which is `UV_IGNORE` from
`options.stdio_count` on. An entry beyond the end of `options.stdio` is read as
`UV_IGNORE`. -/
def uv_stdio_fdopt (options : uv_process_options_t) (i : Nat) : uv_stdio_container_t :=
  let ignore : uv_stdio_container_t :=
    { flags := UV_IGNORE,
      stream := { type := .UV_UNKNOWN_HANDLE, connection := false, pipeserver := false,
                  handle := 0, ipc := false },
      fd := 0 }
  if (i : Int) < options.stdio_count then options.stdio.getD i ignore else ignore

/-- The `switch` of the body of the second `for` loop of `uv__stdio_create` for
the container `fdopt` of the index `i`: the value returned when the function
returns from inside the body, `none` when the loop goes on; the buffer and the
log. -/
def uv__stdio_create_switch (os : uv_stdio_os) (fdopt : uv_stdio_container_t) (i : Nat)
    (buffer : child_stdio_buffer) (log : List uv_stdio_event) :
    Option Int × child_stdio_buffer × List uv_stdio_event :=
  let kind := fdopt.flags &&& (UV_IGNORE ||| UV_CREATE_PIPE ||| UV_INHERIT_FD ||| UV_INHERIT_STREAM)
  if kind = UV_IGNORE then
    if i ≤ 2 then
      let r := uv__create_nul_handle os i log
      if r.1 ≠ 0 then (some r.1, buffer, uv__stdio_destroy buffer r.2.2)
      else
        match r.2.1 with
        | some handle =>
          (none, (buffer.set_handle i handle).set_crt_flags i (FOPEN ||| FDEV), r.2.2)
        | none => (none, buffer.set_crt_flags i (FOPEN ||| FDEV), r.2.2)
    else (none, buffer, log)
  else if kind = UV_CREATE_PIPE then
    let log := if fdopt.stream.type ≠ .UV_NAMED_PIPE then log ++ [.assert_failed] else log
    let log := if fdopt.stream.connection then log ++ [.assert_failed] else log
    let log := if fdopt.stream.pipeserver then log ++ [.assert_failed] else log
    let r := uv__create_stdio_pipe_pair os i log
    if r.1 ≠ 0 then (some r.1, buffer, uv__stdio_destroy buffer r.2.2)
    else (none, (buffer.set_handle i r.2.1).set_crt_flags i (FOPEN ||| FPIPE), r.2.2)
  else if kind = UV_INHERIT_FD then
    let r := uv__duplicate_fd os i fdopt.fd log
    if r.1 ≠ 0 then
      if fdopt.fd ≤ 2 ∧ r.1 = ERROR_INVALID_HANDLE then
        (none, (buffer.set_crt_flags i 0).set_handle i INVALID_HANDLE_VALUE, r.2.2)
      else (some r.1, buffer, uv__stdio_destroy buffer r.2.2)
    else
      let child_handle := r.2.1
      let log := r.2.2
      let type := os.GetFileType i
      if type = FILE_TYPE_DISK then
        (none, (buffer.set_crt_flags i FOPEN).set_handle i child_handle, log)
      else if type = FILE_TYPE_PIPE then
        (none, (buffer.set_crt_flags i (FOPEN ||| FPIPE)).set_handle i child_handle, log)
      else if type = FILE_TYPE_CHAR ∨ type = FILE_TYPE_REMOTE then
        (none, (buffer.set_crt_flags i (FOPEN ||| FDEV)).set_handle i child_handle, log)
      else if type = FILE_TYPE_UNKNOWN then
        if os.file_type_error i ≠ 0 then
          (some (os.file_type_error i : Int), buffer,
            uv__stdio_destroy buffer (log ++ [.CloseHandle child_handle]))
        else (none, (buffer.set_crt_flags i (FOPEN ||| FDEV)).set_handle i child_handle, log)
      else (some (-1), buffer, log ++ [.assert_failed])
  else if kind = UV_INHERIT_STREAM then
    let stream := fdopt.stream
    let sc : Nat × Nat :=
      if stream.type = .UV_TTY then (stream.handle, FOPEN ||| FDEV)
      else if stream.type = .UV_NAMED_PIPE ∧ stream.connection then
        (stream.handle, FOPEN ||| FPIPE)
      else (INVALID_HANDLE_VALUE, 0)
    let stream_handle := sc.1
    let crt_flags := sc.2
    if stream_handle = 0 ∨ stream_handle = INVALID_HANDLE_VALUE then
      (some ERROR_NOT_SUPPORTED, buffer, uv__stdio_destroy buffer log)
    else
      let r := uv__duplicate_handle os i stream_handle log
      if r.1 ≠ 0 then (some r.1, buffer, uv__stdio_destroy buffer r.2.2)
      else (none, (buffer.set_handle i r.2.1).set_crt_flags i crt_flags, r.2.2)
  else (some (-1), buffer, log ++ [.assert_failed])

/-- The body of the second `for` loop of `uv__stdio_create` for the index `i`. -/
def uv__stdio_create_entry (os : uv_stdio_os) (options : uv_process_options_t) (i : Nat)
    (buffer : child_stdio_buffer) (log : List uv_stdio_event) :
    Option Int × child_stdio_buffer × List uv_stdio_event :=
  uv__stdio_create_switch os (uv_stdio_fdopt options i) i buffer log

/-- The second `for` loop of `uv__stdio_create` over the indices `is`. -/
def uv__stdio_create_loop (os : uv_stdio_os) (options : uv_process_options_t) :
    List Nat → child_stdio_buffer → List uv_stdio_event →
      Int × child_stdio_buffer × List uv_stdio_event
  | [], buffer, log => (0, buffer, log)
  | i :: rest, buffer, log =>
    match uv__stdio_create_entry os options i buffer log with
    | (some err, buffer, log) => (err, buffer, log)
    | (none, buffer, log) => uv__stdio_create_loop os options rest buffer log

/-- Function `uv__stdio_create`: the value returned, the buffer stored through
`buffer_ptr` when the function succeeds, and the log. -/
def uv__stdio_create (os : uv_stdio_os) (options : uv_process_options_t) :
    Int × Option child_stdio_buffer × List uv_stdio_event :=
  let count := options.stdio_count
  if count < 0 ∨ count > 255 then (ERROR_NOT_SUPPORTED, none, [])
  else
    let count : Nat := if count < 3 then 3 else count.toNat
    if !os.malloc_ok then (ERROR_OUTOFMEMORY, none, [])
    else
      let buffer : child_stdio_buffer :=
        { count := count, crt_flags := List.replicate count 0,
          os_handle := List.replicate count INVALID_HANDLE_VALUE }
      let r := uv__stdio_create_loop os options (List.range count) buffer [.malloc]
      if r.1 ≠ 0 then (r.1, none, r.2.2) else (0, some r.2.1, r.2.2)

/-- Function `uv__stdio_verify`; `buffer` is `none` for a null pointer, `size`
is a `WORD`, and the count field is read as it is stored. -/
def uv__stdio_verify (buffer : Option child_stdio_buffer) (size : Nat) : Int :=
  match buffer with
  | none => 0
  | some buffer =>
    if size < CHILD_STDIO_SIZE 0 then 0
    else
      let count := buffer.count
      if count > 256 then 0
      else if size < CHILD_STDIO_SIZE count then 0
      else 1

/-- Function `uv__stdio_size`: the size as a `WORD`. -/
def uv__stdio_size (buffer : child_stdio_buffer) : Nat :=
  CHILD_STDIO_SIZE buffer.count % 65536

/-- Function `uv__stdio_handle`. -/
def uv__stdio_handle (buffer : child_stdio_buffer) (fd : Nat) : Nat :=
  buffer.os_handle.getD fd INVALID_HANDLE_VALUE

/-- The effect of an event on the handles that are open. -/
def uv_stdio_open_step (s : Multiset Nat) : uv_stdio_event → Multiset Nat
  | .CreateHandle h => h ::ₘ s
  | .CloseHandle h => s.erase h
  | _ => s

/-- The handles open after the events of `log`, when the handles `s` were open
before. -/
def uv_stdio_open_from (s : Multiset Nat) (log : List uv_stdio_event) : Multiset Nat :=
  log.foldl uv_stdio_open_step s

/-- The handles created for the child and not closed. -/
def uv_stdio_open (log : List uv_stdio_event) : Multiset Nat :=
  uv_stdio_open_from 0 log

/-- What the body of the loop of `uv__stdio_create` does for the index `i`, as
far as the resources go; `D` is what is assumed of the operating system. When
the loop goes on: the count is kept, the flags are kept or set at `i`, the log
is extended, and either the handles are kept and no handle is left open, or
the handle at `i` is set and at most this handle is left open, if it is not
`INVALID_HANDLE_VALUE`. When the function returns: the value is not 0, the
buffer is the same, and either an assertion has failed or the buffer was
destroyed after events that left no handle open. -/
def uv_stdio_entry_spec (D : Prop) (i : Nat) (buffer : child_stdio_buffer)
    (log : List uv_stdio_event)
    (r : Option Int × child_stdio_buffer × List uv_stdio_event) : Prop :=
  match r.1 with
  | none =>
    r.2.1.count = buffer.count ∧
    (r.2.1.crt_flags = buffer.crt_flags ∨ ∃ f, r.2.1.crt_flags = buffer.crt_flags.set i f) ∧
    ∃ new, r.2.2 = log ++ new ∧
      ((r.2.1.os_handle = buffer.os_handle ∧ (D → ∀ s, uv_stdio_open_from s new ≤ s)) ∨
       (∃ h, r.2.1.os_handle = buffer.os_handle.set i h ∧
          (D → ∀ s,
            uv_stdio_open_from s new ≤ (if h = INVALID_HANDLE_VALUE then s else h ::ₘ s))))
  | some err =>
    err ≠ 0 ∧ r.2.1 = buffer ∧
    (uv_stdio_event.assert_failed ∈ r.2.2 ∨
      ∃ new, r.2.2 = uv__stdio_destroy buffer (log ++ new) ∧
        (D → ∀ s, uv_stdio_open_from s new ≤ s))

/-- The invariant of the second loop of `uv__stdio_create` before the index
`k`, for a buffer of `n` entries: the count and the number of flags are `n`,
the handles from `k` on are `INVALID_HANDLE_VALUE`, and every handle that is
open is one of the handles before `k` that are not `INVALID_HANDLE_VALUE`. -/
def uv_stdio_inv (n k : Nat) (b : child_stdio_buffer) (log : List uv_stdio_event) : Prop :=
  b.count = n ∧ b.crt_flags.length = n ∧
  ∃ pre : List Nat, pre.length = k ∧
    b.os_handle = pre ++ List.replicate (n - k) INVALID_HANDLE_VALUE ∧
    uv_stdio_open log ≤ ((pre.filter (· ≠ INVALID_HANDLE_VALUE) : List Nat) : Multiset Nat)

/-- The number of entries of the buffer `uv__stdio_create` builds for
`stdio_count` entries of the options: at least 3. -/
def uv_stdio_count (stdio_count : Int) : Nat :=
  if stdio_count < 3 then 3 else stdio_count.toNat

/-- The shape of a buffer of `n` entries: the count field and the lengths of
the two arrays are `n`. -/
def uv_stdio_shape (n : Nat) (b : child_stdio_buffer) : Prop :=
  b.count = n ∧ b.crt_flags.length = n ∧ b.os_handle.length = n

/-- Whether the entry of the index `i` is `UV_IGNORE`, as the `switch` of
`uv__stdio_create` sees it. -/
def uv_stdio_is_ignore (options : uv_process_options_t) (i : Nat) : Prop :=
  (uv_stdio_fdopt options i).flags &&&
    (UV_IGNORE ||| UV_CREATE_PIPE ||| UV_INHERIT_FD ||| UV_INHERIT_STREAM) = UV_IGNORE

instance (options : uv_process_options_t) (i : Nat) : Decidable (uv_stdio_is_ignore options i) := by
  unfold uv_stdio_is_ignore
  infer_instance

/-- A stream that is no handle, for a container whose data is a file
descriptor. -/
def ex_no_stream : uv_stdio_stream :=
  { type := .UV_UNKNOWN_HANDLE, connection := false, pipeserver := false, handle := 0,
    ipc := false }

/-- Outcomes of the calls of `uv__stdio_create` in which every call succeeds
and returns a handle of its own. -/
def ex_stdio_os : uv_stdio_os :=
  { malloc_ok := true,
    CreateFileW := fun i => 10 + i, nul_error := fun _ => 5,
    uv_stdio_pipe_server := fun _ => 0, server_handle := fun i => 20 + i,
    CreateFileA := fun i => 30 + i, create_file_error := fun _ => 5,
    pipe_mode_ok := fun _ => true, ConnectNamedPipe := fun _ => true,
    connect_error := fun _ => 5,
    uv__get_osfhandle := fun fd => 40 + fd.toNat,
    DuplicateHandle := fun i => some (50 + i % 100), duplicate_error := fun _ => 5,
    GetFileType := fun _ => FILE_TYPE_DISK, file_type_error := fun _ => 5 }

/-- Options with four stdio entries, all `UV_IGNORE`. -/
def ex_options_ignore : uv_process_options_t :=
  { exit_cb := some 3, file := some [97], args := some [[97]], env := none, cwd := some [99],
    flags := 0, stdio_count := 4,
    stdio := List.replicate 4 { flags := UV_IGNORE, stream := ex_no_stream, fd := 0 } }

/-! ## Spawning a process (`process.cpp`) -/

/-- Modelled from the spec: the process flag `UV_PROCESS_SETUID` of `uv.h`,
which is not under `src/`. -/
def UV_PROCESS_SETUID : Nat := 1
/-- Modelled from the spec: the process flag `UV_PROCESS_SETGID` of `uv.h`. -/
def UV_PROCESS_SETGID : Nat := 2
/-- Modelled from the spec: the process flag
`UV_PROCESS_WINDOWS_VERBATIM_ARGUMENTS` of `uv.h`. -/
def UV_PROCESS_WINDOWS_VERBATIM_ARGUMENTS : Nat := 4
/-- Modelled from the spec: the process flag `UV_PROCESS_DETACHED` of `uv.h`. -/
def UV_PROCESS_DETACHED : Nat := 8
/-- Modelled from the spec: the process flag `UV_PROCESS_WINDOWS_HIDE` of
`uv.h`. -/
def UV_PROCESS_WINDOWS_HIDE : Nat := 16
/-- Modelled from the spec: the process flag `UV_PROCESS_WINDOWS_HIDE_CONSOLE`
of `uv.h`. -/
def UV_PROCESS_WINDOWS_HIDE_CONSOLE : Nat := 32
/-- Modelled from the spec: the process flag `UV_PROCESS_WINDOWS_HIDE_GUI` of
`uv.h`. -/
def UV_PROCESS_WINDOWS_HIDE_GUI : Nat := 64
/-- Modelled from the spec: the portable error code `UV_ENOTSUP` of
`uv/errno.h`, which is not under `src/`. -/
def UV_ENOTSUP : Int := -4049
/-- Constant `ERROR_FILE_NOT_FOUND` of the Windows headers. -/
def ERROR_FILE_NOT_FOUND : Int := 2

/-- The outcomes of the system and library calls of `uv_spawn`, in the order
of the calls: the values the conversions of the file and of the working
directory, `make_program_args` and `make_program_env` return; the lengths the
two calls of `GetCurrentDirectoryW` return, whether the buffer for the
directory is allocated, and the errors after them; whether `find_path` finds
`PATH` in the environment, the lengths the two calls of
`GetEnvironmentVariableW` return, whether the buffer for the path is
allocated, and the errors after them; the outcomes of the calls of
`uv__stdio_create`; whether `search_path` finds the application; the process
handle and the process id `CreateProcessW` stores (`none` when it fails) and
the error after it; whether `AssignProcessToJobObject` succeeds and the error
after it; the wait handle `RegisterWaitForSingleObject` stores (`none` when it
fails). -/
structure uv_spawn_os where
  uv_utf8_to_utf16_alloc_file : Int
  make_program_args : Int
  make_program_env : Int
  uv_utf8_to_utf16_alloc_cwd : Int
  GetCurrentDirectoryW_len : Nat
  cwd_len_error : Nat
  cwd_malloc_ok : Bool
  GetCurrentDirectoryW : Nat
  cwd_error : Nat
  find_path : Bool
  GetEnvironmentVariableW_len : Nat
  path_len_error : Nat
  path_malloc_ok : Bool
  GetEnvironmentVariableW : Nat
  path_error : Nat
  stdio : uv_stdio_os
  search_path : Bool
  CreateProcessW : Option (Nat × Nat)
  create_process_error : Nat
  AssignProcessToJobObject : Bool
  assign_error : Nat
  RegisterWaitForSingleObject : Option Nat

/-- Function `uv_process_init`. Modelled from the spec: `uv__handle_init` of
`handle-inl.h` leaves the flags of the handle at `UV_HANDLE_REF`. -/
def uv_process_init (handle : uv_process_t) : uv_process_t :=
  { handle with
    flags := { closing := false, closed := false, active := false, ref := true,
               endgame_queued := false, poll_slow := false },
    exit_cb := none, pid := 0, exit_signal := 0, wait_handle := none,
    process_handle := INVALID_HANDLE_VALUE, child_stdio_buffer := none, exit_cb_pending := 0 }

/-- Function `uv_spawn_done`; `slog` is the log of the stdio resources. -/
def uv_spawn_done (uv_translate_sys_error : Int → Int) (process : uv_process_t) (err : Int)
    (slog : List uv_stdio_event) : uv_process_t × Int × List uv_stdio_event :=
  match process.child_stdio_buffer with
  | some buffer =>
    ({ process with child_stdio_buffer := none }, uv_translate_sys_error err,
      uv__stdio_destroy buffer slog)
  | none => (process, uv_translate_sys_error err, slog)

/-- The statements of `uv_spawn` between the assertions on the options and the
call of `uv__stdio_create`: the conversions of the file, the arguments, the
environment and the working directory, and the look-up of `PATH`. The value is
the error the first step that fails passes to `uv_spawn_done`, `none` when
every step succeeds. -/
def uv_spawn_prepare (os : uv_spawn_os) (options : uv_process_options_t) : Option Int :=
  if os.uv_utf8_to_utf16_alloc_file ≠ 0 then some os.uv_utf8_to_utf16_alloc_file
  else if os.make_program_args ≠ 0 then some os.make_program_args
  else if options.env ≠ none ∧ os.make_program_env ≠ 0 then some os.make_program_env
  else
    let cwd : Option Int :=
      if options.cwd ≠ none then
        if os.uv_utf8_to_utf16_alloc_cwd ≠ 0 then some os.uv_utf8_to_utf16_alloc_cwd else none
      else
        let cwd_len := os.GetCurrentDirectoryW_len
        if cwd_len = 0 then some (os.cwd_len_error : Int)
        else if !os.cwd_malloc_ok then some ERROR_OUTOFMEMORY
        else
          let r := os.GetCurrentDirectoryW
          if r = 0 ∨ r ≥ cwd_len then some (os.cwd_error : Int) else none
    match cwd with
    | some err => some err
    | none =>
      if !os.find_path then
        let path_len := os.GetEnvironmentVariableW_len
        if path_len = 0 then some (os.path_len_error : Int)
        else if !os.path_malloc_ok then some ERROR_OUTOFMEMORY
        else
          let r := os.GetEnvironmentVariableW
          if r = 0 ∨ r ≥ path_len then some (os.path_error : Int) else none
      else none

/-- The statements of `uv_spawn` after the call of `uv__stdio_create`, from
`search_path` on. A call of `uv_fatal_error` ends the process: it is logged
and the function stops there. The loop that stores the process id in the IPC
pipes of the options writes to those pipes only and is left out. -/
def uv_spawn_launch {W : Type} (uv_translate_sys_error : Int → Int) (os : uv_spawn_os)
    (options : uv_process_options_t) (st : uv_state W uv_process_t)
    (slog : List uv_stdio_event) : uv_state W uv_process_t × Int × List uv_stdio_event :=
  if !os.search_path then
    let r := uv_spawn_done uv_translate_sys_error st.handle ERROR_FILE_NOT_FOUND slog
    ({ st with handle := r.1 }, r.2.1, r.2.2)
  else
    match os.CreateProcessW with
    | none =>
      let r := uv_spawn_done uv_translate_sys_error st.handle (os.create_process_error : Int) slog
      ({ st with handle := r.1 }, r.2.1, r.2.2)
    | some info =>
      let err : Int := 0
      let st : uv_state W uv_process_t :=
        { st with handle := { st.handle with process_handle := info.1, pid := info.2 } }
      let err : Int :=
        if options.flags &&& UV_PROCESS_DETACHED = 0 ∧ !os.AssignProcessToJobObject then
          (os.assign_error : Int)
        else err
      if options.flags &&& UV_PROCESS_DETACHED = 0 ∧ !os.AssignProcessToJobObject ∧
          os.assign_error ≠ ERROR_ACCESS_DENIED then
        ({ st with log := st.log ++ [.fatal_error] }, err, slog)
      else
        match os.RegisterWaitForSingleObject with
        | none => ({ st with log := st.log ++ [.fatal_error] }, err, slog)
        | some wait_handle =>
          let st : uv_state W uv_process_t :=
            { st with handle := { st.handle with wait_handle := some wait_handle } }
          let st : uv_state W uv_process_t :=
            if err ≠ 0 then { st with log := st.log ++ [.assert_failed] } else st
          let lf := uv__handle_start st.loop st.handle.flags
          let st : uv_state W uv_process_t :=
            { st with loop := lf.1, handle := { st.handle with flags := lf.2 } }
          let r := uv_spawn_done uv_translate_sys_error st.handle err slog
          ({ st with handle := r.1 }, r.2.1, r.2.2)

/-- Function `uv_spawn`: the state of the loop and the process handle
afterwards, the value returned, and the log of the stdio resources. -/
def uv_spawn {W : Type} (uv_translate_sys_error : Int → Int) (os : uv_spawn_os)
    (options : uv_process_options_t) (st : uv_state W uv_process_t) :
    uv_state W uv_process_t × Int × List uv_stdio_event :=
  let st : uv_state W uv_process_t :=
    { st with handle := { uv_process_init st.handle with exit_cb := options.exit_cb } }
  if options.flags &&& (UV_PROCESS_SETGID ||| UV_PROCESS_SETUID) ≠ 0 then (st, UV_ENOTSUP, [])
  else if options.file = none ∨ options.args = none then (st, UV_EINVAL, [])
  else
    let st : uv_state W uv_process_t :=
      if and_not options.flags
          (UV_PROCESS_DETACHED ||| UV_PROCESS_SETGID ||| UV_PROCESS_SETUID |||
            UV_PROCESS_WINDOWS_HIDE ||| UV_PROCESS_WINDOWS_HIDE_CONSOLE |||
            UV_PROCESS_WINDOWS_HIDE_GUI ||| UV_PROCESS_WINDOWS_VERBATIM_ARGUMENTS) ≠ 0 then
        { st with log := st.log ++ [.assert_failed] }
      else st
    match uv_spawn_prepare os options with
    | some err =>
      let r := uv_spawn_done uv_translate_sys_error st.handle err []
      ({ st with handle := r.1 }, r.2.1, r.2.2)
    | none =>
      let c := uv__stdio_create os.stdio options
      if c.1 ≠ 0 then
        let r := uv_spawn_done uv_translate_sys_error st.handle c.1 c.2.2
        ({ st with handle := r.1 }, r.2.1, r.2.2)
      else
        let st : uv_state W uv_process_t :=
          { st with handle := { st.handle with child_stdio_buffer := c.2.1 } }
        uv_spawn_launch uv_translate_sys_error os options st c.2.2

/-- Whether the flags of a stdio container select none of the four kinds of
the `switch` of `uv__stdio_create`. -/
def uv_stdio_bad_flags (fdopt : uv_stdio_container_t) : Prop :=
  let kind := fdopt.flags &&& (UV_IGNORE ||| UV_CREATE_PIPE ||| UV_INHERIT_FD ||| UV_INHERIT_STREAM)
  kind ≠ UV_IGNORE ∧ kind ≠ UV_CREATE_PIPE ∧ kind ≠ UV_INHERIT_FD ∧ kind ≠ UV_INHERIT_STREAM

/-- Outcomes of the calls of `uv_spawn` in which every call succeeds. -/
def ex_spawn_os : uv_spawn_os :=
  { uv_utf8_to_utf16_alloc_file := 0, make_program_args := 0, make_program_env := 0,
    uv_utf8_to_utf16_alloc_cwd := 0, GetCurrentDirectoryW_len := 10, cwd_len_error := 0,
    cwd_malloc_ok := true, GetCurrentDirectoryW := 9, cwd_error := 0, find_path := false,
    GetEnvironmentVariableW_len := 10, path_len_error := 0, path_malloc_ok := true,
    GetEnvironmentVariableW := 9, path_error := 0, stdio := ex_stdio_os, search_path := true,
    CreateProcessW := some (70, 4242), create_process_error := 0,
    AssignProcessToJobObject := true, assign_error := 0,
    RegisterWaitForSingleObject := some 71 }

/-- Outcomes of the calls of `uv_spawn` in which every call succeeds but
`AssignProcessToJobObject`, which fails with `ERROR_ACCESS_DENIED`. -/
def ex_spawn_os_denied : uv_spawn_os :=
  { ex_spawn_os with AssignProcessToJobObject := false, assign_error := ERROR_ACCESS_DENIED }

/-- Options with two stdio entries: the file descriptor 0 is inherited, and the
second entry has the flags `UV_CREATE_PIPE | UV_INHERIT_FD`, which select none
of the four kinds. -/
def ex_options_bad_flags : uv_process_options_t :=
  { ex_options_ignore with
    stdio_count := 2,
    stdio := [{ flags := UV_INHERIT_FD, stream := ex_no_stream, fd := 0 },
              { flags := UV_CREATE_PIPE ||| UV_INHERIT_FD, stream := ex_no_stream, fd := 0 }] }

/-- Options with two stdio entries: the file descriptor 0 is inherited, and the
second entry inherits a stream that is not a tty or a connected pipe. -/
def ex_options_bad_stream : uv_process_options_t :=
  { ex_options_ignore with
    stdio_count := 2,
    stdio := [{ flags := UV_INHERIT_FD, stream := ex_no_stream, fd := 0 },
              { flags := UV_INHERIT_STREAM, stream := ex_no_stream, fd := 0 }] }

/-- A pipe handle that is initialised and not connected. -/
def ex_pipe_stream : uv_stdio_stream :=
  { type := .UV_NAMED_PIPE, connection := false, pipeserver := false,
    handle := INVALID_HANDLE_VALUE, ipc := false }

/-- Options with two stdio entries: a pipe is created for the first, and the
second inherits a stream that is not a tty or a connected pipe. -/
def ex_options_pipe_bad_stream : uv_process_options_t :=
  { ex_options_ignore with
    stdio_count := 2,
    stdio := [{ flags := UV_CREATE_PIPE, stream := ex_pipe_stream, fd := 0 },
              { flags := UV_INHERIT_STREAM, stream := ex_no_stream, fd := 0 }] }

/-- Entry of the table of required variables: the name, the name followed
by `=`, and the length of the name including the terminator or `=`. -/
structure env_var where
  wide : List Nat
  wide_eq : List Nat
  len : Nat
  deriving DecidableEq, Repr

/-- Source macro `E_V(str)`: `{ L##str, L##str L"=", sizeof(str) }`. -/
def E_V (str : List Nat) : env_var :=
  { wide := str, wide_eq := str ++ [61], len := str.length + 1 }

/-- The table `required_vars`: HOMEDRIVE, HOMEPATH, LOGONSEE_V [72, 79, 77, 69, 68, 82, 73, 86, 69],
   E_V [72, 79, 77, 69, 80, 65, 84, 72],
   E_V [76, 79, 71, 79, 78, 83, 69, 82, 86, 69, 82],
   E_V [80, 65, 84, 72],
   E_V [83, 89, 83, 84, 69, 77, 68, 82, 73, 86, 69],
   E_V [83, 89, 83, 84, 69, 77, 82, 79, 79, 84],
   E_V [84, 69, 77, 80],
   E_V [85, 83, 69, 82, 68, 79, 77, 65, 73, 78],
   E_V [85, 83, 69, 82, 78, 65, 77, 69],
   E_V [85, 83, 69, 82, 80, 82, 79, 70, 73, 76, 69],
   E_V [87, 73, 78, 68, 73, 82]ER, PATH,
SYSTEMDRIVE, SYSTEMROOT, TEMP, USERDOMAIN, USERNAME, USERPROFILE, WINDIR,
each name given by the codes of its letters. -/
def required_vars : List env_var :=
  [E_V [72, 79, 77, 69, 68, 82, 73, 86, 69],
   E_V [72, 79, 77, 69, 80, 65, 84, 72],
   E_V [76, 79, 71, 79, 78, 83, 69, 82, 86, 69, 82],
   E_V [80, 65, 84, 72],
   E_V [83, 89, 83, 84, 69, 77, 68, 82, 73, 86, 69],
   E_V [83, 89, 83, 84, 69, 77, 82, 79, 79, 84],
   E_V [84, 69, 77, 80],
   E_V [85, 83, 69, 82, 68, 79, 77, 65, 73, 78],
   E_V [85, 83, 69, 82, 78, 65, 77, 69],
   E_V [85, 83, 69, 82, 80, 82, 79, 70, 73, 76, 69],
   E_V [87, 73, 78, 68, 73, 82]]

def n_required_vars : Nat := required_vars.length

/-- Outcomes of the system for `make_program_env`: the UTF-16 form of a
UTF-8 string (`none` when `MultiByteToWideChar` fails on it), the value of
`GetLastError` after a failure, the upper-case form `LCMapStringW` gives
to a code unit, the value of a variable in the environment of the parent
process, whether the two allocations succeed, and the content a buffer
holds where nothing was written. -/
structure uv_env_os where
  utf16 : List Nat → Option (List Nat)
  GetLastError : Int
  uppercase : Nat → Nat
  environment : List Nat → Option (List Nat)
  dst_copy_ok : Bool
  dst_ok : Bool
  unwritten : List Nat

/-- Conversion of a value of type `size_t` or `ptrdiff_t` to `int`. -/
def static_cast_int (x : Int) : Int := (x + 2147483648) % 4294967296 - 2147483648

/-- Call `MultiByteToWideChar(CP_UTF8, 0, s, -1, buf, cchWideChar)`: the
returned length counts the terminator; with `cchWideChar = 0` the length
is returned and nothing is written, with a buffer that is too small (or a
negative size) the call fails and returns 0. -/
def MultiByteToWideChar (os : uv_env_os) (s : List Nat) (cchWideChar : Int) :
    Int × Option (List Nat) :=
  match os.utf16 s with
  | none => (0, none)
  | some w =>
    if cchWideChar = 0 then ((w.length : Int) + 1, none)
    else if (w.length : Int) + 1 ≤ cchWideChar then ((w.length : Int) + 1, some w)
    else (0, none)

/-- Call `GetEnvironmentVariableW(name, buf, nSize)` with `nSize` a DWORD:
0 when the variable is not defined, the length of the value when it fits
in the buffer with its terminator (and the value is written), otherwise the
size the buffer needs, terminator included. -/
def GetEnvironmentVariableW (os : uv_env_os) (name : List Nat) (nSize : Nat) :
    Nat × Option (List Nat) :=
  match os.environment name with
  | none => (0, none)
  | some v => if v.length < nSize then (v.length, some v) else (v.length + 1, none)

/-- Call `LCMapStringW(LOCALE_INVARIANT, LCMAP_UPPERCASE, a, na, A, na)`: the
first `na` units of `a`, each in upper case. -/
def LCMapStringW (os : uv_env_os) (a : List Nat) (na : Nat) : List Nat :=
  (a.take na).map os.uppercase

/-- The comparison loop of `env_strncmp` over the two buffers `A` and `B`,
each followed by a terminator 0. -/
def env_strncmp_loop : List Nat → List Nat → Int
  | [], [] => 0
  | [], BB :: _ => if 0 < BB then -1 else 0
  | AA :: _, [] => if 0 < AA then 1 else 0
  | AA :: A, BB :: B =>
    if AA < BB then -1
    else if AA > BB then 1
    else if AA = 0 then 0
    else env_strncmp_loop A B

/-- Source function `env_strncmp`. The assertions `a_eq` and `b_eq` hold
when the strings contain `=`; `List.indexOf` gives the offset of the first
`=` (the length of the string when there is none). -/
def env_strncmp (os : uv_env_os) (a : List Nat) (na : Int) (b : List Nat) : Int :=
  let na : Nat := if na < 0 then a.indexOf 61 else (na - 1).toNat
  let nb : Nat := b.indexOf 61
  env_strncmp_loop (LCMapStringW os a na) (LCMapStringW os b nb)

/-- Source function `qsort_wcscmp`. -/
def qsort_wcscmp (os : uv_env_os) (a b : List Nat) : Int :=
  env_strncmp os a (-1) b

/-- The C library function `qsort`: the elements of `base` in an order in
which no element compares greater than a later one. The order of elements
that compare equal is not specified by C; here it is the one of insertion
sort. -/
def qsort {α : Type} (base : List α) (compar : α → α → Int) : List α :=
  base.insertionSort (fun a b => compar a b ≤ 0)

/-- Entry `required_vars[i]`. -/
def required_var (i : Nat) : env_var := required_vars.getD i (E_V [])

/-- First pass of `make_program_env`: the size in UTF-16 of the entries that
contain `=`, and their number plus one; `none` when a conversion fails. -/
def make_program_env_first_pass (os : uv_env_os) :
    List (List Nat) → Int → Nat → Option (Int × Nat)
  | [], env_len, env_block_count => some (env_len, env_block_count)
  | env :: rest, env_len, env_block_count =>
    if 61 ∈ env then
      let len := (MultiByteToWideChar os env 0).1
      if len ≤ 0 then none
      else make_program_env_first_pass os rest (env_len + len) (env_block_count + 1)
    else make_program_env_first_pass os rest env_len env_block_count

/-- Second pass of `make_program_env`: the entries that contain `=` are
converted into `dst_copy`, whose size is `env_len`; `ptr` is the offset
`ptr - dst_copy`. The result is the array `env_copy` and the final offset,
`none` when a conversion fails. -/
def make_program_env_second_pass (os : uv_env_os) (env_len : Int) :
    List (List Nat) → Int → Option (List (List Nat) × Int)
  | [], ptr => some ([], ptr)
  | env :: rest, ptr =>
    if 61 ∈ env then
      let r := MultiByteToWideChar os env (static_cast_int (env_len - ptr))
      if r.1 ≤ 0 then none
      else
        match make_program_env_second_pass os env_len rest (ptr + r.1) with
        | none => none
        | some (env_copy, ptr) => some (r.2.getD os.unwritten :: env_copy, ptr)
    else make_program_env_second_pass os env_len rest ptr

/-- The comparison the third and the final pass make at index `i` with
`i < n_required_vars`: -1 when the sorted array is exhausted, otherwise
`env_strncmp` of `required_vars[i]` and the current entry. -/
def make_program_env_cmp (os : uv_env_os) (i : Nat) (ptr_copy : List (List Nat)) : Int :=
  match ptr_copy with
  | [] => -1
  | p :: _ => env_strncmp os (required_var i).wide_eq (required_var i).len p

/-- Third pass of `make_program_env`, from index `i` and the rest `ptr_copy`
of the sorted array: the sizes of the values of the missing required
variables are stored in `required_vars_value_len` and added to `env_len`.
Every iteration advances `i` or `ptr_copy`, which bounds the fuel. -/
def make_program_env_third_pass (os : uv_env_os) :
    Nat → Nat → List (List Nat) → (Nat → Nat) → Int → (Nat → Nat) × Int
  | 0, _, _, required_vars_value_len, env_len => (required_vars_value_len, env_len)
  | fuel + 1, i, ptr_copy, required_vars_value_len, env_len =>
    if i < n_required_vars then
      let cmp : Int := make_program_env_cmp os i ptr_copy
      if cmp < 0 then
        let var_size := (GetEnvironmentVariableW os (required_var i).wide 0).1
        let required_vars_value_len := fun j => if j = i then var_size else required_vars_value_len j
        let env_len := if var_size ≠ 0 then env_len + (required_var i).len + var_size else env_len
        make_program_env_third_pass os fuel (i + 1) ptr_copy required_vars_value_len env_len
      else
        make_program_env_third_pass os fuel (if cmp = 0 then i + 1 else i) ptr_copy.tail
          required_vars_value_len env_len
    else (required_vars_value_len, env_len)

/-- Final pass of `make_program_env`, from index `i`, the rest `ptr_copy` of
the sorted array and the offset `ptr - dst`: the entries written to `dst`
and the final offset, `none` when `uv_fatal_error` is called. -/
def make_program_env_final_pass (os : uv_env_os) (required_vars_value_len : Nat → Nat)
    (env_len : Int) : Nat → Nat → List (List Nat) → Int → Option (List (List Nat) × Int)
  | 0, _, _, ptr => some ([], ptr)
  | fuel + 1, i, ptr_copy, ptr =>
    if ptr_copy ≠ [] ∨ i < n_required_vars then
      let cmp : Int := if i ≥ n_required_vars then 1 else make_program_env_cmp os i ptr_copy
      if cmp < 0 then
        let len := required_vars_value_len i
        if len ≠ 0 then
          let ptr := ptr + (required_var i).len
          let r := GetEnvironmentVariableW os (required_var i).wide
            ((static_cast_int (env_len - ptr)) % 4294967296).toNat
          if r.1 ≠ len - 1 then none
          else
            match make_program_env_final_pass os required_vars_value_len env_len fuel (i + 1)
              ptr_copy (ptr + len) with
            | none => none
            | some (dst, ptr) =>
              some (((required_var i).wide_eq ++ r.2.getD os.unwritten) :: dst, ptr)
        else
          make_program_env_final_pass os required_vars_value_len env_len fuel (i + 1) ptr_copy
            (ptr + len)
      else
        match ptr_copy with
        | [] => some ([], ptr)
        | p :: rest =>
          let len := p.length + 1
          match make_program_env_final_pass os required_vars_value_len env_len fuel
            (if cmp = 0 then i + 1 else i) rest (ptr + len) with
          | none => none
          | some (dst, ptr) => some (p :: dst, ptr)
    else some ([], ptr)

/-- Outcome of `make_program_env`: an error code is returned, or
`uv_fatal_error` ends the process, or 0 is returned with the entries of
the block stored in `*dst_ptr` (the block is these entries, each followed
by a terminator, and a final terminator); `asserts` tells whether the
assertions of the function and of `env_strncmp` held. -/
inductive make_program_env_result where
  | error (err : Int)
  | fatal
  | ok (dst : List (List Nat)) (asserts : Bool)
  deriving DecidableEq, Repr

/-- Source function `make_program_env`. The array
`required_vars_value_len` is not initialised by the code; its content at
entry is a parameter. Every converted entry is handed to `env_strncmp` at
least once (by `qsort` when there are two or more, by the third pass
otherwise), so its assertions hold exactly when every converted entry
contains `=`. -/
def make_program_env (os : uv_env_os) (required_vars_value_len : Nat → Nat)
    (env_block : List (List Nat)) : make_program_env_result :=
  match make_program_env_first_pass os env_block 0 1 with
  | none => .error os.GetLastError
  | some (env_len, env_block_count) =>
    if os.dst_copy_ok = false ∧ env_len > 0 then .error ERROR_OUTOFMEMORY
    else
      match make_program_env_second_pass os env_len env_block 0 with
      | none => .error os.GetLastError
      | some (env_copy, ptr) =>
        let assert_copy : Bool := env_len = 0 ∨ env_len = ptr
        let env_copy := qsort (env_copy.take (env_block_count - 1)) (qsort_wcscmp os)
        let fuel := n_required_vars + env_copy.length
        let third := make_program_env_third_pass os fuel 0 env_copy required_vars_value_len env_len
        if os.dst_ok = false then .error ERROR_OUTOFMEMORY
        else
          match make_program_env_final_pass os third.1 third.2 fuel 0 env_copy 0 with
          | none => .fatal
          | some (dst, ptr) =>
            .ok dst (assert_copy && env_copy.all (fun p => 61 ∈ p) && (third.2 = ptr))

/-- ASCII upper case, the restriction of `LCMapStringW` to ASCII. -/
def ex_uppercase (c : Nat) : Nat := if 97 ≤ c ∧ c ≤ 122 then c - 32 else c

/-- Parent environment with PATH=/b and TEMP=t only. -/
def ex_environment (name : List Nat) : Option (List Nat) :=
  if name = [80, 65, 84, 72] then some [47, 98]
  else if name = [84, 69, 77, 80] then some [116]
  else none

def ex_env_os : uv_env_os :=
  { utf16 := fun s => some s, GetLastError := 87, uppercase := ex_uppercase,
    environment := ex_environment, dst_copy_ok := true, dst_ok := true,
    unwritten := [] }

/-- Environment list `z=1`, `junk`, `Path=x`, `a=2`. -/
def ex_env_block : List (List Nat) :=
  [[122, 61, 49], [106, 117, 110, 107], [80, 97, 116, 104, 61, 120], [97, 61, 50]]

/-- Environment list `temp=u`, `x`. -/
def ex_env_block_temp : List (List Nat) := [[116, 101, 109, 112, 61, 117], [120]]

/-- The upper-cased name of a wide entry, as `env_strncmp` compares it. -/
def env_key (os : uv_env_os) (w : List Nat) : List Nat := LCMapStringW os w (w.indexOf 61)

/-- The upper-cased name of a required variable, as `env_strncmp` compares
it in the third and final pass. -/
def env_var_key (os : uv_env_os) (r : env_var) : List Nat :=
  LCMapStringW os r.wide_eq ((r.len : Int) - 1).toNat

/-- The properties of the table the proofs use: every entry is built by
`E_V` from a name of capital letters. -/
def required_vars_ok (r : env_var) : Prop :=
  r = E_V r.wide ∧ ∀ c ∈ r.wide, 65 ≤ c ∧ c ≤ 90

instance (r : env_var) : Decidable (required_vars_ok r) := by
  unfold required_vars_ok; infer_instance

/-- The entries the final pass writes for a required variable that the
sorted array lacks: `NAME=value` when the parent process has a value for
it, nothing otherwise. -/
def env_inject (os : uv_env_os) (r : env_var) : List (List Nat) :=
  match os.environment r.wide with
  | none => []
  | some v => [r.wide_eq ++ v]

/-- The merge the third and final pass perform together, on the rest `rs` of
the table of required variables and the rest `us` of the sorted array. -/
def env_merge (os : uv_env_os) : List env_var → List (List Nat) → List (List Nat)
  | [], us => us
  | r :: rs, [] => env_inject os r ++ env_merge os rs []
  | r :: rs, u :: us =>
    if env_strncmp os r.wide_eq r.len u < 0 then env_inject os r ++ env_merge os rs (u :: us)
    else if env_strncmp os r.wide_eq r.len u = 0 then u :: env_merge os rs us
    else u :: env_merge os (r :: rs) us
termination_by rs us => rs.length + us.length

/-- The entries injected for the required variables `rs` that no entry of
`us` names. -/
def env_injected (os : uv_env_os) (rs : List env_var) (us : List (List Nat)) :
    List (List Nat) :=
  match rs with
  | [] => []
  | r :: rs =>
    (if ∃ u ∈ us, env_strncmp os r.wide_eq r.len u = 0 then [] else env_inject os r) ++
      env_injected os rs us

/-- The order of the output: no entry has a name greater than the name of
a later one. -/
def env_le (os : uv_env_os) (a b : List Nat) : Prop :=
  env_strncmp_loop (env_key os a) (env_key os b) ≤ 0

/-- The wide forms of the entries of `env_block` that contain `=`, in the
order of the list. -/
def env_utf16 (os : uv_env_os) (env_block : List (List Nat)) : List (List Nat) :=
  (env_block.filter (fun e => 61 ∈ e)).filterMap os.utf16

/-- Number of code units the entries take in a block, each with its
terminator. -/
def env_size (l : List (List Nat)) : Int :=
  (l.map (fun w => (w.length : Int) + 1)).sum

/-- Upper bound for the size of the output block: the converted entries and
every required variable with the value of the parent process. -/
def make_program_env_bound (os : uv_env_os) (env_block : List (List Nat)) : Int :=
  env_size (env_utf16 os env_block) +
    (required_vars.map
      (fun r => (r.len : Int) + ((GetEnvironmentVariableW os r.wide 0).1 : Int))).sum

/-! ### Removing a loop from the registry (`core.cpp`) -/

/-- The search loop of `uv__loops_remove`: the first index below
`uv__loops_size`, from `loop_index` on, whose entry is `loop`, and
`uv__loops_size` when there is none; `fuel` bounds the iterations. -/
def uv__loops_remove_find (loop : Nat) (g : uv__loops_t) : Nat → Nat → Nat
  | 0, loop_index => loop_index
  | fuel + 1, loop_index =>
    if loop_index < g.uv__loops_size then
      if g.uv__loops.getD loop_index none = some loop then loop_index
      else uv__loops_remove_find loop g fuel (loop_index + 1)
    else loop_index

/-- Function `uv__loops_remove`; `realloc_ok` tells whether the reallocation
to the smaller capacity succeeds, should the function make one. -/
def uv__loops_remove (loop : Nat) (realloc_ok : Bool) (g : uv__loops_t) : uv__loops_t :=
  let g := { g with uv__loops_lock := true }
  let loop_index := uv__loops_remove_find loop g g.uv__loops_size 0
  if loop_index = g.uv__loops_size then { g with uv__loops_lock := false }
  else
    let g := { g with
      uv__loops := g.uv__loops.set loop_index (g.uv__loops.getD (g.uv__loops_size - 1) none) }
    let g := { g with uv__loops := g.uv__loops.set (g.uv__loops_size - 1) none }
    let g := { g with uv__loops_size := g.uv__loops_size - 1 }
    if g.uv__loops_size = 0 then
      { g with uv__loops_capacity := 0, uv__loops := [], uv__loops_lock := false }
    else if g.uv__loops_capacity < 4 * UV__LOOPS_CHUNK_SIZE then
      { g with uv__loops_lock := false }
    else
      let smaller_capacity := g.uv__loops_capacity / 2
      if g.uv__loops_size ≥ smaller_capacity then { g with uv__loops_lock := false }
      else if !realloc_ok then { g with uv__loops_lock := false }
      else { g with uv__loops := g.uv__loops.take smaller_capacity,
                    uv__loops_capacity := smaller_capacity }

/-- A registry of capacity 32 that holds the 16 loops 1 to 16. -/
def ex_loops_16 : uv__loops_t :=
  { uv__loops := (List.range 16).map (fun i => some (i + 1)) ++ List.replicate 16 none,
    uv__loops_size := 16, uv__loops_capacity := 32, uv__loops_lock := false }

/-- The registry after `n` calls of `uv__loops_add`, for the loops 1 to `n`. -/
def uv__loops_added : Nat → uv__loops_t
  | 0 => ex_loops
  | n + 1 => (uv__loops_add (n + 1) true (uv__loops_added n)).1

/-- The registry after the removal of the loops `n`, ..., `n - k + 1`, in
this order, from `g`. -/
def uv__loops_removed (g : uv__loops_t) (n : Nat) : Nat → uv__loops_t
  | 0 => g
  | k + 1 => uv__loops_remove (n - k) true (uv__loops_removed g n k)

/-! ### The pollers (`core.cpp`) -/

/-- Constant `WAIT_TIMEOUT` of the Windows headers. -/
def WAIT_TIMEOUT : Nat := 258

/-- What one call of `GetQueuedCompletionStatus` or
`GetQueuedCompletionStatusEx` gives: whether it succeeded, the overlapped
pointers of the packets it dequeued (`none` for `nullptr`), the value of
`GetLastError` after it, and the world when it returns, which the clock
reads. -/
structure uv_poll_round (W : Type) where
  success : Bool
  overlappeds : List (Option Nat)
  GetLastError : Nat
  world : W

/-- How a poller ends: it returns, it calls `uv_fatal_error`, or it
evaluates `1 << (repeat - 1)` with a shift count the type `int` does not
allow. `waits` lists the timeouts of the calls of the wait function. -/
inductive uv_poll_result (W : Type) where
  | returned (loop : uv_loop_t W) (waits : List Nat)
  | fatal (waits : List Nat)
  | undefined (waits : List Nat)

/-- The timeouts of the calls of the wait function. -/
def uv_poll_result.waits {W : Type} : uv_poll_result W → List Nat
  | .returned _ waits => waits
  | .fatal waits => waits
  | .undefined waits => waits

/-- The statements of both pollers after a wait that failed with
`WAIT_TIMEOUT` while `timeout > 0` and the target time is not reached: the
new timeout, `none` when the shift is not defined; `rep` is the variable
`repeat`. -/
def uv_poll_next_timeout (timeout_time time rep : Nat) : Option Nat :=
  let timeout := (timeout_time - time) % 4294967296
  if rep ≠ 0 then
    if rep - 1 < 31 then some ((timeout + 2 ^ (rep - 1)) % 4294967296) else none
  else some timeout

/-- The `for` loop of `uv__poll`; `rep` is the variable `repeat`, and the
list gives what the successive calls of `GetQueuedCompletionStatusEx` do
(`none` when the list is used up before the loop ends). -/
def uv__poll_loop {W : Type} (ops : uv_loop_ops W) (timeout_time : Nat) :
    List (uv_poll_round W) → Nat → uv_loop_t W → Nat → List Nat → Option (uv_poll_result W)
  | [], _, _, _, _ => none
  | round :: rounds, rep, loop, timeout, waits =>
    let waits := waits ++ [timeout]
    let loop := { loop with world := round.world }
    if round.success then
      let loop := round.overlappeds.foldl
        (fun l o =>
          match o with
          | some overlapped => uv_insert_pending_req l overlapped
          | none => l) loop
      some (.returned (uv_update_time ops loop) waits)
    else if round.GetLastError ≠ WAIT_TIMEOUT then some (.fatal waits)
    else if timeout > 0 then
      let loop := uv_update_time ops loop
      if timeout_time > loop.time then
        match uv_poll_next_timeout timeout_time loop.time rep with
        | none => some (.undefined waits)
        | some timeout => uv__poll_loop ops timeout_time rounds (rep + 1) loop timeout waits
      else some (.returned loop waits)
    else some (.returned loop waits)

/-- Function `uv__poll`; an overlapped pointer stands for its request. -/
def uv__poll {W : Type} (ops : uv_loop_ops W) (rounds : List (uv_poll_round W))
    (loop : uv_loop_t W) (timeout : Nat) : Option (uv_poll_result W) :=
  let timeout_time := (loop.time + timeout) % 18446744073709551616
  uv__poll_loop ops timeout_time rounds 0 loop timeout []

/-- The `for` loop of `uv__poll_wine`, with `GetQueuedCompletionStatus`,
which dequeues one packet. -/
def uv__poll_wine_loop {W : Type} (ops : uv_loop_ops W) (timeout_time : Nat) :
    List (uv_poll_round W) → Nat → uv_loop_t W → Nat → List Nat → Option (uv_poll_result W)
  | [], _, _, _, _ => none
  | round :: rounds, rep, loop, timeout, waits =>
    let waits := waits ++ [timeout]
    let loop := { loop with world := round.world }
    match round.overlappeds.head?.join with
    | some overlapped =>
      let loop := uv_insert_pending_req loop overlapped
      some (.returned (uv_update_time ops loop) waits)
    | none =>
      if round.GetLastError ≠ WAIT_TIMEOUT then some (.fatal waits)
      else if timeout > 0 then
        let loop := uv_update_time ops loop
        if timeout_time > loop.time then
          match uv_poll_next_timeout timeout_time loop.time rep with
          | none => some (.undefined waits)
          | some timeout => uv__poll_wine_loop ops timeout_time rounds (rep + 1) loop timeout waits
        else some (.returned loop waits)
      else some (.returned loop waits)

/-- Function `uv__poll_wine`. -/
def uv__poll_wine {W : Type} (ops : uv_loop_ops W) (rounds : List (uv_poll_round W))
    (loop : uv_loop_t W) (timeout : Nat) : Option (uv_poll_result W) :=
  let timeout_time := (loop.time + timeout) % 18446744073709551616
  uv__poll_wine_loop ops timeout_time rounds 0 loop timeout []

/-- A wait that returns with `WAIT_TIMEOUT` and no packet, in the world
`world`. -/
def uv_poll_round.timed_out {W : Type} (world : W) : uv_poll_round W :=
  { success := false, overlappeds := [], GetLastError := WAIT_TIMEOUT, world := world }

/-- The padding the pollers add to the remaining time at the `k`-th
consecutive early return of a call, `k` counted from 1: nothing at the
first, then 1, 2, 4, ... -/
def uv_poll_padding (k : Nat) : Nat := if k ≤ 1 then 0 else 2 ^ (k - 2)

/-- The timeouts of the waits that follow consecutive early returns at the
times `nows`, the first of which is the `k`-th of the call. -/
def uv_poll_reentry_waits (timeout_time : Nat) : Nat → List Nat → List Nat
  | _, [] => []
  | k, now :: nows =>
    (timeout_time - now + uv_poll_padding k) :: uv_poll_reentry_waits timeout_time (k + 1) nows

/-- A wait that does not return early for the target `timeout_time`: it
succeeds, or fails with another error than `WAIT_TIMEOUT`, or times out at
or after the target time; `wine` tells which poller is meant. -/
def uv_poll_round.final {W : Type} (ops : uv_loop_ops W) (wine : Bool) (timeout_time : Nat)
    (round : uv_poll_round W) : Prop :=
  (if wine then round.overlappeds.head?.join ≠ none else round.success = true) ∨
    round.GetLastError ≠ WAIT_TIMEOUT ∨ timeout_time ≤ ops.uv__hrtime round.world

/-- A clock that reads the world, which is the time. -/
def ex_clock_ops : uv_loop_ops Nat :=
  { uv__hrtime := fun w => w, uv__run_timers := id, uv_process_reqs := fun l => (l, 0),
    uv_idle_invoke := id, uv_prepare_invoke := id, pGetQueuedCompletionStatusEx := true,
    uv__poll := fun l _ => l, uv__poll_wine := fun l _ => l, uv_check_invoke := id,
    uv_process_endgames := id }

/-- A loop at time 0 whose world is the time. -/
def ex_clock_loop : uv_loop_t Nat :=
  { time := 0, active_handles := 1, active_reqs_count := 0, pending_reqs_tail := [],
    endgame_handles := [], idle_handles := [], timer_heap := [], stop_flag := 0, world := 0 }

/-! ### Searching the path (`process.cpp`)
A wide string is the list of its code units without the terminator; a
pointer into a string is an offset, and the unit at the offset of the
terminator is 0. -/

/-- The unit `s[p]` of a wide string. -/
def wchar_at (s : List Nat) (p : Nat) : Nat := s.getD p 0

/-- C library function `wcschr(s + p, c)`: the offset of the first `c` at or
after `p`, the offset of the terminator when `c` is 0, and `none` for
`nullptr`. -/
def wcschr (s : List Nat) (p : Nat) (c : Nat) : Option Nat :=
  if (s.drop p).indexOf c < (s.drop p).length then some (p + (s.drop p).indexOf c)
  else if c = 0 then some (p + (s.drop p).length)
  else none

/-- The type `size_t`: the value of an expression in it. -/
def size_t (x : Int) : Nat := (x % 18446744073709551616).toNat

/-- The file-system part of `search_path_join_test`: the function joins
`cwd`, the directory slice `dir` of length `dir_len`, `name` and the
extension into a candidate and asks `GetFileAttributesW` whether it is a
file; the path it returns (`none` for `nullptr`) is a parameter. The
arguments are `dir`, `dir_len`, `name`, `name_len`, `ext`, `ext_len`, `cwd`
and `cwd_len`. -/
structure search_path_os where
  search_path_join_test : List Nat → Nat → List Nat → Nat → List Nat → Nat → List Nat → Nat →
    Option (List Nat)

/-- Function `path_search_walk_ext`; `com` and `exe` are the two extension
strings. -/
def path_search_walk_ext (os : search_path_os) (dir : List Nat) (dir_len : Nat)
    (name : List Nat) (name_len : Nat) (cwd : List Nat) (cwd_len : Nat) (name_has_ext : Bool) :
    Option (List Nat) :=
  let first :=
    if name_has_ext then os.search_path_join_test dir dir_len name name_len [] 0 cwd cwd_len
    else none
  if first ≠ none then first
  else
    let result := os.search_path_join_test dir dir_len name name_len [99, 111, 109] 3 cwd cwd_len
    if result ≠ none then result
    else os.search_path_join_test dir dir_len name name_len [101, 120, 101] 3 cwd cwd_len

/-- The loop of `search_path` that finds `file_name_start`: from the
offset `k` backwards to the unit after the last `\`, `/` or `:`. -/
def search_path_file_name_start (file : List Nat) : Nat → Nat
  | 0 => 0
  | k + 1 =>
    if wchar_at file k ≠ 92 ∧ wchar_at file k ≠ 47 ∧ wchar_at file k ≠ 58 then
      search_path_file_name_start file k
    else k + 1

/-- The `while` loop of `search_path` over `path`, from the offset
`dir_end`; `calls` lists the directory slices (`dir` and `dir_len`) handed
to `path_search_walk_ext`. Every iteration that does not leave the loop
moves `dir_end` forward, which bounds the fuel. -/
def search_path_scan (os : search_path_os) (file cwd path : List Nat) (name_has_ext : Bool) :
    Nat → Nat → List (List Nat × Nat) → Option (Option (List Nat) × List (List Nat × Nat))
  | 0, _, _ => none
  | fuel + 1, dir_end, calls =>
    if wchar_at path dir_end = 0 then some (none, calls)
    else
      let dir_end := if dir_end ≠ 0 ∨ wchar_at path 0 = 59 then dir_end + 1 else dir_end
      let dir_start := dir_end
      let dir_end :=
        if wchar_at path dir_start = 34 ∨ wchar_at path dir_start = 39 then
          match wcschr path (dir_start + 1) (wchar_at path dir_start) with
          | some e => e
          | none => (wcschr path dir_start 0).getD dir_start
        else dir_end
      let dir_end :=
        match wcschr path dir_end 59 with
        | some e => e
        | none => (wcschr path dir_start 0).getD dir_start
      if dir_end - dir_start = 0 then search_path_scan os file cwd path name_has_ext fuel dir_end calls
      else
        let dir_path := dir_start
        let dir_len := size_t ((dir_end : Int) - dir_start)
        let quoted := wchar_at path dir_path = 34 ∨ wchar_at path dir_path = 39
        let dir_path := if quoted then dir_path + 1 else dir_path
        let dir_len := if quoted then size_t ((dir_len : Int) - 1) else dir_len
        let last := wchar_at path ((dir_path + size_t ((dir_len : Int) - 1)) % 9223372036854775808)
        let dir_len := if last = 34 ∨ last = 39 then size_t ((dir_len : Int) - 1) else dir_len
        let result := path_search_walk_ext os (path.drop dir_path) dir_len file file.length
          cwd cwd.length name_has_ext
        let calls := calls ++ [(path.drop dir_path, dir_len)]
        if result ≠ none then some (result, calls)
        else search_path_scan os file cwd path name_has_ext fuel dir_end calls

/-- Function `search_path`: the path found (`none` for `nullptr`) and the
directory slices handed to `path_search_walk_ext`. -/
def search_path (os : search_path_os) (file cwd path : List Nat) :
    Option (Option (List Nat) × List (List Nat × Nat)) :=
  let file_len := file.length
  let cwd_len := cwd.length
  if file_len = 0 ∨ (file_len = 1 ∧ wchar_at file 0 = 46) then some (none, [])
  else
    let file_name_start := search_path_file_name_start file file_len
    let file_has_dir := file_name_start ≠ 0
    let name_has_ext : Bool :=
      match wcschr file file_name_start 46 with
      | some dot => wchar_at file (dot + 1) ≠ 0
      | none => false
    if file_has_dir then
      some (path_search_walk_ext os file file_name_start (file.drop file_name_start)
        (file_len - file_name_start) cwd cwd_len name_has_ext, [(file, file_name_start)])
    else
      let result := path_search_walk_ext os [] 0 file file_len cwd cwd_len name_has_ext
      if result ≠ none then some (result, [([], 0)])
      else search_path_scan os file cwd path name_has_ext (path.length + 1) 0 [([], 0)]

/-- A file system in which no candidate exists. -/
def ex_search_path_os : search_path_os :=
  { search_path_join_test := fun _ _ _ _ _ _ _ _ => none }

/-! ### Starting an fs-event handle (`fs-event.cpp`) -/

/-- Constant `FILE_ATTRIBUTE_DIRECTORY`. -/
def FILE_ATTRIBUTE_DIRECTORY : Nat := 16

/-- Flag `UV_FS_EVENT_RECURSIVE` of `uv.h`. -/
def UV_FS_EVENT_RECURSIVE : Nat := 4

/-- The outcomes of the system and library calls of `uv_fs_event_start`; a
call that fails gives the value of `GetLastError` after it (`Except.error`).
`uv__strdup_ok`, `pathw_malloc_ok`, `long_path_malloc_ok`,
`split_malloc_ok` and `buffer_malloc_ok` tell whether the allocations
succeed; `name_size` is what the first call of `MultiByteToWideChar` returns
and `MultiByteToWideChar` the wide path the second call writes;
`GetLongPathNameW_size` and `GetLongPathNameW` are the two calls of that
function (0 and `none` when they fail); the argument of
`ReadDirectoryChangesW` is whether the subtree is watched. -/
structure uv_fs_event_start_os where
  uv__strdup_ok : Bool
  name_size : Nat
  pathw_malloc_ok : Bool
  MultiByteToWideChar : Except Nat (List Nat)
  GetFileAttributesW : List Nat → Except Nat Nat
  GetLongPathNameW_size : List Nat → Nat
  long_path_malloc_ok : Bool
  GetLongPathNameW : List Nat → Option (List Nat)
  GetShortPathNameW : List Nat → Option (List Nat)
  split_malloc_ok : Bool
  GetCurrentDirectoryW : Option (List Nat)
  _wcsdup : List Nat → Option (List Nat)
  GetLastError_split : Nat
  CreateFileW : List Nat → Except Nat Nat
  CreateIoCompletionPort : Except Nat Unit
  buffer_malloc_ok : Bool
  ReadDirectoryChangesW : Bool → Except Nat Unit

/-- The `while` loop of `uv_split_path`: the value of `i` after it, from
the value `i` before an iteration. -/
def uv_split_path_index (filename : List Nat) : Nat → Nat
  | 0 => 0
  | i + 1 =>
    if wchar_at filename i ≠ 92 ∧ wchar_at filename i ≠ 47 then uv_split_path_index filename i
    else i

/-- How `uv_split_path` ends: it returns a value with `*dir` and `*file`
set, or it calls `uv_fatal_error`. -/
inductive uv_split_path_result where
  | returned (r : Int) (dir : Option (List Nat)) (file : Option (List Nat))
  | fatal
  deriving DecidableEq, Repr

/-- Function `uv_split_path`; `want_dir` tells whether `dir` is not
`nullptr`, and the `dir` of the result is `*dir` then; `file` is the value
of `*file` at entry. -/
def uv_split_path (os : uv_fs_event_start_os) (filename : Option (List Nat)) (want_dir : Bool)
    (file : Option (List Nat)) : uv_split_path_result :=
  match filename with
  | none => .returned 0 none none
  | some filename =>
    let len := filename.length
    let i := uv_split_path_index filename len
    if i = 0 then
      if want_dir then
        if !os.split_malloc_ok then .fatal
        else
          match os.GetCurrentDirectoryW with
          | none => .returned (-1) none file
          | some dir => .returned 0 (some dir) (os._wcsdup filename)
      else .returned 0 none (os._wcsdup filename)
    else
      if !os.split_malloc_ok then .fatal
      else
        .returned 0 (if want_dir then some (filename.take (i + 1)) else none)
          (some ((filename.drop (i + 1)).take (len - i - 1)))

/-- Function `uv_fs_event_start_error`. -/
def uv_fs_event_start_error {W : Type} (uv_translate_sys_error : Int → Int)
    (last_error : Nat) (st : uv_state W uv_fs_event_t) : uv_state W uv_fs_event_t × Int :=
  let handle := { st.handle with path := none, filew := none, short_filew := none,
                                 dir_handle := none, buffer := none }
  let lf := if uv__is_active handle.flags then uv__handle_stop st.loop handle.flags
    else (st.loop, handle.flags)
  ({ st with loop := lf.1, handle := { handle with flags := lf.2 } },
    uv_translate_sys_error (last_error : Int))

/-- The statements of `uv_fs_event_start` from the call of `CreateFileW` on;
`is_path_dir` and `pathw` are the local variables. -/
def uv_fs_event_start_watch {W : Type} (uv_translate_sys_error : Int → Int)
    (os : uv_fs_event_start_os) (flags : Nat) (dir_to_watch : List Nat)
    (is_path_dir : Bool) (pathw : Option (List Nat)) (st : uv_state W uv_fs_event_t) :
    uv_state W uv_fs_event_t × Int :=
  match os.CreateFileW dir_to_watch with
  | .error last_error => uv_fs_event_start_error uv_translate_sys_error last_error st
  | .ok dir_handle =>
    let st := { st with handle := { st.handle with dir_handle := some dir_handle } }
    match os.CreateIoCompletionPort with
    | .error last_error => uv_fs_event_start_error uv_translate_sys_error last_error st
    | .ok _ =>
      if st.handle.buffer = none ∧ os.buffer_malloc_ok = false then
        ({ st with log := st.log ++ [.fatal_error] }, 0)
      else
        let st := { st with handle := { st.handle with
          buffer := if st.handle.buffer = none then some [] else st.handle.buffer,
          req := { st.handle.req with status := 0, InternalHigh := 0 } } }
        match os.ReadDirectoryChangesW (flags &&& UV_FS_EVENT_RECURSIVE ≠ 0) with
        | .error last_error => uv_fs_event_start_error uv_translate_sys_error last_error st
        | .ok _ =>
          let log := if is_path_dir = decide (pathw ≠ none) then st.log
            else st.log ++ [.assert_failed]
          ({ st with handle := { st.handle with dirw := pathw, req_pending := 1 }, log := log }, 0)

/-- Function `uv_fs_event_start`; `path` is the UTF-8 path. A call of
`uv_fatal_error` is logged and ends the function. -/
def uv_fs_event_start {W : Type} (uv_translate_sys_error : Int → Int)
    (os : uv_fs_event_start_os) (cb : Option Nat) (path : List Nat) (flags : Nat)
    (st : uv_state W uv_fs_event_t) : uv_state W uv_fs_event_t × Int :=
  if uv__is_active st.handle.flags then (st, UV_EINVAL)
  else
    let st := { st with handle := { st.handle with
      cb := cb, path := if os.uv__strdup_ok then some path else none } }
    if st.handle.path = none then ({ st with log := st.log ++ [.fatal_error] }, 0)
    else
      let lf := uv__handle_start st.loop st.handle.flags
      let st := { st with loop := lf.1, handle := { st.handle with flags := lf.2 } }
      if !os.pathw_malloc_ok then ({ st with log := st.log ++ [.fatal_error] }, 0)
      else
        match os.MultiByteToWideChar with
        | .error e => (st, uv_translate_sys_error (e : Int))
        | .ok pathw =>
          match os.GetFileAttributesW pathw with
          | .error last_error => uv_fs_event_start_error uv_translate_sys_error last_error st
          | .ok attr =>
            let is_path_dir : Bool := attr &&& FILE_ATTRIBUTE_DIRECTORY ≠ 0
            if is_path_dir then
              let size := os.GetLongPathNameW_size pathw
              if size ≠ 0 ∧ os.long_path_malloc_ok = false then
                ({ st with log := st.log ++ [.fatal_error] }, 0)
              else
                let pathw :=
                  if size ≠ 0 then
                    match os.GetLongPathNameW pathw with
                    | some long_path => long_path
                    | none => pathw
                  else pathw
                uv_fs_event_start_watch uv_translate_sys_error os flags pathw true (some pathw) st
            else
              let short_path := os.GetShortPathNameW pathw
              match uv_split_path os (some pathw) true st.handle.filew with
              | .fatal => ({ st with log := st.log ++ [.fatal_error] }, 0)
              | .returned r dir filew =>
                let st := { st with handle := { st.handle with filew := filew } }
                if r ≠ 0 then
                  uv_fs_event_start_error uv_translate_sys_error os.GetLastError_split st
                else
                  match uv_split_path os short_path false st.handle.short_filew with
                  | .fatal => ({ st with log := st.log ++ [.fatal_error] }, 0)
                  | .returned r2 _ short_filew =>
                    let st := { st with handle := { st.handle with short_filew := short_filew } }
                    if r2 ≠ 0 then
                      uv_fs_event_start_error uv_translate_sys_error os.GetLastError_split st
                    else
                      uv_fs_event_start_watch uv_translate_sys_error os flags (dir.getD []) false none
                        st

/-- An fs-event handle as `uv_fs_event_init` leaves it. -/
def ex_fs_event_initial : uv_state Unit uv_fs_event_t :=
  { loop := ex_empty_loop,
    handle := { addr := 300, flags := ex_flags, close_cb := none, cb := none, path := none,
                dir_handle := none, buffer := none, req_pending := 0, filew := none,
                short_filew := none, dirw := none,
                req := { addr := 301, status := 0, InternalHigh := 0 } },
    log := [] }

/-- Outcomes in which the conversion of the path to UTF-16 fails with
`ERROR_NO_UNICODE_TRANSLATION` (1113) and every other call would succeed, the
path being a directory. -/
def ex_fs_event_start_os : uv_fs_event_start_os :=
  { uv__strdup_ok := true, name_size := 4, pathw_malloc_ok := true,
    MultiByteToWideChar := .error 1113,
    GetFileAttributesW := fun _ => .ok FILE_ATTRIBUTE_DIRECTORY,
    GetLongPathNameW_size := fun _ => 0, long_path_malloc_ok := true,
    GetLongPathNameW := fun _ => none, GetShortPathNameW := fun _ => none,
    split_malloc_ok := true, GetCurrentDirectoryW := some [99], _wcsdup := fun s => some s,
    GetLastError_split := 0, CreateFileW := fun _ => .ok 9, CreateIoCompletionPort := .ok (),
    buffer_malloc_ok := true, ReadDirectoryChangesW := fun _ => .ok () }

/-! ### The worker of a slow-mode poll request (`poll.cpp`) -/

/-- Constant `SOCKET_ERROR` of Winsock. -/
def SOCKET_ERROR : Int := -1

/-- What `select` does in the worker: the value it returns, the value of
`WSAGetLastError` after it, and the sockets it leaves in the three sets. -/
structure uv_select_result where
  r : Int
  WSAGetLastError : Nat
  rfds : List Nat
  wfds : List Nat
  efds : List Nat
  deriving DecidableEq, Repr

/-- Modelled from the spec: the macro `SET_REQ_SUCCESS` of `req-inl.h`, the
status of the request becomes `STATUS_SUCCESS`, which is 0. -/
def SET_REQ_SUCCESS (req : uv_req_t) : uv_req_t := { req with status := 0 }

/-- The assertions of `uv__slow_poll_thread_proc` on a set that `select`
left non-empty: it holds one socket, the socket of the handle. -/
def uv__slow_poll_thread_asserts (handle : uv_poll_t) (fds : List Nat)
    (log : List uv_event) : List uv_event :=
  let log := if fds.length ≠ 1 then log ++ [.assert_failed] else log
  if fds.head? ≠ some handle.socket then log ++ [.assert_failed] else log

/-- Function `uv__slow_poll_thread_proc` for the request `req` of the handle
`req->data`: the handle afterwards, the request posted to the completion
port of the loop by `POST_COMPLETION_FOR_REQ`, and the assertions that
failed. `select` is told, through the three sets, to watch the socket for
the events of the handle; what it does is the parameter `select`. -/
def uv__slow_poll_thread_proc (ops : uv_req_ops) (select : uv_select_result)
    (req : uv_poll_req_ref) (handle : uv_poll_t) :
    uv_poll_t × uv_poll_req_ref × List uv_event :=
  if select.r = SOCKET_ERROR then
    ({ handle with poll_req_1 := ops.SET_REQ_ERROR handle.poll_req_1 select.WSAGetLastError },
      req, [])
  else
    let reported_events : Nat := 0
    let log : List uv_event := []
    let r1 :=
      if select.r > 0 ∧ select.rfds.length > 0 then
        (reported_events ||| UV_READABLE, uv__slow_poll_thread_asserts handle select.rfds log)
      else (reported_events, log)
    let r2 :=
      if select.r > 0 then
        if select.wfds.length > 0 then
          (r1.1 ||| UV_WRITABLE, uv__slow_poll_thread_asserts handle select.wfds r1.2)
        else if select.efds.length > 0 then
          (r1.1 ||| UV_WRITABLE, uv__slow_poll_thread_asserts handle select.efds r1.2)
        else r1
      else r1
    let set := fun (q : uv_req_t) => { SET_REQ_SUCCESS q with InternalHigh := r2.1 }
    match req with
    | .poll_req_1 => ({ handle with poll_req_1 := set handle.poll_req_1 }, req, r2.2)
    | .poll_req_2 => ({ handle with poll_req_2 := set handle.poll_req_2 }, req, r2.2)
    | .other => (handle, req, r2.2)

/-- A `select` that fails with `WSAENOTSOCK` (10038). -/
def ex_select_error : uv_select_result :=
  { r := SOCKET_ERROR, WSAGetLastError := 10038, rfds := [], wfds := [], efds := [] }

/-- The slow-mode poll handle of the examples after `uv_poll_start` for
`UV_READABLE` and then for `UV_READABLE | UV_WRITABLE`: both requests are
outstanding. -/
def ex_slow_poll_both : uv_state Unit uv_poll_t :=
  uv_poll_do_call ex_poll_ops (.start (UV_READABLE ||| UV_WRITABLE) (some 1) none)
    (uv_poll_do_call ex_poll_ops (.start UV_READABLE (some 1) none) ex_slow_poll_state)

/-! ### The echo server (`test/echo-server.cpp`) -/

/-- Error code `UV_EOF` of `uv/errno.h`. -/
def UV_EOF : Int := -4095

/-- The close callbacks of the echo server. -/
inductive echo_close_cb
  | on_close
  | on_server_close
  deriving DecidableEq, Repr

/-- What `after_read` does, as an observer sees it: it frees a buffer,
closes a handle with a close callback, shuts a stream down, writes the first
`len` bytes of a buffer to a stream, fails an `ASSERT` or calls `FATAL`. -/
inductive echo_event
  | free (base : List Nat)
  | uv_close (handle : Nat) (close_cb : echo_close_cb)
  | uv_shutdown (handle : Nat)
  | uv_write (handle : Nat) (bytes : List Nat)
  | assert_failed
  | fatal
  deriving DecidableEq, Repr

/-- The outcomes of the library calls of `after_read`: whether `malloc`
succeeds, and the values `uv_shutdown` and `uv_write` return. -/
structure echo_os where
  malloc_ok : Bool
  uv_shutdown : Int
  uv_write : Int
  deriving DecidableEq, Repr

/-- The `for` loop of `after_read` that scans the buffer for the letter
`Q` (81), from the index `i`: whether the function returned from inside
the loop, the variable `server_closed` and the events. `server` is the
listening handle, `handle` the stream; `fuel` bounds the iterations, and
`i` is an `int`, which holds every index of a read of at most `INT_MAX`
bytes. -/
def after_read_scan (server handle : Nat) (base : List Nat) (nread : Int) :
    Nat → Nat → Int → List echo_event → Bool × Int × List echo_event
  | 0, _, server_closed, log => (false, server_closed, log)
  | fuel + 1, i, server_closed, log =>
    if (i : Int) < nread then
      if base.getD i 0 = 81 then
        if (i : Int) + 1 < nread ∧ base.getD (i + 1) 0 = 83 then
          (true, server_closed, log ++ [.free base, .uv_close handle .on_close])
        else
          after_read_scan server handle base nread fuel (i + 1) 1
            (log ++ [.uv_close server .on_server_close])
      else after_read_scan server handle base nread fuel (i + 1) server_closed log
    else (false, server_closed, log)

/-- Function `after_read` for the stream `handle`, a read result `nread` and
the buffer whose bytes are `base`: the variable `server_closed` afterwards
and the events, from the value of `server_closed` before. -/
def after_read (os : echo_os) (server : Nat) (server_closed : Int) (handle : Nat)
    (nread : Int) (base : List Nat) : Int × List echo_event :=
  if nread < 0 then
    let log : List echo_event := if nread = UV_EOF then [] else [.assert_failed]
    let log := log ++ [.free base, .uv_shutdown handle]
    (server_closed, if os.uv_shutdown = 0 then log else log ++ [.assert_failed])
  else if nread = 0 then (server_closed, [.free base])
  else
    let scan :=
      if server_closed = 0 then
        after_read_scan server handle base nread nread.toNat 0 server_closed []
      else (false, server_closed, [])
    if scan.1 then (scan.2.1, scan.2.2)
    else
      let log := if os.malloc_ok then scan.2.2 else scan.2.2 ++ [.assert_failed]
      let log := log ++ [.uv_write handle (base.take nread.toNat)]
      (scan.2.1, if os.uv_write ≠ 0 then log ++ [.fatal] else log)

/-- Library calls that all succeed. -/
def ex_echo_os : echo_os := { malloc_ok := true, uv_shutdown := 0, uv_write := 0 }

/-! ### The command line of a child process (`process.cpp`) -/

/-- C library function `wcspbrk(source, set)`: whether it finds a unit of
`set` in `source` (the result is not `nullptr`). -/
def wcspbrk (source set : List Nat) : Bool := source.any (fun c => c ∈ set)

/-- The `for` loop of `quote_cmd_arg`, from the value `i` of the loop
variable: `target` holds the units written from `start` on. The codes are
92 for the backslash and 34 for the double quote. -/
def quote_cmd_arg_loop (source : List Nat) : Nat → Bool → List Nat → List Nat
  | 0, _, target => target
  | i + 1, quote_hit, target =>
    let target := target ++ [source.getD i 0]
    if quote_hit = true ∧ source.getD i 0 = 92 then
      quote_cmd_arg_loop source i quote_hit (target ++ [92])
    else if source.getD i 0 = 34 then quote_cmd_arg_loop source i true (target ++ [92])
    else quote_cmd_arg_loop source i false target

/-- Function `quote_cmd_arg`: the units written to `target`, up to the
pointer the function returns. The terminator that the last branch writes
before `_wcsrev` is overwritten by the closing quote. -/
def quote_cmd_arg (source : List Nat) : List Nat :=
  let len := source.length
  if len = 0 then [34, 34]
  else if wcspbrk source [32, 9, 34] = false then source
  else if wcspbrk source [34, 92] = false then [34] ++ source ++ [34]
  else [34] ++ (quote_cmd_arg_loop source len true []).reverse ++ [34]

/-- The command-line rules of the Microsoft C runtime, as the decoding
claim words them, on the rest of the command line: `in_quotes` tells
whether a quoted part is open, `n` is the number of backslashes read and
not yet decided, and `cur` is the argument under construction (`none`
between arguments). An unquoted space (32) or tab (9) ends the argument;
`2n` backslashes before a double quote give `n` backslashes and toggle
quoting, `2n + 1` give `n` backslashes and a double quote; other
backslashes are literal. -/
def parse_cmdline_aux : List Nat → Bool → Nat → Option (List Nat) → List (List Nat)
  | [], _, n, cur =>
    if cur = none ∧ n = 0 then [] else [cur.getD [] ++ List.replicate n 92]
  | c :: rest, in_quotes, n, cur =>
    if c = 92 then parse_cmdline_aux rest in_quotes (n + 1) cur
    else if c = 34 then
      if n % 2 = 0 then
        parse_cmdline_aux rest (!in_quotes) 0 (some (cur.getD [] ++ List.replicate (n / 2) 92))
      else
        parse_cmdline_aux rest in_quotes 0
          (some (cur.getD [] ++ List.replicate (n / 2) 92 ++ [34]))
    else if (c = 32 ∨ c = 9) ∧ in_quotes = false then
      if cur = none ∧ n = 0 then parse_cmdline_aux rest false 0 none
      else (cur.getD [] ++ List.replicate n 92) :: parse_cmdline_aux rest false 0 none
    else parse_cmdline_aux rest in_quotes 0 (some (cur.getD [] ++ List.replicate n 92 ++ [c]))

/-- The arguments of a command line under the rules of
`parse_cmdline_aux`. -/
def parse_cmdline (cmdline : List Nat) : List (List Nat) :=
  parse_cmdline_aux cmdline false 0 none

/-- The escaped form of an argument read forwards, and the value of
`quote_hit` when the loop of `quote_cmd_arg`, which reads backwards, has
processed the argument. -/
def quote_cmd_arg_escape : List Nat → List Nat × Bool
  | [] => ([], true)
  | c :: t =>
    if (quote_cmd_arg_escape t).2 = true ∧ c = 92 then
      (92 :: 92 :: (quote_cmd_arg_escape t).1, true)
    else if c = 34 then (92 :: 34 :: (quote_cmd_arg_escape t).1, true)
    else (c :: (quote_cmd_arg_escape t).1, false)

/-- The units `s` written into a buffer from the offset `pos` on; `cells`
holds the units of the buffer from its start to the last one written so far
(a unit skipped over reads 0). -/
def wmem_write (cells : List Nat) (pos : Nat) (s : List Nat) : List Nat :=
  (cells ++ List.replicate (pos - cells.length) 0).take pos ++ s ++ cells.drop (pos + s.length)

/-- The first loop of `make_program_args`: `dst_len`, `temp_buffer_len`
and `arg_count` after it, `none` when a conversion fails. The conversions
are those of `uv_env_os`. -/
def make_program_args_count (os : uv_env_os) :
    List (List Nat) → Nat → Nat → Int → Option (Nat × Nat × Int)
  | [], dst_len, temp_buffer_len, arg_count => some (dst_len, temp_buffer_len, arg_count)
  | arg :: args, dst_len, temp_buffer_len, arg_count =>
    let arg_len := (MultiByteToWideChar os arg 0).1
    if arg_len = 0 then none
    else
      make_program_args_count os args (size_t ((dst_len : Int) + arg_len))
        (if size_t arg_len > temp_buffer_len then size_t arg_len else temp_buffer_len)
        (arg_count + 1)

/-- The second loop of `make_program_args`: the value returned and the
units of `dst` written, from the content of `temp_buffer`, the offset
`pos - dst` and the units written so far. In verbatim mode `wcscpy` writes
the argument and its terminator; otherwise `quote_cmd_arg` writes the quoted
argument (its temporary terminator is written where the closing quote goes). -/
def make_program_args_fill (os : uv_env_os) (verbatim_arguments : Bool) (dst_len : Nat) :
    List (List Nat) → List Nat → Nat → List Nat → Int × List Nat
  | [], _, _, cells => (0, cells)
  | arg :: args, temp_buffer, pos, cells =>
    let r := MultiByteToWideChar os arg (static_cast_int ((dst_len : Int) - pos))
    if r.1 = 0 then (os.GetLastError, cells)
    else
      let temp_buffer := r.2.getD temp_buffer
      let cells :=
        if verbatim_arguments then wmem_write cells pos (temp_buffer ++ [0])
        else wmem_write cells pos (quote_cmd_arg temp_buffer)
      let pos :=
        if verbatim_arguments then size_t ((pos : Int) + r.1 - 1)
        else pos + (quote_cmd_arg temp_buffer).length
      let cells := wmem_write cells pos [if args ≠ [] then 32 else 0]
      make_program_args_fill os verbatim_arguments dst_len args temp_buffer (pos + 1) cells

/-- Function `make_program_args`: the value returned, the number `dst_len`
of units allocated for `dst` and the units of `dst` written. The allocation
of `dst` succeeds when `os.dst_ok` is set, the one of `temp_buffer` when
`os.dst_copy_ok` is set, and `os.unwritten` is what `temp_buffer` holds at
first. -/
def make_program_args (os : uv_env_os) (args : List (List Nat)) (verbatim_arguments : Bool) :
    Int × Nat × List Nat :=
  match make_program_args_count os args 0 0 0 with
  | none => (os.GetLastError, 0, [])
  | some (dst_len, _, arg_count) =>
    let dst_len := size_t ((dst_len : Int) * 2 + arg_count * 2)
    if os.dst_ok = false then (ERROR_OUTOFMEMORY, dst_len, [])
    else if os.dst_copy_ok = false then (ERROR_OUTOFMEMORY, dst_len, [])
    else
      let r := make_program_args_fill os verbatim_arguments dst_len args os.unwritten 0 []
      (r.1, dst_len, r.2)

/-- The size the comment of `make_program_args` reserves for an argument
list: for every argument twice its wide length with the terminator, plus
two. -/
def make_program_args_need (os : uv_env_os) (args : List (List Nat)) : Nat :=
  (args.map (fun arg => 2 * (((os.utf16 arg).getD []).length + 1) + 2)).sum

/-- The sum of the wide lengths of the arguments, each with its
terminator. -/
def make_program_args_sum (os : uv_env_os) (args : List (List Nat)) : Nat :=
  (args.map (fun arg => ((os.utf16 arg).getD []).length + 1)).sum

/-! ### Runs of a slow-mode poll handle that use it as the interface allows -/

/-- Whether the event mask of a call is a subset of
`UV_READABLE | UV_WRITABLE`, the events a slow-mode handle can watch. -/
def uv_poll_call_valid : uv_poll_call → Bool
  | .start events _ _ => events &&& (UV_READABLE ||| UV_WRITABLE) == events
  | _ => true

/-- Whether the calls a callback makes on its handle are allowed: every mask
is a subset of `UV_READABLE | UV_WRITABLE` and no call follows `uv_close`. -/
def uv_poll_calls_valid : List uv_poll_call → Bool
  | [] => true
  | .close _ _ :: rest => rest.isEmpty
  | c :: rest => uv_poll_call_valid c && uv_poll_calls_valid rest

/-- Whether a step can happen in a state: a call of the user is made on a
handle that is not closing, with a mask that is a subset of
`UV_READABLE | UV_WRITABLE`; a request that completes is outstanding; the
endgame is run for a handle on the endgame list. -/
def uv_poll_input_valid {W : Type} (inp : uv_poll_input) (st : uv_state W uv_poll_t) : Bool :=
  match inp with
  | .call c => !st.handle.flags.closing && uv_poll_call_valid c
  | .complete c => uv_poll_outstanding c.req st.handle
  | .endgame => st.handle.flags.endgame_queued

/-- Whether every step of a run can happen in the state the steps before it
lead to. -/
def uv_poll_inputs_valid {W : Type} (ops : uv_poll_ops) :
    List uv_poll_input → uv_state W uv_poll_t → Bool
  | [], _ => true
  | inp :: rest, st =>
    uv_poll_input_valid inp st &&
      match uv_poll_step ops inp st with
      | some st1 => uv_poll_inputs_valid ops rest st1
      | none => false

/-- The invariants of a slow-mode poll handle at `addr` together: the closing
protocol, the request slots, and the slow mode itself. -/
def uv_poll_safe {W : Type} (strict : Bool) (addr : Nat) (st : uv_state W uv_poll_t) : Prop :=
  uv_poll_inv strict addr st.handle.core st.log ∧ uv_poll_slots_inv st.handle.core ∧
  st.handle.flags.poll_slow = true

/-- A poll callback that watches both events again whenever it is called. -/
def ex_poll_restart_ops : uv_poll_ops :=
  { ex_req_ops with
    poll_cb := fun _ _ _ _ _ => [.start (UV_READABLE ||| UV_WRITABLE) (some 1) none] }

/-- A run of a slow-mode handle: readability is watched, then writability, and
the second request completes reporting writability, upon which the callback
watches both events again; both requests are then outstanding. -/
def ex_slow_poll_inputs : List uv_poll_input :=
  [ .call (.start UV_READABLE (some 1) none),
    .call (.start UV_WRITABLE (some 1) none),
    .complete { req := .poll_req_2, status := 0, InternalHigh := UV_WRITABLE,
                NumberOfHandles := 0, Events := 0, os_error := none } ]

end Uv

namespace Uv

/-! ## Theorems about `uv_run` -/

theorem uv__loop_alive_eq_zero_iff {W : Type} (loop : uv_loop_t W) :
    uv__loop_alive loop = 0 ↔ uv_loop_idle loop := by
  unfold uv__loop_alive uv_loop_idle uv__has_active_handles uv__has_active_reqs
  by_cases h1 : 0 < loop.active_handles <;> by_cases h2 : 0 < loop.active_reqs_count <;>
    by_cases h3 : loop.endgame_handles = [] <;> simp [h1, h2, h3] <;> omega

theorem uv__loop_alive_cases {W : Type} (loop : uv_loop_t W) :
    uv__loop_alive loop = 0 ∨ uv__loop_alive loop = 1 := by
  unfold uv__loop_alive
  split <;> simp

theorem uv__loop_alive_update_time {W : Type} (ops : uv_loop_ops W) (loop : uv_loop_t W) :
    uv__loop_alive (uv_update_time ops loop) = uv__loop_alive loop := rfl

theorem uv__loop_alive_stop_flag {W : Type} (loop : uv_loop_t W) (v : Nat) :
    uv__loop_alive { loop with stop_flag := v } = uv__loop_alive loop := rfl

theorem uv_run_body_r {W : Type} (ops : uv_loop_ops W) (mode : uv_run_mode)
    (st : uv_run_state W) :
    (uv_run_body ops mode st).r = uv__loop_alive (uv_run_body ops mode st).loop := rfl

theorem uv_run_enter_r {W : Type} (ops : uv_loop_ops W) (loop : uv_loop_t W) :
    (uv_run_enter ops loop).r = uv__loop_alive (uv_run_enter ops loop).loop := by
  unfold uv_run_enter
  by_cases h : uv__loop_alive loop = 0
  · simp [h, uv_call, uv__loop_alive_update_time]
  · simp [h]

theorem uv_run_iterate_r {W : Type} (ops : uv_loop_ops W) (mode : uv_run_mode)
    (n : Nat) (st : uv_run_state W) (h : st.r = uv__loop_alive st.loop) :
    ((uv_run_body ops mode)^[n] st).r = uv__loop_alive ((uv_run_body ops mode)^[n] st).loop := by
  induction n generalizing st with
  | zero => simpa using h
  | succ n ih =>
    rw [Function.iterate_succ_apply]
    exact ih _ (uv_run_body_r ops mode st)

/-- The `while` loop in `UV_RUN_DEFAULT` mode returns exactly the first state,
among those the iterations produce, in which the loop condition fails. -/
theorem uv_run_while_default_iff {W : Type} (ops : uv_loop_ops W) (fuel : Nat)
    (st res : uv_run_state W) :
    uv_run_while ops .UV_RUN_DEFAULT fuel st = some res ↔
      ∃ n, n ≤ fuel ∧ (∀ k, k < n → uv_run_cond ((uv_run_body ops .UV_RUN_DEFAULT)^[k] st)) ∧
        ¬ uv_run_cond ((uv_run_body ops .UV_RUN_DEFAULT)^[n] st) ∧
        res = (uv_run_body ops .UV_RUN_DEFAULT)^[n] st := by
  induction fuel generalizing st with
  | zero =>
    unfold uv_run_while
    by_cases hc : uv_run_cond st
    · simp only [hc, if_true]
      constructor
      · intro h; cases h
      · rintro ⟨n, hn, _, hnc, _⟩
        have : n = 0 := by omega
        subst this
        exact absurd hc hnc
    · simp only [hc, if_false]
      constructor
      · intro h
        refine ⟨0, le_refl _, ?_, hc, ?_⟩
        · intro k hk; omega
        · simpa using (Option.some.inj h).symm
      · rintro ⟨n, hn, _, _, hres⟩
        have : n = 0 := by omega
        subst this
        simp [hres]
  | succ fuel ih =>
    unfold uv_run_while
    by_cases hc : uv_run_cond st
    · simp only [hc, if_true]
      have hm : ¬ (uv_run_mode.UV_RUN_DEFAULT = .UV_RUN_ONCE ∨
          uv_run_mode.UV_RUN_DEFAULT = .UV_RUN_NOWAIT) := by decide
      simp only [hm, if_false]
      rw [ih]
      constructor
      · rintro ⟨n, hn, hk, hnc, hres⟩
        refine ⟨n + 1, by omega, ?_, ?_, ?_⟩
        · intro k hk1
          cases k with
          | zero => simpa using hc
          | succ k =>
            rw [Function.iterate_succ_apply]
            exact hk k (by omega)
        · rw [Function.iterate_succ_apply]; exact hnc
        · rw [Function.iterate_succ_apply]; exact hres
      · rintro ⟨n, hn, hk, hnc, hres⟩
        cases n with
        | zero => exact absurd hc (by simpa using hnc)
        | succ n =>
          refine ⟨n, by omega, ?_, ?_, ?_⟩
          · intro k hk1
            have := hk (k + 1) (by omega)
            rwa [Function.iterate_succ_apply] at this
          · rwa [Function.iterate_succ_apply] at hnc
          · rwa [Function.iterate_succ_apply] at hres
    · simp only [hc, if_false]
      constructor
      · intro h
        refine ⟨0, by omega, ?_, hc, ?_⟩
        · intro k hk; omega
        · simpa using (Option.some.inj h).symm
      · rintro ⟨n, hn, hk, _, hres⟩
        cases n with
        | zero => simp [hres]
        | succ n => exact absurd (by simpa using hk 0 (by omega)) hc

theorem uv_run_body_trace {W : Type} (ops : uv_loop_ops W) (mode : uv_run_mode)
    (st : uv_run_state W) :
    ∃ t, (uv_run_body ops mode st).trace
        = st.trace ++ uv_iteration_phases ops.pGetQueuedCompletionStatusEx mode t ∧
      (mode = .UV_RUN_NOWAIT → t = 0) := by
  refine ⟨uv_run_timeout mode
    (ops.uv_process_reqs (ops.uv__run_timers (uv_update_time ops st.loop))).2
    (ops.uv_prepare_invoke (ops.uv_idle_invoke
      (ops.uv_process_reqs (ops.uv__run_timers (uv_update_time ops st.loop))).1)), ?_, ?_⟩
  · unfold uv_run_body uv_run_poll uv_iteration_phases
    cases hex : ops.pGetQueuedCompletionStatusEx <;> cases mode <;> simp [uv_call]
  · intro hm
    subst hm
    simp [uv_run_timeout]

theorem uv_run_while_r {W : Type} (ops : uv_loop_ops W) (mode : uv_run_mode) (fuel : Nat)
    (st res : uv_run_state W) (hr : st.r = uv__loop_alive st.loop)
    (h : uv_run_while ops mode fuel st = some res) :
    res.r = uv__loop_alive res.loop := by
  induction fuel generalizing st with
  | zero =>
    unfold uv_run_while at h
    split at h
    · cases h
    · cases h; exact hr
  | succ fuel ih =>
    unfold uv_run_while at h
    split at h
    · simp only at h
      split at h
      · cases h; exact uv_run_body_r ops mode st
      · exact ih _ (uv_run_body_r ops mode st) h
    · cases h; exact hr

theorem uv_run_while_exit {W : Type} (ops : uv_loop_ops W) (mode : uv_run_mode) (fuel : Nat)
    (st res : uv_run_state W) (h : uv_run_while ops mode fuel st = some res) :
    mode = .UV_RUN_DEFAULT → ¬ uv_run_cond res := by
  intro hm
  subst hm
  obtain ⟨n, _, _, hnc, hres⟩ := (uv_run_while_default_iff ops fuel st res).1 h
  rw [hres]; exact hnc

theorem uv_run_while_of_not_cond {W : Type} (ops : uv_loop_ops W) (mode : uv_run_mode)
    (fuel : Nat) (st : uv_run_state W) (h : ¬ uv_run_cond st) :
    uv_run_while ops mode fuel st = some st := by
  cases fuel <;> simp [uv_run_while, h]

theorem uv_run_while_single {W : Type} (ops : uv_loop_ops W) (mode : uv_run_mode)
    (fuel : Nat) (st : uv_run_state W) (hm : mode ≠ .UV_RUN_DEFAULT) :
    uv_run_while ops mode (fuel + 1) st
      = some (if uv_run_cond st then uv_run_body ops mode st else st) := by
  unfold uv_run_while
  have : mode = .UV_RUN_ONCE ∨ mode = .UV_RUN_NOWAIT := by
    cases mode <;> simp at hm ⊢
  by_cases hc : uv_run_cond st <;> simp [hc, this]

theorem uv_run_while_halts {W : Type} (ops : uv_loop_ops W) (mode : uv_run_mode)
    (fuel : Nat) (st : uv_run_state W)
    (h : ∃ n, n ≤ fuel ∧ ¬ uv_run_cond ((uv_run_body ops mode)^[n] st)) :
    ∃ res, uv_run_while ops mode fuel st = some res := by
  induction fuel generalizing st with
  | zero =>
    obtain ⟨n, hn, hnc⟩ := h
    have : n = 0 := by omega
    subst this
    exact ⟨st, uv_run_while_of_not_cond ops mode 0 st (by simpa using hnc)⟩
  | succ fuel ih =>
    by_cases hc : uv_run_cond st
    · by_cases hm : mode = .UV_RUN_DEFAULT
      · obtain ⟨n, hn, hnc⟩ := h
        cases n with
        | zero => exact absurd hc (by simpa using hnc)
        | succ n =>
          rw [Function.iterate_succ_apply] at hnc
          obtain ⟨res, hres⟩ := ih (uv_run_body ops mode st) ⟨n, by omega, hnc⟩
          refine ⟨res, ?_⟩
          unfold uv_run_while
          subst hm
          simpa [hc] using hres
      · exact ⟨_, uv_run_while_single ops mode fuel st hm⟩
    · exact ⟨st, uv_run_while_of_not_cond ops mode _ st hc⟩

theorem uv_run_while_trace {W : Type} (ops : uv_loop_ops W) (mode : uv_run_mode) (fuel : Nat)
    (st res : uv_run_state W) (h : uv_run_while ops mode fuel st = some res) :
    ∃ ts : List Nat, res.trace = st.trace
        ++ (ts.map (uv_iteration_phases ops.pGetQueuedCompletionStatusEx mode)).flatten ∧
      ts.length ≤ fuel ∧ (mode ≠ .UV_RUN_DEFAULT → ts.length ≤ 1) ∧
      (mode = .UV_RUN_NOWAIT → ∀ t ∈ ts, t = 0) ∧
      (uv_run_cond st → 0 < ts.length) := by
  induction fuel generalizing st with
  | zero =>
    unfold uv_run_while at h
    split at h
    · cases h
    · next hc => cases h; exact ⟨[], by simp, by simp, by simp, by simp, fun h => absurd h hc⟩
  | succ fuel ih =>
    unfold uv_run_while at h
    split at h
    · simp only at h
      obtain ⟨t, ht, ht0⟩ := uv_run_body_trace ops mode st
      split at h
      · next hm =>
        cases h
        refine ⟨[t], by simpa using ht, by simp, by simp, ?_, by simp⟩
        intro hn u hu
        simp only [List.mem_singleton] at hu
        rw [hu]; exact ht0 hn
      · next hm =>
        obtain ⟨ts, hts, hlen, _, hz, _⟩ := ih _ h
        refine ⟨t :: ts, ?_, by simp; omega, ?_, ?_, by simp⟩
        · rw [hts, ht]; simp
        · intro hd; exfalso; apply hm; cases mode <;> simp at hd ⊢
        · intro hn; exfalso; apply hm; right; exact hn
    · next hc => cases h; exact ⟨[], by simp, by simp, by simp, by simp, fun h => absurd h hc⟩

/-! ### C1 -/

/-- C1, counterexample. An idle callback calls `uv_stop` on a loop with one
active handle: `uv_run` in `UV_RUN_DEFAULT` mode returns after that iteration
with `r = 1` and the handle still active. -/
theorem uv_run_default_exit_counterexample :
    ∃ res, uv_run ex_stop_ops 1 .UV_RUN_DEFAULT ex_loop = some res ∧
      res.r = 1 ∧ res.loop.active_handles = 1 ∧ ¬ uv_loop_idle res.loop := by
  refine ⟨{ r := 1, loop := { ex_loop with time := 5 }, trace :=
    uv_iteration_phases true .UV_RUN_DEFAULT 0 }, ?_, rfl, rfl, ?_⟩
  · decide
  · simp [uv_loop_idle, ex_loop]

/-- C1, amended. `uv_run` in `UV_RUN_DEFAULT` mode returns exactly when the
state reached after some number `n` of iterations fails the loop condition and
the states before it did not; that state has no active handle, no active
request and an empty endgame list, or a nonzero stop flag; the value returned
is 0 if and only if all three are empty; no iteration starts from a state in
which all three are empty; and `uv_run` does return as soon as the fuel covers
the iterations up to a state in which all three are empty or the stop flag is
set. -/
theorem uv_run_default_exit {W : Type} (ops : uv_loop_ops W) (fuel : Nat)
    (loop : uv_loop_t W) :
    (∀ res, uv_run ops fuel .UV_RUN_DEFAULT loop = some res →
      ∃ n st, n ≤ fuel ∧
        st = (uv_run_body ops .UV_RUN_DEFAULT)^[n] (uv_run_enter ops loop) ∧
        res = uv_run_leave st ∧
        (uv_loop_idle st.loop ∨ st.loop.stop_flag ≠ 0) ∧
        (res.r = 0 ↔ uv_loop_idle res.loop) ∧
        (∀ k, k < n →
          ¬ uv_loop_idle ((uv_run_body ops .UV_RUN_DEFAULT)^[k] (uv_run_enter ops loop)).loop ∧
          ((uv_run_body ops .UV_RUN_DEFAULT)^[k] (uv_run_enter ops loop)).loop.stop_flag = 0)) ∧
    (∀ n, n ≤ fuel →
      (uv_loop_idle ((uv_run_body ops .UV_RUN_DEFAULT)^[n] (uv_run_enter ops loop)).loop ∨
        ((uv_run_body ops .UV_RUN_DEFAULT)^[n] (uv_run_enter ops loop)).loop.stop_flag ≠ 0) →
      ∃ res, uv_run ops fuel .UV_RUN_DEFAULT loop = some res) := by
  have hiter : ∀ k, ((uv_run_body ops .UV_RUN_DEFAULT)^[k] (uv_run_enter ops loop)).r
      = uv__loop_alive ((uv_run_body ops .UV_RUN_DEFAULT)^[k] (uv_run_enter ops loop)).loop :=
    fun k => uv_run_iterate_r ops _ k _ (uv_run_enter_r ops loop)
  constructor
  · intro res h
    unfold uv_run at h
    rw [Option.map_eq_some'] at h
    obtain ⟨st, hst, hres⟩ := h
    obtain ⟨n, hn, hk, hnc, hstn⟩ := (uv_run_while_default_iff ops fuel _ st).1 hst
    refine ⟨n, st, hn, hstn, hres.symm, ?_, ?_, ?_⟩
    · rw [hstn]
      unfold uv_run_cond at hnc
      rw [hiter n] at hnc
      by_cases hs : ((uv_run_body ops .UV_RUN_DEFAULT)^[n] (uv_run_enter ops loop)).loop.stop_flag = 0
      · left
        rw [← uv__loop_alive_eq_zero_iff]
        by_contra hne
        exact hnc ⟨hne, hs⟩
      · right; exact hs
    · have hr : st.r = uv__loop_alive st.loop := by rw [hstn]; exact hiter n
      rw [← hres, ← uv__loop_alive_eq_zero_iff]
      unfold uv_run_leave
      split
      · simp only [hr]; rfl
      · rw [hr]
    · intro k hkn
      have hc := hk k hkn
      unfold uv_run_cond at hc
      rw [hiter k, Ne, uv__loop_alive_eq_zero_iff] at hc
      exact hc
  · intro n hn hh
    have : ∃ res, uv_run_while ops .UV_RUN_DEFAULT fuel (uv_run_enter ops loop) = some res := by
      apply uv_run_while_halts
      refine ⟨n, hn, ?_⟩
      unfold uv_run_cond
      rw [hiter n, Ne, uv__loop_alive_eq_zero_iff]
      rintro ⟨h1, h2⟩
      rcases hh with h | h
      · exact h1 h
      · exact h h2
    obtain ⟨res, hres⟩ := this
    exact ⟨uv_run_leave res, by simp [uv_run, hres]⟩

/-- C1, the amended statement at a concrete loop: the check callback closes
the last handle, and `uv_run` returns 0 after one iteration. -/
theorem uv_run_default_exit_witness :
    (∃ res, uv_run ex_close_ops 3 .UV_RUN_DEFAULT ex_loop = some res) ∧
    (uv_run ex_close_ops 3 .UV_RUN_DEFAULT ex_loop).map (fun res => res.r) = some 0 :=
  ⟨(uv_run_default_exit ex_close_ops 3 ex_loop).2 1 (by decide) (Or.inl (by decide)),
    by decide⟩

/-! ### C2 -/

/-- C2. In every mode, the value `uv_run` returns is `uv_loop_alive` of the
loop it leaves: it is nonzero if and only if that loop has an active handle,
an active request or a non-empty endgame list. This covers the run without
any iteration, which returns for every fuel; in `UV_RUN_ONCE` and
`UV_RUN_NOWAIT` mode `uv_run` returns for every positive fuel, and in every
mode it returns once the fuel covers the iterations up to a state that fails
the loop condition. -/
theorem uv_run_returns_loop_alive {W : Type} (ops : uv_loop_ops W) (fuel : Nat)
    (mode : uv_run_mode) (loop : uv_loop_t W) :
    (∀ res, uv_run ops fuel mode loop = some res →
      res.r = uv_loop_alive res.loop ∧
      (res.r ≠ 0 ↔ (0 < res.loop.active_handles ∨ 0 < res.loop.active_reqs_count ∨
        res.loop.endgame_handles ≠ []))) ∧
    (¬ uv_run_cond (uv_run_enter ops loop) →
      uv_run ops fuel mode loop = some (uv_run_leave (uv_run_enter ops loop))) ∧
    (mode ≠ .UV_RUN_DEFAULT → 0 < fuel → ∃ res, uv_run ops fuel mode loop = some res) ∧
    (∀ n, n ≤ fuel → ¬ uv_run_cond ((uv_run_body ops mode)^[n] (uv_run_enter ops loop)) →
      ∃ res, uv_run ops fuel mode loop = some res) := by
  refine ⟨?_, ?_, ?_, ?_⟩
  · intro res h
    unfold uv_run at h
    rw [Option.map_eq_some'] at h
    obtain ⟨st, hst, hres⟩ := h
    have hr : st.r = uv__loop_alive st.loop :=
      uv_run_while_r ops mode fuel _ st (uv_run_enter_r ops loop) hst
    have hr2 : res.r = uv__loop_alive res.loop := by
      rw [← hres]
      unfold uv_run_leave
      split
      · simp only [hr]; rfl
      · exact hr
    refine ⟨hr2, ?_⟩
    rw [hr2, Ne, uv__loop_alive_eq_zero_iff]
    unfold uv_loop_idle
    constructor
    · intro h
      by_contra hcon
      push_neg at hcon
      exact h ⟨by omega, by omega, hcon.2.2⟩
    · rintro h ⟨h1, h2, h3⟩
      rcases h with h | h | h
      · omega
      · omega
      · exact h h3
  · intro hc
    simp [uv_run, uv_run_while_of_not_cond ops mode fuel _ hc]
  · intro hm hf
    obtain ⟨k, rfl⟩ : ∃ k, fuel = k + 1 := ⟨fuel - 1, by omega⟩
    refine ⟨uv_run_leave (if uv_run_cond (uv_run_enter ops loop)
      then uv_run_body ops mode (uv_run_enter ops loop) else uv_run_enter ops loop), ?_⟩
    simp [uv_run, uv_run_while_single ops mode k _ hm]
  · intro n hn hnc
    obtain ⟨res, hres⟩ := uv_run_while_halts ops mode fuel _ ⟨n, hn, hnc⟩
    exact ⟨uv_run_leave res, by simp [uv_run, hres]⟩

/-- C2 at concrete loops: a run of one iteration in `UV_RUN_ONCE` mode that
returns 1 with the handle still active, and a run without iteration. -/
theorem uv_run_returns_loop_alive_witness :
    (∃ res, uv_run ex_stop_ops 1 .UV_RUN_ONCE ex_loop = some res) ∧
    (uv_run ex_stop_ops 1 .UV_RUN_ONCE ex_loop).map (fun res => (res.r, res.loop.active_handles))
      = some (1, 1) ∧
    (uv_run ex_stop_ops 0 .UV_RUN_NOWAIT { ex_loop with active_handles := 0 }).map
      (fun res => (res.r, res.trace)) = some (0, [.update_time]) :=
  ⟨(uv_run_returns_loop_alive ex_stop_ops 1 .UV_RUN_ONCE ex_loop).2.2.1 (by decide) (by decide),
    by decide, by decide⟩

/-! ### C3 -/

/-- C3. The trace of a run of `uv_run` is the optional time refresh made
before the loop when the loop is not alive at entry, followed by whole
iterations only, each of which is the list of phases in the order refresh
time, timers, pending requests, idle, prepare, poll, check, endgames, and in
`UV_RUN_ONCE` mode timers once more; and the loop an iteration leaves is the
composition of the phases in that order. -/
theorem uv_run_phase_order {W : Type} (ops : uv_loop_ops W) (fuel : Nat)
    (mode : uv_run_mode) (loop : uv_loop_t W) (res : uv_run_state W)
    (h : uv_run ops fuel mode loop = some res) :
    (∃ ts : List Nat,
      res.trace = (if uv__loop_alive loop = 0 then [uv_phase.update_time] else [])
        ++ (ts.map (uv_iteration_phases ops.pGetQueuedCompletionStatusEx mode)).flatten ∧
      ts.length ≤ fuel ∧ (mode ≠ .UV_RUN_DEFAULT → ts.length ≤ 1)) ∧
    (∀ st : uv_run_state W,
      (uv_run_body ops mode st).loop =
        let l1 := uv_update_time ops st.loop
        let l2 := ops.uv__run_timers l1
        let l3 := (ops.uv_process_reqs l2).1
        let l4 := ops.uv_idle_invoke l3
        let l5 := ops.uv_prepare_invoke l4
        let t := uv_run_timeout mode (ops.uv_process_reqs l2).2 l5
        let l6 := if ops.pGetQueuedCompletionStatusEx then ops.uv__poll l5 t
          else ops.uv__poll_wine l5 t
        let l7 := ops.uv_check_invoke l6
        let l8 := ops.uv_process_endgames l7
        if mode = .UV_RUN_ONCE then ops.uv__run_timers l8 else l8) := by
  constructor
  · unfold uv_run at h
    rw [Option.map_eq_some'] at h
    obtain ⟨st, hst, hres⟩ := h
    obtain ⟨ts, hts, hlen, hone, _, _⟩ := uv_run_while_trace ops mode fuel _ st hst
    refine ⟨ts, ?_, hlen, hone⟩
    have htr : res.trace = st.trace := by
      rw [← hres]; unfold uv_run_leave; split <;> rfl
    rw [htr, hts]
    congr 1
    unfold uv_run_enter
    by_cases ha : uv__loop_alive loop = 0 <;> simp [ha, uv_call]
  · intro st
    unfold uv_run_body uv_run_poll
    cases ops.pGetQueuedCompletionStatusEx <;> cases mode <;> simp [uv_call]

/-- C3 at a concrete loop: one iteration in `UV_RUN_ONCE` mode. -/
theorem uv_run_phase_order_witness :
    ∃ ts : List Nat,
      [uv_phase.update_time, .run_timers, .process_reqs, .idle_invoke, .prepare_invoke,
        .poll 0, .check_invoke, .process_endgames, .run_timers]
        = (if uv__loop_alive ex_loop = 0 then [uv_phase.update_time] else [])
          ++ (ts.map (uv_iteration_phases
            ex_stop_ops.pGetQueuedCompletionStatusEx .UV_RUN_ONCE)).flatten ∧
      ts.length ≤ 1 ∧ (uv_run_mode.UV_RUN_ONCE ≠ .UV_RUN_DEFAULT → ts.length ≤ 1) :=
  (uv_run_phase_order ex_stop_ops 1 .UV_RUN_ONCE ex_loop
    { r := 1, loop := { ex_loop with time := 5 }, trace :=
      [.update_time, .run_timers, .process_reqs, .idle_invoke, .prepare_invoke,
        .poll 0, .check_invoke, .process_endgames, .run_timers] } (by decide)).1

/-! ### C4 -/

/-- C4. `uv_backend_timeout` is 0 when the stop flag is set, or the
pending-request queue, the endgame list or the idle list is not empty, or
there is no active handle and no active request; in every other state it is
`uv__next_timeout`, which is -1 without a timer and else the time to the
earliest deadline. -/
theorem uv_backend_timeout_cases {W : Type} (loop : uv_loop_t W) :
    ((loop.stop_flag ≠ 0 ∨ loop.pending_reqs_tail ≠ [] ∨ loop.endgame_handles ≠ [] ∨
        loop.idle_handles ≠ [] ∨
        (loop.active_handles = 0 ∧ loop.active_reqs_count = 0)) →
      uv_backend_timeout loop = 0) ∧
    (¬ (loop.stop_flag ≠ 0 ∨ loop.pending_reqs_tail ≠ [] ∨ loop.endgame_handles ≠ [] ∨
        loop.idle_handles ≠ [] ∨
        (loop.active_handles = 0 ∧ loop.active_reqs_count = 0)) →
      uv_backend_timeout loop = uv__next_timeout loop) ∧
    (loop.timer_heap = [] → uv__next_timeout loop = -1) ∧
    (∀ d, loop.timer_heap.min? = some d →
      uv__next_timeout loop = ((min (d - loop.time) INT_MAX : Nat) : Int)) := by
  refine ⟨?_, ?_, ?_, ?_⟩
  · intro h
    unfold uv_backend_timeout uv__has_active_handles uv__has_active_reqs
    by_cases h1 : loop.stop_flag ≠ 0
    · simp [h1]
    · by_cases h2 : loop.active_handles = 0 ∧ loop.active_reqs_count = 0
      · simp [h2.1, h2.2]
      · by_cases h3 : loop.pending_reqs_tail ≠ []
        · simp [h3]
        · by_cases h4 : loop.endgame_handles ≠ []
          · simp [h4]
          · by_cases h5 : loop.idle_handles ≠ []
            · simp [h5]
            · exfalso
              rcases h with h | h | h | h | h
              · exact h1 h
              · exact h3 h
              · exact h4 h
              · exact h5 h
              · exact h2 h
  · intro h
    push_neg at h
    obtain ⟨h1, h2, h3, h4, h5⟩ := h
    unfold uv_backend_timeout uv__has_active_handles uv__has_active_reqs
    have h6 : ¬ (loop.active_handles = 0 ∧ loop.active_reqs_count = 0) := fun hh => h5 hh.1 hh.2
    have h7 : (!decide (0 < loop.active_handles) && !decide (0 < loop.active_reqs_count)) = false := by
      by_cases ha : 0 < loop.active_handles
      · simp [ha]
      · by_cases hb : 0 < loop.active_reqs_count
        · simp [hb]
        · exfalso; exact h6 ⟨by omega, by omega⟩
    simp [h1, h2, h3, h4, h7]
  · intro h
    simp [uv__next_timeout, h]
  · intro d h
    simp [uv__next_timeout, h]

/-- C4 at a concrete loop: an active handle and a timer due at 30 while the
loop time is 10 give a timeout of 20. -/
theorem uv_backend_timeout_cases_witness :
    uv_backend_timeout { ex_loop with idle_handles := [], timer_heap := [40, 30], time := 10 }
      = 20 := by
  rw [(uv_backend_timeout_cases _).2.1 (by decide), (uv_backend_timeout_cases _).2.2.2 30 (by decide)]
  decide

/-! ### C5 -/

/-- C5. When the loop is alive and its stop flag is nonzero, `uv_run` in any
mode and for any fuel returns 1, calls no phase and changes nothing but the
stop flag, which it resets to 0; and the same holds at the top of any later
iteration: from the loop test with `r` nonzero and the stop flag set, the rest
of the run adds no phase to the trace, leaves every field but the stop flag
and returns `r`. -/
theorem uv_run_stop_flag {W : Type} (ops : uv_loop_ops W) (fuel : Nat)
    (mode : uv_run_mode) (loop : uv_loop_t W)
    (halive : uv_loop_alive loop ≠ 0) (hstop : loop.stop_flag ≠ 0) :
    uv_run ops fuel mode loop
      = some { r := 1, loop := { loop with stop_flag := 0 }, trace := [] } ∧
    (∀ (r : Int) (tr : List uv_phase), r ≠ 0 →
      (uv_run_while ops mode fuel { r := r, loop := loop, trace := tr }).map uv_run_leave
        = some { r := r, loop := { loop with stop_flag := 0 }, trace := tr }) := by
  have hwhile : ∀ (r : Int) (tr : List uv_phase),
      (uv_run_while ops mode fuel { r := r, loop := loop, trace := tr }).map uv_run_leave
        = some { r := r, loop := { loop with stop_flag := 0 }, trace := tr } := by
    intro r tr
    rw [uv_run_while_of_not_cond]
    · simp [uv_run_leave, hstop]
    · unfold uv_run_cond
      rintro ⟨_, h⟩
      exact hstop h
  refine ⟨?_, fun r tr _ => hwhile r tr⟩
  have h1 : uv__loop_alive loop = 1 := by
    rcases uv__loop_alive_cases loop with h | h
    · exact absurd h halive
    · exact h
  have he : uv_run_enter ops loop = { r := 1, loop := loop, trace := [] } := by
    simp [uv_run_enter, h1]
  unfold uv_run
  rw [he]
  exact hwhile 1 []

/-- C5 at a concrete loop: one active handle and the stop flag set. -/
theorem uv_run_stop_flag_witness :
    uv_run ex_close_ops 0 .UV_RUN_DEFAULT { ex_loop with stop_flag := 1 }
      = some { r := 1, loop := ex_loop, trace := [] } :=
  (uv_run_stop_flag ex_close_ops 0 .UV_RUN_DEFAULT { ex_loop with stop_flag := 1 }
    (by decide) (by decide)).1

/-! ### C6 -/

/-- C6. In `UV_RUN_NOWAIT` mode `uv_run` returns for every loop and every
positive fuel; its trace is empty, or the single time refresh made when the
loop is not alive, or exactly one iteration whose poll is called with timeout
0; so the poller is called at most once and only with timeout 0. -/
theorem uv_run_nowait {W : Type} (ops : uv_loop_ops W) (fuel : Nat) (loop : uv_loop_t W) :
    ∃ res, uv_run ops (fuel + 1) .UV_RUN_NOWAIT loop = some res ∧
      (res.trace = [] ∨ res.trace = [.update_time] ∨
        res.trace = uv_iteration_phases ops.pGetQueuedCompletionStatusEx .UV_RUN_NOWAIT 0) ∧
      (uv_poll_timeouts res.trace = [] ∨ uv_poll_timeouts res.trace = [0]) := by
  have hs := uv_run_while_single ops .UV_RUN_NOWAIT fuel (uv_run_enter ops loop) (by decide)
  have key : ∀ res : uv_run_state W, (res.trace = [] ∨ res.trace = [.update_time] ∨
        res.trace = uv_iteration_phases ops.pGetQueuedCompletionStatusEx .UV_RUN_NOWAIT 0) →
      (uv_poll_timeouts res.trace = [] ∨ uv_poll_timeouts res.trace = [0]) := by
    intro res h
    rcases h with h | h | h
    · left; rw [h]; rfl
    · left; rw [h]; rfl
    · right; rw [h]
      cases ops.pGetQueuedCompletionStatusEx <;> rfl
  have htr : ∀ st : uv_run_state W, (uv_run_leave st).trace = st.trace := by
    intro st; unfold uv_run_leave; split <;> rfl
  have hmain : ((uv_run_leave (if uv_run_cond (uv_run_enter ops loop)
      then uv_run_body ops .UV_RUN_NOWAIT (uv_run_enter ops loop)
      else uv_run_enter ops loop)).trace = [] ∨
      (uv_run_leave (if uv_run_cond (uv_run_enter ops loop)
      then uv_run_body ops .UV_RUN_NOWAIT (uv_run_enter ops loop)
      else uv_run_enter ops loop)).trace = [.update_time] ∨
      (uv_run_leave (if uv_run_cond (uv_run_enter ops loop)
      then uv_run_body ops .UV_RUN_NOWAIT (uv_run_enter ops loop)
      else uv_run_enter ops loop)).trace
        = uv_iteration_phases ops.pGetQueuedCompletionStatusEx .UV_RUN_NOWAIT 0) := by
    rw [htr]
    by_cases hc : uv_run_cond (uv_run_enter ops loop)
    · simp only [hc, if_true]
      obtain ⟨t, ht, ht0⟩ := uv_run_body_trace ops .UV_RUN_NOWAIT (uv_run_enter ops loop)
      have hne : uv__loop_alive loop ≠ 0 := by
        intro h0
        apply hc.1
        simp [uv_run_enter, h0]
      have he : (uv_run_enter ops loop).trace = [] := by
        simp [uv_run_enter, hne]
      right; right
      rw [ht, he, ht0 rfl]; rfl
    · simp only [hc, if_false]
      unfold uv_run_enter
      by_cases ha : uv__loop_alive loop = 0
      · right; left; simp [ha, uv_call]
      · left; simp [ha]
  refine ⟨_, ?_, hmain, key _ hmain⟩
  simp [uv_run, hs]

/-- C6 at a concrete loop with an active handle and a timer: the poll of the
only iteration gets timeout 0. -/
theorem uv_run_nowait_witness :
    (uv_run ex_close_ops 1 .UV_RUN_NOWAIT { ex_loop with idle_handles := [], timer_heap := [40] }).map
      (fun res => uv_poll_timeouts res.trace) = some [0] := by
  obtain ⟨res, h, -, -⟩ := uv_run_nowait ex_close_ops 0
    { ex_loop with idle_handles := [], timer_heap := [40] }
  decide

/-! ## Logs of the handle functions -/

theorem uv_log_ext_refl (p : uv_event → Bool) (l : List uv_event) : uv_log_ext p l l :=
  ⟨[], by simp, by simp⟩

theorem uv_log_ext_trans {p : uv_event → Bool} {l1 l2 l3 : List uv_event}
    (h1 : uv_log_ext p l1 l2) (h2 : uv_log_ext p l2 l3) : uv_log_ext p l1 l3 := by
  obtain ⟨n1, rfl, hn1⟩ := h1
  obtain ⟨n2, rfl, hn2⟩ := h2
  refine ⟨n1 ++ n2, by simp, ?_⟩
  intro e he
  rcases List.mem_append.1 he with h | h
  · exact hn1 e h
  · exact hn2 e h

theorem uv_log_ext_snoc {p : uv_event → Bool} (l : List uv_event) (e : uv_event)
    (h : p e = true) : uv_log_ext p l (l ++ [e]) :=
  ⟨[e], rfl, by simpa using h⟩

theorem uv_log_ext_ite {p : uv_event → Bool} (l : List uv_event) (e : uv_event) (c : Prop)
    [Decidable c] (h : p e = true) : uv_log_ext p l (if c then l ++ [e] else l) := by
  split
  · exact uv_log_ext_snoc l e h
  · exact uv_log_ext_refl p l

theorem uv_log_ext_mem {p : uv_event → Bool} {l1 l2 : List uv_event}
    (h : uv_log_ext p l1 l2) {e : uv_event} (he : e ∈ l1) : e ∈ l2 := by
  obtain ⟨n, rfl, _⟩ := h
  exact List.mem_append_left _ he

theorem uv_log_ext_user_cbs {l1 l2 : List uv_event}
    (h : uv_log_ext uv_event.is_quiet l1 l2) : uv_user_cbs l2 = uv_user_cbs l1 := by
  obtain ⟨n, rfl, hn⟩ := h
  unfold uv_user_cbs
  rw [List.filter_append]
  have : n.filter uv_event.is_user_cb = [] := by
    rw [List.filter_eq_nil_iff]
    intro e he
    have := hn e he
    simpa [uv_event.is_quiet] using this
  simp [this]

theorem uv_want_endgame_log {W : Type} (loop : uv_loop_t W) (addr : Nat)
    (flags : uv_handle_flags) (log : List uv_event) :
    uv_log_ext uv_event.is_quiet log (uv_want_endgame loop addr flags log).2.2 := by
  unfold uv_want_endgame
  split
  · exact uv_log_ext_snoc _ _ rfl
  · exact uv_log_ext_refl _ _

theorem uv__handle_closing_log {W : Type} (loop : uv_loop_t W)
    (flags : uv_handle_flags) (log : List uv_event) :
    uv_log_ext uv_event.is_quiet log (uv__handle_closing loop flags log).2.2 := by
  unfold uv__handle_closing
  exact uv_log_ext_ite _ _ _ rfl

theorem uv_poll_want_endgame_log {W : Type} (st : uv_state W uv_poll_t) :
    uv_log_ext uv_event.is_quiet st.log (uv_poll_want_endgame st).log :=
  uv_want_endgame_log st.loop _ _ _

theorem uv_poll_handle_closing_log {W : Type} (st : uv_state W uv_poll_t) :
    uv_log_ext uv_event.is_quiet st.log (uv_poll_handle_closing st).log :=
  uv__handle_closing_log st.loop _ _

theorem uv_poll_submit_failed_log {W : Type} (ops : uv_poll_ops) (slot : uv_poll_req_ref)
    (e : Nat) (st : uv_state W uv_poll_t) :
    (uv_poll_submit_failed ops slot e st).log = st.log := by
  cases slot <;> rfl

theorem uv__fast_poll_submit_poll_req_log {W : Type} (ops : uv_poll_ops)
    (os_error : Option Nat) (st : uv_state W uv_poll_t) :
    (uv__fast_poll_submit_poll_req ops os_error st).log = st.log := by
  unfold uv__fast_poll_submit_poll_req
  cases os_error <;> simp only [] <;> split_ifs <;> simp [uv_poll_submit_failed_log]

theorem uv__slow_poll_submit_poll_req_log {W : Type} (ops : uv_poll_ops)
    (os_error : Option Nat) (st : uv_state W uv_poll_t) :
    uv_log_ext uv_event.is_quiet st.log (uv__slow_poll_submit_poll_req ops os_error st).log := by
  unfold uv__slow_poll_submit_poll_req
  cases os_error <;> simp only [] <;> split_ifs <;>
    first
    | exact uv_log_ext_snoc _ _ rfl
    | (simp only [uv_poll_submit_failed_log]; exact uv_log_ext_refl _ _)


theorem uv_poll_set_events_log {W : Type} (valid events : Nat) (st : uv_state W uv_poll_t) :
    uv_log_ext uv_event.is_quiet st.log (uv_poll_set_events valid events st).log :=
  uv_log_ext_trans (uv_log_ext_ite _ uv_event.assert_failed _ rfl)
    (uv_log_ext_ite _ uv_event.assert_failed _ rfl)

theorem uv__fast_poll_set_log {W : Type} (ops : uv_poll_ops) (events : Nat)
    (os_error : Option Nat) (st : uv_state W uv_poll_t) :
    uv_log_ext uv_event.is_quiet st.log (uv__fast_poll_set ops events os_error st).1.log := by
  unfold uv__fast_poll_set
  simp only []
  split
  · rw [uv__fast_poll_submit_poll_req_log]; exact uv_poll_set_events_log _ _ _
  · exact uv_poll_set_events_log _ _ _

theorem uv__slow_poll_set_log {W : Type} (ops : uv_poll_ops) (events : Nat)
    (os_error : Option Nat) (st : uv_state W uv_poll_t) :
    uv_log_ext uv_event.is_quiet st.log (uv__slow_poll_set ops events os_error st).1.log := by
  unfold uv__slow_poll_set
  simp only []
  split
  · exact uv_log_ext_trans (uv_poll_set_events_log _ _ _)
      (uv__slow_poll_submit_poll_req_log ops os_error _)
  · exact uv_poll_set_events_log _ _ _

theorem uv_poll_start_log {W : Type} (ops : uv_poll_ops) (events : Nat) (cb : Option Nat)
    (os_error : Option Nat) (st : uv_state W uv_poll_t) :
    uv_log_ext uv_event.is_quiet st.log (uv_poll_start ops events cb os_error st).1.log := by
  unfold uv_poll_start
  simp only []
  split_ifs
  all_goals
    first
    | exact uv__fast_poll_set_log ops events os_error st
    | exact uv__slow_poll_set_log ops events os_error st

theorem uv_poll_stop_log {W : Type} (ops : uv_poll_ops) (st : uv_state W uv_poll_t) :
    uv_log_ext uv_event.is_quiet st.log (uv_poll_stop ops st).1.log := by
  unfold uv_poll_stop
  simp only []
  split_ifs
  · exact uv__fast_poll_set_log ops 0 none st
  · exact uv__slow_poll_set_log ops 0 none st

theorem uv_poll_close_log {W : Type} (os_error : Option Nat) (st : uv_state W uv_poll_t) :
    uv_log_ext uv_event.is_quiet st.log (uv_poll_close os_error st).1.log := by
  unfold uv_poll_close uv__fast_poll_close uv__slow_poll_close
  simp only []
  split_ifs
  all_goals
    first
    | exact uv_log_ext_trans (uv_poll_handle_closing_log _) (uv_poll_want_endgame_log _)
    | exact uv_poll_handle_closing_log { st with handle := { st.handle with events := 0 } }

theorem uv_poll_do_close_eq {W : Type} (cb : Option Nat) (os_error : Option Nat)
    (st : uv_state W uv_poll_t) :
    uv_poll_do_close cb os_error st =
      if st.handle.flags.closing then
        { st with log := st.log ++ [.close_called st.handle.addr, .assert_failed] }
      else
        (uv_poll_close os_error { st with
          handle := { st.handle with close_cb := cb },
          log := st.log ++ [.close_called st.handle.addr] }).1 := by
  unfold uv_poll_do_close uv_close
  by_cases h : st.handle.flags.closing = true
  · simp [h, uv_state.lift, uv_handle_t.flags, uv_handle_t.addr]
  · simp [h, uv_state.lift, uv_handle_t.flags, uv_handle_t.addr, uv_handle_t.set_close_cb]

theorem uv_poll_do_close_log {W : Type} (cb : Option Nat) (os_error : Option Nat)
    (st : uv_state W uv_poll_t) :
    uv_log_ext uv_event.is_quiet st.log (uv_poll_do_close cb os_error st).log := by
  rw [uv_poll_do_close_eq]
  split
  · exact ⟨[.close_called st.handle.addr, .assert_failed], rfl, by simp [uv_event.is_quiet, uv_event.is_user_cb]⟩
  · exact uv_log_ext_trans (uv_log_ext_snoc _ (uv_event.close_called st.handle.addr) rfl)
      (uv_poll_close_log os_error _)

theorem uv_poll_do_call_log {W : Type} (ops : uv_poll_ops) (c : uv_poll_call)
    (st : uv_state W uv_poll_t) :
    uv_log_ext uv_event.is_quiet st.log (uv_poll_do_call ops c st).log := by
  unfold uv_poll_do_call
  cases c with
  | start events cb os_error => exact uv_poll_start_log ops events cb os_error st
  | stop => exact uv_poll_stop_log ops st
  | close cb os_error => exact uv_poll_do_close_log cb os_error st

theorem uv_poll_do_calls_log {W : Type} (ops : uv_poll_ops) (calls : List uv_poll_call)
    (st : uv_state W uv_poll_t) :
    uv_log_ext uv_event.is_quiet st.log
      (calls.foldl (fun s c => uv_poll_do_call ops c s) st).log := by
  induction calls generalizing st with
  | nil => exact uv_log_ext_refl _ _
  | cons c rest ih =>
    simp only [List.foldl_cons]
    exact uv_log_ext_trans (uv_poll_do_call_log ops c st) (ih _)

theorem uv_poll_invoke_cb_user_cbs {W : Type} (ops : uv_poll_ops) (status : Int) (events : Nat)
    (st : uv_state W uv_poll_t) :
    uv_user_cbs (uv_poll_invoke_cb ops status events st).log =
      uv_user_cbs st.log ++ [.poll_cb st.handle.poll_cb status events st.handle.events] := by
  unfold uv_poll_invoke_cb
  simp only []
  rw [uv_log_ext_user_cbs (uv_poll_do_calls_log ops _ _)]
  simp [uv_user_cbs, List.filter_append, uv_event.is_user_cb]

theorem uv_poll_process_end_fast_log {W : Type} (ops : uv_poll_ops) (os_error : Option Nat)
    (st : uv_state W uv_poll_t) :
    uv_log_ext uv_event.is_quiet st.log
      (uv_poll_process_end (uv__fast_poll_submit_poll_req ops os_error) st).log := by
  unfold uv_poll_process_end
  split_ifs
  · rw [uv__fast_poll_submit_poll_req_log]; exact uv_log_ext_refl _ _
  · exact uv_poll_want_endgame_log st
  · exact uv_log_ext_refl _ _

theorem uv_poll_process_end_slow_log {W : Type} (ops : uv_poll_ops) (os_error : Option Nat)
    (st : uv_state W uv_poll_t) :
    uv_log_ext uv_event.is_quiet st.log
      (uv_poll_process_end (uv__slow_poll_submit_poll_req ops os_error) st).log := by
  unfold uv_poll_process_end
  split_ifs
  · exact uv__slow_poll_submit_poll_req_log ops os_error st
  · exact uv_poll_want_endgame_log st
  · exact uv_log_ext_refl _ _

/-! ## The callback of a poll request -/

theorem testBit_and_not (a b k : Nat) :
    (and_not a b).testBit k = (a.testBit k && !b.testBit k) := by
  unfold and_not
  rw [Nat.testBit_xor, Nat.testBit_and]
  cases a.testBit k <;> cases b.testBit k <;> rfl

theorem and_and_not_subset (r a m : Nat) : (r &&& and_not a m) &&& a = r &&& and_not a m := by
  apply Nat.eq_of_testBit_eq
  intro k
  simp only [Nat.testBit_and, testBit_and_not]
  cases r.testBit k <;> cases a.testBit k <;> cases m.testBit k <;> rfl

theorem and_and_not_disjoint (r a m : Nat) : (r &&& and_not a m) &&& m = 0 := by
  apply Nat.eq_of_testBit_eq
  intro k
  simp only [Nat.testBit_and, testBit_and_not, Nat.zero_testBit]
  cases r.testBit k <;> cases a.testBit k <;> cases m.testBit k <;> rfl

theorem and_not_and_subset (r a m : Nat) : and_not (r &&& a) m &&& a = and_not (r &&& a) m := by
  apply Nat.eq_of_testBit_eq
  intro k
  simp only [Nat.testBit_and, testBit_and_not]
  cases r.testBit k <;> cases a.testBit k <;> cases m.testBit k <;> rfl

theorem and_not_and_disjoint (a m : Nat) : and_not a m &&& m = 0 := by
  apply Nat.eq_of_testBit_eq
  intro k
  simp only [Nat.testBit_and, testBit_and_not, Nat.zero_testBit]
  cases a.testBit k <;> cases m.testBit k <;> rfl

/-- The user callbacks `uv__fast_poll_process_poll_req` adds to the log. -/
theorem uv__fast_poll_process_body_cbs {W : Type} (ops : uv_poll_ops) (os_error : Option Nat)
    (mask_events : Nat) (afd : AFD_POLL_INFO) (req : uv_req_t) (st : uv_state W uv_poll_t) :
    uv_user_cbs (uv__fast_poll_process_body ops os_error mask_events afd req st).log =
      uv_user_cbs st.log ++
        (if ops.REQ_SUCCESS req = false then
          (if ops.GET_REQ_SOCK_ERROR req ≠ WSAEINTR ∧ st.handle.events ≠ 0 then
            [.poll_cb st.handle.poll_cb
              (ops.uv_translate_sys_error (ops.GET_REQ_SOCK_ERROR req)) 0 0]
          else [])
        else if afd.NumberOfHandles ≥ 1 then
          (if uv__fast_poll_reported afd &&& and_not st.handle.events mask_events ≠ 0 then
            [.poll_cb st.handle.poll_cb 0
              (uv__fast_poll_reported afd &&& and_not st.handle.events mask_events)
              (if afd.Events &&& AFD_POLL_LOCAL_CLOSE ≠ 0 then 0 else st.handle.events)]
          else [])
        else []) := by
  unfold uv__fast_poll_process_body
  rw [uv_log_ext_user_cbs (uv_poll_process_end_fast_log ops os_error _)]
  unfold uv__fast_poll_process_events uv__fast_poll_local_close
  simp only []
  by_cases hs : ops.REQ_SUCCESS req = true
  · simp only [hs, Bool.not_true, Bool.false_eq_true, if_false]
    by_cases hn : afd.NumberOfHandles ≥ 1
    · simp only [hn, if_true]
      by_cases he : uv__fast_poll_reported afd &&& and_not st.handle.events mask_events ≠ 0
      · simp only [he, if_true, ne_eq, not_false_eq_true]
        rw [uv_poll_invoke_cb_user_cbs]
        by_cases hl : afd.Events &&& AFD_POLL_LOCAL_CLOSE ≠ 0
        · simp only [hl, if_true, ne_eq, not_false_eq_true]
          split <;> rfl
        · simp [hl]
      · simp only [he, if_false]
        by_cases hl : afd.Events &&& AFD_POLL_LOCAL_CLOSE ≠ 0
        · simp only [hl, if_true, ne_eq, not_false_eq_true]
          split <;> simp
        · simp [hl]
    · simp [hn]
  · have hs2 : ops.REQ_SUCCESS req = false := by simpa using hs
    simp only [hs2, Bool.not_false, if_true]
    by_cases hc : ops.GET_REQ_SOCK_ERROR req ≠ WSAEINTR ∧ st.handle.events ≠ 0
    · simp only [hc, if_true, ne_eq, not_false_eq_true, and_self]
      rw [uv_poll_invoke_cb_user_cbs]
    · simp [hc]

/-- The user callbacks `uv__slow_poll_process_poll_req` adds to the log. -/
theorem uv__slow_poll_process_body_cbs {W : Type} (ops : uv_poll_ops) (os_error : Option Nat)
    (mask_events : Nat) (req : uv_req_t) (st : uv_state W uv_poll_t) :
    uv_user_cbs (uv__slow_poll_process_body ops os_error mask_events req st).log =
      uv_user_cbs st.log ++
        (if ops.REQ_SUCCESS req = false then
          (if st.handle.events ≠ 0 then
            [.poll_cb st.handle.poll_cb
              (ops.uv_translate_sys_error (ops.GET_REQ_ERROR req)) 0 0]
          else [])
        else
          (if and_not (req.InternalHigh &&& st.handle.events) mask_events ≠ 0 then
            [.poll_cb st.handle.poll_cb 0
              (and_not (req.InternalHigh &&& st.handle.events) mask_events) st.handle.events]
          else [])) := by
  unfold uv__slow_poll_process_body
  rw [uv_log_ext_user_cbs (uv_poll_process_end_slow_log ops os_error _)]
  unfold uv__slow_poll_process_events
  simp only []
  by_cases hs : ops.REQ_SUCCESS req = true
  · simp only [hs, Bool.not_true, Bool.false_eq_true, if_false]
    by_cases he : and_not (req.InternalHigh &&& st.handle.events) mask_events ≠ 0
    · simp only [he, if_true, ne_eq, not_false_eq_true]
      rw [uv_poll_invoke_cb_user_cbs]
      simp
    · simp [he]
  · have hs2 : ops.REQ_SUCCESS req = false := by simpa using hs
    simp only [hs2, Bool.not_false, if_true]
    by_cases hc : st.handle.events ≠ 0
    · simp only [hc, if_true, ne_eq, not_false_eq_true]
      rw [uv_poll_invoke_cb_user_cbs]
    · simp [hc]

theorem uv_poll_cb_list_props (cb : Option Nat) (succ : Bool) (c1 : Prop) [Decidable c1]
    (c2 : Prop) [Decidable c2] (st1 : Int) (ev w hev mask : Nat)
    (hst : succ = false → st1 ≠ 0)
    (hsub : ev &&& hev = ev) (hdis : ev &&& mask = 0)
    (new : List uv_event)
    (hnew : new = if succ = false then
        (if c1 then [uv_event.poll_cb cb st1 0 0] else [])
      else (if c2 ∧ ev ≠ 0 then [uv_event.poll_cb cb 0 ev w] else [])) :
    new.length ≤ 1 ∧
    (∀ e ∈ new, ∃ status events watching,
      e = uv_event.poll_cb cb status events watching ∧
      (status = 0 → events ≠ 0 ∧ events = ev ∧ events &&& hev = events ∧ events &&& mask = 0) ∧
      (status ≠ 0 → events = 0 ∧ watching = 0)) ∧
    (succ = true → ev = 0 → new = []) := by
  subst hnew
  cases succ
  · simp only [if_true]
    have h1 := hst rfl
    split_ifs
    · refine ⟨by simp, ?_, by simp⟩
      intro e he
      simp only [List.mem_singleton] at he
      exact ⟨st1, 0, 0, he, fun h => absurd h h1, fun _ => ⟨rfl, rfl⟩⟩
    · simp
  · simp only [Bool.true_eq_false, if_false]
    split_ifs with h
    · refine ⟨by simp, ?_, ?_⟩
      · intro e he
        simp only [List.mem_singleton] at he
        exact ⟨0, ev, w, he, fun _ => ⟨h.2, rfl, hsub, hdis⟩, fun h0 => absurd rfl h0⟩
      · intro _ h0; exact absurd h0 h.2
    · simp

/-! ### C9 -/

/-- C9. Processing a completed poll request of a poll handle, in fast or slow
mode, when the error of a failed request is translated to a nonzero status:
the poll callback is called at most once; a call with status 0 has a non-empty
event set, which is the set the request reports masked against the events the
handle watches and the suppression mask of the request slot, so a subset of
the events watched when the completion was processed and disjoint from the
mask; when the request succeeded and this masked set is empty the callback is
not called; and a call with a nonzero status has the event argument 0 and is
made with the events watched reset to 0. -/
theorem uv_process_poll_req_callback {W : Type} (ops : uv_poll_ops) (os_error : Option Nat)
    (req : uv_poll_req_ref) (st : uv_state W uv_poll_t) (hreq : req ≠ .other)
    (herr : ops.REQ_SUCCESS (uv_poll_req_of req st.handle) = false →
      ops.uv_translate_sys_error (ops.GET_REQ_SOCK_ERROR (uv_poll_req_of req st.handle)) ≠ 0 ∧
      ops.uv_translate_sys_error (ops.GET_REQ_ERROR (uv_poll_req_of req st.handle)) ≠ 0) :
    ∃ new : List uv_event,
      uv_user_cbs (uv_process_poll_req ops os_error req st).log = uv_user_cbs st.log ++ new ∧
      new.length ≤ 1 ∧
      (∀ e ∈ new, ∃ status events watching,
        e = uv_event.poll_cb st.handle.poll_cb status events watching ∧
        (status = 0 →
          events ≠ 0 ∧ events = uv_poll_masked_events req st.handle ∧
          events &&& st.handle.events = events ∧
          events &&& uv_poll_mask_of req st.handle = 0) ∧
        (status ≠ 0 → events = 0 ∧ watching = 0)) ∧
      (ops.REQ_SUCCESS (uv_poll_req_of req st.handle) = true →
        uv_poll_masked_events req st.handle = 0 → new = []) := by
  by_cases hslow : st.handle.flags.poll_slow = true
  · -- slow mode
    have hm : uv_poll_masked_events req st.handle =
        and_not ((uv_poll_req_of req st.handle).InternalHigh &&& st.handle.events)
          (uv_poll_mask_of req st.handle) := by
      simp [uv_poll_masked_events, hslow]
    have hbody := fun s : uv_state W uv_poll_t =>
      uv__slow_poll_process_body_cbs ops os_error (uv_poll_mask_of req st.handle)
        (uv_poll_req_of req st.handle) s
    have hprops := uv_poll_cb_list_props st.handle.poll_cb
      (ops.REQ_SUCCESS (uv_poll_req_of req st.handle)) (st.handle.events ≠ 0) True
      (ops.uv_translate_sys_error (ops.GET_REQ_ERROR (uv_poll_req_of req st.handle)))
      (uv_poll_masked_events req st.handle) st.handle.events st.handle.events
      (uv_poll_mask_of req st.handle) (fun h => (herr h).2)
      (by rw [hm]; exact and_not_and_subset _ _ _)
      (by rw [hm]; exact and_not_and_disjoint _ _) _ rfl
    refine ⟨_, ?_, hprops⟩
    rw [hm]
    cases req with
    | other => exact absurd rfl hreq
    | poll_req_1 =>
      have := hbody { st with handle := { st.handle with submitted_events_1 := 0 } }
      simpa [uv_process_poll_req, hslow, uv__slow_poll_process_poll_req, uv_poll_req_of,
        uv_poll_mask_of] using this
    | poll_req_2 =>
      have := hbody { st with handle := { st.handle with submitted_events_2 := 0 } }
      simpa [uv_process_poll_req, hslow, uv__slow_poll_process_poll_req, uv_poll_req_of,
        uv_poll_mask_of] using this
  · -- fast mode
    have hfast : st.handle.flags.poll_slow = false := by simpa using hslow
    have hm : uv_poll_masked_events req st.handle =
        uv__fast_poll_reported (uv_poll_info_of req st.handle)
          &&& and_not st.handle.events (uv_poll_mask_of req st.handle) := by
      simp [uv_poll_masked_events, hfast]
    have hbody := fun s : uv_state W uv_poll_t =>
      uv__fast_poll_process_body_cbs ops os_error (uv_poll_mask_of req st.handle)
        (uv_poll_info_of req st.handle) (uv_poll_req_of req st.handle) s
    have hprops := uv_poll_cb_list_props st.handle.poll_cb
      (ops.REQ_SUCCESS (uv_poll_req_of req st.handle))
      (ops.GET_REQ_SOCK_ERROR (uv_poll_req_of req st.handle) ≠ WSAEINTR ∧ st.handle.events ≠ 0)
      ((uv_poll_info_of req st.handle).NumberOfHandles ≥ 1)
      (ops.uv_translate_sys_error (ops.GET_REQ_SOCK_ERROR (uv_poll_req_of req st.handle)))
      (uv_poll_masked_events req st.handle)
      (if (uv_poll_info_of req st.handle).Events &&& AFD_POLL_LOCAL_CLOSE ≠ 0 then 0
        else st.handle.events) st.handle.events
      (uv_poll_mask_of req st.handle) (fun h => (herr h).1)
      (by rw [hm]; exact and_and_not_subset _ _ _)
      (by rw [hm]; exact and_and_not_disjoint _ _ _) _ rfl
    refine ⟨_, ?_, hprops⟩
    rw [hm]
    have hite : ∀ (c2 : Prop) [Decidable c2] (x : Nat) (l : List uv_event),
        (if c2 then (if x ≠ 0 then l else []) else []) = (if c2 ∧ x ≠ 0 then l else []) := by
      intro c2 _ x l
      by_cases h1 : c2 <;> by_cases h2 : x = 0 <;> simp [h1, h2]
    cases req with
    | other => exact absurd rfl hreq
    | poll_req_1 =>
      have := hbody { st with handle := { st.handle with submitted_events_1 := 0 } }
      rw [hite] at this
      simpa [uv_process_poll_req, hfast, uv__fast_poll_process_poll_req, uv_poll_req_of,
        uv_poll_mask_of, uv_poll_info_of] using this
    | poll_req_2 =>
      have := hbody { st with handle := { st.handle with submitted_events_2 := 0 } }
      rw [hite] at this
      simpa [uv_process_poll_req, hfast, uv__fast_poll_process_poll_req, uv_poll_req_of,
        uv_poll_mask_of, uv_poll_info_of] using this

/-! ## The closing protocol of a poll handle -/

theorem and_not_zero_left (m : Nat) : and_not 0 m = 0 := by
  simp [and_not]

/-! ### Effects on the flags -/

@[simp] theorem uv__handle_start_flags {W : Type} (loop : uv_loop_t W) (flags : uv_handle_flags) :
    (uv__handle_start loop flags).2 = { flags with active := true } := by
  unfold uv__handle_start
  cases flags with
  | mk c d a r q s => cases a <;> cases r <;> rfl

@[simp] theorem uv__handle_stop_flags {W : Type} (loop : uv_loop_t W) (flags : uv_handle_flags) :
    (uv__handle_stop loop flags).2 = { flags with active := false } := by
  unfold uv__handle_stop
  cases flags with
  | mk c d a r q s => cases a <;> cases r <;> rfl

theorem uv_poll_submit_failed_core {W : Type} (ops : uv_poll_ops) (slot : uv_poll_req_ref)
    (e : Nat) (st : uv_state W uv_poll_t) :
    (uv_poll_submit_failed ops slot e st).handle.core = st.handle.core := by
  cases slot <;> rfl

theorem uv__fast_poll_submit_poll_req_core {W : Type} (ops : uv_poll_ops)
    (os_error : Option Nat) (st : uv_state W uv_poll_t) :
    (uv__fast_poll_submit_poll_req ops os_error st).handle.core = st.handle.core.submit := by
  unfold uv__fast_poll_submit_poll_req uv_poll_core.submit
  simp only []
  by_cases h1 : st.handle.submitted_events_1 = 0
  · have : st.handle.core.submitted_events_1 = 0 := h1
    simp only [h1, this, if_true]
    cases os_error <;> simp only [uv_poll_submit_failed_core] <;> rfl
  · have h1' : ¬ st.handle.core.submitted_events_1 = 0 := h1
    by_cases h2 : st.handle.submitted_events_2 = 0
    · have : st.handle.core.submitted_events_2 = 0 := h2
      simp only [h1, h1', h2, this, if_true, if_false]
      cases os_error <;> simp only [uv_poll_submit_failed_core] <;> rfl
    · have h2' : ¬ st.handle.core.submitted_events_2 = 0 := h2
      simp only [h1, h1', h2, h2', if_false]

theorem uv__slow_poll_submit_poll_req_core {W : Type} (ops : uv_poll_ops)
    (os_error : Option Nat) (st : uv_state W uv_poll_t) :
    (uv__slow_poll_submit_poll_req ops os_error st).handle.core = st.handle.core.submit := by
  unfold uv__slow_poll_submit_poll_req uv_poll_core.submit
  simp only []
  by_cases h1 : st.handle.submitted_events_1 = 0
  · have : st.handle.core.submitted_events_1 = 0 := h1
    simp only [h1, this, if_true]
    cases os_error <;> simp only [uv_poll_submit_failed_core] <;> rfl
  · have h1' : ¬ st.handle.core.submitted_events_1 = 0 := h1
    by_cases h2 : st.handle.submitted_events_2 = 0
    · have : st.handle.core.submitted_events_2 = 0 := h2
      simp only [h1, h1', h2, this, if_true, if_false]
      cases os_error <;> simp only [uv_poll_submit_failed_core] <;> rfl
    · have h2' : ¬ st.handle.core.submitted_events_2 = 0 := h2
      simp only [h1, h1', h2, h2', if_false]

theorem uv_poll_set_events_core {W : Type} (valid events : Nat) (st : uv_state W uv_poll_t) :
    (uv_poll_set_events valid events st).handle.core
      = { st.handle.core with events := events % 256 } := by
  unfold uv_poll_set_events
  simp only []
  split <;> simp [uv_poll_t.core]

theorem uv_poll_core_set_aux {W : Type} (c : uv_poll_core) (events : Nat)
    (submit : uv_state W uv_poll_t → uv_state W uv_poll_t)
    (hsub : ∀ s, (submit s).handle.core = s.handle.core.submit)
    (st1 : uv_state W uv_poll_t)
    (h1 : st1.handle.core = { c with events := events % 256 }) :
    (if and_not st1.handle.events
        (st1.handle.submitted_events_1 ||| st1.handle.submitted_events_2) ≠ 0
      then (submit st1, (0 : Int)) else (st1, 0)).1.handle.core = c.set events := by
  have he : st1.handle.events = events % 256 := congrArg uv_poll_core.events h1
  have hs1 : st1.handle.submitted_events_1 = c.submitted_events_1 :=
    congrArg uv_poll_core.submitted_events_1 h1
  have hs2 : st1.handle.submitted_events_2 = c.submitted_events_2 :=
    congrArg uv_poll_core.submitted_events_2 h1
  unfold uv_poll_core.set
  simp only [he, hs1, hs2]
  split
  · simp only [hsub, h1]
  · simp only [h1]

theorem uv__fast_poll_set_core {W : Type} (ops : uv_poll_ops) (events : Nat)
    (os_error : Option Nat) (st : uv_state W uv_poll_t) :
    (uv__fast_poll_set ops events os_error st).1.handle.core = st.handle.core.set events :=
  uv_poll_core_set_aux st.handle.core events _
    (uv__fast_poll_submit_poll_req_core ops os_error) _ (uv_poll_set_events_core _ _ _)

theorem uv__slow_poll_set_core {W : Type} (ops : uv_poll_ops) (events : Nat)
    (os_error : Option Nat) (st : uv_state W uv_poll_t) :
    (uv__slow_poll_set ops events os_error st).1.handle.core = st.handle.core.set events :=
  uv_poll_core_set_aux st.handle.core events _
    (uv__slow_poll_submit_poll_req_core ops os_error) _ (uv_poll_set_events_core _ _ _)

theorem uv_poll_start_core {W : Type} (ops : uv_poll_ops) (events : Nat) (cb : Option Nat)
    (os_error : Option Nat) (st : uv_state W uv_poll_t) :
    (uv_poll_start ops events cb os_error st).1.handle.core = st.handle.core.set events := by
  unfold uv_poll_start
  simp only []
  split_ifs
  all_goals
    first
    | exact uv__fast_poll_set_core ops events os_error st
    | exact uv__slow_poll_set_core ops events os_error st

theorem uv_poll_stop_core {W : Type} (ops : uv_poll_ops) (st : uv_state W uv_poll_t) :
    (uv_poll_stop ops st).1.handle.core = st.handle.core.set 0 := by
  unfold uv_poll_stop
  simp only []
  split_ifs
  all_goals
    first
    | exact uv__fast_poll_set_core ops 0 none st
    | exact uv__slow_poll_set_core ops 0 none st


theorem uv_poll_inv_submit {strict : Bool} {a : Nat} {c : uv_poll_core} {log : List uv_event}
    (h : uv_poll_inv strict a c log) : uv_poll_inv strict a c.submit log := by
  obtain ⟨h1, h2, h3, h4, h5, h6, h7, h8⟩ := h
  unfold uv_poll_core.submit
  by_cases hc : c.closing = true
  · have he := (h4 hc).1
    split_ifs with g1 g2
    · refine ⟨h1, h2, h3, h4, h5, ?_, h7, ?_⟩
      · intro hq; exact ⟨(h6 hq).1, he, (h6 hq).2.2⟩
      · intro hs hc' _ hs2; exact h8 hs hc' g1 hs2
    · refine ⟨h1, h2, h3, h4, h5, ?_, h7, ?_⟩
      · intro hq; exact ⟨(h6 hq).1, (h6 hq).2.1, he⟩
      · intro hs hc' hs1 _; exact h8 hs hc' hs1 g2
    · exact ⟨h1, h2, h3, h4, h5, h6, h7, h8⟩
  · have hc' : c.closing = false := by simpa using hc
    obtain ⟨hq, hd, hl⟩ := h3 hc'
    split_ifs
    all_goals
      refine ⟨h1, h2, h3, h4, h5, ?_, h7, ?_⟩
      · intro hqq
        rcases hqq with hqq | hqq
        · simp [hq] at hqq
        · simp [hd] at hqq
      · intro _ hcc; simp [hc'] at hcc

theorem uv_poll_inv_set {strict : Bool} {a : Nat} {c : uv_poll_core} {log : List uv_event}
    (h : uv_poll_inv strict a c log) (hopen : c.closing = false) (events : Nat) :
    uv_poll_inv strict a (c.set events) log := by
  have h0 : uv_poll_inv strict a { c with events := events % 256 } log := by
    obtain ⟨h1, h2, h3, h4, h5, h6, h7, h8⟩ := h
    refine ⟨h1, h2, h3, ?_, h5, h6, h7, h8⟩
    intro hc; simp [hopen] at hc
  unfold uv_poll_core.set
  simp only []
  split
  · exact uv_poll_inv_submit h0
  · exact h0

theorem uv_log_ext_not_mem {p : uv_event → Bool} {l1 l2 : List uv_event}
    (h : uv_log_ext p l1 l2) {e : uv_event} (he : e ∉ l2) : e ∉ l1 :=
  fun h1 => he (uv_log_ext_mem h h1)

theorem uv_poll_set_asserts (log : List uv_event) (closing : Bool) (c : Prop) [Decidable c]
    (h : uv_event.assert_failed ∉
      (if c then (if closing = true then log ++ [uv_event.assert_failed] else log)
          ++ [uv_event.assert_failed]
        else (if closing = true then log ++ [uv_event.assert_failed] else log))) :
    (if c then (if closing = true then log ++ [uv_event.assert_failed] else log)
          ++ [uv_event.assert_failed]
        else (if closing = true then log ++ [uv_event.assert_failed] else log)) = log ∧
      closing = false := by
  by_cases hc : c
  · simp [hc] at h
  · cases closing
    · simp [hc]
    · simp [hc] at h

theorem uv_poll_set_events_log_eq {W : Type} (valid events : Nat) (st : uv_state W uv_poll_t)
    (h : uv_event.assert_failed ∉ (uv_poll_set_events valid events st).log) :
    (uv_poll_set_events valid events st).log = st.log ∧ st.handle.flags.closing = false :=
  uv_poll_set_asserts _ _ _ h

theorem uv__fast_poll_set_log_eq {W : Type} (ops : uv_poll_ops) (events : Nat)
    (os_error : Option Nat) (st : uv_state W uv_poll_t)
    (h : uv_event.assert_failed ∉ (uv__fast_poll_set ops events os_error st).1.log) :
    (uv__fast_poll_set ops events os_error st).1.log = st.log ∧
      st.handle.flags.closing = false := by
  unfold uv__fast_poll_set at h ⊢
  simp only [] at h ⊢
  split_ifs at h ⊢
  · rw [uv__fast_poll_submit_poll_req_log] at h ⊢
    exact uv_poll_set_events_log_eq _ _ _ h
  · exact uv_poll_set_events_log_eq _ _ _ h

theorem uv__slow_poll_submit_poll_req_log_eq {W : Type} (ops : uv_poll_ops)
    (os_error : Option Nat) (st : uv_state W uv_poll_t)
    (h : uv_event.assert_failed ∉ (uv__slow_poll_submit_poll_req ops os_error st).log) :
    (uv__slow_poll_submit_poll_req ops os_error st).log = st.log := by
  unfold uv__slow_poll_submit_poll_req at h ⊢
  simp only [] at h ⊢
  split_ifs at h ⊢
  · cases os_error <;> simp [uv_poll_submit_failed_log]
  · cases os_error <;> simp [uv_poll_submit_failed_log]
  · simp at h

theorem uv__slow_poll_set_log_eq {W : Type} (ops : uv_poll_ops) (events : Nat)
    (os_error : Option Nat) (st : uv_state W uv_poll_t)
    (h : uv_event.assert_failed ∉ (uv__slow_poll_set ops events os_error st).1.log) :
    (uv__slow_poll_set ops events os_error st).1.log = st.log ∧
      st.handle.flags.closing = false := by
  unfold uv__slow_poll_set at h ⊢
  simp only [] at h ⊢
  split_ifs at h ⊢
  · have h1 := uv__slow_poll_submit_poll_req_log_eq ops os_error _ h
    rw [h1] at h ⊢
    exact uv_poll_set_events_log_eq _ _ _ h
  · exact uv_poll_set_events_log_eq _ _ _ h

theorem uv_poll_start_ok {W : Type} (ops : uv_poll_ops) (events : Nat) (cb : Option Nat)
    (os_error : Option Nat) (strict : Bool) (a : Nat) (st : uv_state W uv_poll_t)
    (h : uv_poll_ok strict a st) :
    uv_poll_ok strict a (uv_poll_start ops events cb os_error st).1 := by
  intro hna
  rw [uv_poll_start_core]
  have hlog : (uv_poll_start ops events cb os_error st).1.log = st.log ∧
      st.handle.flags.closing = false := by
    unfold uv_poll_start at hna ⊢
    simp only [] at hna ⊢
    split_ifs at hna ⊢
    all_goals
      first
      | exact uv__fast_poll_set_log_eq ops events os_error st hna
      | exact uv__slow_poll_set_log_eq ops events os_error st hna
  rw [hlog.1] at hna ⊢
  exact uv_poll_inv_set (h hna) hlog.2 events

theorem uv_poll_stop_ok {W : Type} (ops : uv_poll_ops)
    (strict : Bool) (a : Nat) (st : uv_state W uv_poll_t)
    (h : uv_poll_ok strict a st) :
    uv_poll_ok strict a (uv_poll_stop ops st).1 := by
  intro hna
  rw [uv_poll_stop_core]
  have hlog : (uv_poll_stop ops st).1.log = st.log ∧
      st.handle.flags.closing = false := by
    unfold uv_poll_stop at hna ⊢
    simp only [] at hna ⊢
    split_ifs at hna ⊢
    all_goals
      first
      | exact uv__fast_poll_set_log_eq ops 0 none st hna
      | exact uv__slow_poll_set_log_eq ops 0 none st hna
  rw [hlog.1] at hna ⊢
  exact uv_poll_inv_set (h hna) hlog.2 0

theorem uv_poll_want_endgame_core {W : Type} (st : uv_state W uv_poll_t) :
    (uv_poll_want_endgame st).handle.core = { st.handle.core with endgame_queued := true } := by
  unfold uv_poll_want_endgame uv_want_endgame
  by_cases h : st.handle.flags.endgame_queued = true
  · simp [h, uv_poll_t.core]
  · simp [h, uv_poll_t.core]

theorem uv_poll_want_endgame_log_eq {W : Type} (st : uv_state W uv_poll_t) :
    (uv_poll_want_endgame st).log =
      st.log ++ (if st.handle.flags.endgame_queued = true then []
        else [uv_event.endgame_queued st.handle.addr]) := by
  unfold uv_poll_want_endgame uv_want_endgame
  by_cases h : st.handle.flags.endgame_queued = true
  · simp [h]
  · simp [h]

theorem uv_poll_handle_closing_core {W : Type} (st : uv_state W uv_poll_t) :
    (uv_poll_handle_closing st).handle.core = { st.handle.core with closing := true } := by
  unfold uv_poll_handle_closing uv__handle_closing
  simp [uv_poll_t.core]

theorem uv_poll_handle_closing_log_eq {W : Type} (st : uv_state W uv_poll_t)
    (h : st.handle.flags.closing = false) :
    (uv_poll_handle_closing st).log = st.log := by
  unfold uv_poll_handle_closing uv__handle_closing
  simp [h]

/-- The state `uv_poll_close` leaves. -/
theorem uv_poll_close_eq {W : Type} (os_error : Option Nat) (st : uv_state W uv_poll_t) :
    (uv_poll_close os_error st).1 =
      (if st.handle.submitted_events_1 = 0 ∧ st.handle.submitted_events_2 = 0 then
        uv_poll_want_endgame
          (uv_poll_handle_closing { st with handle := { st.handle with events := 0 } })
      else uv_poll_handle_closing { st with handle := { st.handle with events := 0 } }) := by
  have hs : ∀ s : uv_state W uv_poll_t,
      (uv_poll_handle_closing s).handle.submitted_events_1 = s.handle.submitted_events_1 ∧
      (uv_poll_handle_closing s).handle.submitted_events_2 = s.handle.submitted_events_2 :=
    fun s => ⟨rfl, rfl⟩
  unfold uv_poll_close uv__fast_poll_close uv__slow_poll_close
  simp only [hs]
  split_ifs <;> rfl

theorem uv_endgame_count_append (a : Nat) (l n : List uv_event) :
    uv_endgame_count a (l ++ n) = uv_endgame_count a l + uv_endgame_count a n := by
  unfold uv_endgame_count
  exact List.count_append _ _ _

theorem uv_poll_close_core {W : Type} (os_error : Option Nat) (st : uv_state W uv_poll_t) :
    (uv_poll_close os_error st).1.handle.core = st.handle.core.close := by
  rw [uv_poll_close_eq]
  unfold uv_poll_core.close
  by_cases hz : st.handle.submitted_events_1 = 0 ∧ st.handle.submitted_events_2 = 0
  · have hz' : st.handle.core.submitted_events_1 = 0 ∧ st.handle.core.submitted_events_2 = 0 := hz
    rw [if_pos hz, if_pos hz', uv_poll_want_endgame_core, uv_poll_handle_closing_core]
    rfl
  · have hz' : ¬ (st.handle.core.submitted_events_1 = 0 ∧ st.handle.core.submitted_events_2 = 0) :=
      hz
    rw [if_neg hz, if_neg hz', uv_poll_handle_closing_core]
    rfl

theorem uv_poll_close_log_eq {W : Type} (os_error : Option Nat) (st : uv_state W uv_poll_t)
    (hopen : st.handle.flags.closing = false) :
    (uv_poll_close os_error st).1.log =
      st.log ++ (if st.handle.core.submitted_events_1 = 0 ∧ st.handle.core.submitted_events_2 = 0
        then st.handle.core.endgame_log else []) := by
  rw [uv_poll_close_eq]
  by_cases hz : st.handle.submitted_events_1 = 0 ∧ st.handle.submitted_events_2 = 0
  · have hz' : st.handle.core.submitted_events_1 = 0 ∧ st.handle.core.submitted_events_2 = 0 := hz
    rw [if_pos hz, if_pos hz', uv_poll_want_endgame_log_eq,
      uv_poll_handle_closing_log_eq { st with handle := { st.handle with events := 0 } } hopen]
    rfl
  · have hz' : ¬ (st.handle.core.submitted_events_1 = 0 ∧ st.handle.core.submitted_events_2 = 0) :=
      hz
    rw [if_neg hz, if_neg hz',
      uv_poll_handle_closing_log_eq { st with handle := { st.handle with events := 0 } } hopen]
    simp

theorem uv_poll_inv_close {strict : Bool} {a : Nat} {c : uv_poll_core} {log : List uv_event}
    (h : uv_poll_inv strict a c log) (hopen : c.closing = false) :
    uv_poll_inv true a c.close
      (log ++ [uv_event.close_called a] ++
        (if c.submitted_events_1 = 0 ∧ c.submitted_events_2 = 0 then c.endgame_log else [])) := by
  obtain ⟨h1, h2, h3, h4, h5, h6, h7, h8⟩ := h
  obtain ⟨hq, hd, hl⟩ := h3 hopen
  have hcnt : uv_endgame_count a log = 0 := by
    rw [h5]; simp [hq, hd]
  unfold uv_poll_core.close uv_poll_core.endgame_log
  by_cases hz : c.submitted_events_1 = 0 ∧ c.submitted_events_2 = 0
  · simp only [hz, and_self, if_true, hq, Bool.false_eq_true, if_false]
    refine ⟨h1, ?_, ?_, ?_, ?_, ?_, ?_, ?_⟩
    · simp [h2]
    · intro hx; simp at hx
    · intro _; exact ⟨rfl, by simp⟩
    · rw [uv_endgame_count_append, uv_endgame_count_append, hcnt]
      simp [uv_endgame_count, h1]
    · intro _; exact ⟨rfl, rfl, rfl⟩
    · simp only [not_and]; intro _; simpa using hd
    · intro _ _ _ _; left; rfl
  · simp only [hz, if_false]
    refine ⟨h1, ?_, ?_, ?_, ?_, ?_, ?_, ?_⟩
    · simp [h2]
    · intro hx; simp at hx
    · intro _; exact ⟨rfl, by simp⟩
    · rw [uv_endgame_count_append, uv_endgame_count_append, hcnt]
      simp [uv_endgame_count, hq, hd]
    · intro hx
      exfalso
      rcases hx with hx | hx
      · simp [hq] at hx
      · simp [hd] at hx
    · simp only [not_and]; intro _; simpa using hd
    · intro _ _ hs1 hs2; exact absurd ⟨hs1, hs2⟩ hz

theorem uv_poll_inv_weaken {strict : Bool} {a : Nat} {c : uv_poll_core} {log : List uv_event}
    (h : uv_poll_inv true a c log) : uv_poll_inv strict a c log := by
  obtain ⟨h1, h2, h3, h4, h5, h6, h7, h8⟩ := h
  exact ⟨h1, h2, h3, h4, h5, h6, h7, fun _ => h8 rfl⟩

theorem uv_poll_do_close_ok {W : Type} (cb : Option Nat) (os_error : Option Nat)
    (strict : Bool) (a : Nat) (st : uv_state W uv_poll_t) (h : uv_poll_ok strict a st) :
    uv_poll_ok strict a (uv_poll_do_close cb os_error st) := by
  intro hna
  have hna0 : uv_event.assert_failed ∉ st.log :=
    uv_log_ext_not_mem (uv_poll_do_close_log cb os_error st) hna
  have hinv := h hna0
  rw [uv_poll_do_close_eq] at hna ⊢
  by_cases hc : st.handle.flags.closing = true
  · simp [hc] at hna
  · have hc' : st.handle.flags.closing = false := by simpa using hc
    rw [if_neg hc] at hna ⊢
    obtain ⟨st1, hst1⟩ : ∃ st1 : uv_state W uv_poll_t, st1 = { st with
        handle := { st.handle with close_cb := cb },
        log := st.log ++ [uv_event.close_called st.handle.addr] } := ⟨_, rfl⟩
    rw [← hst1] at hna ⊢
    have hcore : st1.handle.core = st.handle.core := by rw [hst1]; rfl
    have hlog : st1.log = st.log ++ [uv_event.close_called st.handle.addr] := by rw [hst1]
    have hc1 : st1.handle.flags.closing = false := by rw [hst1]; exact hc'
    rw [uv_poll_close_core, uv_poll_close_log_eq os_error st1 hc1, hcore, hlog]
    have ha : st.handle.addr = a := hinv.1
    have := uv_poll_inv_close hinv hc'
    rw [← ha] at this ⊢
    exact uv_poll_inv_weaken this

/-! ### Calls made from the callback of a poll handle -/

theorem uv_poll_do_call_ok {W : Type} (ops : uv_poll_ops) (c : uv_poll_call)
    (strict : Bool) (a : Nat) (st : uv_state W uv_poll_t) (h : uv_poll_ok strict a st) :
    uv_poll_ok strict a (uv_poll_do_call ops c st) := by
  unfold uv_poll_do_call
  cases c with
  | start events cb os_error => exact uv_poll_start_ok ops events cb os_error strict a st h
  | stop => exact uv_poll_stop_ok ops strict a st h
  | close cb os_error => exact uv_poll_do_close_ok cb os_error strict a st h

theorem uv_poll_do_calls_ok {W : Type} (ops : uv_poll_ops) (calls : List uv_poll_call)
    (strict : Bool) (a : Nat) (st : uv_state W uv_poll_t) (h : uv_poll_ok strict a st) :
    uv_poll_ok strict a (calls.foldl (fun s c => uv_poll_do_call ops c s) st) := by
  induction calls generalizing st with
  | nil => exact h
  | cons c rest ih =>
    simp only [List.foldl_cons]
    exact ih _ (uv_poll_do_call_ok ops c strict a st h)

/-! ### The `closed` flag is changed by the endgame only -/

theorem uv_poll_core_submit_closed (c : uv_poll_core) : c.submit.closed = c.closed := by
  unfold uv_poll_core.submit
  split_ifs <;> rfl

theorem uv_poll_core_set_closed (c : uv_poll_core) (events : Nat) :
    (c.set events).closed = c.closed := by
  unfold uv_poll_core.set
  simp only []
  split_ifs
  · rw [uv_poll_core_submit_closed]
  · rfl

theorem uv_poll_core_close_closed (c : uv_poll_core) : c.close.closed = c.closed := by
  unfold uv_poll_core.close
  split_ifs <;> rfl

theorem uv_poll_do_close_closed {W : Type} (cb : Option Nat) (os_error : Option Nat)
    (st : uv_state W uv_poll_t) :
    (uv_poll_do_close cb os_error st).handle.core.closed = st.handle.core.closed := by
  rw [uv_poll_do_close_eq]
  split_ifs
  · rfl
  · rw [uv_poll_close_core, uv_poll_core_close_closed]; rfl

theorem uv_poll_do_call_closed {W : Type} (ops : uv_poll_ops) (c : uv_poll_call)
    (st : uv_state W uv_poll_t) :
    (uv_poll_do_call ops c st).handle.core.closed = st.handle.core.closed := by
  unfold uv_poll_do_call
  cases c with
  | start events cb os_error =>
    simp only []
    rw [uv_poll_start_core, uv_poll_core_set_closed]
  | stop =>
    simp only []
    rw [uv_poll_stop_core, uv_poll_core_set_closed]
  | close cb os_error => exact uv_poll_do_close_closed cb os_error st

theorem uv_poll_do_calls_closed {W : Type} (ops : uv_poll_ops) (calls : List uv_poll_call)
    (st : uv_state W uv_poll_t) :
    (calls.foldl (fun s c => uv_poll_do_call ops c s) st).handle.core.closed
      = st.handle.core.closed := by
  induction calls generalizing st with
  | nil => rfl
  | cons c rest ih =>
    simp only [List.foldl_cons]
    rw [ih, uv_poll_do_call_closed]

theorem uv_poll_inv_events_zero {strict : Bool} {a : Nat} {c : uv_poll_core}
    {log : List uv_event} (h : uv_poll_inv strict a c log) :
    uv_poll_inv strict a { c with events := 0 } log := by
  obtain ⟨h1, h2, h3, h4, h5, h6, h7, h8⟩ := h
  exact ⟨h1, h2, h3, fun hc => ⟨rfl, (h4 hc).2⟩, h5, h6, h7, h8⟩

theorem uv_poll_inv_user_cb {strict : Bool} {a : Nat} {c : uv_poll_core}
    {log : List uv_event} (h : uv_poll_inv strict a c log) (e : uv_event)
    (he : e.is_user_cb = true) : uv_poll_inv strict a c (log ++ [e]) := by
  obtain ⟨h1, h2, h3, h4, h5, h6, h7, h8⟩ := h
  have hne1 : e ≠ uv_event.assert_failed := by
    intro h; rw [h] at he; simp [uv_event.is_user_cb] at he
  have hne2 : e ≠ uv_event.close_called a := by
    intro h; rw [h] at he; simp [uv_event.is_user_cb] at he
  have hne3 : e ≠ uv_event.endgame_queued a := by
    intro h; rw [h] at he; simp [uv_event.is_user_cb] at he
  refine ⟨h1, ?_, ?_, ?_, ?_, h6, h7, h8⟩
  · simp [h2, Ne.symm hne1]
  · intro hc
    obtain ⟨x, y, z⟩ := h3 hc
    exact ⟨x, y, by simp [z, Ne.symm hne2]⟩
  · intro hc
    exact ⟨(h4 hc).1, by simp [(h4 hc).2]⟩
  · rw [uv_endgame_count_append, h5]
    simp [uv_endgame_count, List.count_singleton, hne3]

theorem uv_poll_invoke_cb_ok {W : Type} (ops : uv_poll_ops) (status : Int) (events : Nat)
    (strict : Bool) (a : Nat) (st : uv_state W uv_poll_t) (h : uv_poll_ok strict a st) :
    uv_poll_ok strict a (uv_poll_invoke_cb ops status events st) := by
  unfold uv_poll_invoke_cb
  apply uv_poll_do_calls_ok
  intro hna
  have hna0 : uv_event.assert_failed ∉ st.log := by
    intro hx; apply hna; simp [hx]
  exact uv_poll_inv_user_cb (h hna0) _ rfl

theorem uv_poll_invoke_cb_closed {W : Type} (ops : uv_poll_ops) (status : Int) (events : Nat)
    (st : uv_state W uv_poll_t) :
    (uv_poll_invoke_cb ops status events st).handle.core.closed = st.handle.core.closed := by
  unfold uv_poll_invoke_cb
  rw [uv_poll_do_calls_closed]

/-! ### Processing the events of a poll request -/

theorem uv_poll_ok_events_zero {W : Type} (strict : Bool) (a : Nat)
    (st : uv_state W uv_poll_t) (h : uv_poll_ok strict a st) :
    uv_poll_ok strict a { st with handle := { st.handle with events := 0 } } :=
  fun hna => uv_poll_inv_events_zero (h hna)

theorem uv__fast_poll_local_close_core {W : Type} (st : uv_state W uv_poll_t) :
    (uv__fast_poll_local_close st).handle.core = { st.handle.core with events := 0 } := by
  unfold uv__fast_poll_local_close
  simp only []
  split
  · simp [uv_poll_t.core]
  · rfl

theorem uv__fast_poll_local_close_log {W : Type} (st : uv_state W uv_poll_t) :
    (uv__fast_poll_local_close st).log = st.log := by
  unfold uv__fast_poll_local_close
  simp only []
  split <;> rfl

theorem uv__fast_poll_local_close_ok {W : Type} (strict : Bool) (a : Nat)
    (st : uv_state W uv_poll_t) (h : uv_poll_ok strict a st) :
    uv_poll_ok strict a (uv__fast_poll_local_close st) := by
  intro hna
  rw [uv__fast_poll_local_close_log] at hna ⊢
  rw [uv__fast_poll_local_close_core]
  exact uv_poll_inv_events_zero (h hna)

theorem uv__fast_poll_process_events_ok {W : Type} (ops : uv_poll_ops)
    (mask_events : Nat) (afd : AFD_POLL_INFO) (req : uv_req_t)
    (strict : Bool) (a : Nat) (st : uv_state W uv_poll_t) (h : uv_poll_ok strict a st) :
    uv_poll_ok strict a (uv__fast_poll_process_events ops mask_events afd req st) ∧
    (uv__fast_poll_process_events ops mask_events afd req st).handle.core.closed
      = st.handle.core.closed := by
  unfold uv__fast_poll_process_events
  simp only []
  split_ifs
  all_goals
    first
    | exact ⟨h, rfl⟩
    | exact ⟨uv_poll_invoke_cb_ok ops _ _ strict a _ (uv_poll_ok_events_zero strict a st h),
        by rw [uv_poll_invoke_cb_closed]; rfl⟩
    | exact ⟨uv_poll_invoke_cb_ok ops _ _ strict a _ (uv__fast_poll_local_close_ok strict a st h),
        by rw [uv_poll_invoke_cb_closed, uv__fast_poll_local_close_core]⟩
    | exact ⟨uv__fast_poll_local_close_ok strict a st h,
        by rw [uv__fast_poll_local_close_core]⟩
    | exact ⟨uv_poll_invoke_cb_ok ops _ _ strict a _ h, by rw [uv_poll_invoke_cb_closed]⟩

theorem uv__slow_poll_process_events_ok {W : Type} (ops : uv_poll_ops)
    (mask_events : Nat) (req : uv_req_t)
    (strict : Bool) (a : Nat) (st : uv_state W uv_poll_t) (h : uv_poll_ok strict a st) :
    uv_poll_ok strict a (uv__slow_poll_process_events ops mask_events req st) ∧
    (uv__slow_poll_process_events ops mask_events req st).handle.core.closed
      = st.handle.core.closed := by
  unfold uv__slow_poll_process_events
  simp only []
  split_ifs
  · exact ⟨uv_poll_invoke_cb_ok ops _ _ strict a _ (uv_poll_ok_events_zero strict a st h),
      by rw [uv_poll_invoke_cb_closed]; rfl⟩
  · exact ⟨h, rfl⟩
  · exact ⟨uv_poll_invoke_cb_ok ops _ _ strict a _ h, by rw [uv_poll_invoke_cb_closed]⟩
  · exact ⟨h, rfl⟩

theorem uv_poll_inv_want_endgame {a : Nat} {c : uv_poll_core} {log : List uv_event}
    (h : uv_poll_inv false a c log) (hclosed : c.closed = false)
    (hc : c.closing = true) (hs1 : c.submitted_events_1 = 0) (hs2 : c.submitted_events_2 = 0) :
    uv_poll_inv true a { c with endgame_queued := true } (log ++ c.endgame_log) := by
  obtain ⟨h1, h2, h3, h4, h5, h6, h7, h8⟩ := h
  unfold uv_poll_core.endgame_log
  by_cases hq : c.endgame_queued = true
  · simp only [hq, if_true, List.append_nil]
    refine ⟨h1, h2, ?_, h4, ?_, ?_, ?_, ?_⟩
    · intro hx; rw [hc] at hx; simp at hx
    · rw [h5]; simp [hq]
    · intro _; exact ⟨hc, hs1, hs2⟩
    · simp [hclosed]
    · intro _ _ _ _; left; rfl
  · have hq' : c.endgame_queued = false := by simpa using hq
    simp only [hq', Bool.false_eq_true, if_false]
    refine ⟨h1, ?_, ?_, ?_, ?_, ?_, ?_, ?_⟩
    · simp [h2]
    · intro hx; rw [hc] at hx; simp at hx
    · intro hx; exact ⟨(h4 hx).1, by simp [(h4 hx).2]⟩
    · rw [uv_endgame_count_append, h5]
      simp [uv_endgame_count, hq', hclosed, h1]
    · intro _; exact ⟨hc, hs1, hs2⟩
    · simp [hclosed]
    · intro _ _ _ _; left; rfl

theorem uv_poll_inv_strengthen {a : Nat} {c : uv_poll_core} {log : List uv_event}
    (h : uv_poll_inv false a c log)
    (hs : ¬ (c.closing = true ∧ c.submitted_events_1 = 0 ∧ c.submitted_events_2 = 0)) :
    uv_poll_inv true a c log := by
  obtain ⟨h1, h2, h3, h4, h5, h6, h7, h8⟩ := h
  exact ⟨h1, h2, h3, h4, h5, h6, h7, fun _ hc h1 h2 => absurd ⟨hc, h1, h2⟩ hs⟩

theorem uv_poll_process_end_ok {W : Type}
    (submit : uv_state W uv_poll_t → uv_state W uv_poll_t)
    (hcore : ∀ s, (submit s).handle.core = s.handle.core.submit)
    (hlog : ∀ s, uv_event.assert_failed ∉ (submit s).log → (submit s).log = s.log)
    (a : Nat) (st : uv_state W uv_poll_t) (h : uv_poll_ok false a st)
    (hclosed : st.handle.core.closed = false) :
    uv_poll_ok true a (uv_poll_process_end submit st) := by
  unfold uv_poll_process_end
  split_ifs with g1 g2
  · intro hna
    have hl := hlog st hna
    rw [hl] at hna ⊢
    rw [hcore]
    have hinv := h hna
    have hopen : st.handle.core.closing = false := by
      by_contra hc
      have hc' : st.handle.core.closing = true := by simpa using hc
      have he : st.handle.events = 0 := (hinv.2.2.2.1 hc').1
      apply g1
      rw [he]; exact and_not_zero_left _
    apply uv_poll_inv_submit
    apply uv_poll_inv_strengthen hinv
    rintro ⟨hc, _⟩
    rw [hopen] at hc; simp at hc
  · intro hna
    rw [uv_poll_want_endgame_core]
    have hl : (uv_poll_want_endgame st).log = st.log ++ st.handle.core.endgame_log :=
      uv_poll_want_endgame_log_eq st
    rw [hl] at hna ⊢
    have hna0 : uv_event.assert_failed ∉ st.log := by
      intro hx; apply hna; simp [hx]
    exact uv_poll_inv_want_endgame (h hna0) hclosed g2.1 g2.2.1 g2.2.2
  · intro hna
    exact uv_poll_inv_strengthen (h hna) g2

/-! ### Processing a poll request -/

theorem uv_poll_invoke_cb_mono {W : Type} (ops : uv_poll_ops) (status : Int) (events : Nat)
    (st : uv_state W uv_poll_t) {e : uv_event} (he : e ∈ st.log) :
    e ∈ (uv_poll_invoke_cb ops status events st).log := by
  unfold uv_poll_invoke_cb
  apply uv_log_ext_mem (uv_poll_do_calls_log ops _ _)
  simp [he]

theorem uv__fast_poll_process_events_mono {W : Type} (ops : uv_poll_ops)
    (mask_events : Nat) (afd : AFD_POLL_INFO) (req : uv_req_t)
    (st : uv_state W uv_poll_t) {e : uv_event} (he : e ∈ st.log) :
    e ∈ (uv__fast_poll_process_events ops mask_events afd req st).log := by
  unfold uv__fast_poll_process_events
  simp only []
  split_ifs
  all_goals
    first
    | exact he
    | exact uv_poll_invoke_cb_mono ops _ _ _ he
    | (apply uv_poll_invoke_cb_mono; rw [uv__fast_poll_local_close_log]; exact he)
    | (rw [uv__fast_poll_local_close_log]; exact he)

theorem uv__slow_poll_process_events_mono {W : Type} (ops : uv_poll_ops)
    (mask_events : Nat) (req : uv_req_t)
    (st : uv_state W uv_poll_t) {e : uv_event} (he : e ∈ st.log) :
    e ∈ (uv__slow_poll_process_events ops mask_events req st).log := by
  unfold uv__slow_poll_process_events
  simp only []
  split_ifs
  all_goals
    first
    | exact he
    | exact uv_poll_invoke_cb_mono ops _ _ _ he

theorem uv_poll_process_end_ok2 {W : Type}
    (submit : uv_state W uv_poll_t → uv_state W uv_poll_t)
    (hcore : ∀ s, (submit s).handle.core = s.handle.core.submit)
    (hlog : ∀ s, uv_event.assert_failed ∉ (submit s).log → (submit s).log = s.log)
    (a : Nat) (st : uv_state W uv_poll_t) (h : uv_poll_ok false a st)
    (hclosed : uv_event.assert_failed ∉ st.log → st.handle.core.closed = false) :
    uv_poll_ok true a (uv_poll_process_end submit st) := by
  intro hna
  have hna0 : uv_event.assert_failed ∉ st.log := by
    unfold uv_poll_process_end at hna
    split_ifs at hna
    · rw [hlog st hna] at hna; exact hna
    · exact uv_log_ext_not_mem (uv_poll_want_endgame_log st) hna
    · exact hna
  exact uv_poll_process_end_ok submit hcore hlog a st h (hclosed hna0) hna

/-- A request slot is cleared and the invariant, without its last clause, is
kept. -/
theorem uv_poll_inv_clear_1 {a : Nat} {c : uv_poll_core} {log : List uv_event}
    (h : uv_poll_inv true a c log) (hout : c.submitted_events_1 ≠ 0) :
    uv_poll_inv false a { c with submitted_events_1 := 0 } log ∧ c.closed = false := by
  obtain ⟨h1, h2, h3, h4, h5, h6, h7, h8⟩ := h
  have hnq : ¬ (c.endgame_queued = true ∨ c.closed = true) := fun hx => hout (h6 hx).2.1
  refine ⟨⟨h1, h2, h3, h4, h5, fun hx => absurd hx hnq, h7, fun hx => by simp at hx⟩, ?_⟩
  by_contra hx
  exact hnq (Or.inr (by simpa using hx))

theorem uv_poll_inv_clear_2 {a : Nat} {c : uv_poll_core} {log : List uv_event}
    (h : uv_poll_inv true a c log) (hout : c.submitted_events_2 ≠ 0) :
    uv_poll_inv false a { c with submitted_events_2 := 0 } log ∧ c.closed = false := by
  obtain ⟨h1, h2, h3, h4, h5, h6, h7, h8⟩ := h
  have hnq : ¬ (c.endgame_queued = true ∨ c.closed = true) := fun hx => hout (h6 hx).2.2
  refine ⟨⟨h1, h2, h3, h4, h5, fun hx => absurd hx hnq, h7, fun hx => by simp at hx⟩, ?_⟩
  by_contra hx
  exact hnq (Or.inr (by simpa using hx))

theorem uv__fast_poll_process_body_ok {W : Type} (ops : uv_poll_ops) (os_error : Option Nat)
    (mask_events : Nat) (afd : AFD_POLL_INFO) (req : uv_req_t)
    (a : Nat) (st : uv_state W uv_poll_t) (h : uv_poll_ok false a st)
    (hclosed : uv_event.assert_failed ∉ st.log → st.handle.core.closed = false) :
    uv_poll_ok true a (uv__fast_poll_process_body ops os_error mask_events afd req st) := by
  unfold uv__fast_poll_process_body
  have hev := uv__fast_poll_process_events_ok ops mask_events afd req false a st h
  apply uv_poll_process_end_ok2 _ (uv__fast_poll_submit_poll_req_core ops os_error)
    (fun s _ => uv__fast_poll_submit_poll_req_log ops os_error s) a _ hev.1
  intro hna
  rw [hev.2]
  exact hclosed (fun hx => hna (uv__fast_poll_process_events_mono ops mask_events afd req st hx))

theorem uv__slow_poll_process_body_ok {W : Type} (ops : uv_poll_ops) (os_error : Option Nat)
    (mask_events : Nat) (req : uv_req_t)
    (a : Nat) (st : uv_state W uv_poll_t) (h : uv_poll_ok false a st)
    (hclosed : uv_event.assert_failed ∉ st.log → st.handle.core.closed = false) :
    uv_poll_ok true a (uv__slow_poll_process_body ops os_error mask_events req st) := by
  unfold uv__slow_poll_process_body
  have hev := uv__slow_poll_process_events_ok ops mask_events req false a st h
  apply uv_poll_process_end_ok2 _ (uv__slow_poll_submit_poll_req_core ops os_error)
    (uv__slow_poll_submit_poll_req_log_eq ops os_error) a _ hev.1
  intro hna
  rw [hev.2]
  exact hclosed (fun hx => hna (uv__slow_poll_process_events_mono ops mask_events req st hx))

theorem uv_process_poll_req_ok {W : Type} (ops : uv_poll_ops) (os_error : Option Nat)
    (req : uv_poll_req_ref) (a : Nat) (st : uv_state W uv_poll_t)
    (h : uv_poll_ok true a st) (hout : uv_poll_outstanding req st.handle = true) :
    uv_poll_ok true a (uv_process_poll_req ops os_error req st) := by
  unfold uv_process_poll_req uv__fast_poll_process_poll_req uv__slow_poll_process_poll_req
  cases req with
  | other => simp [uv_poll_outstanding] at hout
  | poll_req_1 =>
    have hs : st.handle.core.submitted_events_1 ≠ 0 := by
      simpa [uv_poll_outstanding] using hout
    have h1 : uv_poll_ok false a { st with handle := { st.handle with submitted_events_1 := 0 } } :=
      fun hna => (uv_poll_inv_clear_1 (h hna) hs).1
    have h2 : uv_event.assert_failed ∉ st.log → st.handle.core.closed = false :=
      fun hna => (uv_poll_inv_clear_1 (h hna) hs).2
    simp only []
    split
    · exact uv__fast_poll_process_body_ok ops os_error _ _ _ a _ h1 h2
    · exact uv__slow_poll_process_body_ok ops os_error _ _ a _ h1 h2
  | poll_req_2 =>
    have hs : st.handle.core.submitted_events_2 ≠ 0 := by
      simpa [uv_poll_outstanding] using hout
    have h1 : uv_poll_ok false a { st with handle := { st.handle with submitted_events_2 := 0 } } :=
      fun hna => (uv_poll_inv_clear_2 (h hna) hs).1
    have h2 : uv_event.assert_failed ∉ st.log → st.handle.core.closed = false :=
      fun hna => (uv_poll_inv_clear_2 (h hna) hs).2
    simp only []
    split
    · exact uv__fast_poll_process_body_ok ops os_error _ _ _ a _ h1 h2
    · exact uv__slow_poll_process_body_ok ops os_error _ _ a _ h1 h2

theorem uv_poll_completed_core {W : Type} (c : uv_poll_completion) (st : uv_state W uv_poll_t) :
    (uv_poll_completed c st).handle.core = st.handle.core ∧
      (uv_poll_completed c st).log = st.log := by
  unfold uv_poll_completed
  split <;> (try split_ifs) <;> exact ⟨rfl, rfl⟩

theorem uv_poll_process_completion_ok {W : Type} (ops : uv_poll_ops) (c : uv_poll_completion)
    (a : Nat) (st : uv_state W uv_poll_t)
    (h : uv_poll_ok true a st) (hout : uv_poll_outstanding c.req st.handle = true) :
    uv_poll_ok true a (uv_poll_process_completion ops c st) := by
  unfold uv_poll_process_completion
  have hc := uv_poll_completed_core c st
  apply uv_process_poll_req_ok
  · intro hna
    rw [hc.1]
    rw [hc.2] at hna ⊢
    exact h hna
  · have : (uv_poll_completed c st).handle.core = st.handle.core := hc.1
    have h1 : (uv_poll_completed c st).handle.submitted_events_1 = st.handle.submitted_events_1 :=
      congrArg uv_poll_core.submitted_events_1 this
    have h2 : (uv_poll_completed c st).handle.submitted_events_2 = st.handle.submitted_events_2 :=
      congrArg uv_poll_core.submitted_events_2 this
    unfold uv_poll_outstanding at hout ⊢
    cases hr : c.req <;> simp only [hr, h1, h2] at hout ⊢ <;> exact hout

/-! ### Runs of a poll handle keep the invariant -/

theorem uv_poll_process_endgame_core {W : Type} (st : uv_state W uv_poll_t) :
    (uv_poll_process_endgame st).handle.core
      = { st.handle.core with endgame_queued := false, closed := true } := by
  unfold uv_poll_process_endgame uv_poll_endgame uv__handle_close
  rfl

theorem uv_poll_process_endgame_log_eq {W : Type} (st : uv_state W uv_poll_t)
    (hc : st.handle.flags.closing = true) (hd : st.handle.flags.closed = false)
    (h1 : st.handle.submitted_events_1 = 0) (h2 : st.handle.submitted_events_2 = 0) :
    (uv_poll_process_endgame st).log = st.log ++
      (match st.handle.close_cb with
        | some cb => [uv_event.close_cb cb]
        | none => []) := by
  unfold uv_poll_process_endgame uv_poll_endgame uv__handle_close
  simp only [hc, hd, h1, h2]
  cases st.handle.close_cb <;> simp

theorem uv_poll_process_endgame_mono {W : Type} (st : uv_state W uv_poll_t) {e : uv_event}
    (he : e ∈ st.log) : e ∈ (uv_poll_process_endgame st).log := by
  unfold uv_poll_process_endgame uv_poll_endgame uv__handle_close
  simp only []
  cases st.handle.close_cb <;> simp only [] <;> split_ifs <;> simp [he]

theorem uv_poll_inv_endgame {a : Nat} {c : uv_poll_core} {log : List uv_event}
    (h : uv_poll_inv true a c log) (hq : c.endgame_queued = true) (n : List uv_event)
    (hn : ∀ e ∈ n, ∃ cb, e = uv_event.close_cb cb) :
    uv_poll_inv true a { c with endgame_queued := false, closed := true } (log ++ n) := by
  obtain ⟨h1, h2, h3, h4, h5, h6, h7, h8⟩ := h
  obtain ⟨hc, hs1, hs2⟩ := h6 (Or.inl hq)
  have hcount : uv_endgame_count a n = 0 := by
    unfold uv_endgame_count
    rw [List.count_eq_zero]
    intro hx
    obtain ⟨cb, hcb⟩ := hn _ hx
    cases hcb
  refine ⟨h1, ?_, ?_, ?_, ?_, ?_, ?_, ?_⟩
  · intro hx
    rcases List.mem_append.1 hx with hx | hx
    · exact h2 hx
    · obtain ⟨cb, hcb⟩ := hn _ hx
      cases hcb
  · intro hx; rw [hc] at hx; simp at hx
  · intro hx; exact ⟨(h4 hx).1, List.mem_append_left _ (h4 hx).2⟩
  · rw [uv_endgame_count_append, h5, hcount]; simp [hq]
  · intro _; exact ⟨hc, hs1, hs2⟩
  · simp
  · intro _ _ _ _; right; rfl

theorem uv_poll_process_endgame_ok {W : Type} (a : Nat) (st : uv_state W uv_poll_t)
    (h : uv_poll_ok true a st) (hq : st.handle.flags.endgame_queued = true) :
    uv_poll_ok true a (uv_poll_process_endgame st) := by
  intro hna
  have hna0 : uv_event.assert_failed ∉ st.log :=
    fun hx => hna (uv_poll_process_endgame_mono st hx)
  have hinv := h hna0
  obtain ⟨hc, hs1, hs2⟩ := hinv.2.2.2.2.2.1 (Or.inl hq)
  have hd : st.handle.flags.closed = false := by
    by_contra hx
    exact hinv.2.2.2.2.2.2.1 ⟨hq, by simpa using hx⟩
  rw [uv_poll_process_endgame_core, uv_poll_process_endgame_log_eq st hc hd hs1 hs2]
  apply uv_poll_inv_endgame hinv hq
  intro e he
  cases hcb : st.handle.close_cb with
  | none => rw [hcb] at he; simp at he
  | some cb => rw [hcb] at he; simp at he; exact ⟨cb, he⟩

theorem uv_poll_process_endgame_no_assert {W : Type} (a : Nat) (st : uv_state W uv_poll_t)
    (hinv : uv_poll_inv true a st.handle.core st.log)
    (hq : st.handle.flags.endgame_queued = true) :
    uv_event.assert_failed ∉ (uv_poll_process_endgame st).log := by
  obtain ⟨hc, hs1, hs2⟩ := hinv.2.2.2.2.2.1 (Or.inl hq)
  have hd : st.handle.flags.closed = false := by
    by_contra hx
    exact hinv.2.2.2.2.2.2.1 ⟨hq, by simpa using hx⟩
  rw [uv_poll_process_endgame_log_eq st hc hd hs1 hs2]
  intro hx
  rcases List.mem_append.1 hx with hx | hx
  · exact hinv.2.1 hx
  · cases hcb : st.handle.close_cb with
    | none => rw [hcb] at hx; simp at hx
    | some cb => rw [hcb] at hx; simp at hx

theorem uv_poll_step_ok {W : Type} (ops : uv_poll_ops) (inp : uv_poll_input)
    (a : Nat) (st st1 : uv_state W uv_poll_t) (h : uv_poll_ok true a st)
    (hstep : uv_poll_step ops inp st = some st1) : uv_poll_ok true a st1 := by
  unfold uv_poll_step at hstep
  cases inp with
  | call c =>
    simp only [Option.some.injEq] at hstep
    rw [← hstep]
    exact uv_poll_do_call_ok ops c true a st h
  | complete c =>
    simp only [] at hstep
    split_ifs at hstep with hout
    simp only [Option.some.injEq] at hstep
    rw [← hstep]
    exact uv_poll_process_completion_ok ops c a st h hout
  | endgame =>
    simp only [] at hstep
    split_ifs at hstep with hq
    simp only [Option.some.injEq] at hstep
    rw [← hstep]
    exact uv_poll_process_endgame_ok a st h hq

theorem uv_poll_run_inv {W : Type} (ops : uv_poll_ops) (inputs : List uv_poll_input)
    (a : Nat) (st st1 : uv_state W uv_poll_t)
    (h : uv_poll_inv true a st.handle.core st.log)
    (hrun : uv_poll_run ops inputs st = some st1) :
    uv_poll_inv true a st1.handle.core st1.log := by
  induction inputs generalizing st with
  | nil =>
    simp only [uv_poll_run, Option.some.injEq] at hrun
    rw [← hrun]; exact h
  | cons inp rest ih =>
    unfold uv_poll_run at hrun
    cases hstep : uv_poll_step ops inp st with
    | none => rw [hstep] at hrun; simp at hrun
    | some st2 =>
      rw [hstep] at hrun
      simp only [] at hrun
      split_ifs at hrun with hna
      exact ih st2 (uv_poll_step_ok ops inp a st st2 (fun _ => h) hstep hna) hrun

theorem uv_poll_initial_inv {W : Type} (st : uv_state W uv_poll_t) (h : uv_poll_initial st) :
    uv_poll_inv true st.handle.addr st.handle.core st.log := by
  obtain ⟨h1, h2, h3, h4, h5, h6, h7, h8⟩ := h
  have hc : st.handle.core.closing = false := h1
  have hd : st.handle.core.closed = false := h2
  have hq : st.handle.core.endgame_queued = false := h3
  refine ⟨rfl, by simp [h8], ?_, ?_, ?_, ?_, ?_, ?_⟩
  · intro _; exact ⟨hq, hd, by simp [h8]⟩
  · intro hx; rw [hc] at hx; simp at hx
  · simp [h8, uv_endgame_count, hq, hd]
  · intro hx; rcases hx with hx | hx
    · rw [hq] at hx; simp at hx
    · rw [hd] at hx; simp at hx
  · simp [hq]
  · intro _ hx; rw [hc] at hx; simp at hx

/-! ## No callback after the close: the poll handle -/

/-! ### Poll requests of a closed handle -/

theorem uv_poll_do_close_closing {W : Type} (cb : Option Nat) (os_error : Option Nat)
    (st : uv_state W uv_poll_t) (h : st.handle.flags.closing = false) :
    (uv_poll_do_close cb os_error st).handle.flags.closing = true ∧
    (uv_poll_do_close cb os_error st).handle.events = 0 := by
  have hcore : (uv_poll_do_close cb os_error st).handle.core = st.handle.core.close := by
    rw [uv_poll_do_close_eq, if_neg (by simp [h]), uv_poll_close_core]
    rfl
  have h1 : (uv_poll_do_close cb os_error st).handle.flags.closing = st.handle.core.close.closing :=
    congrArg uv_poll_core.closing hcore
  have h2 : (uv_poll_do_close cb os_error st).handle.events = st.handle.core.close.events :=
    congrArg uv_poll_core.events hcore
  rw [h1, h2]
  unfold uv_poll_core.close
  split_ifs <;> exact ⟨rfl, rfl⟩

theorem uv_poll_process_end_closed {W : Type}
    (submit : uv_state W uv_poll_t → uv_state W uv_poll_t) (st : uv_state W uv_poll_t)
    (hc : st.handle.flags.closing = true) (he : st.handle.events = 0) :
    (uv_poll_process_end submit st).handle.flags.closing = true ∧
    (uv_poll_process_end submit st).handle.events = 0 ∧
    uv_user_cbs (uv_poll_process_end submit st).log = uv_user_cbs st.log := by
  unfold uv_poll_process_end
  rw [he, and_not_zero_left]
  simp only [ne_eq, not_true_eq_false, if_false]
  split_ifs
  · have hcore := uv_poll_want_endgame_core st
    refine ⟨?_, ?_, uv_log_ext_user_cbs (uv_poll_want_endgame_log st)⟩
    · exact (congrArg uv_poll_core.closing hcore).trans hc
    · exact (congrArg uv_poll_core.events hcore).trans he
  · exact ⟨hc, he, rfl⟩

theorem uv__fast_poll_process_events_closed {W : Type} (ops : uv_poll_ops)
    (mask_events : Nat) (afd : AFD_POLL_INFO) (req : uv_req_t) (st : uv_state W uv_poll_t)
    (hc : st.handle.flags.closing = true) (he : st.handle.events = 0) :
    (uv__fast_poll_process_events ops mask_events afd req st).handle.flags.closing = true ∧
    (uv__fast_poll_process_events ops mask_events afd req st).handle.events = 0 ∧
    (uv__fast_poll_process_events ops mask_events afd req st).log = st.log := by
  have hl : (uv__fast_poll_local_close st).handle.flags.closing = true ∧
      (uv__fast_poll_local_close st).handle.events = 0 ∧
      (uv__fast_poll_local_close st).log = st.log := by
    have hcore := uv__fast_poll_local_close_core st
    exact ⟨(congrArg uv_poll_core.closing hcore).trans hc,
      congrArg uv_poll_core.events hcore, uv__fast_poll_local_close_log st⟩
  unfold uv__fast_poll_process_events
  simp only [he, and_not_zero_left, Nat.and_zero, ne_eq, not_true_eq_false, and_false, if_false]
  split_ifs
  all_goals
    first
    | exact ⟨hc, he, rfl⟩
    | exact hl

theorem uv__slow_poll_process_events_closed {W : Type} (ops : uv_poll_ops)
    (mask_events : Nat) (req : uv_req_t) (st : uv_state W uv_poll_t)
    (hc : st.handle.flags.closing = true) (he : st.handle.events = 0) :
    (uv__slow_poll_process_events ops mask_events req st).handle.flags.closing = true ∧
    (uv__slow_poll_process_events ops mask_events req st).handle.events = 0 ∧
    (uv__slow_poll_process_events ops mask_events req st).log = st.log := by
  unfold uv__slow_poll_process_events
  simp only [he, and_not_zero_left, Nat.and_zero, ne_eq, not_true_eq_false, if_false]
  split_ifs
  all_goals exact ⟨hc, he, rfl⟩

theorem uv_process_poll_req_closed {W : Type} (ops : uv_poll_ops) (os_error : Option Nat)
    (req : uv_poll_req_ref) (st : uv_state W uv_poll_t)
    (hc : st.handle.flags.closing = true) (he : st.handle.events = 0) :
    (uv_process_poll_req ops os_error req st).handle.flags.closing = true ∧
    (uv_process_poll_req ops os_error req st).handle.events = 0 ∧
    uv_user_cbs (uv_process_poll_req ops os_error req st).log = uv_user_cbs st.log := by
  have hf : ∀ (m : Nat) (afd : AFD_POLL_INFO) (r : uv_req_t) (s : uv_state W uv_poll_t),
      s.handle.flags.closing = true → s.handle.events = 0 →
      (uv__fast_poll_process_body ops os_error m afd r s).handle.flags.closing = true ∧
      (uv__fast_poll_process_body ops os_error m afd r s).handle.events = 0 ∧
      uv_user_cbs (uv__fast_poll_process_body ops os_error m afd r s).log = uv_user_cbs s.log := by
    intro m afd r s h1 h2
    unfold uv__fast_poll_process_body
    obtain ⟨e1, e2, e3⟩ := uv__fast_poll_process_events_closed ops m afd r s h1 h2
    obtain ⟨p1, p2, p3⟩ := uv_poll_process_end_closed
      (uv__fast_poll_submit_poll_req ops os_error) _ e1 e2
    exact ⟨p1, p2, by rw [p3, e3]⟩
  have hs : ∀ (m : Nat) (r : uv_req_t) (s : uv_state W uv_poll_t),
      s.handle.flags.closing = true → s.handle.events = 0 →
      (uv__slow_poll_process_body ops os_error m r s).handle.flags.closing = true ∧
      (uv__slow_poll_process_body ops os_error m r s).handle.events = 0 ∧
      uv_user_cbs (uv__slow_poll_process_body ops os_error m r s).log = uv_user_cbs s.log := by
    intro m r s h1 h2
    unfold uv__slow_poll_process_body
    obtain ⟨e1, e2, e3⟩ := uv__slow_poll_process_events_closed ops m r s h1 h2
    obtain ⟨p1, p2, p3⟩ := uv_poll_process_end_closed
      (uv__slow_poll_submit_poll_req ops os_error) _ e1 e2
    exact ⟨p1, p2, by rw [p3, e3]⟩
  unfold uv_process_poll_req uv__fast_poll_process_poll_req uv__slow_poll_process_poll_req
  cases req with
  | other =>
    simp only []
    split <;> exact ⟨hc, he, by simp [uv_user_cbs, List.filter_append, uv_event.is_user_cb]⟩
  | poll_req_1 =>
    simp only []
    split
    · exact hf _ _ _ _ hc he
    · exact hs _ _ _ hc he
  | poll_req_2 =>
    simp only []
    split
    · exact hf _ _ _ _ hc he
    · exact hs _ _ _ hc he

theorem uv_poll_completions_closed {W : Type} (ops : uv_poll_ops)
    (cs : List uv_poll_completion) (st : uv_state W uv_poll_t)
    (hc : st.handle.flags.closing = true) (he : st.handle.events = 0) :
    (cs.foldl (fun s c => uv_poll_process_completion ops c s) st).handle.flags.closing = true ∧
    (cs.foldl (fun s c => uv_poll_process_completion ops c s) st).handle.events = 0 ∧
    uv_user_cbs (cs.foldl (fun s c => uv_poll_process_completion ops c s) st).log
      = uv_user_cbs st.log := by
  induction cs generalizing st with
  | nil => exact ⟨hc, he, rfl⟩
  | cons c rest ih =>
    simp only [List.foldl_cons]
    have hcore := uv_poll_completed_core c st
    have h1 : (uv_poll_completed c st).handle.flags.closing = true :=
      (congrArg uv_poll_core.closing hcore.1).trans hc
    have h2 : (uv_poll_completed c st).handle.events = 0 :=
      (congrArg uv_poll_core.events hcore.1).trans he
    obtain ⟨p1, p2, p3⟩ := uv_process_poll_req_closed ops c.os_error c.req _ h1 h2
    obtain ⟨q1, q2, q3⟩ := ih (uv_poll_process_completion ops c st) p1 p2
    refine ⟨q1, q2, ?_⟩
    rw [q3]
    unfold uv_poll_process_completion
    rw [p3, hcore.2]

/-! ## No callback after the close: the process and fs-event handles -/

/-! ### The exit request of a closed process handle -/

theorem uv_process_want_endgame_log {W : Type} (st : uv_state W uv_process_t) :
    uv_log_ext uv_event.is_quiet st.log (uv_process_want_endgame st).log :=
  uv_want_endgame_log st.loop _ _ _

theorem uv_process_do_close_eq {W : Type} (cb : Option Nat) (unregister_ok fired : Bool)
    (st : uv_state W uv_process_t) :
    uv_process_do_close cb unregister_ok fired st =
      if st.handle.flags.closing then
        { st with log := st.log ++ [.close_called st.handle.addr, .assert_failed] }
      else
        uv_process_close unregister_ok fired { st with
          handle := { st.handle with close_cb := cb },
          log := st.log ++ [.close_called st.handle.addr] } := by
  unfold uv_process_do_close uv_close
  by_cases h : st.handle.flags.closing = true
  · simp [h, uv_state.lift, uv_handle_t.flags, uv_handle_t.addr]
  · simp [h, uv_state.lift, uv_handle_t.flags, uv_handle_t.addr, uv_handle_t.set_close_cb]

theorem uv_process_want_endgame_closing {W : Type} (st : uv_state W uv_process_t) :
    (uv_process_want_endgame st).handle.flags.closing = st.handle.flags.closing := by
  unfold uv_process_want_endgame uv_want_endgame
  simp only []
  split_ifs <;> rfl

theorem uv_process_close_closing {W : Type} (unregister_ok fired : Bool)
    (st : uv_state W uv_process_t) :
    (uv_process_close unregister_ok fired st).handle.flags.closing = true := by
  unfold uv_process_close
  simp only []
  have h1 : ∀ s : uv_state W uv_process_t, s.handle.flags.closing = true →
      (if s.handle.exit_cb_pending = 0 then uv_process_want_endgame s else s).handle.flags.closing
        = true := by
    intro s hs
    split
    · rw [uv_process_want_endgame_closing]; exact hs
    · exact hs
  apply h1
  split
  · cases fired <;> rfl
  · rfl

theorem uv_process_do_close_closing {W : Type} (cb : Option Nat) (unregister_ok fired : Bool)
    (st : uv_state W uv_process_t) (h : st.handle.flags.closing = false) :
    (uv_process_do_close cb unregister_ok fired st).handle.flags.closing = true := by
  rw [uv_process_do_close_eq, if_neg (by simp [h])]
  exact uv_process_close_closing _ _ _

theorem uv_process_proc_exit_closed {W : Type} (ops : uv_process_ops) (exit_status : Option Nat)
    (last_error : Nat) (st : uv_state W uv_process_t) (hc : st.handle.flags.closing = true) :
    (uv_process_proc_exit ops exit_status last_error st).handle.flags.closing = true ∧
    uv_user_cbs (uv_process_proc_exit ops exit_status last_error st).log = uv_user_cbs st.log := by
  unfold uv_process_proc_exit
  simp only [hc, if_true]
  constructor
  · unfold uv_process_want_endgame uv_want_endgame
    simp only []
    split_ifs <;> exact hc
  · rw [uv_log_ext_user_cbs (uv_process_want_endgame_log _)]
    simp only []
    split_ifs <;> simp [uv_user_cbs, List.filter_append, uv_event.is_user_cb]

/-! ### The request of a closed fs-event handle -/

theorem uv_fs_event_want_endgame_log {W : Type} (st : uv_state W uv_fs_event_t) :
    uv_log_ext uv_event.is_quiet st.log (uv_fs_event_want_endgame st).log :=
  uv_want_endgame_log st.loop _ _ _

theorem uv_fs_event_do_close_eq {W : Type} (cb : Option Nat) (st : uv_state W uv_fs_event_t) :
    uv_fs_event_do_close cb st =
      if st.handle.flags.closing then
        { st with log := st.log ++ [.close_called st.handle.addr, .assert_failed] }
      else
        uv_fs_event_close { st with
          handle := { st.handle with close_cb := cb },
          log := st.log ++ [.close_called st.handle.addr] } := by
  unfold uv_fs_event_do_close uv_close
  by_cases h : st.handle.flags.closing = true
  · simp [h, uv_state.lift, uv_handle_t.flags, uv_handle_t.addr]
  · simp [h, uv_state.lift, uv_handle_t.flags, uv_handle_t.addr, uv_handle_t.set_close_cb]

theorem uv_fs_event_stop_log {W : Type} (st : uv_state W uv_fs_event_t) :
    (uv_fs_event_stop st).1.log = st.log := by
  unfold uv_fs_event_stop
  split <;> rfl

theorem uv_fs_event_stop_closing {W : Type} (st : uv_state W uv_fs_event_t) :
    (uv_fs_event_stop st).1.handle.flags.closing = st.handle.flags.closing := by
  unfold uv_fs_event_stop
  split
  · rfl
  · simp

theorem uv_fs_event_close_flags {W : Type} (st : uv_state W uv_fs_event_t) :
    (uv_fs_event_close st).handle.flags.closing = true ∧
    (uv_fs_event_close st).handle.flags.active = false := by
  unfold uv_fs_event_close uv_fs_event_want_endgame uv_want_endgame uv__handle_closing
  simp only []
  split_ifs <;> exact ⟨rfl, rfl⟩

theorem uv_fs_event_close_log {W : Type} (st : uv_state W uv_fs_event_t) :
    uv_log_ext uv_event.is_quiet st.log (uv_fs_event_close st).log := by
  unfold uv_fs_event_close
  simp only []
  have h1 : uv_log_ext uv_event.is_quiet st.log
      (uv__handle_closing (uv_fs_event_stop st).1.loop (uv_fs_event_stop st).1.handle.flags
        (uv_fs_event_stop st).1.log).2.2 := by
    have h0 : uv_log_ext uv_event.is_quiet st.log (uv_fs_event_stop st).1.log := by
      rw [uv_fs_event_stop_log]; exact uv_log_ext_refl _ _
    exact uv_log_ext_trans h0 (uv__handle_closing_log (uv_fs_event_stop st).1.loop
      (uv_fs_event_stop st).1.handle.flags (uv_fs_event_stop st).1.log)
  split
  · exact uv_log_ext_trans h1 (uv_fs_event_want_endgame_log _)
  · exact h1

theorem uv_fs_event_do_close_flags {W : Type} (cb : Option Nat) (st : uv_state W uv_fs_event_t)
    (h : st.handle.flags.closing = false) :
    (uv_fs_event_do_close cb st).handle.flags.closing = true ∧
    (uv_fs_event_do_close cb st).handle.flags.active = false := by
  rw [uv_fs_event_do_close_eq, if_neg (by simp [h])]
  exact uv_fs_event_close_flags _

theorem uv_fs_event_req_done_log {W : Type} (st : uv_state W uv_fs_event_t) :
    uv_log_ext uv_event.is_quiet st.log (uv_fs_event_req_done st).log :=
  uv_log_ext_ite _ uv_event.assert_failed _ rfl

theorem uv_fs_event_want_endgame_flags {W : Type} (st : uv_state W uv_fs_event_t) :
    (uv_fs_event_want_endgame st).handle.flags.active = st.handle.flags.active ∧
    (uv_fs_event_want_endgame st).handle.flags.closing = st.handle.flags.closing := by
  unfold uv_fs_event_want_endgame uv_want_endgame
  simp only []
  split_ifs <;> exact ⟨rfl, rfl⟩

theorem uv_process_fs_event_req_inactive {W : Type} (ops : uv_fs_event_ops)
    (os_error : Option Nat) (st : uv_state W uv_fs_event_t)
    (ha : st.handle.flags.active = false) :
    uv_user_cbs (uv_process_fs_event_req ops os_error st).log = uv_user_cbs st.log ∧
    (uv_process_fs_event_req ops os_error st).handle.flags.active = false ∧
    (uv_process_fs_event_req ops os_error st).handle.flags.closing = st.handle.flags.closing := by
  have ha1 : (uv_fs_event_req_done st).handle.flags.active = false := ha
  have hq := uv_log_ext_user_cbs (uv_fs_event_req_done_log st)
  unfold uv_process_fs_event_req
  simp only [uv__is_active, ha1, Bool.not_false, if_true]
  split
  · refine ⟨?_, ?_, ?_⟩
    · rw [uv_log_ext_user_cbs (uv_fs_event_want_endgame_log _)]
      exact hq
    · rw [(uv_fs_event_want_endgame_flags _).1]; exact ha
    · rw [(uv_fs_event_want_endgame_flags _).2]; rfl
  · exact ⟨hq, ha, rfl⟩

/-! ## A close made inside an fs-event callback -/

/-! ### No callback after a close made from the fs-event callback -/

theorem uv_quiet_of_no_close (l : List uv_event) (h : l.any uv_event.is_close = false) :
    uv_quiet_after_close l = true := by
  induction l with
  | nil => rfl
  | cons e rest ih =>
    rw [List.any_cons, Bool.or_eq_false_iff] at h
    obtain ⟨h1, h2⟩ := h
    cases e
    case close_called => exact absurd h1 (by simp [uv_event.is_close])
    all_goals exact ih h2

theorem uv_quiet_append_quiet (l n : List uv_event) (h : uv_quiet_after_close l = true)
    (hn : ∀ e ∈ n, e.is_quiet = true) : uv_quiet_after_close (l ++ n) = true := by
  have hall : ∀ m : List uv_event, (∀ e ∈ m, e.is_quiet = true) →
      m.all (fun e => !e.is_user_cb) = true := by
    intro m hm
    rw [List.all_eq_true]
    intro x hx
    exact hm x hx
  induction l with
  | nil =>
    simp only [List.nil_append]
    clear h
    induction n with
    | nil => rfl
    | cons e rest ih =>
      have hrest : ∀ x ∈ rest, x.is_quiet = true := fun x hx => hn x (List.mem_cons_of_mem _ hx)
      cases e
      case close_called a => exact hall rest hrest
      all_goals exact ih hrest
  | cons e rest ih =>
    cases e
    case close_called a =>
      have h1 : rest.all (fun e => !e.is_user_cb) = true := h
      show (rest ++ n).all (fun e => !e.is_user_cb) = true
      rw [List.all_append, h1, hall n hn]
      rfl
    all_goals exact ih h

theorem uv_quiet_append_any (l : List uv_event) (e : uv_event)
    (h : l.any uv_event.is_close = false) : uv_quiet_after_close (l ++ [e]) = true := by
  induction l with
  | nil => cases e <;> simp [uv_quiet_after_close]
  | cons x rest ih =>
    rw [List.any_cons, Bool.or_eq_false_iff] at h
    obtain ⟨h1, h2⟩ := h
    cases x
    case close_called => exact absurd h1 (by simp [uv_event.is_close])
    all_goals exact ih h2

theorem uv_close_inv_ext {l1 l2 : List uv_event} {closing : Bool}
    (h : uv_close_inv l1 closing) (hext : uv_log_ext uv_event.is_quiet l1 l2)
    (hc : l2.any uv_event.is_close = true → closing = true) : uv_close_inv l2 closing := by
  obtain ⟨n, rfl, hn⟩ := hext
  exact ⟨uv_quiet_append_quiet l1 n h.1 hn, hc⟩

theorem uv_fs_event_do_call_inv {W : Type} (c : uv_fs_event_call)
    (st : uv_state W uv_fs_event_t) (h : uv_close_inv st.log st.handle.flags.closing) :
    uv_close_inv (uv_fs_event_do_call c st).log (uv_fs_event_do_call c st).handle.flags.closing := by
  unfold uv_fs_event_do_call
  cases c with
  | stop =>
    simp only []
    rw [uv_fs_event_stop_log, uv_fs_event_stop_closing]
    exact h
  | close cb =>
    simp only []
    rw [uv_fs_event_do_close_eq]
    by_cases hc : st.handle.flags.closing = true
    · rw [if_pos hc]
      refine ⟨uv_quiet_append_quiet _ _ h.1 ?_, fun _ => hc⟩
      intro e he
      simp only [List.mem_cons, List.mem_singleton, List.not_mem_nil, or_false] at he
      rcases he with he | he <;> rw [he] <;> rfl
    · rw [if_neg hc]
      have hfl := uv_fs_event_close_flags { st with
          handle := { st.handle with close_cb := cb },
          log := st.log ++ [uv_event.close_called st.handle.addr] }
      refine ⟨?_, fun _ => hfl.1⟩
      have hext := uv_fs_event_close_log { st with
          handle := { st.handle with close_cb := cb },
          log := st.log ++ [uv_event.close_called st.handle.addr] }
      obtain ⟨n, hn, hq⟩ := hext
      rw [hn]
      simp only [List.append_assoc]
      apply uv_quiet_append_quiet _ _ h.1
      intro e he
      simp only [List.singleton_append, List.mem_cons] at he
      rcases he with he | he
      · rw [he]; rfl
      · exact hq e he

theorem uv_fs_event_do_calls_inv {W : Type} (calls : List uv_fs_event_call)
    (st : uv_state W uv_fs_event_t) (h : uv_close_inv st.log st.handle.flags.closing) :
    uv_close_inv (calls.foldl (fun s c => uv_fs_event_do_call c s) st).log
      (calls.foldl (fun s c => uv_fs_event_do_call c s) st).handle.flags.closing := by
  induction calls generalizing st with
  | nil => exact h
  | cons c rest ih =>
    simp only [List.foldl_cons]
    exact ih _ (uv_fs_event_do_call_inv c st h)

theorem uv_fs_event_invoke_cb_inv {W : Type} (ops : uv_fs_event_ops)
    (filename : Option (List Nat)) (events : Nat) (status : Int)
    (st : uv_state W uv_fs_event_t) (h : st.log.any uv_event.is_close = false) :
    uv_close_inv (uv_fs_event_invoke_cb ops filename events status st).log
      (uv_fs_event_invoke_cb ops filename events status st).handle.flags.closing := by
  unfold uv_fs_event_invoke_cb
  apply uv_fs_event_do_calls_inv
  refine ⟨uv_quiet_append_any _ _ h, ?_⟩
  intro hx
  simp [h, uv_event.is_close] at hx

theorem uv_fs_event_record_inv {W : Type} (ops : uv_fs_event_ops)
    (file_info : FILE_NOTIFY_INFORMATION)
    (st : uv_state W uv_fs_event_t) (h : st.log.any uv_event.is_close = false) :
    uv_close_inv (uv_fs_event_record ops file_info st).log
      (uv_fs_event_record ops file_info st).handle.flags.closing := by
  have h0 : uv_close_inv st.log st.handle.flags.closing :=
    ⟨uv_quiet_of_no_close _ h, fun hx => by rw [h] at hx; simp at hx⟩
  unfold uv_fs_event_record
  simp only []
  split_ifs
  all_goals
    first
    | exact h0
    | exact uv_fs_event_invoke_cb_inv ops _ _ _ st h

theorem uv_close_inv_no_close {log : List uv_event} {closing : Bool}
    (h : uv_close_inv log closing) (hc : closing = false) :
    log.any uv_event.is_close = false := by
  by_contra hx
  have := h.2 (by simpa using hx)
  rw [hc] at this
  simp at this

theorem uv_fs_event_records_inv {W : Type} (ops : uv_fs_event_ops)
    (records : List FILE_NOTIFY_INFORMATION)
    (st : uv_state W uv_fs_event_t) (h : st.log.any uv_event.is_close = false) :
    uv_close_inv (uv_fs_event_records ops records st).log
      (uv_fs_event_records ops records st).handle.flags.closing := by
  induction records generalizing st with
  | nil =>
    unfold uv_fs_event_records
    exact ⟨uv_quiet_of_no_close _ h, fun hx => by rw [h] at hx; simp at hx⟩
  | cons r rest ih =>
    unfold uv_fs_event_records
    simp only []
    have hr := uv_fs_event_record_inv ops r st h
    split_ifs with hc
    · apply ih
      apply uv_close_inv_no_close hr
      simpa using hc.2
    · exact hr

theorem uv_fs_event_queue_readdirchanges_log {W : Type} (ops : uv_fs_event_ops)
    (os_error : Option Nat) (st : uv_state W uv_fs_event_t) :
    uv_log_ext uv_event.is_quiet st.log
      (uv_fs_event_queue_readdirchanges ops os_error st).log := by
  unfold uv_fs_event_queue_readdirchanges
  cases os_error <;> simp only [] <;>
    exact uv_log_ext_trans (uv_log_ext_ite _ uv_event.assert_failed _ rfl)
      (uv_log_ext_ite _ uv_event.assert_failed _ rfl)

theorem uv_close_inv_quiet_ext {l1 l2 : List uv_event} {c1 : Bool}
    (h : uv_close_inv l1 c1) (hext : uv_log_ext uv_event.is_quiet l1 l2) :
    uv_quiet_after_close l2 = true := by
  obtain ⟨n, rfl, hn⟩ := hext
  exact uv_quiet_append_quiet l1 n h.1 hn

theorem uv_fs_event_report_inv {W : Type} (ops : uv_fs_event_ops)
    (st : uv_state W uv_fs_event_t) (h : st.log.any uv_event.is_close = false) :
    uv_close_inv (uv_fs_event_report ops st).log (uv_fs_event_report ops st).handle.flags.closing := by
  unfold uv_fs_event_report
  simp only []
  split_ifs
  · exact uv_fs_event_records_inv ops _ st h
  · exact uv_fs_event_invoke_cb_inv ops _ _ _ st h
  · exact uv_fs_event_invoke_cb_inv ops _ _ _ st h

theorem uv_process_fs_event_req_quiet {W : Type} (ops : uv_fs_event_ops)
    (os_error : Option Nat) (st : uv_state W uv_fs_event_t)
    (h : st.log.any uv_event.is_close = false) :
    uv_quiet_after_close (uv_process_fs_event_req ops os_error st).log = true := by
  have hlog : (uv_fs_event_req_done st).log.any uv_event.is_close = false := by
    unfold uv_fs_event_req_done
    simp only []
    split_ifs <;> simp [h, uv_event.is_close]
  have h0 : uv_close_inv (uv_fs_event_req_done st).log false :=
    ⟨uv_quiet_of_no_close _ hlog, fun hx => by rw [hlog] at hx; simp at hx⟩
  unfold uv_process_fs_event_req
  simp only []
  split_ifs
  · exact uv_close_inv_quiet_ext h0 (uv_fs_event_want_endgame_log _)
  · exact h0.1
  · exact uv_close_inv_quiet_ext (uv_fs_event_report_inv ops _ hlog)
      (uv_fs_event_queue_readdirchanges_log ops os_error _)
  · exact uv_close_inv_quiet_ext (uv_fs_event_report_inv ops _ hlog)
      (uv_fs_event_want_endgame_log _)

/-! ## The log of a close -/

theorem uv_process_close_log {W : Type} (unregister_ok fired : Bool)
    (st : uv_state W uv_process_t) :
    uv_log_ext uv_event.is_quiet st.log (uv_process_close unregister_ok fired st).log := by
  have h1 := uv__handle_closing_log st.loop st.handle.flags st.log
  unfold uv_process_close
  simp only []
  obtain ⟨r, hr⟩ : ∃ r, r = uv__handle_closing st.loop st.handle.flags st.log := ⟨_, rfl⟩
  rw [← hr] at h1 ⊢
  have h2 : ∀ s : uv_state W uv_process_t, uv_log_ext uv_event.is_quiet r.2.2 s.log →
      uv_log_ext uv_event.is_quiet st.log
        (if s.handle.exit_cb_pending = 0 then uv_process_want_endgame s else s).log := by
    intro s hs
    split_ifs
    · exact uv_log_ext_trans h1 (uv_log_ext_trans hs (uv_process_want_endgame_log s))
    · exact uv_log_ext_trans h1 hs
  apply h2
  have hq : ∀ e : uv_event, e = uv_event.assert_failed ∨ e = uv_event.fatal_error →
      uv_event.is_quiet e = true := by
    rintro e (rfl | rfl) <;> rfl
  cases fired <;> cases unregister_ok <;> simp only [exit_wait_callback] <;> split_ifs <;>
    first
    | exact uv_log_ext_refl _ _
    | exact uv_log_ext_snoc _ _ (hq _ (Or.inl rfl))
    | exact uv_log_ext_snoc _ _ (hq _ (Or.inr rfl))
    | exact uv_log_ext_trans (uv_log_ext_snoc _ _ (hq _ (Or.inl rfl)))
        (uv_log_ext_snoc _ _ (hq _ (Or.inr rfl)))

theorem uv_process_do_close_log {W : Type} (cb : Option Nat) (unregister_ok fired : Bool)
    (st : uv_state W uv_process_t) :
    uv_log_ext uv_event.is_quiet st.log (uv_process_do_close cb unregister_ok fired st).log := by
  rw [uv_process_do_close_eq]
  split_ifs
  · exact ⟨_, rfl, by simp [uv_event.is_quiet, uv_event.is_user_cb]⟩
  · exact uv_log_ext_trans (uv_log_ext_snoc st.log (uv_event.close_called st.handle.addr) rfl)
      (uv_process_close_log unregister_ok fired _)

theorem uv_fs_event_do_close_log {W : Type} (cb : Option Nat) (st : uv_state W uv_fs_event_t) :
    uv_log_ext uv_event.is_quiet st.log (uv_fs_event_do_close cb st).log := by
  rw [uv_fs_event_do_close_eq]
  split_ifs
  · exact ⟨_, rfl, by simp [uv_event.is_quiet, uv_event.is_user_cb]⟩
  · exact uv_log_ext_trans (uv_log_ext_snoc st.log (uv_event.close_called st.handle.addr) rfl)
      (uv_fs_event_close_log _)

/-! ## The claims on closing a handle -/

/-- C7. Once `uv_close` has been called on a poll, process or fs-event handle
that was not closing, the requests of the handle that complete later are
processed without a call of a user callback, whatever their status: for a poll
handle in fast or slow mode, any sequence of completions of its poll requests;
for a process handle, its exit request; for an fs-event handle, its directory
read. And when no `uv_close` has been called before an fs-event request is
processed, no user callback follows a call of `uv_close` in the log of the
processing: a close made from the callback ends the delivery of the records of
the buffer. -/
theorem uv_close_no_later_callback {W : Type} (pops : uv_poll_ops) (props : uv_process_ops)
    (fops : uv_fs_event_ops) (cb : Option Nat) :
    (∀ (os_error : Option Nat) (cs : List uv_poll_completion) (st : uv_state W uv_poll_t),
      st.handle.flags.closing = false →
      uv_user_cbs (cs.foldl (fun s c => uv_poll_process_completion pops c s)
        (uv_poll_do_close cb os_error st)).log = uv_user_cbs st.log) ∧
    (∀ (unregister_ok fired : Bool) (exit_status : Option Nat) (last_error : Nat)
        (st : uv_state W uv_process_t),
      st.handle.flags.closing = false →
      uv_user_cbs (uv_process_proc_exit props exit_status last_error
        (uv_process_do_close cb unregister_ok fired st)).log = uv_user_cbs st.log) ∧
    (∀ (status : Int) (InternalHigh : Nat) (records : List FILE_NOTIFY_INFORMATION)
        (os_error : Option Nat) (st : uv_state W uv_fs_event_t),
      st.handle.flags.closing = false →
      uv_user_cbs (uv_process_fs_event_req fops os_error
        (uv_fs_event_completed status InternalHigh records (uv_fs_event_do_close cb st))).log
        = uv_user_cbs st.log) ∧
    (∀ (os_error : Option Nat) (st : uv_state W uv_fs_event_t),
      st.log.any uv_event.is_close = false →
      uv_quiet_after_close (uv_process_fs_event_req fops os_error st).log = true) := by
  refine ⟨?_, ?_, ?_, ?_⟩
  · intro os_error cs st h
    obtain ⟨hc, he⟩ := uv_poll_do_close_closing cb os_error st h
    rw [(uv_poll_completions_closed pops cs _ hc he).2.2]
    exact uv_log_ext_user_cbs (uv_poll_do_close_log cb os_error st)
  · intro unregister_ok fired exit_status last_error st h
    have hc := uv_process_do_close_closing cb unregister_ok fired st h
    rw [(uv_process_proc_exit_closed props exit_status last_error _ hc).2]
    exact uv_log_ext_user_cbs (uv_process_do_close_log cb unregister_ok fired st)
  · intro status InternalHigh records os_error st h
    have ha := (uv_fs_event_do_close_flags cb st h).2
    rw [(uv_process_fs_event_req_inactive fops os_error
      (uv_fs_event_completed status InternalHigh records (uv_fs_event_do_close cb st)) ha).1]
    exact uv_log_ext_user_cbs (uv_fs_event_do_close_log cb st)
  · intro os_error st h
    exact uv_process_fs_event_req_quiet fops os_error st h

/-- C7 at the handles of the examples: after the close, the completion of the
poll request, the exit request and the directory read leave the log without a
user callback; and the fs-event callback that closes its handle on the first
of two records is called once. -/
theorem uv_close_no_later_callback_witness :
    uv_user_cbs (uv_poll_process_completion ex_poll_ops
      { req := .poll_req_1, status := 0, InternalHigh := 0, NumberOfHandles := 1,
        Events := AFD_POLL_RECEIVE, os_error := none }
      (uv_poll_do_close (some 2) none
        (uv_poll_do_call ex_poll_ops (.start UV_READABLE (some 1) none) ex_poll_state))).log = [] ∧
    uv_user_cbs (uv_process_proc_exit ex_process_ops (some 0) 0
      (uv_process_do_close (some 2) true false ex_process_state)).log = [] ∧
    uv_user_cbs (uv_process_fs_event_req ex_fs_event_ops none
      (uv_fs_event_completed 0 32 [{ Action := FILE_ACTION_ADDED, FileName := [97] }]
        (uv_fs_event_do_close (some 2) ex_fs_event_state))).log = [] ∧
    uv_quiet_after_close (uv_process_fs_event_req ex_fs_event_ops none ex_fs_event_state).log
      = true ∧
    (uv_process_fs_event_req ex_fs_event_ops none ex_fs_event_state).log =
      [.fs_event_cb (some 4) (some [97]) UV_RENAME 0, .close_called 300, .endgame_queued 300] :=
  have h := uv_close_no_later_callback ex_poll_ops ex_process_ops ex_fs_event_ops (some 2)
  ⟨h.1 none
      [{ req := .poll_req_1, status := 0, InternalHigh := 0, NumberOfHandles := 1,
         Events := AFD_POLL_RECEIVE, os_error := none }]
      (uv_poll_do_call ex_poll_ops (.start UV_READABLE (some 1) none) ex_poll_state)
      (by decide),
    h.2.1 true false (some 0) 0 ex_process_state (by decide),
    h.2.2.1 0 32 [{ Action := FILE_ACTION_ADDED, FileName := [97] }] none ex_fs_event_state
      (by decide),
    h.2.2.2 none ex_fs_event_state (by decide),
    by decide⟩

/-- C8. A call of `uv_close` on a handle whose `CLOSING` flag is set fails the
assertion and returns: whatever the type of the handle, the callback given and
the close functions, the handle with its `close_cb` and its flags and the loop
with its endgame list are left as they were, and the log gains the call and
the failed assertion only, so the handle is not put on the endgame list
again. -/
theorem uv_close_closing {W : Type} (ops : uv_close_ops W) (os : uv_close_os) (cb : Option Nat)
    (st : uv_state W uv_handle_t) (h : st.handle.flags.closing = true) :
    (uv_close ops os cb st).handle = st.handle ∧
    (uv_close ops os cb st).handle.close_cb = st.handle.close_cb ∧
    (uv_close ops os cb st).loop = st.loop ∧
    (uv_close ops os cb st).log =
      st.log ++ [uv_event.close_called st.handle.addr, uv_event.assert_failed] ∧
    (∀ a, uv_endgame_count a (uv_close ops os cb st).log = uv_endgame_count a st.log) := by
  have e : uv_close ops os cb st =
      { st with log := st.log ++ [uv_event.close_called st.handle.addr, uv_event.assert_failed] } := by
    unfold uv_close
    simp [h]
  rw [e]
  refine ⟨rfl, rfl, rfl, rfl, ?_⟩
  intro a
  simp [uv_endgame_count, List.count_append, List.count_cons]

/-- C8 at the poll handle of the examples, closed a second time with another
callback: `close_cb` keeps the callback of the first close. -/
theorem uv_close_closing_witness :
    ((uv_poll_do_close (some 2) none ex_poll_state).lift uv_handle_t.poll).handle.flags.closing
      = true ∧
    (uv_close (uv_close_ops.unused Unit)
      { poll_cancel_error := none, unregister_ok := true, wait_fired := false } (some 7)
      ((uv_poll_do_close (some 2) none ex_poll_state).lift uv_handle_t.poll)).handle.close_cb
      = some 2 :=
  ⟨by decide,
    ((uv_close_closing (uv_close_ops.unused Unit)
      { poll_cancel_error := none, unregister_ok := true, wait_fired := false } (some 7)
      ((uv_poll_do_close (some 2) none ex_poll_state).lift uv_handle_t.poll)
      (by decide)).2.1).trans (by decide)⟩

/-- C10. For every run of a poll handle (fast or slow) from the state
`uv_poll_init_socket` leaves it in, made of calls of `uv_poll_start`,
`uv_poll_stop` and `uv_close`, completions of its outstanding requests (with
the calls the poll callback makes) and its endgame, in which no assertion
fails: a handle on the endgame list is closing after a call of `uv_close` and
has `submitted_events_1 = 0` and `submitted_events_2 = 0`; the handle was put
on the endgame list at most once, and exactly once as soon as it is closing
with no request outstanding; it is closing exactly when `uv_close` has been
called; and when the endgame of a handle on the list runs next, none of its
assertions fails. -/
theorem uv_poll_endgame_once {W : Type} (ops : uv_poll_ops) (inputs : List uv_poll_input)
    (st0 st : uv_state W uv_poll_t) (h0 : uv_poll_initial st0)
    (hrun : uv_poll_run ops inputs st0 = some st) :
    (st.handle.flags.endgame_queued = true →
      st.handle.flags.closing = true ∧ st.handle.submitted_events_1 = 0 ∧
      st.handle.submitted_events_2 = 0 ∧ uv_event.close_called st.handle.addr ∈ st.log) ∧
    uv_endgame_count st.handle.addr st.log ≤ 1 ∧
    (uv_endgame_count st.handle.addr st.log = 1 ↔
      st.handle.flags.closing = true ∧ st.handle.submitted_events_1 = 0 ∧
      st.handle.submitted_events_2 = 0) ∧
    (st.handle.flags.closing = true ↔ uv_event.close_called st.handle.addr ∈ st.log) ∧
    (st.handle.flags.endgame_queued = true →
      uv_event.assert_failed ∉ (uv_poll_process_endgame st).log) := by
  have hinv := uv_poll_run_inv ops inputs st0.handle.addr st0 st (uv_poll_initial_inv st0 h0) hrun
  have ha : st.handle.addr = st0.handle.addr := hinv.1
  rw [ha]
  obtain ⟨h1, h2, h3, h4, h5, h6, h7, h8⟩ := hinv
  refine ⟨?_, ?_, ?_, ?_, ?_⟩
  · intro hq
    obtain ⟨hc, hs1, hs2⟩ := h6 (Or.inl hq)
    exact ⟨hc, hs1, hs2, (h4 hc).2⟩
  · rw [h5]; split_ifs <;> simp
  · rw [h5]
    constructor
    · intro hx
      split_ifs at hx with hqc
      exact h6 hqc
    · rintro ⟨hc, hs1, hs2⟩
      rw [if_pos (h8 rfl hc hs1 hs2)]
  · constructor
    · intro hc; exact (h4 hc).2
    · intro hl
      by_contra hc
      exact (h3 (by simpa using hc)).2.2 hl
  · intro hq
    exact uv_poll_process_endgame_no_assert st0.handle.addr st ⟨h1, h2, h3, h4, h5, h6, h7, h8⟩ hq

/-- C10 at the run of the examples: the handle is started, closed while its
request is outstanding, and the request completes; the handle was put on the
endgame list once, after the completion. -/
theorem uv_poll_endgame_once_witness :
    uv_poll_initial ex_poll_state ∧
    ∃ st, uv_poll_run ex_poll_ops ex_poll_inputs ex_poll_state = some st ∧
      st.log = [.close_called 100, .endgame_queued 100] ∧
      st.handle.flags.endgame_queued = true ∧
      uv_endgame_count st.handle.addr st.log = 1 ∧
      uv_event.assert_failed ∉ (uv_poll_process_endgame st).log := by
  have h0 : uv_poll_initial ex_poll_state := by
    unfold uv_poll_initial
    decide
  have hsome : (uv_poll_run ex_poll_ops ex_poll_inputs ex_poll_state).isSome = true := by decide
  obtain ⟨st, hst⟩ := Option.isSome_iff_exists.1 hsome
  have hlog : (uv_poll_run ex_poll_ops ex_poll_inputs ex_poll_state).map (fun s => s.log)
      = some [.close_called 100, .endgame_queued 100] := by decide
  have hq : (uv_poll_run ex_poll_ops ex_poll_inputs ex_poll_state).map
      (fun s => s.handle.flags.endgame_queued) = some true := by decide
  rw [hst] at hlog hq
  have hq1 : st.handle.flags.endgame_queued = true := by simpa using hq
  have h := uv_poll_endgame_once ex_poll_ops ex_poll_inputs ex_poll_state st h0 hst
  obtain ⟨hc, hs1, hs2, -⟩ := h.1 hq1
  exact ⟨h0, st, hst, by simpa using hlog, hq1, h.2.2.1.2 ⟨hc, hs1, hs2⟩, h.2.2.2.2 hq1⟩

/-- C9 at the poll handle of the examples, watching for readability: when its
first request completes with data to receive, the callback is called once,
with status 0 and the event `UV_READABLE`; when the request fails, the callback
is called once with the translated error and no event. -/
theorem uv_process_poll_req_callback_witness :
    uv_user_cbs (uv_process_poll_req ex_poll_ops none .poll_req_1 ex_poll_watching).log
      = [.poll_cb (some 1) 0 UV_READABLE UV_READABLE] ∧
    uv_poll_masked_events .poll_req_1 ex_poll_watching.handle = UV_READABLE ∧
    uv_user_cbs (uv_process_poll_req ex_poll_ops none .poll_req_1 ex_poll_failed).log
      = [.poll_cb (some 1) (-5) 0 0] ∧
    (∃ new : List uv_event,
      uv_user_cbs (uv_process_poll_req ex_poll_ops none .poll_req_1 ex_poll_watching).log
        = uv_user_cbs ex_poll_watching.log ++ new ∧ new.length ≤ 1) ∧
    (∃ new : List uv_event,
      uv_user_cbs (uv_process_poll_req ex_poll_ops none .poll_req_1 ex_poll_failed).log
        = uv_user_cbs ex_poll_failed.log ++ new ∧ new.length ≤ 1) :=
  ⟨by decide, by decide, by decide,
    (uv_process_poll_req_callback ex_poll_ops none .poll_req_1 ex_poll_watching (by decide)
      (by decide)).imp (fun _ h => ⟨h.1, h.2.1⟩),
    (uv_process_poll_req_callback ex_poll_ops none .poll_req_1 ex_poll_failed (by decide)
      (by decide)).imp (fun _ h => ⟨h.1, h.2.1⟩)⟩

theorem and_not_eq_zero_of_and {e m : Nat} (h : e &&& m = e) : and_not e m = 0 := by
  unfold and_not
  rw [h, Nat.xor_self]

theorem le_three_of_and_not {e : Nat} (h : and_not e 3 = 0) : e ≤ 3 := by
  unfold and_not at h
  have h1 : e = e &&& 3 := Nat.xor_eq_zero.1 h
  rw [h1]
  exact Nat.and_le_right

theorem and_not_three_of_le {e : Nat} (h : e ≤ 3) : and_not e 3 = 0 := by
  interval_cases e <;> decide

theorem uv_poll_slots_inv_submit (c : uv_poll_core) (h : uv_poll_slots_inv c)
    (hn : and_not c.events (c.submitted_events_1 ||| c.submitted_events_2) ≠ 0) :
    uv_poll_slots_inv c.submit := by
  obtain ⟨addr, closing, closed, q, slow, e, s1, s2⟩ := c
  intro hs
  have hs' : slow = true := by
    unfold uv_poll_core.submit at hs
    simp only [] at hs
    split_ifs at hs <;> exact hs
  obtain ⟨he, h1, h2, h3⟩ := h hs'
  simp only [] at he h1 h2 h3 hn
  unfold uv_poll_core.submit
  simp only []
  interval_cases e <;> interval_cases s1 <;> interval_cases s2 <;>
    simp_all +decide [and_not]

theorem uv_poll_slots_inv_congr {c d : uv_poll_core} (h : uv_poll_slots_inv c)
    (h0 : d.poll_slow = c.poll_slow) (he : d.events = c.events ∨ d.events = 0)
    (h1 : d.submitted_events_1 = c.submitted_events_1 ∨ d.submitted_events_1 = 0)
    (h2 : d.submitted_events_2 = c.submitted_events_2 ∨ d.submitted_events_2 = 0) :
    uv_poll_slots_inv d := by
  intro hs
  rw [h0] at hs
  obtain ⟨a, b, c3, d4⟩ := h hs
  refine ⟨?_, ?_, ?_, ?_⟩
  · rcases he with he | he <;> omega
  · rcases h1 with h1 | h1 <;> omega
  · rcases h2 with h2 | h2 <;> omega
  · intro n1 n2
    rcases h1 with h1 | h1
    · rcases h2 with h2 | h2
      · rw [h1, h2]; exact d4 (h1 ▸ n1) (h2 ▸ n2)
      · exact absurd h2 n2
    · exact absurd h1 n1

theorem uv_poll_slots_inv_set (c : uv_poll_core) (e : Nat) (h : uv_poll_slots_inv c)
    (he : c.poll_slow = true → e ≤ 3) : uv_poll_slots_inv (c.set e) := by
  unfold uv_poll_core.set
  simp only []
  have h1 : uv_poll_slots_inv { c with events := e % 256 } := by
    intro hs
    obtain ⟨_, b, c3, d4⟩ := h hs
    have := he hs
    exact ⟨by simp only []; omega, b, c3, d4⟩
  split_ifs with hn
  · exact uv_poll_slots_inv_submit _ h1 hn
  · exact h1

theorem uv_poll_slots_inv_close (c : uv_poll_core) (h : uv_poll_slots_inv c) :
    uv_poll_slots_inv c.close := by
  unfold uv_poll_core.close
  split_ifs <;>
    exact uv_poll_slots_inv_congr h rfl (Or.inr rfl) (Or.inl rfl) (Or.inl rfl)

theorem uv_poll_set_events_valid {W : Type} (valid events : Nat) (st : uv_state W uv_poll_t)
    (h : uv_event.assert_failed ∉ (uv_poll_set_events valid events st).log) :
    and_not events valid = 0 := by
  unfold uv_poll_set_events at h
  simp only [] at h
  by_contra hne
  rw [if_pos hne] at h
  simp at h

theorem uv_poll_start_valid {W : Type} (ops : uv_poll_ops) (events : Nat) (cb : Option Nat)
    (os_error : Option Nat) (st : uv_state W uv_poll_t)
    (hs : st.handle.flags.poll_slow = true)
    (h : uv_event.assert_failed ∉ (uv_poll_start ops events cb os_error st).1.log) :
    events ≤ 3 := by
  apply le_three_of_and_not
  apply uv_poll_set_events_valid (UV_READABLE ||| UV_WRITABLE) events st
  intro hm
  apply h
  unfold uv_poll_start uv__slow_poll_set
  simp only [hs, Bool.not_true, Bool.false_eq_true, if_false]
  split_ifs <;>
    first
    | exact hm
    | exact uv_log_ext_mem (uv__slow_poll_submit_poll_req_log ops os_error _) hm

theorem uv_poll_start_slots_ok {W : Type} (ops : uv_poll_ops) (events : Nat) (cb : Option Nat)
    (os_error : Option Nat) (st : uv_state W uv_poll_t) (h : uv_poll_slots_ok st) :
    uv_poll_slots_ok (uv_poll_start ops events cb os_error st).1 := by
  intro hna
  rw [uv_poll_start_core]
  have h0 := uv_log_ext_not_mem (uv_poll_start_log ops events cb os_error st) hna
  exact uv_poll_slots_inv_set _ _ (h h0)
    (fun hs => uv_poll_start_valid ops events cb os_error st hs hna)

theorem uv_poll_stop_slots_ok {W : Type} (ops : uv_poll_ops) (st : uv_state W uv_poll_t)
    (h : uv_poll_slots_ok st) : uv_poll_slots_ok (uv_poll_stop ops st).1 := by
  intro hna
  rw [uv_poll_stop_core]
  have h0 := uv_log_ext_not_mem (uv_poll_stop_log ops st) hna
  exact uv_poll_slots_inv_set _ _ (h h0) (fun _ => by omega)

theorem uv_poll_do_close_slots_ok {W : Type} (cb : Option Nat) (os_error : Option Nat)
    (st : uv_state W uv_poll_t) (h : uv_poll_slots_ok st) :
    uv_poll_slots_ok (uv_poll_do_close cb os_error st) := by
  intro hna
  have h0 := uv_log_ext_not_mem (uv_poll_do_close_log cb os_error st) hna
  rw [uv_poll_do_close_eq] at hna ⊢
  split_ifs at hna ⊢ with hc
  · exact h h0
  · rw [uv_poll_close_core]
    exact uv_poll_slots_inv_close _ (h h0)

theorem uv_poll_do_call_slots_ok {W : Type} (ops : uv_poll_ops) (c : uv_poll_call)
    (st : uv_state W uv_poll_t) (h : uv_poll_slots_ok st) :
    uv_poll_slots_ok (uv_poll_do_call ops c st) := by
  unfold uv_poll_do_call
  cases c with
  | start events cb os_error => exact uv_poll_start_slots_ok ops events cb os_error st h
  | stop => exact uv_poll_stop_slots_ok ops st h
  | close cb os_error => exact uv_poll_do_close_slots_ok cb os_error st h

theorem uv_poll_do_calls_slots_ok {W : Type} (ops : uv_poll_ops) (calls : List uv_poll_call)
    (st : uv_state W uv_poll_t) (h : uv_poll_slots_ok st) :
    uv_poll_slots_ok (calls.foldl (fun s c => uv_poll_do_call ops c s) st) := by
  induction calls generalizing st with
  | nil => exact h
  | cons c rest ih =>
    simp only [List.foldl_cons]
    exact ih _ (uv_poll_do_call_slots_ok ops c st h)

theorem uv_poll_invoke_cb_slots_ok {W : Type} (ops : uv_poll_ops) (status : Int) (events : Nat)
    (st : uv_state W uv_poll_t) (h : uv_poll_slots_ok st) :
    uv_poll_slots_ok (uv_poll_invoke_cb ops status events st) := by
  unfold uv_poll_invoke_cb
  apply uv_poll_do_calls_slots_ok
  intro hna
  exact h (fun hm => hna (by simp [hm]))

theorem uv_poll_slots_ok_events_zero {W : Type} (st : uv_state W uv_poll_t)
    (h : uv_poll_slots_ok st) :
    uv_poll_slots_ok { st with handle := { st.handle with events := 0 } } :=
  fun hna => uv_poll_slots_inv_congr (h hna) rfl (Or.inr rfl) (Or.inl rfl) (Or.inl rfl)

theorem uv__fast_poll_local_close_slots_ok {W : Type} (st : uv_state W uv_poll_t)
    (h : uv_poll_slots_ok st) : uv_poll_slots_ok (uv__fast_poll_local_close st) := by
  intro hna
  rw [uv__fast_poll_local_close_log] at hna
  rw [uv__fast_poll_local_close_core]
  exact uv_poll_slots_inv_congr (h hna) rfl (Or.inr rfl) (Or.inl rfl) (Or.inl rfl)

theorem uv__fast_poll_process_events_slots_ok {W : Type} (ops : uv_poll_ops)
    (mask_events : Nat) (afd : AFD_POLL_INFO) (req : uv_req_t)
    (st : uv_state W uv_poll_t) (h : uv_poll_slots_ok st) :
    uv_poll_slots_ok (uv__fast_poll_process_events ops mask_events afd req st) := by
  unfold uv__fast_poll_process_events
  simp only []
  split_ifs
  all_goals
    first
    | exact h
    | exact uv_poll_invoke_cb_slots_ok ops _ _ _ (uv_poll_slots_ok_events_zero st h)
    | exact uv_poll_invoke_cb_slots_ok ops _ _ _ (uv__fast_poll_local_close_slots_ok st h)
    | exact uv_poll_invoke_cb_slots_ok ops _ _ _ h
    | exact uv__fast_poll_local_close_slots_ok st h

theorem uv__slow_poll_process_events_slots_ok {W : Type} (ops : uv_poll_ops)
    (mask_events : Nat) (req : uv_req_t)
    (st : uv_state W uv_poll_t) (h : uv_poll_slots_ok st) :
    uv_poll_slots_ok (uv__slow_poll_process_events ops mask_events req st) := by
  unfold uv__slow_poll_process_events
  simp only []
  split_ifs
  all_goals
    first
    | exact h
    | exact uv_poll_invoke_cb_slots_ok ops _ _ _ (uv_poll_slots_ok_events_zero st h)
    | exact uv_poll_invoke_cb_slots_ok ops _ _ _ h

theorem uv_poll_process_end_slots_ok {W : Type}
    (submit : uv_state W uv_poll_t → uv_state W uv_poll_t)
    (hcore : ∀ s, (submit s).handle.core = s.handle.core.submit)
    (hlog : ∀ s, uv_log_ext uv_event.is_quiet s.log (submit s).log)
    (st : uv_state W uv_poll_t) (h : uv_poll_slots_ok st) :
    uv_poll_slots_ok (uv_poll_process_end submit st) := by
  unfold uv_poll_process_end
  split_ifs with hn hq
  · intro hna
    rw [hcore]
    exact uv_poll_slots_inv_submit _ (h (uv_log_ext_not_mem (hlog st) hna)) hn
  · intro hna
    rw [uv_poll_want_endgame_core]
    exact uv_poll_slots_inv_congr (h (uv_log_ext_not_mem (uv_poll_want_endgame_log st) hna))
      rfl (Or.inl rfl) (Or.inl rfl) (Or.inl rfl)
  · exact h

theorem uv_process_poll_req_slots_ok {W : Type} (ops : uv_poll_ops) (os_error : Option Nat)
    (req : uv_poll_req_ref) (st : uv_state W uv_poll_t) (h : uv_poll_slots_ok st) :
    uv_poll_slots_ok (uv_process_poll_req ops os_error req st) := by
  have h1 : uv_poll_slots_ok
      { st with handle := { st.handle with submitted_events_1 := 0 } } :=
    fun hna => uv_poll_slots_inv_congr (h hna) rfl (Or.inl rfl) (Or.inr rfl) (Or.inl rfl)
  have h2 : uv_poll_slots_ok
      { st with handle := { st.handle with submitted_events_2 := 0 } } :=
    fun hna => uv_poll_slots_inv_congr (h hna) rfl (Or.inl rfl) (Or.inl rfl) (Or.inr rfl)
  have hf : ∀ s : uv_state W uv_poll_t,
      uv_log_ext uv_event.is_quiet s.log (uv__fast_poll_submit_poll_req ops os_error s).log := by
    intro s
    rw [uv__fast_poll_submit_poll_req_log]
    exact uv_log_ext_refl _ _
  unfold uv_process_poll_req
  split_ifs
  · unfold uv__fast_poll_process_poll_req uv__fast_poll_process_body
    cases req with
    | poll_req_1 =>
      exact uv_poll_process_end_slots_ok _ (uv__fast_poll_submit_poll_req_core ops os_error) hf _
        (uv__fast_poll_process_events_slots_ok ops _ _ _ _ h1)
    | poll_req_2 =>
      exact uv_poll_process_end_slots_ok _ (uv__fast_poll_submit_poll_req_core ops os_error) hf _
        (uv__fast_poll_process_events_slots_ok ops _ _ _ _ h2)
    | other => intro hna; simp at hna
  · unfold uv__slow_poll_process_poll_req uv__slow_poll_process_body
    cases req with
    | poll_req_1 =>
      exact uv_poll_process_end_slots_ok _ (uv__slow_poll_submit_poll_req_core ops os_error)
        (uv__slow_poll_submit_poll_req_log ops os_error) _
        (uv__slow_poll_process_events_slots_ok ops _ _ _ h1)
    | poll_req_2 =>
      exact uv_poll_process_end_slots_ok _ (uv__slow_poll_submit_poll_req_core ops os_error)
        (uv__slow_poll_submit_poll_req_log ops os_error) _
        (uv__slow_poll_process_events_slots_ok ops _ _ _ h2)
    | other => intro hna; simp at hna

theorem uv_poll_step_slots_ok {W : Type} (ops : uv_poll_ops) (inp : uv_poll_input)
    (st st1 : uv_state W uv_poll_t) (h : uv_poll_slots_ok st)
    (hstep : uv_poll_step ops inp st = some st1) : uv_poll_slots_ok st1 := by
  unfold uv_poll_step at hstep
  cases inp with
  | call c =>
    simp only [Option.some.injEq] at hstep
    rw [← hstep]
    exact uv_poll_do_call_slots_ok ops c st h
  | complete c =>
    simp only [] at hstep
    split_ifs at hstep with hout
    simp only [Option.some.injEq] at hstep
    rw [← hstep]
    unfold uv_poll_process_completion
    apply uv_process_poll_req_slots_ok
    intro hna
    rw [(uv_poll_completed_core c st).2] at hna
    rw [(uv_poll_completed_core c st).1]
    exact h hna
  | endgame =>
    simp only [] at hstep
    split_ifs at hstep with hq
    simp only [Option.some.injEq] at hstep
    rw [← hstep]
    intro hna
    rw [uv_poll_process_endgame_core]
    exact uv_poll_slots_inv_congr
      (h (fun hm => hna (uv_poll_process_endgame_mono st hm)))
      rfl (Or.inl rfl) (Or.inl rfl) (Or.inl rfl)

theorem uv_poll_run_slots_inv {W : Type} (ops : uv_poll_ops) (inputs : List uv_poll_input)
    (st st1 : uv_state W uv_poll_t) (h : uv_poll_slots_inv st.handle.core)
    (hrun : uv_poll_run ops inputs st = some st1) : uv_poll_slots_inv st1.handle.core := by
  induction inputs generalizing st with
  | nil =>
    simp only [uv_poll_run, Option.some.injEq] at hrun
    rw [← hrun]; exact h
  | cons inp rest ih =>
    unfold uv_poll_run at hrun
    cases hstep : uv_poll_step ops inp st with
    | none => rw [hstep] at hrun; simp at hrun
    | some st2 =>
      rw [hstep] at hrun
      simp only [] at hrun
      split_ifs at hrun with hna
      exact ih st2 (uv_poll_step_slots_ok ops inp st st2 (fun _ => h) hstep hna) hrun

theorem uv_poll_initial_slots_inv {W : Type} (st : uv_state W uv_poll_t)
    (h : uv_poll_initial st) : uv_poll_slots_inv st.handle.core := by
  obtain ⟨-, -, -, -, h5, h6, h7, -⟩ := h
  intro _
  have e0 : st.handle.core.events = 0 := h5
  have e1 : st.handle.core.submitted_events_1 = 0 := h6
  have e2 : st.handle.core.submitted_events_2 = 0 := h7
  rw [e0, e1, e2]
  exact ⟨by omega, by omega, by omega, fun hx => absurd rfl hx⟩

theorem uv__slow_poll_submit_poll_req_free {W : Type} (ops : uv_poll_ops)
    (os_error : Option Nat) (st : uv_state W uv_poll_t)
    (h : st.handle.submitted_events_1 = 0 ∨ st.handle.submitted_events_2 = 0) :
    (uv__slow_poll_submit_poll_req ops os_error st).log = st.log := by
  unfold uv__slow_poll_submit_poll_req
  simp only []
  split_ifs with h1 h2
  · cases os_error <;> simp [uv_poll_submit_failed_log]
  · cases os_error <;> simp [uv_poll_submit_failed_log]
  · rcases h with h | h
    · exact absurd h h1
    · exact absurd h h2

theorem uv_poll_set_events_log_open {W : Type} (valid events : Nat) (st : uv_state W uv_poll_t)
    (hopen : st.handle.flags.closing = false) (hv : and_not events valid = 0) :
    (uv_poll_set_events valid events st).log = st.log := by
  unfold uv_poll_set_events
  simp [hopen, hv]

theorem uv_poll_core_set_events (c : uv_poll_core) (e : Nat) : (c.set e).events = e % 256 := by
  unfold uv_poll_core.set uv_poll_core.submit
  simp only []
  split_ifs <;> rfl

theorem uv_poll_start_result {W : Type} (ops : uv_poll_ops) (events : Nat) (cb : Option Nat)
    (os_error : Option Nat) (st : uv_state W uv_poll_t) :
    (uv_poll_start ops events cb os_error st).2 = 0 := by
  unfold uv_poll_start uv__fast_poll_set uv__slow_poll_set
  simp only []
  split_ifs <;> simp_all

theorem uv_poll_start_log_open {W : Type} (ops : uv_poll_ops) (events : Nat) (cb : Option Nat)
    (os_error : Option Nat) (st : uv_state W uv_poll_t)
    (hopen : st.handle.flags.closing = false) (hj : uv_poll_slots_inv st.handle.core)
    (hmask : events &&& (if st.handle.flags.poll_slow = true then UV_READABLE ||| UV_WRITABLE
      else UV_READABLE ||| UV_WRITABLE ||| UV_DISCONNECT) = events) :
    (uv_poll_start ops events cb os_error st).1.log = st.log := by
  by_cases hs : st.handle.flags.poll_slow = true
  · rw [if_pos hs] at hmask
    have hv := and_not_eq_zero_of_and hmask
    have hle : events ≤ 3 := le_three_of_and_not hv
    have hset := uv_poll_set_events_log_open (UV_READABLE ||| UV_WRITABLE) events st hopen hv
    have hcore := uv_poll_set_events_core (UV_READABLE ||| UV_WRITABLE) events st
    obtain ⟨s, hsdef⟩ : ∃ s, s = uv_poll_set_events (UV_READABLE ||| UV_WRITABLE) events st :=
      ⟨_, rfl⟩
    rw [← hsdef] at hset hcore
    have e1 : s.handle.submitted_events_1 = st.handle.submitted_events_1 :=
      congrArg uv_poll_core.submitted_events_1 hcore
    have e2 : s.handle.submitted_events_2 = st.handle.submitted_events_2 :=
      congrArg uv_poll_core.submitted_events_2 hcore
    have e0 : s.handle.events = events % 256 := congrArg uv_poll_core.events hcore
    have hmain : (uv__slow_poll_set ops events os_error st).1.log = st.log := by
      unfold uv__slow_poll_set
      simp only []
      rw [← hsdef]
      split_ifs with hn
      · rw [uv__slow_poll_submit_poll_req_free ops os_error s ?_, hset]
        by_contra hboth
        push_neg at hboth
        obtain ⟨-, b1, b2, hcov⟩ := hj hs
        rw [e1, e2] at hboth
        have h3 := hcov hboth.1 hboth.2
        apply hn
        rw [e0, e1, e2]
        have h3' : st.handle.submitted_events_1 ||| st.handle.submitted_events_2 = 3 := h3
        rw [h3', Nat.mod_eq_of_lt (by omega)]
        exact and_not_three_of_le hle
      · exact hset
    unfold uv_poll_start
    simp only [hs, Bool.not_true, Bool.false_eq_true, if_false]
    split_ifs <;> exact hmain
  · have hs' : st.handle.flags.poll_slow = false := by simpa using hs
    rw [if_neg hs] at hmask
    have hv := and_not_eq_zero_of_and hmask
    have hset := uv_poll_set_events_log_open (UV_READABLE ||| UV_WRITABLE ||| UV_DISCONNECT)
      events st hopen hv
    have hmain : (uv__fast_poll_set ops events os_error st).1.log = st.log := by
      unfold uv__fast_poll_set
      simp only []
      split_ifs
      · rw [uv__fast_poll_submit_poll_req_log]; exact hset
      · exact hset
    unfold uv_poll_start
    simp only [hs', Bool.not_false, if_true]
    split_ifs <;> exact hmain

theorem uv_poll_start_slow_rejects {W : Type} (ops : uv_poll_ops) (events : Nat)
    (cb : Option Nat) (os_error : Option Nat) (st : uv_state W uv_poll_t)
    (hs : st.handle.flags.poll_slow = true)
    (hmask : events &&& (UV_READABLE ||| UV_WRITABLE) ≠ events) :
    uv_event.assert_failed ∈ (uv_poll_start ops events cb os_error st).1.log := by
  by_contra hna
  have hle := uv_poll_start_valid ops events cb os_error st hs hna
  apply hmask
  have : UV_READABLE ||| UV_WRITABLE = 3 := rfl
  rw [this]
  interval_cases events <;> rfl

/-! ## Starting a poll handle -/

/-- C11, counterexample. On a slow-mode poll handle as `uv_poll_init_socket`
leaves it, `uv_poll_start` with the mask `UV_DISCONNECT`, a subset of
`UV_READABLE | UV_WRITABLE | UV_DISCONNECT`, fails the assertion of
`uv__slow_poll_set`. -/
theorem uv_poll_start_accepts_counterexample :
    uv_poll_initial ex_slow_poll_state ∧
    ex_slow_poll_state.handle.flags.closing = false ∧
    UV_DISCONNECT &&& (UV_READABLE ||| UV_WRITABLE ||| UV_DISCONNECT) = UV_DISCONNECT ∧
    uv_event.assert_failed ∈
      (uv_poll_start ex_poll_ops UV_DISCONNECT (some 1) none ex_slow_poll_state).1.log := by
  refine ⟨?_, by decide, by decide, by decide⟩
  unfold uv_poll_initial
  decide

/-- C11, amended. On every non-closing poll handle reached from the state
`uv_poll_init_socket` leaves it in by a run without failed assertion,
`uv_poll_start` accepts every event mask that is a subset of
`UV_READABLE | UV_WRITABLE | UV_DISCONNECT` when the handle uses the fast
backend, and every mask that is a subset of `UV_READABLE | UV_WRITABLE` when
it uses the slow backend: it returns 0, records the mask as the events of the
handle and fails no assertion. On a slow-mode handle every other mask fails
the assertion of `uv__slow_poll_set`. -/
theorem uv_poll_start_accepts {W : Type} (ops : uv_poll_ops) (inputs : List uv_poll_input)
    (st0 st : uv_state W uv_poll_t) (h0 : uv_poll_initial st0)
    (hrun : uv_poll_run ops inputs st0 = some st)
    (hopen : st.handle.flags.closing = false)
    (events : Nat) (cb : Option Nat) (os_error : Option Nat) :
    (events &&& (if st.handle.flags.poll_slow = true then UV_READABLE ||| UV_WRITABLE
        else UV_READABLE ||| UV_WRITABLE ||| UV_DISCONNECT) = events →
      (uv_poll_start ops events cb os_error st).2 = 0 ∧
      (uv_poll_start ops events cb os_error st).1.handle.events = events ∧
      (uv_poll_start ops events cb os_error st).1.log = st.log ∧
      uv_event.assert_failed ∉ (uv_poll_start ops events cb os_error st).1.log) ∧
    (st.handle.flags.poll_slow = true →
      events &&& (UV_READABLE ||| UV_WRITABLE) ≠ events →
      uv_event.assert_failed ∈ (uv_poll_start ops events cb os_error st).1.log) := by
  have hinv := uv_poll_run_inv ops inputs st0.handle.addr st0 st (uv_poll_initial_inv st0 h0) hrun
  have hj := uv_poll_run_slots_inv ops inputs st0 st (uv_poll_initial_slots_inv st0 h0) hrun
  refine ⟨?_, uv_poll_start_slow_rejects ops events cb os_error st⟩
  intro hmask
  have hlog := uv_poll_start_log_open ops events cb os_error st hopen hj hmask
  refine ⟨uv_poll_start_result ops events cb os_error st, ?_, hlog, ?_⟩
  · have hc := congrArg uv_poll_core.events (uv_poll_start_core ops events cb os_error st)
    rw [uv_poll_core_set_events] at hc
    have hle : events ≤ 7 := by
      rw [← hmask]
      split_ifs
      · exact le_trans Nat.and_le_right (by decide)
      · exact le_trans Nat.and_le_right (by decide)
    rw [Nat.mod_eq_of_lt (by omega)] at hc
    exact hc
  · rw [hlog]
    exact hinv.2.1

/-- C11, amended, at the handles of the examples: the fast-mode handle accepts
`UV_READABLE | UV_DISCONNECT` and the slow-mode handle accepts
`UV_READABLE | UV_WRITABLE`. -/
theorem uv_poll_start_accepts_witness :
    ((uv_poll_start ex_poll_ops (UV_READABLE ||| UV_DISCONNECT) (some 1) none ex_poll_state).2 = 0 ∧
      (uv_poll_start ex_poll_ops (UV_READABLE ||| UV_DISCONNECT) (some 1) none
        ex_poll_state).1.handle.events = 5) ∧
    ((uv_poll_start ex_poll_ops (UV_READABLE ||| UV_WRITABLE) (some 1) none
        ex_slow_poll_state).2 = 0 ∧
      (uv_poll_start ex_poll_ops (UV_READABLE ||| UV_WRITABLE) (some 1) none
        ex_slow_poll_state).1.handle.events = 3) := by
  have h0 : uv_poll_initial ex_poll_state := by unfold uv_poll_initial; decide
  have h1 : uv_poll_initial ex_slow_poll_state := by unfold uv_poll_initial; decide
  have a := (uv_poll_start_accepts ex_poll_ops [] ex_poll_state ex_poll_state h0 rfl (by decide)
    (UV_READABLE ||| UV_DISCONNECT) (some 1) none).1 (by decide)
  have b := (uv_poll_start_accepts ex_poll_ops [] ex_slow_poll_state ex_slow_poll_state h1 rfl
    (by decide) (UV_READABLE ||| UV_WRITABLE) (some 1) none).1 (by decide)
  exact ⟨⟨a.1, a.2.1⟩, ⟨b.1, b.2.1⟩⟩

/-! ## A stop made inside an fs-event callback -/

/-- C20. The fs-event handle of the examples is active and holds a directory
handle when its read completes with two records, and its callback calls
`uv_fs_event_stop`. After the callbacks the handle has no directory handle and
is not closing, no assertion has failed so far, and `uv_process_fs_event_req`
re-arms the read all the same: the assertion `dir_handle !=
INVALID_HANDLE_VALUE` of `uv_fs_event_queue_readdirchanges` fails, and the
request of the stopped handle is marked pending. -/
theorem uv_process_fs_event_req_stop_in_callback :
    uv__is_active ex_fs_event_state.handle.flags = true ∧
    ex_fs_event_state.handle.dir_handle = some 9 ∧
    ex_fs_event_state.handle.req_pending = 1 ∧
    uv_event.assert_failed ∉
      (uv_fs_event_report ex_fs_event_stop_ops (uv_fs_event_req_done ex_fs_event_state)).log ∧
    (uv_fs_event_report ex_fs_event_stop_ops
      (uv_fs_event_req_done ex_fs_event_state)).handle.dir_handle = none ∧
    (uv_fs_event_report ex_fs_event_stop_ops
      (uv_fs_event_req_done ex_fs_event_state)).handle.flags.closing = false ∧
    (uv_process_fs_event_req ex_fs_event_stop_ops none ex_fs_event_state).log =
      [.fs_event_cb (some 4) (some [97]) UV_RENAME 0, .assert_failed] ∧
    (uv_process_fs_event_req ex_fs_event_stop_ops none ex_fs_event_state).handle.req_pending
      = 1 := by
  decide

/-! ## The value `uv_loop_init` returns -/

/-- C19. When the completion port, the timer heap, the mutex and the async
handle are set up, the registry of loops is full and its reallocation fails,
`uv_loop_init` returns `ERROR_OUTOFMEMORY`, the positive number 14 of the
operating system, not a negative portable error code. -/
theorem uv_loop_init_loops_add_error (uv_translate_sys_error : Int → Int)
    (os : uv_loop_init_os) (loop : Nat) (g : uv__loops_t)
    (hiocp : os.CreateIoCompletionPort ≠ none) (hheap : os.timer_heap ≠ none)
    (hmutex : os.uv_mutex_init = 0) (hasync : os.uv_async_init = 0)
    (hfull : g.uv__loops_size = g.uv__loops_capacity) (hmem : os.loops_realloc_ok = false) :
    (uv_loop_init uv_translate_sys_error os loop g).1 = ERROR_OUTOFMEMORY ∧
    (uv_loop_init uv_translate_sys_error os loop g).1 = 14 ∧
    0 < (uv_loop_init uv_translate_sys_error os loop g).1 ∧
    (uv_loop_init uv_translate_sys_error os loop g).1 ≠ UV_ENOMEM := by
  have h : (uv_loop_init uv_translate_sys_error os loop g).1 = ERROR_OUTOFMEMORY := by
    unfold uv_loop_init uv__loops_add
    simp [hiocp, hheap, hmutex, hasync, hfull, hmem, ERROR_OUTOFMEMORY]
  rw [h]
  decide

/-- C19 at the first loop of a process, when the allocation of the registry
fails: `uv_loop_init` returns 14. -/
theorem uv_loop_init_loops_add_error_witness :
    (uv_loop_init (fun e => -e) ex_loop_init_os 500 ex_loops).1 = 14 :=
  (uv_loop_init_loops_add_error (fun e => -e) ex_loop_init_os 500 ex_loops
    (by decide) (by decide) rfl rfl rfl rfl).2.1

/-! ## Signals that `uv__kill` does not support -/

/-- C15, counterexample. The signal number -1 is not one of the supported
ones, and `uv__kill` answers it with `UV_EINVAL`, not `UV_ENOSYS`; so do
`uv_process_kill` and `uv_kill`. -/
theorem uv__kill_unsupported_counterexample :
    (-1 : Int) ≠ 0 ∧ (-1 : Int) ≠ SIGINT ∧ (-1 : Int) ≠ SIGKILL ∧ (-1 : Int) ≠ SIGTERM ∧
    (uv__kill (fun e => -e) ex_kill_os 8 (-1)).1 = UV_EINVAL ∧
    (uv__kill (fun e => -e) ex_kill_os 8 (-1)).1 ≠ UV_ENOSYS ∧
    (uv_process_kill (fun e => -e) ex_kill_os ex_process_handle (-1)).2.1 ≠ UV_ENOSYS ∧
    (uv_kill (fun e => -e) ex_kill_os 9 77 (-1)).1 ≠ UV_ENOSYS := by
  decide

/-- C15, amended. For every signal number that is not one of the supported
ones (0, `SIGINT`, `SIGKILL`, `SIGTERM`), `uv__kill` makes no system call on
the process, so neither terminates nor probes it, and fails with `UV_ENOSYS`
when the number is in the range from 0 to `NSIG - 1` and with `UV_EINVAL` when
it is negative or at least `NSIG`. The same holds for `uv_process_kill` on a
process handle that is not `INVALID_HANDLE_VALUE`, which leaves the handle as
it was, and for `uv_kill` on a process that can be opened, which only closes
the handle it opened. -/
theorem uv__kill_unsupported (uv_translate_sys_error : Int → Int) (os : uv_kill_os)
    (signum : Int) (h0 : signum ≠ 0) (h1 : signum ≠ SIGINT) (h2 : signum ≠ SIGKILL)
    (h3 : signum ≠ SIGTERM) :
    (∀ process_handle : Nat,
      uv__kill uv_translate_sys_error os process_handle signum =
        (if 0 ≤ signum ∧ signum < NSIG then UV_ENOSYS else UV_EINVAL, [])) ∧
    (∀ process : uv_process_t, process.process_handle ≠ INVALID_HANDLE_VALUE →
      uv_process_kill uv_translate_sys_error os process signum =
        (process, if 0 ≤ signum ∧ signum < NSIG then UV_ENOSYS else UV_EINVAL, [])) ∧
    (∀ (current_process : Nat) (pid : Int) (h : Nat),
      (if pid = 0 then some current_process else os.OpenProcess) = some h →
      uv_kill uv_translate_sys_error os current_process pid signum =
        (if 0 ≤ signum ∧ signum < NSIG then UV_ENOSYS else UV_EINVAL,
          [uv_kill_call.CloseHandle h])) := by
  have hk : ∀ process_handle : Nat,
      uv__kill uv_translate_sys_error os process_handle signum =
        (if 0 ≤ signum ∧ signum < NSIG then UV_ENOSYS else UV_EINVAL, []) := by
    intro process_handle
    unfold uv__kill
    by_cases hr : signum < 0 ∨ signum ≥ NSIG
    · rw [if_pos hr, if_neg (by omega)]
    · rw [if_neg hr, if_neg (by simp [h1, h2, h3]), if_neg h0, if_pos (by omega)]
  refine ⟨hk, ?_, ?_⟩
  · intro process hp
    unfold uv_process_kill
    rw [if_neg hp, hk]
    have hne : (if 0 ≤ signum ∧ signum < NSIG then UV_ENOSYS else UV_EINVAL) ≠ 0 := by
      split_ifs <;> decide
    simp only [hne, ne_eq, not_false_eq_true, if_true]
  · intro current_process pid h hopen
    unfold uv_kill
    simp only [hopen, hk, List.nil_append]

/-- C15, amended, at the signal numbers 1 (in range) and 23 (out of range) on
the process of the examples. -/
theorem uv__kill_unsupported_witness :
    uv__kill (fun e => -e) ex_kill_os 8 1 = (UV_ENOSYS, []) ∧
    uv__kill (fun e => -e) ex_kill_os 8 23 = (UV_EINVAL, []) ∧
    uv_process_kill (fun e => -e) ex_kill_os ex_process_handle 1
      = (ex_process_handle, UV_ENOSYS, []) ∧
    uv_kill (fun e => -e) ex_kill_os 9 77 1 = (UV_ENOSYS, [.CloseHandle 8]) :=
  ⟨(uv__kill_unsupported (fun e => -e) ex_kill_os 1 (by decide) (by decide) (by decide)
      (by decide)).1 8,
    (uv__kill_unsupported (fun e => -e) ex_kill_os 23 (by decide) (by decide) (by decide)
      (by decide)).1 8,
    (uv__kill_unsupported (fun e => -e) ex_kill_os 1 (by decide) (by decide) (by decide)
      (by decide)).2.1 ex_process_handle (by decide),
    (uv__kill_unsupported (fun e => -e) ex_kill_os 1 (by decide) (by decide) (by decide)
      (by decide)).2.2 9 77 8 (by decide)⟩

/-! ## The resources of `uv__stdio_create` -/

@[simp] theorem uv_stdio_open_from_nil (s : Multiset Nat) : uv_stdio_open_from s [] = s := rfl

@[simp] theorem uv_stdio_open_from_cons (s : Multiset Nat) (e : uv_stdio_event)
    (l : List uv_stdio_event) :
    uv_stdio_open_from s (e :: l) = uv_stdio_open_from (uv_stdio_open_step s e) l := rfl

theorem uv_stdio_open_from_append (s : Multiset Nat) (l1 l2 : List uv_stdio_event) :
    uv_stdio_open_from s (l1 ++ l2) = uv_stdio_open_from (uv_stdio_open_from s l1) l2 := by
  unfold uv_stdio_open_from
  rw [List.foldl_append]

theorem uv_stdio_open_append (l1 l2 : List uv_stdio_event) :
    uv_stdio_open (l1 ++ l2) = uv_stdio_open_from (uv_stdio_open l1) l2 :=
  uv_stdio_open_from_append 0 l1 l2

theorem uv_stdio_open_from_close (s : Multiset Nat) (l : List Nat) :
    uv_stdio_open_from s (l.map uv_stdio_event.CloseHandle) = s - (l : Multiset Nat) := by
  induction l generalizing s with
  | nil => simp
  | cons a rest ih =>
    simp only [List.map_cons, uv_stdio_open_from_cons, uv_stdio_open_step]
    rw [ih, ← Multiset.cons_coe, Multiset.sub_cons]

theorem uv_stdio_open_destroy (buffer : child_stdio_buffer) (log : List uv_stdio_event) :
    uv_stdio_open (uv__stdio_destroy buffer log) = uv_stdio_open log -
      (((buffer.os_handle.take buffer.count).filter (· ≠ INVALID_HANDLE_VALUE) : List Nat) :
        Multiset Nat) := by
  unfold uv__stdio_destroy
  rw [uv_stdio_open_append, uv_stdio_open_append, uv_stdio_open_from_close]
  rfl

theorem uv__stdio_create_pipe_pair_spec (os : uv_stdio_os) (i : Nat)
    (log : List uv_stdio_event) :
    ∃ new, (uv__create_stdio_pipe_pair os i log).2.2 = log ++ new ∧
      (uv__create_stdio_pipe_pair os i log).2.1 ≠ INVALID_HANDLE_VALUE ∧
      ((uv__create_stdio_pipe_pair os i log).1 ≠ 0 → ∀ s, uv_stdio_open_from s new ≤ s) ∧
      ((uv__create_stdio_pipe_pair os i log).1 = 0 → ∀ s,
        uv_stdio_open_from s new ≤ (uv__create_stdio_pipe_pair os i log).2.1 ::ₘ s) := by
  unfold uv__create_stdio_pipe_pair
  simp only []
  split_ifs <;> simp only [List.append_assoc] <;>
    (first
      | refine ⟨_, rfl, ?_, ?_, ?_⟩
      | refine ⟨[], (List.append_nil _).symm, ?_, ?_, ?_⟩) <;>
    first
    | decide
    | assumption
    | (intro h; exact absurd rfl h)
    | (intro h; exact absurd h (by assumption))
    | (intro _ s
       simp [uv_stdio_open_step, Multiset.le_cons_self])

/-- What a function that creates at most one handle does to the log: the log
is extended, and a handle returned with the value 0 is the only one left
open, if it is not `INVALID_HANDLE_VALUE`. -/
theorem uv__create_nul_handle_spec (os : uv_stdio_os) (i : Nat) (log : List uv_stdio_event) :
    ∃ new, (uv__create_nul_handle os i log).2.2 = log ++ new ∧
      (∀ s, (uv__create_nul_handle os i log).2.1 = none → uv_stdio_open_from s new ≤ s) ∧
      (∀ s h, (uv__create_nul_handle os i log).2.1 = some h →
        h = os.CreateFileW i ∧ h ≠ INVALID_HANDLE_VALUE ∧ uv_stdio_open_from s new ≤ h ::ₘ s) := by
  unfold uv__create_nul_handle
  simp only []
  split_ifs with hc
  · exact ⟨[], (List.append_nil _).symm, fun s _ => le_refl _, fun s h hx => by simp at hx⟩
  · refine ⟨_, rfl, fun s hx => by simp at hx, fun s h hx => ?_⟩
    simp only [Option.some.injEq] at hx
    subst hx
    exact ⟨rfl, hc, by simp [uv_stdio_open_step]⟩

theorem uv__duplicate_handle_spec (os : uv_stdio_os) (i handle : Nat)
    (log : List uv_stdio_event) :
    ∃ new, (uv__duplicate_handle os i handle log).2.2 = log ++ new ∧
      ((∀ h, os.DuplicateHandle i = some h → h ≠ INVALID_HANDLE_VALUE) →
      ∀ s, uv_stdio_open_from s new ≤
        (if (uv__duplicate_handle os i handle log).2.1 = INVALID_HANDLE_VALUE then s
          else (uv__duplicate_handle os i handle log).2.1 ::ₘ s)) := by
  by_cases hc : handle = INVALID_HANDLE_VALUE ∨ handle = 0 ∨ handle = 18446744073709551614
  · have e : uv__duplicate_handle os i handle log =
        (ERROR_INVALID_HANDLE, INVALID_HANDLE_VALUE, log) := by
      unfold uv__duplicate_handle
      rw [if_pos hc]
    rw [e]
    exact ⟨[], (List.append_nil _).symm, fun _ s => by simp⟩
  · cases hd : os.DuplicateHandle i with
    | none =>
      have e : uv__duplicate_handle os i handle log =
          ((os.duplicate_error i : Int), INVALID_HANDLE_VALUE, log) := by
        unfold uv__duplicate_handle
        rw [if_neg hc, hd]
      rw [e]
      exact ⟨[], (List.append_nil _).symm, fun _ s => by simp⟩
    | some dup =>
      have e : uv__duplicate_handle os i handle log =
          (0, dup, log ++ [uv_stdio_event.CreateHandle dup]) := by
        unfold uv__duplicate_handle
        rw [if_neg hc, hd]
      rw [e]
      refine ⟨_, rfl, fun hdup s => ?_⟩
      simp [uv_stdio_open_step, hdup dup rfl]

theorem uv__duplicate_fd_spec (os : uv_stdio_os) (i : Nat) (fd : Int)
    (log : List uv_stdio_event) :
    ∃ new, (uv__duplicate_fd os i fd log).2.2 = log ++ new ∧
      ((∀ h, os.DuplicateHandle i = some h → h ≠ INVALID_HANDLE_VALUE) →
      ∀ s, uv_stdio_open_from s new ≤
        (if (uv__duplicate_fd os i fd log).2.1 = INVALID_HANDLE_VALUE then s
          else (uv__duplicate_fd os i fd log).2.1 ::ₘ s)) := by
  by_cases hc : fd = -1
  · have e : uv__duplicate_fd os i fd log =
        (ERROR_INVALID_HANDLE, INVALID_HANDLE_VALUE, log) := by
      unfold uv__duplicate_fd
      rw [if_pos hc]
    rw [e]
    exact ⟨[], (List.append_nil _).symm, fun _ s => by simp⟩
  · have e : uv__duplicate_fd os i fd log =
        uv__duplicate_handle os i (os.uv__get_osfhandle fd) log := by
      unfold uv__duplicate_fd
      rw [if_neg hc]
    rw [e]
    exact uv__duplicate_handle_spec os i _ log

theorem uv__duplicate_handle_error (os : uv_stdio_os) (i handle : Nat)
    (log : List uv_stdio_event) (h : (uv__duplicate_handle os i handle log).1 ≠ 0) :
    (uv__duplicate_handle os i handle log).2.1 = INVALID_HANDLE_VALUE := by
  unfold uv__duplicate_handle at h ⊢
  by_cases hc : handle = INVALID_HANDLE_VALUE ∨ handle = 0 ∨ handle = 18446744073709551614
  · rw [if_pos hc]
  · rw [if_neg hc] at h ⊢
    cases hd : os.DuplicateHandle i with
    | none => rfl
    | some dup =>
      rw [hd] at h
      exact absurd rfl h

theorem uv__duplicate_fd_error (os : uv_stdio_os) (i : Nat) (fd : Int)
    (log : List uv_stdio_event) (h : (uv__duplicate_fd os i fd log).1 ≠ 0) :
    (uv__duplicate_fd os i fd log).2.1 = INVALID_HANDLE_VALUE := by
  unfold uv__duplicate_fd at h ⊢
  by_cases hc : fd = -1
  · rw [if_pos hc]
  · rw [if_neg hc] at h ⊢
    exact uv__duplicate_handle_error os i _ log h

theorem uv_stdio_entry_spec_keep (D : Prop) (i : Nat) (b : child_stdio_buffer)
    (log new : List uv_stdio_event) (hn : D → ∀ s, uv_stdio_open_from s new ≤ s) :
    uv_stdio_entry_spec D i b log (none, b, log ++ new) :=
  ⟨rfl, Or.inl rfl, new, rfl, Or.inl ⟨rfl, hn⟩⟩

theorem uv_stdio_entry_spec_flags (D : Prop) (i f : Nat) (b : child_stdio_buffer)
    (log new : List uv_stdio_event) (hn : D → ∀ s, uv_stdio_open_from s new ≤ s) :
    uv_stdio_entry_spec D i b log (none, b.set_crt_flags i f, log ++ new) :=
  ⟨rfl, Or.inr ⟨f, rfl⟩, new, rfl, Or.inl ⟨rfl, hn⟩⟩

theorem uv_stdio_entry_spec_set (D : Prop) (i f h : Nat) (b : child_stdio_buffer)
    (log new : List uv_stdio_event)
    (hn : D → ∀ s,
      uv_stdio_open_from s new ≤ (if h = INVALID_HANDLE_VALUE then s else h ::ₘ s)) :
    uv_stdio_entry_spec D i b log (none, (b.set_handle i h).set_crt_flags i f, log ++ new) :=
  ⟨rfl, Or.inr ⟨f, rfl⟩, new, rfl, Or.inr ⟨h, rfl, hn⟩⟩

theorem uv_stdio_entry_spec_set2 (D : Prop) (i f h : Nat) (b : child_stdio_buffer)
    (log new : List uv_stdio_event)
    (hn : D → ∀ s,
      uv_stdio_open_from s new ≤ (if h = INVALID_HANDLE_VALUE then s else h ::ₘ s)) :
    uv_stdio_entry_spec D i b log (none, (b.set_crt_flags i f).set_handle i h, log ++ new) :=
  ⟨rfl, Or.inr ⟨f, rfl⟩, new, rfl, Or.inr ⟨h, rfl, hn⟩⟩

theorem uv_stdio_entry_spec_fail (D : Prop) (i : Nat) (err : Int) (b : child_stdio_buffer)
    (log new : List uv_stdio_event) (he : err ≠ 0)
    (hn : D → ∀ s, uv_stdio_open_from s new ≤ s) :
    uv_stdio_entry_spec D i b log (some err, b, uv__stdio_destroy b (log ++ new)) :=
  ⟨he, rfl, Or.inr ⟨new, rfl, hn⟩⟩

theorem uv_stdio_entry_spec_assert (D : Prop) (i : Nat) (b : child_stdio_buffer)
    (log new : List uv_stdio_event) :
    uv_stdio_entry_spec D i b log (some (-1), b, log ++ new ++ [.assert_failed]) :=
  ⟨by decide, rfl, Or.inl (by simp)⟩

theorem uv_stdio_open_from_le_trans {s : Multiset Nat} {n1 n2 : List uv_stdio_event}
    {t : Multiset Nat} (h1 : uv_stdio_open_from s n1 ≤ t)
    (h2 : ∀ u, uv_stdio_open_from u n2 ≤ u) : uv_stdio_open_from s (n1 ++ n2) ≤ t := by
  rw [uv_stdio_open_from_append]
  exact le_trans (h2 _) h1

theorem uv_stdio_open_from_mono {s t : Multiset Nat} (h : s ≤ t) (n : List uv_stdio_event) :
    uv_stdio_open_from s n ≤ uv_stdio_open_from t n := by
  induction n generalizing s t with
  | nil => exact h
  | cons e rest ih =>
    simp only [uv_stdio_open_from_cons]
    apply ih
    cases e <;>
      first | exact h | exact Multiset.cons_le_cons _ h | exact Multiset.erase_le_erase _ h

theorem uv_stdio_asserts_spec (log : List uv_stdio_event) (c1 c2 c3 : Prop) [Decidable c1]
    [Decidable c2] [Decidable c3] :
    ∃ new, (if c3 then (if c2 then (if c1 then log ++ [uv_stdio_event.assert_failed] else log)
          ++ [uv_stdio_event.assert_failed]
        else (if c1 then log ++ [uv_stdio_event.assert_failed] else log))
          ++ [uv_stdio_event.assert_failed]
      else (if c2 then (if c1 then log ++ [uv_stdio_event.assert_failed] else log)
          ++ [uv_stdio_event.assert_failed]
        else (if c1 then log ++ [uv_stdio_event.assert_failed] else log))) = log ++ new ∧
      ∀ s, uv_stdio_open_from s new = s := by
  split_ifs <;> (try simp only [List.append_assoc]) <;>
    first
    | exact ⟨_, rfl, fun s => rfl⟩
    | exact ⟨[], (List.append_nil _).symm, fun s => rfl⟩

theorem uv__stdio_create_switch_spec (os : uv_stdio_os) (fdopt : uv_stdio_container_t)
    (i : Nat) (b : child_stdio_buffer) (log : List uv_stdio_event) :
    uv_stdio_entry_spec (∀ h, os.DuplicateHandle i = some h → h ≠ INVALID_HANDLE_VALUE) i b log
      (uv__stdio_create_switch os fdopt i b log) := by
  unfold uv__stdio_create_switch
  simp only []
  by_cases k0 : fdopt.flags &&&
      (UV_IGNORE ||| UV_CREATE_PIPE ||| UV_INHERIT_FD ||| UV_INHERIT_STREAM) = UV_IGNORE
  · rw [if_pos k0]
    by_cases hi : i ≤ 2
    · rw [if_pos hi]
      obtain ⟨new, hlog, hnone, hsome⟩ := uv__create_nul_handle_spec os i log
      by_cases he : (uv__create_nul_handle os i log).1 ≠ 0
      · rw [if_pos he, hlog]
        cases hr : (uv__create_nul_handle os i log).2.1 with
        | none => exact uv_stdio_entry_spec_fail _ i _ b log new he (fun _ s => hnone s hr)
        | some h =>
          exfalso
          unfold uv__create_nul_handle at he hr
          simp only [] at he hr
          split_ifs at he hr
          all_goals exact he rfl
      · rw [if_neg he, hlog]
        cases hr : (uv__create_nul_handle os i log).2.1 with
        | none => exact uv_stdio_entry_spec_flags _ i _ b log new (fun _ s => hnone s hr)
        | some h =>
          refine uv_stdio_entry_spec_set _ i _ h b log new (fun _ s => ?_)
          rw [if_neg (hsome s h hr).2.1]
          exact (hsome s h hr).2.2
    · rw [if_neg hi]
      have := uv_stdio_entry_spec_keep
        (∀ h, os.DuplicateHandle i = some h → h ≠ INVALID_HANDLE_VALUE) i b log []
        (fun _ s => le_refl _)
      rwa [List.append_nil] at this
  · rw [if_neg k0]
    by_cases k1 : fdopt.flags &&&
        (UV_IGNORE ||| UV_CREATE_PIPE ||| UV_INHERIT_FD ||| UV_INHERIT_STREAM) = UV_CREATE_PIPE
    · rw [if_pos k1]
      obtain ⟨n0, hn0, ho0⟩ := uv_stdio_asserts_spec log (fdopt.stream.type ≠ .UV_NAMED_PIPE)
        (fdopt.stream.connection = true) (fdopt.stream.pipeserver = true)
      rw [hn0]
      obtain ⟨n1, hn1, hv, hfail, hok⟩ := uv__stdio_create_pipe_pair_spec os i (log ++ n0)
      rw [hn1, List.append_assoc]
      have ho0' : ∀ s, uv_stdio_open_from s n0 ≤ s := fun s => le_of_eq (ho0 s)
      by_cases he : (uv__create_stdio_pipe_pair os i (log ++ n0)).1 ≠ 0
      · rw [if_pos he]
        refine uv_stdio_entry_spec_fail _ i _ b log (n0 ++ n1) he (fun _ s => ?_)
        rw [uv_stdio_open_from_append, ho0]
        exact hfail he s
      · rw [if_neg he]
        refine uv_stdio_entry_spec_set _ i _ _ b log (n0 ++ n1) (fun _ s => ?_)
        rw [if_neg hv, uv_stdio_open_from_append, ho0]
        exact hok (not_not.1 he) s
    · rw [if_neg k1]
      by_cases k2 : fdopt.flags &&&
          (UV_IGNORE ||| UV_CREATE_PIPE ||| UV_INHERIT_FD ||| UV_INHERIT_STREAM) = UV_INHERIT_FD
      · rw [if_pos k2]
        obtain ⟨n1, hn1, ho1⟩ := uv__duplicate_fd_spec os i fdopt.fd log
        rw [hn1]
        by_cases he : (uv__duplicate_fd os i fdopt.fd log).1 ≠ 0
        · have hinv := uv__duplicate_fd_error os i fdopt.fd log he
          have ho1' : (∀ h, os.DuplicateHandle i = some h → h ≠ INVALID_HANDLE_VALUE) →
              ∀ s, uv_stdio_open_from s n1 ≤ s := by
            intro hdup s
            have := ho1 hdup s
            rwa [if_pos hinv] at this
          rw [if_pos he]
          split_ifs
          · exact uv_stdio_entry_spec_set2 _ i _ _ b log n1
              (fun hdup s => by rw [if_pos rfl]; exact ho1' hdup s)
          · exact uv_stdio_entry_spec_fail _ i _ b log n1 he ho1'
        · rw [if_neg he]
          have hclose : (∀ h, os.DuplicateHandle i = some h → h ≠ INVALID_HANDLE_VALUE) →
              ∀ s, uv_stdio_open_from s
              (n1 ++ [uv_stdio_event.CloseHandle (uv__duplicate_fd os i fdopt.fd log).2.1]) ≤ s := by
            intro hdup s
            rw [uv_stdio_open_from_append]
            simp only [uv_stdio_open_from_cons, uv_stdio_open_from_nil, uv_stdio_open_step]
            have := ho1 hdup s
            split_ifs at this with hv
            · exact le_trans (Multiset.erase_le _ _) this
            · calc (uv_stdio_open_from s n1).erase _
                  ≤ ((uv__duplicate_fd os i fdopt.fd log).2.1 ::ₘ s).erase _ :=
                    Multiset.erase_le_erase _ this
                _ = s := Multiset.erase_cons_head _ _
          split_ifs
          all_goals
            first
            | exact uv_stdio_entry_spec_set2 _ i _ _ b log n1 ho1
            | (rw [List.append_assoc]
               exact uv_stdio_entry_spec_fail _ i _ b log _ (by simpa using ‹_›) hclose)
            | exact uv_stdio_entry_spec_assert _ i b log n1
      · rw [if_neg k2]
        by_cases k3 : fdopt.flags &&&
            (UV_IGNORE ||| UV_CREATE_PIPE ||| UV_INHERIT_FD ||| UV_INHERIT_STREAM)
              = UV_INHERIT_STREAM
        · rw [if_pos k3]
          obtain ⟨sc, hsc⟩ : ∃ sc : Nat × Nat, sc =
              (if fdopt.stream.type = .UV_TTY then (fdopt.stream.handle, FOPEN ||| FDEV)
                else if fdopt.stream.type = .UV_NAMED_PIPE ∧ fdopt.stream.connection = true then
                  (fdopt.stream.handle, FOPEN ||| FPIPE)
                else (INVALID_HANDLE_VALUE, 0)) := ⟨_, rfl⟩
          rw [← hsc]
          by_cases hs : sc.1 = 0 ∨ sc.1 = INVALID_HANDLE_VALUE
          · rw [if_pos hs]
            have := uv_stdio_entry_spec_fail
              (∀ h, os.DuplicateHandle i = some h → h ≠ INVALID_HANDLE_VALUE) i
              ERROR_NOT_SUPPORTED b log [] (by decide) (fun _ s => le_refl _)
            rwa [List.append_nil] at this
          · rw [if_neg hs]
            obtain ⟨n1, hn1, ho1⟩ := uv__duplicate_handle_spec os i sc.1 log
            rw [hn1]
            by_cases he : (uv__duplicate_handle os i sc.1 log).1 ≠ 0
            · have hinv := uv__duplicate_handle_error os i sc.1 log he
              rw [if_pos he]
              refine uv_stdio_entry_spec_fail _ i _ b log n1 he (fun hdup s => ?_)
              have := ho1 hdup s
              rwa [if_pos hinv] at this
            · rw [if_neg he]
              exact uv_stdio_entry_spec_set _ i _ _ b log n1 ho1
        · rw [if_neg k3]
          have := uv_stdio_entry_spec_assert
            (∀ h, os.DuplicateHandle i = some h → h ≠ INVALID_HANDLE_VALUE) i b log []
          rwa [List.append_nil] at this

theorem uv_stdio_filter_replicate (m : Nat) :
    (List.replicate m INVALID_HANDLE_VALUE).filter (· ≠ INVALID_HANDLE_VALUE) = [] := by
  rw [List.filter_replicate]
  simp

theorem uv_stdio_inv_valid {n k : Nat} {b : child_stdio_buffer} {log : List uv_stdio_event}
    (h : uv_stdio_inv n k b log) (hk : k ≤ n) :
    uv_stdio_open log ≤
      (((b.os_handle.take b.count).filter (· ≠ INVALID_HANDLE_VALUE) : List Nat) :
        Multiset Nat) := by
  obtain ⟨hc, -, pre, hp, hh, ho⟩ := h
  have hl : (pre ++ List.replicate (n - k) INVALID_HANDLE_VALUE).length = n := by
    simp [hp]; omega
  rw [hc, hh, List.take_of_length_le (le_of_eq hl), List.filter_append,
    uv_stdio_filter_replicate, List.append_nil]
  exact ho

theorem uv__stdio_create_entry_inv (os : uv_stdio_os) (options : uv_process_options_t)
    (n k : Nat) (b : child_stdio_buffer) (log : List uv_stdio_event)
    (hdup : ∀ i h, os.DuplicateHandle i = some h → h ≠ INVALID_HANDLE_VALUE)
    (hk : k < n) (hinv : uv_stdio_inv n k b log) :
    match (uv__stdio_create_entry os options k b log).1 with
    | none => uv_stdio_inv n (k + 1) (uv__stdio_create_entry os options k b log).2.1
        (uv__stdio_create_entry os options k b log).2.2
    | some err => err ≠ 0 ∧
        (uv_stdio_event.assert_failed ∈ (uv__stdio_create_entry os options k b log).2.2 ∨
          (uv_stdio_open (uv__stdio_create_entry os options k b log).2.2 = 0 ∧
            uv_stdio_event.free ∈ (uv__stdio_create_entry os options k b log).2.2)) := by
  have hspec := uv__stdio_create_switch_spec os (uv_stdio_fdopt options k) k b log
  unfold uv__stdio_create_entry
  obtain ⟨r, hr⟩ : ∃ r, r = uv__stdio_create_switch os (uv_stdio_fdopt options k) k b log :=
    ⟨_, rfl⟩
  rw [← hr] at hspec ⊢
  obtain ⟨r1, b', log'⟩ := r
  unfold uv_stdio_entry_spec at hspec
  cases r1 with
  | none =>
    simp only [] at hspec ⊢
    obtain ⟨hc, hf, new, hlog, hcase⟩ := hspec
    obtain ⟨hc0, hf0, pre, hp, hh, ho⟩ := hinv
    have hrep : List.replicate (n - k) INVALID_HANDLE_VALUE =
        INVALID_HANDLE_VALUE :: List.replicate (n - (k + 1)) INVALID_HANDLE_VALUE := by
      have : n - k = (n - (k + 1)) + 1 := by omega
      rw [this, List.replicate_succ]
    have hf' : b'.crt_flags.length = b.crt_flags.length := by
      rcases hf with hf | ⟨f, hf⟩ <;> simp [hf]
    refine ⟨hc.trans hc0, hf'.trans hf0, ?_⟩
    rcases hcase with ⟨hsame, hopen⟩ | ⟨h, hset, hopen⟩
    · refine ⟨pre ++ [INVALID_HANDLE_VALUE], by simp [hp], ?_, ?_⟩
      · rw [hsame, hh, hrep]; simp
      · rw [hlog, uv_stdio_open_append]
        simp only [List.filter_append]
        have : ([INVALID_HANDLE_VALUE].filter (· ≠ INVALID_HANDLE_VALUE)) = [] := by decide
        rw [this, List.append_nil]
        exact le_trans (hopen (hdup k) _) ho
    · refine ⟨pre ++ [h], by simp [hp], ?_, ?_⟩
      · rw [hset, hh, hrep, List.set_append_right _ _ (le_of_eq hp), hp, Nat.sub_self]
        simp
      · rw [hlog, uv_stdio_open_append]
        simp only [List.filter_append]
        by_cases hv : h = INVALID_HANDLE_VALUE
        · have := hopen (hdup k) (uv_stdio_open log)
          rw [if_pos hv] at this
          have e : ([h].filter (· ≠ INVALID_HANDLE_VALUE)) = [] := by simp [hv]
          rw [e, List.append_nil]
          exact le_trans this ho
        · have := hopen (hdup k) (uv_stdio_open log)
          rw [if_neg hv] at this
          have e : ([h].filter (· ≠ INVALID_HANDLE_VALUE)) = [h] := by simp [hv]
          rw [e]
          refine le_trans this ?_
          rw [← Multiset.coe_add, Multiset.coe_singleton, add_comm, Multiset.singleton_add]
          exact Multiset.cons_le_cons _ ho
  | some err =>
    simp only [] at hspec ⊢
    obtain ⟨he, hb, hcase⟩ := hspec
    refine ⟨he, ?_⟩
    rcases hcase with ha | ⟨new, hlog, hopen⟩
    · exact Or.inl ha
    · right
      rw [hlog]
      constructor
      · rw [uv_stdio_open_destroy, uv_stdio_open_append]
        exact tsub_eq_zero_of_le
          (le_trans (hopen (hdup k) _) (uv_stdio_inv_valid hinv (le_of_lt hk)))
      · unfold uv__stdio_destroy
        simp

theorem uv__stdio_create_loop_inv (os : uv_stdio_os) (options : uv_process_options_t)
    (n : Nat) (hdup : ∀ i h, os.DuplicateHandle i = some h → h ≠ INVALID_HANDLE_VALUE) :
    ∀ (m k : Nat) (b : child_stdio_buffer) (log : List uv_stdio_event), k + m = n →
      uv_stdio_inv n k b log →
      ((uv__stdio_create_loop os options (List.range' k m) b log).1 = 0 →
        uv_stdio_inv n n (uv__stdio_create_loop os options (List.range' k m) b log).2.1
          (uv__stdio_create_loop os options (List.range' k m) b log).2.2) ∧
      ((uv__stdio_create_loop os options (List.range' k m) b log).1 ≠ 0 →
        uv_stdio_event.assert_failed ∈
            (uv__stdio_create_loop os options (List.range' k m) b log).2.2 ∨
          (uv_stdio_open (uv__stdio_create_loop os options (List.range' k m) b log).2.2 = 0 ∧
            uv_stdio_event.free ∈
              (uv__stdio_create_loop os options (List.range' k m) b log).2.2)) := by
  intro m
  induction m with
  | zero =>
    intro k b log hk hinv
    have : k = n := by omega
    subst this
    simp only [List.range'_zero, uv__stdio_create_loop]
    exact ⟨fun _ => hinv, fun h => absurd rfl h⟩
  | succ m ih =>
    intro k b log hk hinv
    have hstep := uv__stdio_create_entry_inv os options n k b log hdup (by omega) hinv
    rw [List.range'_succ]
    unfold uv__stdio_create_loop
    obtain ⟨r, hr⟩ : ∃ r, r = uv__stdio_create_entry os options k b log := ⟨_, rfl⟩
    rw [← hr] at hstep ⊢
    obtain ⟨r1, b', log'⟩ := r
    cases r1 with
    | none =>
      simp only [] at hstep ⊢
      exact ih (k + 1) b' log' (by omega) hstep
    | some err =>
      simp only [] at hstep ⊢
      exact ⟨fun h => absurd h hstep.1, fun _ => hstep.2⟩

theorem uv__stdio_create_eq (os : uv_stdio_os) (options : uv_process_options_t)
    (h0 : 0 ≤ options.stdio_count) (h1 : options.stdio_count ≤ 255) (hm : os.malloc_ok = true) :
    uv__stdio_create os options =
      (let r := uv__stdio_create_loop os options
          (List.range' 0 (uv_stdio_count options.stdio_count))
          { count := uv_stdio_count options.stdio_count,
            crt_flags := List.replicate (uv_stdio_count options.stdio_count) 0,
            os_handle := List.replicate (uv_stdio_count options.stdio_count)
              INVALID_HANDLE_VALUE }
          [.malloc]
       if r.1 ≠ 0 then (r.1, none, r.2.2) else (0, some r.2.1, r.2.2)) := by
  unfold uv__stdio_create uv_stdio_count
  simp only []
  rw [if_neg (by omega), List.range_eq_range']
  simp [hm]

theorem uv_stdio_inv_initial (n : Nat) :
    uv_stdio_inv n 0
      { count := n, crt_flags := List.replicate n 0,
        os_handle := List.replicate n INVALID_HANDLE_VALUE } [.malloc] :=
  ⟨rfl, by simp, [], rfl, by simp, by
    show uv_stdio_open [uv_stdio_event.malloc] ≤ _
    exact le_of_eq rfl⟩

theorem uv__stdio_create_success (os : uv_stdio_os) (options : uv_process_options_t)
    (hdup : ∀ i h, os.DuplicateHandle i = some h → h ≠ INVALID_HANDLE_VALUE)
    (hr : (uv__stdio_create os options).1 = 0) :
    0 ≤ options.stdio_count ∧ options.stdio_count ≤ 255 ∧
    ∃ b, (uv__stdio_create os options).2.1 = some b ∧
      uv_stdio_inv (uv_stdio_count options.stdio_count) (uv_stdio_count options.stdio_count) b
        (uv__stdio_create os options).2.2 := by
  by_cases hc : options.stdio_count < 0 ∨ options.stdio_count > 255
  · exfalso
    unfold uv__stdio_create at hr
    simp only [] at hr
    rw [if_pos hc] at hr
    exact absurd hr (by decide)
  · have h0 : 0 ≤ options.stdio_count := by omega
    have h1 : options.stdio_count ≤ 255 := by omega
    cases hm : os.malloc_ok with
    | false =>
      exfalso
      unfold uv__stdio_create at hr
      simp only [] at hr
      rw [if_neg hc] at hr
      simp only [hm, Bool.not_false, if_true] at hr
      exact absurd hr (by decide)
    | true =>
      rw [uv__stdio_create_eq os options h0 h1 hm] at hr ⊢
      have hl := uv__stdio_create_loop_inv os options (uv_stdio_count options.stdio_count) hdup
        (uv_stdio_count options.stdio_count) 0 _ _ (by omega)
        (uv_stdio_inv_initial (uv_stdio_count options.stdio_count))
      simp only [] at hr ⊢
      split_ifs at hr ⊢ with he
      · exact absurd hr he
      · exact ⟨h0, h1, _, rfl, hl.1 (not_not.1 he)⟩

theorem uv__stdio_create_failure (os : uv_stdio_os) (options : uv_process_options_t)
    (hdup : ∀ i h, os.DuplicateHandle i = some h → h ≠ INVALID_HANDLE_VALUE)
    (hr : (uv__stdio_create os options).1 ≠ 0) :
    (uv__stdio_create os options).2.1 = none ∧
    (uv_stdio_event.assert_failed ∈ (uv__stdio_create os options).2.2 ∨
      (uv_stdio_open (uv__stdio_create os options).2.2 = 0 ∧
        ((uv__stdio_create os options).2.2 = [] ∨
          uv_stdio_event.free ∈ (uv__stdio_create os options).2.2))) := by
  by_cases hc : options.stdio_count < 0 ∨ options.stdio_count > 255
  · unfold uv__stdio_create
    simp only []
    rw [if_pos hc]
    exact ⟨rfl, Or.inr ⟨rfl, Or.inl rfl⟩⟩
  · have h0 : 0 ≤ options.stdio_count := by omega
    have h1 : options.stdio_count ≤ 255 := by omega
    cases hm : os.malloc_ok with
    | false =>
      unfold uv__stdio_create
      simp only []
      rw [if_neg hc]
      simp only [hm, Bool.not_false, if_true]
      exact ⟨trivial, Or.inr ⟨rfl, Or.inl trivial⟩⟩
    | true =>
      rw [uv__stdio_create_eq os options h0 h1 hm] at hr ⊢
      have hl := uv__stdio_create_loop_inv os options (uv_stdio_count options.stdio_count) hdup
        (uv_stdio_count options.stdio_count) 0 _ _ (by omega)
        (uv_stdio_inv_initial (uv_stdio_count options.stdio_count))
      simp only [] at hr ⊢
      split_ifs at hr ⊢ with he
      · refine ⟨rfl, ?_⟩
        rcases hl.2 he with ha | ⟨ho, hf⟩
        · exact Or.inl ha
        · exact Or.inr ⟨ho, Or.inr hf⟩
      · exact absurd rfl hr

theorem uv__stdio_create_switch_shape (os : uv_stdio_os) (fdopt : uv_stdio_container_t)
    (i n : Nat) (b : child_stdio_buffer) (log : List uv_stdio_event) (h : uv_stdio_shape n b) :
    uv_stdio_shape n (uv__stdio_create_switch os fdopt i b log).2.1 := by
  have hspec := uv__stdio_create_switch_spec os fdopt i b log
  obtain ⟨r, hr⟩ : ∃ r, r = uv__stdio_create_switch os fdopt i b log := ⟨_, rfl⟩
  rw [← hr] at hspec ⊢
  obtain ⟨r1, b', log'⟩ := r
  unfold uv_stdio_entry_spec at hspec
  obtain ⟨h1, h2, h3⟩ := h
  cases r1 with
  | none =>
    simp only [] at hspec ⊢
    obtain ⟨hc, hf, new, -, hcase⟩ := hspec
    refine ⟨hc.trans h1, ?_, ?_⟩
    · rcases hf with hf | ⟨f, hf⟩ <;> simp [hf, h2]
    · rcases hcase with ⟨hs, -⟩ | ⟨x, hs, -⟩ <;> simp [hs, h3]
  | some err =>
    simp only [] at hspec ⊢
    rw [hspec.2.1]
    exact ⟨h1, h2, h3⟩

theorem uv__stdio_create_loop_shape (os : uv_stdio_os) (options : uv_process_options_t)
    (n : Nat) (is : List Nat) (b : child_stdio_buffer) (log : List uv_stdio_event)
    (h : uv_stdio_shape n b) :
    uv_stdio_shape n (uv__stdio_create_loop os options is b log).2.1 := by
  induction is generalizing b log with
  | nil => exact h
  | cons i rest ih =>
    unfold uv__stdio_create_loop
    have hs := uv__stdio_create_switch_shape os (uv_stdio_fdopt options i) i n b log h
    obtain ⟨r, hr⟩ : ∃ r, r = uv__stdio_create_entry os options i b log := ⟨_, rfl⟩
    have hs' : uv_stdio_shape n r.2.1 := by rw [hr]; exact hs
    rw [← hr]
    obtain ⟨r1, b', log'⟩ := r
    cases r1 with
    | none => exact ih b' log' hs'
    | some err => exact hs'

theorem uv__stdio_create_shape (os : uv_stdio_os) (options : uv_process_options_t)
    (hr : (uv__stdio_create os options).1 = 0) :
    0 ≤ options.stdio_count ∧ options.stdio_count ≤ 255 ∧
    ∃ b, (uv__stdio_create os options).2.1 = some b ∧
      uv_stdio_shape (uv_stdio_count options.stdio_count) b := by
  by_cases hc : options.stdio_count < 0 ∨ options.stdio_count > 255
  · exfalso
    unfold uv__stdio_create at hr
    simp only [] at hr
    rw [if_pos hc] at hr
    exact absurd hr (by decide)
  · have h0 : 0 ≤ options.stdio_count := by omega
    have h1 : options.stdio_count ≤ 255 := by omega
    cases hm : os.malloc_ok with
    | false =>
      exfalso
      unfold uv__stdio_create at hr
      simp only [] at hr
      rw [if_neg hc] at hr
      simp only [hm, Bool.not_false, if_true] at hr
      exact absurd hr (by decide)
    | true =>
      rw [uv__stdio_create_eq os options h0 h1 hm] at hr ⊢
      have hl := uv__stdio_create_loop_shape os options (uv_stdio_count options.stdio_count)
        (List.range' 0 (uv_stdio_count options.stdio_count))
        { count := uv_stdio_count options.stdio_count,
          crt_flags := List.replicate (uv_stdio_count options.stdio_count) 0,
          os_handle := List.replicate (uv_stdio_count options.stdio_count)
            INVALID_HANDLE_VALUE } [.malloc] ⟨rfl, by simp, by simp⟩
      simp only [] at hr ⊢
      split_ifs at hr ⊢ with he
      · exact absurd hr he
      · exact ⟨h0, h1, _, rfl, hl⟩

/-! ## The wire format of the child stdio -/

/-- C18. For every options for which `uv__stdio_create` succeeds,
`stdio_count` is between 0 and 255 and the buffer has the layout `[count]
[count flag bytes][count handle words]` with `count = max(stdio_count, 3)`, at
most 256: the count field is `count`, there are `count` flags, the flag of the
index `fd` at byte `4 + fd`, and `count` handles, the handle of the index `fd`
at byte `4 + count + 8 * fd`, the last one ending at `CHILD_STDIO_SIZE(count)`,
which `uv__stdio_size` returns without truncation; and `uv__stdio_verify` of
the buffer and this size returns 1. `uv__stdio_verify` returns 0 for a null
buffer, for a size below that of the count field, for a count above 256, and
for a size below `CHILD_STDIO_SIZE(count)`. -/
theorem uv__stdio_verify_roundtrip (os : uv_stdio_os) (options : uv_process_options_t) :
    ((uv__stdio_create os options).1 = 0 →
      0 ≤ options.stdio_count ∧ options.stdio_count ≤ 255 ∧
      ∃ buffer, (uv__stdio_create os options).2.1 = some buffer ∧
        (buffer.count : Int) = max options.stdio_count 3 ∧ buffer.count ≤ 256 ∧
        buffer.crt_flags.length = buffer.count ∧ buffer.os_handle.length = buffer.count ∧
        (∀ fd, fd < buffer.count →
          CHILD_STDIO_SIZE 0 ≤ CHILD_STDIO_CRT_FLAGS_offset fd ∧
          CHILD_STDIO_CRT_FLAGS_offset fd < CHILD_STDIO_HANDLE_offset buffer.count 0 ∧
          CHILD_STDIO_HANDLE_offset buffer.count fd + 8 ≤ CHILD_STDIO_SIZE buffer.count) ∧
        CHILD_STDIO_HANDLE_offset buffer.count buffer.count = CHILD_STDIO_SIZE buffer.count ∧
        uv__stdio_size buffer = CHILD_STDIO_SIZE buffer.count ∧
        uv__stdio_verify (some buffer) (uv__stdio_size buffer) = 1) ∧
    (∀ size, uv__stdio_verify none size = 0) ∧
    (∀ buffer size, size < CHILD_STDIO_SIZE 0 → uv__stdio_verify (some buffer) size = 0) ∧
    (∀ buffer size, buffer.count > 256 → uv__stdio_verify (some buffer) size = 0) ∧
    (∀ buffer size, size < CHILD_STDIO_SIZE buffer.count →
      uv__stdio_verify (some buffer) size = 0) := by
  refine ⟨?_, fun _ => rfl, ?_, ?_, ?_⟩
  · intro hr
    obtain ⟨h0, h1, b, hb, hc, hf, hh⟩ := uv__stdio_create_shape os options hr
    refine ⟨h0, h1, b, hb, ?_⟩
    have hcount : (b.count : Int) = max options.stdio_count 3 := by
      rw [hc]
      unfold uv_stdio_count
      split_ifs with h3
      · rw [max_eq_right (by omega)]; rfl
      · rw [max_eq_left (by omega)]; omega
    have hle : b.count ≤ 255 := by
      have : (b.count : Int) ≤ 255 := by rw [hcount]; exact max_le h1 (by decide)
      omega
    have hsize : uv__stdio_size b = CHILD_STDIO_SIZE b.count := by
      unfold uv__stdio_size CHILD_STDIO_SIZE
      omega
    refine ⟨hcount, by omega, hf.trans hc.symm, hh.trans hc.symm, ?_, ?_, hsize, ?_⟩
    · intro fd hfd
      unfold CHILD_STDIO_SIZE CHILD_STDIO_CRT_FLAGS_offset CHILD_STDIO_HANDLE_offset
      omega
    · unfold CHILD_STDIO_SIZE CHILD_STDIO_HANDLE_offset
      omega
    · rw [hsize]
      unfold uv__stdio_verify
      simp only []
      rw [if_neg (by unfold CHILD_STDIO_SIZE; omega), if_neg (by omega), if_neg (by omega)]
  · intro buffer size h
    unfold uv__stdio_verify
    simp only []
    rw [if_pos h]
  · intro buffer size h
    unfold uv__stdio_verify
    simp only []
    split_ifs <;> rfl
  · intro buffer size h
    unfold uv__stdio_verify
    simp only []
    split_ifs <;> rfl

theorem uv__stdio_create_entry_frame (os : uv_stdio_os) (options : uv_process_options_t)
    (i : Nat) (b : child_stdio_buffer) (log : List uv_stdio_event)
    (hnone : (uv__stdio_create_entry os options i b log).1 = none) (j : Nat) (hj : j ≠ i) :
    (uv__stdio_create_entry os options i b log).2.1.os_handle[j]? = b.os_handle[j]? ∧
    (uv__stdio_create_entry os options i b log).2.1.crt_flags[j]? = b.crt_flags[j]? := by
  have hspec := uv__stdio_create_switch_spec os (uv_stdio_fdopt options i) i b log
  unfold uv__stdio_create_entry at hnone ⊢
  obtain ⟨r, hr⟩ : ∃ r, r = uv__stdio_create_switch os (uv_stdio_fdopt options i) i b log :=
    ⟨_, rfl⟩
  rw [← hr] at hspec hnone ⊢
  obtain ⟨r1, b', log'⟩ := r
  simp only [] at hnone
  subst hnone
  unfold uv_stdio_entry_spec at hspec
  simp only [] at hspec ⊢
  obtain ⟨-, hf, new, -, hcase⟩ := hspec
  constructor
  · rcases hcase with ⟨hs, -⟩ | ⟨x, hs, -⟩
    · rw [hs]
    · rw [hs, List.getElem?_set, if_neg (Ne.symm hj)]
  · rcases hf with hf | ⟨f, hf⟩
    · rw [hf]
    · rw [hf, List.getElem?_set, if_neg (Ne.symm hj)]

theorem uv__stdio_create_entry_ignore (os : uv_stdio_os) (options : uv_process_options_t)
    (i : Nat) (b : child_stdio_buffer) (log : List uv_stdio_event)
    (hk : uv_stdio_is_ignore options i)
    (hnul : os.CreateFileW i = INVALID_HANDLE_VALUE → os.nul_error i ≠ 0)
    (hnone : (uv__stdio_create_entry os options i b log).1 = none) :
    (i ≤ 2 →
      (uv__stdio_create_entry os options i b log).2.1.os_handle
        = b.os_handle.set i (os.CreateFileW i) ∧
      os.CreateFileW i ≠ INVALID_HANDLE_VALUE ∧
      (uv__stdio_create_entry os options i b log).2.1.crt_flags
        = b.crt_flags.set i (FOPEN ||| FDEV)) ∧
    (2 < i → (uv__stdio_create_entry os options i b log).2.1 = b) := by
  unfold uv_stdio_is_ignore at hk
  unfold uv__stdio_create_entry uv__stdio_create_switch at hnone ⊢
  simp only [] at hnone ⊢
  rw [if_pos hk] at hnone ⊢
  by_cases hi : i ≤ 2
  · rw [if_pos hi] at hnone ⊢
    refine ⟨fun _ => ?_, fun h => absurd h (by omega)⟩
    by_cases hc : os.CreateFileW i = INVALID_HANDLE_VALUE
    · exfalso
      have hne := hnul hc
      unfold uv__create_nul_handle at hnone
      simp only [hc, if_true] at hnone
      have : ((os.nul_error i : Int) ≠ 0) := by exact_mod_cast hne
      rw [if_pos this] at hnone
      simp at hnone
    · unfold uv__create_nul_handle
      simp only [hc, if_false, ne_eq, not_true_eq_false, not_false_eq_true]
      exact ⟨rfl, trivial, rfl⟩
  · rw [if_neg hi]
    exact ⟨fun h => absurd h hi, fun _ => rfl⟩

theorem uv__stdio_create_loop_ignore (os : uv_stdio_os) (options : uv_process_options_t)
    (n : Nat)
    (hnul : ∀ i, os.CreateFileW i = INVALID_HANDLE_VALUE → os.nul_error i ≠ 0) :
    ∀ (m k : Nat) (b : child_stdio_buffer) (log : List uv_stdio_event), k + m = n →
      uv_stdio_shape n b →
      (uv__stdio_create_loop os options (List.range' k m) b log).1 = 0 →
      (∀ j, j < k →
        (uv__stdio_create_loop os options (List.range' k m) b log).2.1.os_handle[j]?
          = b.os_handle[j]? ∧
        (uv__stdio_create_loop os options (List.range' k m) b log).2.1.crt_flags[j]?
          = b.crt_flags[j]?) ∧
      (∀ j, k ≤ j → j < n → uv_stdio_is_ignore options j →
        (j ≤ 2 →
          (uv__stdio_create_loop os options (List.range' k m) b log).2.1.os_handle[j]?
            = some (os.CreateFileW j) ∧
          os.CreateFileW j ≠ INVALID_HANDLE_VALUE ∧
          (uv__stdio_create_loop os options (List.range' k m) b log).2.1.crt_flags[j]?
            = some (FOPEN ||| FDEV)) ∧
        (2 < j →
          (uv__stdio_create_loop os options (List.range' k m) b log).2.1.os_handle[j]?
            = b.os_handle[j]? ∧
          (uv__stdio_create_loop os options (List.range' k m) b log).2.1.crt_flags[j]?
            = b.crt_flags[j]?)) := by
  intro m
  induction m with
  | zero =>
    intro k b log hk _ _
    simp only [List.range'_zero, uv__stdio_create_loop]
    exact ⟨fun j _ => ⟨trivial, trivial⟩, fun j h1 h2 => absurd h2 (by omega)⟩
  | succ m ih =>
    intro k b log hk hshape hr
    rw [List.range'_succ] at hr ⊢
    unfold uv__stdio_create_loop at hr ⊢
    have hshape' := uv__stdio_create_switch_shape os (uv_stdio_fdopt options k) k n b log hshape
    have hframe := uv__stdio_create_entry_frame os options k b log
    have hign := uv__stdio_create_entry_ignore os options k b log
    obtain ⟨r, hre⟩ : ∃ r, r = uv__stdio_create_entry os options k b log := ⟨_, rfl⟩
    have hshape2 : uv_stdio_shape n r.2.1 := by rw [hre]; exact hshape'
    rw [← hre] at hr hframe hign ⊢
    obtain ⟨r1, b', log'⟩ := r
    cases r1 with
    | some err =>
      exfalso
      simp only [] at hr
      have hspec := uv__stdio_create_switch_spec os (uv_stdio_fdopt options k) k b log
      unfold uv__stdio_create_entry at hre
      rw [← hre] at hspec
      exact hspec.1 hr
    | none =>
      simp only [] at hr hframe hign hshape2 ⊢
      obtain ⟨ih1, ih2⟩ := ih (k + 1) b' log' (by omega) hshape2 hr
      constructor
      · intro j hj
        obtain ⟨a1, a2⟩ := ih1 j (by omega)
        obtain ⟨f1, f2⟩ := hframe trivial j (by omega)
        exact ⟨a1.trans f1, a2.trans f2⟩
      · intro j hkj hjn hig
        by_cases hjk : j = k
        · subst hjk
          obtain ⟨a1, a2⟩ := ih1 j (by omega)
          obtain ⟨g1, g2⟩ := hign hig (hnul j) trivial
          obtain ⟨s1, s2, s3⟩ := hshape
          constructor
          · intro h2
            obtain ⟨e1, e2, e3⟩ := g1 h2
            refine ⟨?_, e2, ?_⟩
            · rw [a1, e1, List.getElem?_set, if_pos rfl, if_pos (by omega)]
            · rw [a2, e3, List.getElem?_set, if_pos rfl, if_pos (by omega)]
          · intro h2
            rw [a1, a2, g2 h2]
            exact ⟨rfl, rfl⟩
        · obtain ⟨b1, b2⟩ := ih2 j (by omega) hjn hig
          obtain ⟨f1, f2⟩ := hframe trivial j hjk
          refine ⟨b1, fun h2 => ?_⟩
          obtain ⟨c1, c2⟩ := b2 h2
          exact ⟨c1.trans f1, c2.trans f2⟩

/-! ## The entries of the child stdio that are ignored -/

/-- C14, counterexample. With four stdio entries, all `UV_IGNORE`,
`uv__stdio_create` succeeds and gives the child the null device at the
indices 0, 1 and 2, but at the index 3 the handle is `INVALID_HANDLE_VALUE`
and the flags are 0. -/
theorem uv__stdio_create_ignore_counterexample :
    (uv__stdio_create ex_stdio_os ex_options_ignore).1 = 0 ∧
    uv_stdio_is_ignore ex_options_ignore 3 ∧
    (uv__stdio_create ex_stdio_os ex_options_ignore).2.1 =
      some { count := 4, crt_flags := [FOPEN ||| FDEV, FOPEN ||| FDEV, FOPEN ||| FDEV, 0],
             os_handle := [10, 11, 12, INVALID_HANDLE_VALUE] } := by
  decide

/-- C14, amended. When `CreateFileW` leaves a nonzero error whenever it fails,
a successful `uv__stdio_create` gives the child, at every index `i` below the
count whose entry is `UV_IGNORE`, including the entries added when
`stdio_count` is below 3: for `i ≤ 2` the handle `CreateFileW` returned for the
null device, which is not `INVALID_HANDLE_VALUE`, with the flags `FOPEN |
FDEV`; and for `i > 2` the handle `INVALID_HANDLE_VALUE` with the flags 0. -/
theorem uv__stdio_create_ignore (os : uv_stdio_os) (options : uv_process_options_t)
    (hnul : ∀ i, os.CreateFileW i = INVALID_HANDLE_VALUE → os.nul_error i ≠ 0)
    (hr : (uv__stdio_create os options).1 = 0) :
    ∃ buffer, (uv__stdio_create os options).2.1 = some buffer ∧
      (buffer.count : Int) = max options.stdio_count 3 ∧
      ∀ i, i < buffer.count → uv_stdio_is_ignore options i →
        (i ≤ 2 →
          buffer.os_handle[i]? = some (os.CreateFileW i) ∧
          os.CreateFileW i ≠ INVALID_HANDLE_VALUE ∧
          buffer.crt_flags[i]? = some (FOPEN ||| FDEV)) ∧
        (2 < i →
          buffer.os_handle[i]? = some INVALID_HANDLE_VALUE ∧ buffer.crt_flags[i]? = some 0) := by
  obtain ⟨h0, h1, b, hb, hshape⟩ := uv__stdio_create_shape os options hr
  have hm : os.malloc_ok = true := by
    cases hm : os.malloc_ok with
    | true => rfl
    | false =>
      exfalso
      unfold uv__stdio_create at hr
      simp only [] at hr
      rw [if_neg (by omega)] at hr
      simp only [hm, Bool.not_false, if_true] at hr
      exact absurd hr (by decide)
  rw [uv__stdio_create_eq os options h0 h1 hm] at hr hb ⊢
  simp only [] at hr hb ⊢
  obtain ⟨n, hn⟩ : ∃ n, n = uv_stdio_count options.stdio_count := ⟨_, rfl⟩
  rw [← hn] at hr hb hshape ⊢
  have hcount : (n : Int) = max options.stdio_count 3 := by
    rw [hn]
    unfold uv_stdio_count
    split_ifs with h3
    · rw [max_eq_right (by omega)]; rfl
    · rw [max_eq_left (by omega)]; omega
  have hloop := uv__stdio_create_loop_ignore os options n hnul n 0
    { count := n, crt_flags := List.replicate n 0,
      os_handle := List.replicate n INVALID_HANDLE_VALUE } [.malloc] (by omega)
    ⟨rfl, by simp, by simp⟩
  by_cases he : (uv__stdio_create_loop os options (List.range' 0 n)
      { count := n, crt_flags := List.replicate n 0,
        os_handle := List.replicate n INVALID_HANDLE_VALUE } [.malloc]).1 ≠ 0
  · rw [if_pos he] at hr
    exact absurd hr he
  · rw [if_neg he] at hb ⊢
    have hz := hloop (not_not.1 he)
    refine ⟨_, rfl, ?_, ?_⟩
    · simp only [Option.some.injEq] at hb
      rw [hb, hshape.1]
      exact hcount
    · intro i hi hig
      simp only [Option.some.injEq] at hb
      rw [hb, hshape.1] at hi
      obtain ⟨z1, z2⟩ := hz.2 i (by omega) hi hig
      refine ⟨z1, fun h2 => ?_⟩
      obtain ⟨c1, c2⟩ := z2 h2
      rw [c1, c2]
      simp [List.getElem?_replicate, hi]

/-- C14, amended, at two stdio entries, both `UV_IGNORE`: the third entry is
added, and the child gets the null device at the three indices. -/
theorem uv__stdio_create_ignore_witness :
    (uv__stdio_create ex_stdio_os { ex_options_ignore with stdio_count := 2 }).2.1 =
      some { count := 3, crt_flags := [FOPEN ||| FDEV, FOPEN ||| FDEV, FOPEN ||| FDEV],
             os_handle := [10, 11, 12] } ∧
    ∃ buffer,
      (uv__stdio_create ex_stdio_os { ex_options_ignore with stdio_count := 2 }).2.1
        = some buffer ∧
      (buffer.count : Int) = max 2 3 ∧
      ∀ i, i < buffer.count → uv_stdio_is_ignore { ex_options_ignore with stdio_count := 2 } i →
        (i ≤ 2 →
          buffer.os_handle[i]? = some (ex_stdio_os.CreateFileW i) ∧
          ex_stdio_os.CreateFileW i ≠ INVALID_HANDLE_VALUE ∧
          buffer.crt_flags[i]? = some (FOPEN ||| FDEV)) ∧
        (2 < i →
          buffer.os_handle[i]? = some INVALID_HANDLE_VALUE ∧ buffer.crt_flags[i]? = some 0) :=
  ⟨by decide,
    uv__stdio_create_ignore ex_stdio_os { ex_options_ignore with stdio_count := 2 }
      (fun _ _ => show (5 : Nat) ≠ 0 by decide)
      (by decide)⟩

/-! ## A stdio entry that fails in `uv_spawn` -/

theorem uv__stdio_create_switch_bad_flags (os : uv_stdio_os) (fdopt : uv_stdio_container_t)
    (i : Nat) (b : child_stdio_buffer) (log : List uv_stdio_event)
    (h : uv_stdio_bad_flags fdopt) :
    uv__stdio_create_switch os fdopt i b log = (some (-1), b, log ++ [.assert_failed]) := by
  obtain ⟨h0, h1, h2, h3⟩ := h
  unfold uv__stdio_create_switch
  simp only []
  rw [if_neg h0, if_neg h1, if_neg h2, if_neg h3]

theorem uv_spawn_of_stdio_error {W : Type} (uv_translate_sys_error : Int → Int)
    (os : uv_spawn_os) (options : uv_process_options_t) (st : uv_state W uv_process_t)
    (hflags : options.flags &&& (UV_PROCESS_SETGID ||| UV_PROCESS_SETUID) = 0)
    (hfile : options.file ≠ none) (hargs : options.args ≠ none)
    (hprep : uv_spawn_prepare os options = none)
    (herr : (uv__stdio_create os.stdio options).1 ≠ 0) :
    (uv_spawn uv_translate_sys_error os options st).2.1 =
      uv_translate_sys_error (uv__stdio_create os.stdio options).1 ∧
    (uv_spawn uv_translate_sys_error os options st).2.2 =
      (uv__stdio_create os.stdio options).2.2 ∧
    (uv_spawn uv_translate_sys_error os options st).1.handle.flags.active = false ∧
    (uv_spawn uv_translate_sys_error os options st).1.handle.child_stdio_buffer = none ∧
    (uv_spawn uv_translate_sys_error os options st).1.loop = st.loop := by
  unfold uv_spawn
  simp only []
  rw [if_neg (not_not.2 hflags), if_neg (by simp [hfile, hargs]), hprep]
  simp only []
  rw [if_pos herr]
  unfold uv_spawn_done uv_process_init
  simp only []
  split_ifs <;> exact ⟨rfl, rfl, rfl, rfl, rfl⟩

/-- C12, counterexample. With the file descriptor 0 inherited at the first
entry and the flags `UV_CREATE_PIPE | UV_INHERIT_FD` at the second,
`uv__stdio_create` returns -1 after a failed assertion, with the duplicate
made for the first entry open and the buffer not released, and `uv_spawn`
returns the translation of -1. And with a pipe created at the first entry and
a stream that cannot be inherited at the second, no assertion fails, but the
server end of the pipe of the first entry is not cleaned up. -/
theorem uv_spawn_stdio_failure_counterexample :
    (uv__stdio_create ex_stdio_os ex_options_bad_flags).1 = -1 ∧
    uv_stdio_open (uv__stdio_create ex_stdio_os ex_options_bad_flags).2.2 = {50} ∧
    uv_stdio_event.free ∉ (uv__stdio_create ex_stdio_os ex_options_bad_flags).2.2 ∧
    (uv_spawn (fun e => -e) ex_spawn_os ex_options_bad_flags ex_process_state).2.2 =
      [.malloc, .CreateHandle 50, .assert_failed] ∧
    (uv__stdio_create ex_stdio_os ex_options_pipe_bad_stream).1 = ERROR_NOT_SUPPORTED ∧
    (uv_spawn (fun e => -e) ex_spawn_os ex_options_pipe_bad_stream ex_process_state).2.2 =
      [.malloc, .pipe_server 0, .CreateHandle 30, .CloseHandle 30, .free] := by
  decide

/-- C12, amended. If the creation of a stdio entry fails during `uv_spawn`
without a failed assertion (the steps before succeed and `uv__stdio_create`
returns a nonzero value), and `DuplicateHandle` never stores
`INVALID_HANDLE_VALUE` when it succeeds, then every handle created for the
child has been closed and the buffer, if it was allocated, has been released;
`uv_spawn` returns the translated error; the process handle has not been made
active, the loop is as it was, and `child_stdio_buffer` is null. An entry whose
flags select none of the four kinds fails the assertion of the `switch` and
makes the function return -1 at once. -/
theorem uv_spawn_stdio_failure {W : Type} (uv_translate_sys_error : Int → Int)
    (os : uv_spawn_os) (options : uv_process_options_t) (st : uv_state W uv_process_t)
    (hdup : ∀ i h, os.stdio.DuplicateHandle i = some h → h ≠ INVALID_HANDLE_VALUE)
    (hflags : options.flags &&& (UV_PROCESS_SETGID ||| UV_PROCESS_SETUID) = 0)
    (hfile : options.file ≠ none) (hargs : options.args ≠ none)
    (hprep : uv_spawn_prepare os options = none)
    (herr : (uv__stdio_create os.stdio options).1 ≠ 0)
    (hassert : uv_stdio_event.assert_failed ∉ (uv__stdio_create os.stdio options).2.2) :
    (uv_spawn uv_translate_sys_error os options st).2.1 =
      uv_translate_sys_error (uv__stdio_create os.stdio options).1 ∧
    uv_stdio_open (uv_spawn uv_translate_sys_error os options st).2.2 = 0 ∧
    (uv_stdio_event.malloc ∈ (uv_spawn uv_translate_sys_error os options st).2.2 →
      uv_stdio_event.free ∈ (uv_spawn uv_translate_sys_error os options st).2.2) ∧
    (uv_spawn uv_translate_sys_error os options st).1.handle.flags.active = false ∧
    (uv_spawn uv_translate_sys_error os options st).1.loop = st.loop ∧
    (uv_spawn uv_translate_sys_error os options st).1.handle.child_stdio_buffer = none ∧
    (∀ (fdopt : uv_stdio_container_t) (i : Nat) (b : child_stdio_buffer)
        (log : List uv_stdio_event), uv_stdio_bad_flags fdopt →
      uv__stdio_create_switch os.stdio fdopt i b log =
        (some (-1), b, log ++ [.assert_failed])) := by
  obtain ⟨h1, h2, h3, h4, h5⟩ :=
    uv_spawn_of_stdio_error uv_translate_sys_error os options st hflags hfile hargs hprep herr
  obtain ⟨-, hcase⟩ := uv__stdio_create_failure os.stdio options hdup herr
  rcases hcase with ha | ⟨ho, hf⟩
  · exact absurd ha hassert
  · refine ⟨h1, ?_, ?_, h3, h5, h4, uv__stdio_create_switch_bad_flags os.stdio⟩
    · rw [h2]; exact ho
    · rw [h2]
      intro hm
      rcases hf with hf | hf
      · rw [hf] at hm; simp at hm
      · exact hf

/-- C12, amended, at a spawn whose second stdio entry inherits a stream that
is not a tty or a connected pipe: the duplicate made for the first entry is
closed, the buffer is released and `uv_spawn` returns the translation of
`ERROR_NOT_SUPPORTED`. -/
theorem uv_spawn_stdio_failure_witness :
    (uv_spawn (fun e => -e) ex_spawn_os ex_options_bad_stream ex_process_state).2.1 = -50 ∧
    (uv_spawn (fun e => -e) ex_spawn_os ex_options_bad_stream ex_process_state).2.2 =
      [.malloc, .CreateHandle 50, .CloseHandle 50, .free] ∧
    uv_stdio_open
      (uv_spawn (fun e => -e) ex_spawn_os ex_options_bad_stream ex_process_state).2.2 = 0 ∧
    (uv_spawn (fun e => -e) ex_spawn_os ex_options_bad_stream
      ex_process_state).1.handle.flags.active = false :=
  have h := uv_spawn_stdio_failure (fun e => -e) ex_spawn_os ex_options_bad_stream
    ex_process_state (fun i h hx => by
      have hx' : some (50 + i % 100) = some h := hx
      have e : h = 50 + i % 100 := (Option.some.inj hx').symm
      have hlt : i % 100 < 100 := Nat.mod_lt _ (by decide)
      unfold INVALID_HANDLE_VALUE
      omega)
    (by decide) (by decide) (by decide) (by decide) (by decide) (by decide)
  ⟨by decide, by decide, h.2.1, h.2.2.2.1⟩

/-! ## A spawn whose process cannot be assigned to the job object -/

/-- C13. A spawn that is not detached, in which `CreateProcessW` succeeds and
`AssignProcessToJobObject` fails with `ERROR_ACCESS_DENIED`: the error stays in
`err`, so the assertion `!err` before the activation fails, and `uv_spawn`
returns the translation of `ERROR_ACCESS_DENIED` instead of 0, with the process
handle active, its pid set and its exit wait registered. -/
theorem uv_spawn_assign_access_denied (uv_translate_sys_error : Int → Int) :
    ex_options_ignore.flags &&& UV_PROCESS_DETACHED = 0 ∧
    ex_spawn_os_denied.CreateProcessW = some (70, 4242) ∧
    (uv_spawn uv_translate_sys_error ex_spawn_os_denied ex_options_ignore
      ex_process_state).1.log = [.assert_failed] ∧
    (uv_spawn uv_translate_sys_error ex_spawn_os_denied ex_options_ignore
      ex_process_state).2.1 = uv_translate_sys_error 5 ∧
    (uv_spawn uv_translate_sys_error ex_spawn_os_denied ex_options_ignore
      ex_process_state).1.handle.flags.active = true ∧
    (uv_spawn uv_translate_sys_error ex_spawn_os_denied ex_options_ignore
      ex_process_state).1.handle.pid = 4242 ∧
    (uv_spawn uv_translate_sys_error ex_spawn_os_denied ex_options_ignore
      ex_process_state).1.handle.wait_handle = some 71 ∧
    (uv_spawn uv_translate_sys_error ex_spawn_os ex_options_ignore
      ex_process_state).1.log = [] ∧
    (uv_spawn uv_translate_sys_error ex_spawn_os ex_options_ignore
      ex_process_state).2.1 = uv_translate_sys_error 0 := by
  refine ⟨by decide, rfl, ?_, ?_, ?_, ?_, ?_, ?_, ?_⟩ <;> rfl

/-! ### make_program_env (process.cpp)

Strings are lists of code units without the terminator: UTF-8 bytes for
the entries of `env_block`, UTF-16 units for wide strings. The code of
`=` is 61. -/

/-! ## make_program_env -/

theorem env_strncmp_loop_self (A : List Nat) : env_strncmp_loop A A = 0 := by
  induction A with
  | nil => rfl
  | cons a A ih => simp [env_strncmp_loop, ih]

theorem env_strncmp_loop_range (A B : List Nat) :
    env_strncmp_loop A B = -1 ∨ env_strncmp_loop A B = 0 ∨ env_strncmp_loop A B = 1 := by
  induction A generalizing B with
  | nil => cases B <;> simp only [env_strncmp_loop] <;> (try split_ifs) <;> simp
  | cons a A ih =>
    cases B with
    | nil => simp only [env_strncmp_loop]; split_ifs <;> omega
    | cons b B =>
      simp only [env_strncmp_loop]
      split_ifs <;> first | omega | exact ih B

theorem env_strncmp_loop_antisymm (A B : List Nat) :
    env_strncmp_loop B A = - env_strncmp_loop A B := by
  induction A generalizing B with
  | nil => cases B <;> simp [env_strncmp_loop]; split_ifs <;> simp
  | cons a A ih =>
    cases B with
    | nil => simp [env_strncmp_loop]; split_ifs <;> simp
    | cons b B =>
      simp only [env_strncmp_loop]
      split_ifs <;> first | omega | simp | exact ih B

theorem env_strncmp_loop_trans (A B C : List Nat)
    (h1 : env_strncmp_loop A B ≤ 0) (h2 : env_strncmp_loop B C ≤ 0) :
    env_strncmp_loop A C ≤ 0 := by
  induction A generalizing B C with
  | nil => cases C <;> simp [env_strncmp_loop]; split_ifs <;> simp
  | cons a A ih =>
    cases B with
    | nil =>
      cases C with
      | nil => simpa [env_strncmp_loop] using h1
      | cons c C =>
        simp only [env_strncmp_loop] at h1 h2 ⊢
        split_ifs at h1 h2 ⊢ <;> omega
    | cons b B =>
      cases C with
      | nil =>
        simp only [env_strncmp_loop] at h1 h2 ⊢
        split_ifs at h1 h2 ⊢ <;> omega
      | cons c C =>
        simp only [env_strncmp_loop] at h1 h2 ⊢
        split_ifs at h1 h2 ⊢ <;> first | omega | exact ih B C h1 h2

theorem qsort_wcscmp_eq (os : uv_env_os) (a b : List Nat) :
    qsort_wcscmp os a b = env_strncmp_loop (env_key os a) (env_key os b) := by
  simp [qsort_wcscmp, env_strncmp, env_key]

theorem env_strncmp_var_eq (os : uv_env_os) (r : env_var) (b : List Nat) :
    env_strncmp os r.wide_eq r.len b = env_strncmp_loop (env_var_key os r) (env_key os b) := by
  have h : ¬ ((r.len : Int) < 0) := by omega
  simp [env_strncmp, env_key, env_var_key, h]

theorem indexOf_name_eq (s v : List Nat) (h : 61 ∉ s) :
    (s ++ [61] ++ v).indexOf 61 = s.length := by
  induction s with
  | nil => simp [List.indexOf_cons]
  | cons a s ih =>
    have ha : a ≠ 61 := fun e => h (by simp [e])
    have hs : 61 ∉ s := fun e => h (by simp [e])
    have := ih hs
    simp only [List.cons_append, List.append_assoc] at this ⊢
    rw [List.indexOf_cons_ne _ ha, this]
    rfl

theorem env_key_E_V (os : uv_env_os) (s v : List Nat) (h : 61 ∉ s) :
    env_key os ((E_V s).wide_eq ++ v) = s.map os.uppercase := by
  have e := indexOf_name_eq s v h
  simp only [env_key, E_V, LCMapStringW, e]
  simp only [List.append_assoc, List.take_left]

theorem env_var_key_E_V (os : uv_env_os) (s : List Nat) :
    env_var_key os (E_V s) = s.map os.uppercase := by
  simp [env_var_key, E_V, LCMapStringW]

theorem E_V_wide_eq_inj (s s2 v v2 : List Nat) (h : 61 ∉ s) (h2 : 61 ∉ s2)
    (e : (E_V s).wide_eq ++ v = (E_V s2).wide_eq ++ v2) : s = s2 ∧ v = v2 := by
  have e1 := indexOf_name_eq s v h
  have e2 := indexOf_name_eq s2 v2 h2
  simp only [E_V] at e
  rw [e, e2] at e1
  have e3 : (s ++ [61] ++ v).take s.length = (s2 ++ [61] ++ v2).take s2.length := by
    rw [e, e1]
  simp only [List.append_assoc, List.take_left] at e3
  subst e3
  simpa using e

theorem required_vars_all_ok : ∀ r ∈ required_vars, required_vars_ok r := by decide

theorem required_vars_sorted :
    required_vars.Pairwise (fun r r2 => env_strncmp_loop r.wide r2.wide < 0) := by decide

theorem required_vars_ok_key (os : uv_env_os)
    (hupper : ∀ c, 65 ≤ c → c ≤ 90 → os.uppercase c = c) (r : env_var)
    (h : required_vars_ok r) : env_var_key os r = r.wide ∧ 61 ∉ r.wide := by
  obtain ⟨h1, h2⟩ := h
  constructor
  · rw [h1, env_var_key_E_V]
    simp only [E_V]
    conv_rhs => rw [← List.map_id r.wide]
    apply List.map_congr_left
    intro c hc
    exact hupper c (h2 c hc).1 (h2 c hc).2
  · intro hm
    have := h2 61 hm
    omega

theorem env_merge_mem (os : uv_env_os) (rs : List env_var) (us : List (List Nat))
    (y : List Nat) (h : y ∈ env_merge os rs us) :
    y ∈ us ∨ ∃ r ∈ rs, y ∈ env_inject os r := by
  induction rs, us using env_merge.induct os with
  | case1 us => rw [env_merge] at h; exact Or.inl h
  | case2 r rs ih =>
    rw [env_merge] at h
    rcases List.mem_append.1 h with h | h
    · exact Or.inr ⟨r, by simp, h⟩
    · rcases ih h with h | ⟨r2, hr2, h⟩
      · exact Or.inl h
      · exact Or.inr ⟨r2, by simp [hr2], h⟩
  | case3 r rs u us hc ih =>
    rw [env_merge, if_pos hc] at h
    rcases List.mem_append.1 h with h | h
    · exact Or.inr ⟨r, by simp, h⟩
    · rcases ih h with h | ⟨r2, hr2, h⟩
      · exact Or.inl h
      · exact Or.inr ⟨r2, by simp [hr2], h⟩
  | case4 r rs u us hc hc2 ih =>
    rw [env_merge, if_neg hc, if_pos hc2] at h
    rcases List.mem_cons.1 h with h | h
    · exact Or.inl (by simp [h])
    · rcases ih h with h | ⟨r2, hr2, h⟩
      · exact Or.inl (by simp [h])
      · exact Or.inr ⟨r2, by simp [hr2], h⟩
  | case5 r rs u us hc hc2 ih =>
    rw [env_merge, if_neg hc, if_neg hc2] at h
    rcases List.mem_cons.1 h with h | h
    · exact Or.inl (by simp [h])
    · rcases ih h with h | ⟨r2, hr2, h⟩
      · exact Or.inl (by simp [h])
      · exact Or.inr ⟨r2, hr2, h⟩

theorem env_strncmp_loop_lt_of_lt_of_le (A B C : List Nat)
    (h1 : env_strncmp_loop A B < 0) (h2 : env_strncmp_loop B C ≤ 0) :
    env_strncmp_loop A C < 0 := by
  by_contra hn
  have h3 : env_strncmp_loop C A ≤ 0 := by
    rw [env_strncmp_loop_antisymm A C]; omega
  have h4 := env_strncmp_loop_trans B C A h2 h3
  rw [env_strncmp_loop_antisymm A B] at h4
  omega

theorem env_strncmp_loop_lt_of_le_of_lt (A B C : List Nat)
    (h1 : env_strncmp_loop A B ≤ 0) (h2 : env_strncmp_loop B C < 0) :
    env_strncmp_loop A C < 0 := by
  by_contra hn
  have h3 : env_strncmp_loop C A ≤ 0 := by
    rw [env_strncmp_loop_antisymm A C]; omega
  have h4 := env_strncmp_loop_trans C A B h3 h1
  rw [env_strncmp_loop_antisymm B C] at h4
  omega

theorem env_merge_sorted (os : uv_env_os) (rs : List env_var) (us : List (List Nat))
    (hk : ∀ r ∈ rs, ∀ y ∈ env_inject os r, env_key os y = env_var_key os r)
    (hrs : rs.Pairwise
      (fun r r2 => env_strncmp_loop (env_var_key os r) (env_var_key os r2) < 0))
    (hus : us.Pairwise (env_le os)) :
    (env_merge os rs us).Pairwise (env_le os) := by
  induction rs, us using env_merge.induct os with
  | case1 us => rw [env_merge]; exact hus
  | case2 r rs ih =>
    rw [env_merge]
    rw [List.pairwise_cons] at hrs
    have ih2 := ih (fun r2 h2 => hk r2 (by simp [h2])) hrs.2 hus
    rw [List.pairwise_append]
    refine ⟨?_, ih2, ?_⟩
    · unfold env_inject; split <;> simp
    · intro x hx y hy
      rcases env_merge_mem os rs [] y hy with h | ⟨r2, hr2, h⟩
      · simp at h
      · unfold env_le
        rw [hk r (by simp) x hx, hk r2 (by simp [hr2]) y h]
        exact le_of_lt (hrs.1 r2 hr2)
  | case3 r rs u us hc ih =>
    rw [env_merge, if_pos hc]
    rw [List.pairwise_cons] at hrs
    have ih2 := ih (fun r2 h2 => hk r2 (by simp [h2])) hrs.2 hus
    rw [List.pairwise_append]
    refine ⟨?_, ih2, ?_⟩
    · unfold env_inject; split <;> simp
    · intro x hx y hy
      unfold env_le
      rw [hk r (by simp) x hx]
      rw [env_strncmp_var_eq] at hc
      rcases env_merge_mem os rs (u :: us) y hy with h | ⟨r2, hr2, h⟩
      · rcases List.mem_cons.1 h with h | h
        · subst h; exact le_of_lt hc
        · rw [List.pairwise_cons] at hus
          exact le_of_lt (env_strncmp_loop_lt_of_lt_of_le _ _ _ hc (hus.1 y h))
      · rw [hk r2 (by simp [hr2]) y h]
        exact le_of_lt (hrs.1 r2 hr2)
  | case4 r rs u us hc hc2 ih =>
    rw [env_merge, if_neg hc, if_pos hc2]
    rw [List.pairwise_cons] at hrs hus
    have ih2 := ih (fun r2 h2 => hk r2 (by simp [h2])) hrs.2 hus.2
    rw [List.pairwise_cons]
    refine ⟨?_, ih2⟩
    intro y hy
    rw [env_strncmp_var_eq] at hc2
    rcases env_merge_mem os rs us y hy with h | ⟨r2, hr2, h⟩
    · exact hus.1 y h
    · unfold env_le
      rw [hk r2 (by simp [hr2]) y h]
      have h1 : env_strncmp_loop (env_key os u) (env_var_key os r) ≤ 0 := by
        rw [env_strncmp_loop_antisymm (env_var_key os r)]; omega
      exact le_of_lt (env_strncmp_loop_lt_of_le_of_lt _ _ _ h1 (hrs.1 r2 hr2))
  | case5 r rs u us hc hc2 ih =>
    rw [env_merge, if_neg hc, if_neg hc2]
    rw [List.pairwise_cons] at hus
    have ih2 := ih hk hrs hus.2
    rw [List.pairwise_cons]
    refine ⟨?_, ih2⟩
    intro y hy
    rw [env_strncmp_var_eq] at hc hc2
    have h1 : env_strncmp_loop (env_key os u) (env_var_key os r) < 0 := by
      rw [env_strncmp_loop_antisymm (env_var_key os r)]; omega
    rcases env_merge_mem os (r :: rs) us y hy with h | ⟨r2, hr2, h⟩
    · exact hus.1 y h
    · unfold env_le
      rw [hk r2 hr2 y h]
      rcases List.mem_cons.1 hr2 with e | hr3
      · subst e; exact le_of_lt h1
      · rw [List.pairwise_cons] at hrs
        exact le_of_lt (env_strncmp_loop_lt_of_le_of_lt _ _ _ (le_of_lt h1) (hrs.1 r2 hr3))

theorem env_injected_cons_of_no_match (os : uv_env_os) (rs : List env_var) (u : List Nat)
    (us : List (List Nat)) (h : ∀ r ∈ rs, env_strncmp os r.wide_eq r.len u ≠ 0) :
    env_injected os rs (u :: us) = env_injected os rs us := by
  induction rs with
  | nil => rfl
  | cons r rs ih =>
    have h1 := h r (by simp)
    have e : (∃ u2 ∈ u :: us, env_strncmp os r.wide_eq r.len u2 = 0) ↔
        ∃ u2 ∈ us, env_strncmp os r.wide_eq r.len u2 = 0 := by
      simp [h1]
    simp only [env_injected, e, ih (fun r2 h2 => h r2 (by simp [h2]))]

theorem env_injected_nil (os : uv_env_os) (rs : List env_var) (y : List Nat) :
    (env_injected os rs []).count y = (env_merge os rs []).count y := by
  induction rs with
  | nil => simp [env_injected, env_merge]
  | cons r rs ih => rw [env_merge]; simp [env_injected, ih]

theorem env_merge_count (os : uv_env_os) (rs : List env_var) (us : List (List Nat))
    (hrs : rs.Pairwise
      (fun r r2 => env_strncmp_loop (env_var_key os r) (env_var_key os r2) < 0))
    (hus : us.Pairwise (env_le os)) (y : List Nat) :
    (env_merge os rs us).count y = us.count y + (env_injected os rs us).count y := by
  induction rs, us using env_merge.induct os with
  | case1 us => rw [env_merge]; simp [env_injected]
  | case2 r rs ih => rw [env_injected_nil]; simp
  | case3 r rs u us hc ih =>
    rw [env_merge, if_pos hc]
    rw [List.pairwise_cons] at hrs
    have ih2 := ih hrs.2 hus
    have hno : ¬ ∃ u2 ∈ u :: us, env_strncmp os r.wide_eq r.len u2 = 0 := by
      rintro ⟨u2, hu2, e⟩
      rw [env_strncmp_var_eq] at hc e
      rcases List.mem_cons.1 hu2 with h | h
      · subst h; omega
      · rw [List.pairwise_cons] at hus
        have := env_strncmp_loop_lt_of_lt_of_le _ _ _ hc (hus.1 u2 h)
        omega
    rw [env_injected, if_neg hno, List.count_append, List.count_append, ih2]
    omega
  | case4 r rs u us hc hc2 ih =>
    rw [env_merge, if_neg hc, if_pos hc2]
    rw [List.pairwise_cons] at hrs hus
    have ih2 := ih hrs.2 hus.2
    have hyes : ∃ u2 ∈ u :: us, env_strncmp os r.wide_eq r.len u2 = 0 := ⟨u, by simp, hc2⟩
    have hrest : ∀ r2 ∈ rs, env_strncmp os r2.wide_eq r2.len u ≠ 0 := by
      intro r2 hr2 e
      rw [env_strncmp_var_eq] at hc2 e
      have h2 := env_strncmp_loop_lt_of_lt_of_le _ _ _ (hrs.1 r2 hr2)
        (le_of_eq e)
      omega
    rw [env_injected, if_pos hyes, env_injected_cons_of_no_match os rs u us hrest,
      List.count_cons, List.count_cons, ih2]
    simp only [List.nil_append]
    omega
  | case5 r rs u us hc hc2 ih =>
    rw [env_merge, if_neg hc, if_neg hc2]
    rw [List.pairwise_cons] at hus
    have ih2 := ih hrs hus.2
    have hrest : ∀ r2 ∈ r :: rs, env_strncmp os r2.wide_eq r2.len u ≠ 0 := by
      intro r2 hr2 e
      rw [env_strncmp_var_eq] at hc hc2 e
      have h1 : env_strncmp_loop (env_key os u) (env_var_key os r) < 0 := by
        rw [env_strncmp_loop_antisymm (env_var_key os r)]; omega
      rcases List.mem_cons.1 hr2 with e2 | hr3
      · subst e2; omega
      · rw [List.pairwise_cons] at hrs
        have h2 := env_strncmp_loop_lt_of_lt_of_le _ _ _ (hrs.1 r2 hr3) (le_of_eq e)
        have h3 := env_strncmp_loop_lt_of_le_of_lt _ _ _ (le_of_lt h1) h2
        rw [env_strncmp_loop_self] at h3
        omega
    rw [env_injected_cons_of_no_match os (r :: rs) u us hrest,
      List.count_cons, List.count_cons, ih2]
    omega

theorem env_size_nonneg (l : List (List Nat)) : 0 ≤ env_size l := by
  induction l with
  | nil => simp [env_size]
  | cons a l ih => simp only [env_size, List.map_cons, List.sum_cons] at ih ⊢; omega

theorem env_size_cons (a : List Nat) (l : List (List Nat)) :
    env_size (a :: l) = (a.length : Int) + 1 + env_size l := by
  simp [env_size]

theorem env_utf16_cons_pos (os : uv_env_os) (e w : List Nat) (l : List (List Nat))
    (h : 61 ∈ e) (hw : os.utf16 e = some w) :
    env_utf16 os (e :: l) = w :: env_utf16 os l := by
  simp [env_utf16, h, hw]

theorem env_utf16_cons_neg (os : uv_env_os) (e : List Nat) (l : List (List Nat))
    (h : 61 ∉ e) : env_utf16 os (e :: l) = env_utf16 os l := by
  simp [env_utf16, h]

theorem make_program_env_first_pass_eq (os : uv_env_os) (env_block : List (List Nat))
    (h : ∀ e ∈ env_block, 61 ∈ e → ∃ w, os.utf16 e = some w) (env_len : Int) (count : Nat) :
    make_program_env_first_pass os env_block env_len count =
      some (env_len + env_size (env_utf16 os env_block),
        count + (env_utf16 os env_block).length) := by
  induction env_block generalizing env_len count with
  | nil => simp [make_program_env_first_pass, env_utf16, env_size]
  | cons e l ih =>
    have ih2 := ih (fun e2 h2 => h e2 (by simp [h2]))
    by_cases he : 61 ∈ e
    · obtain ⟨w, hw⟩ := h e (by simp) he
      have hlen : ¬ ((w.length : Int) + 1 ≤ 0) := by omega
      simp only [make_program_env_first_pass, he, if_true, MultiByteToWideChar, hw, hlen,
        if_false, ih2, env_utf16_cons_pos os e w l he hw, env_size_cons, List.length_cons]
      congr 2 <;> omega
    · simp only [make_program_env_first_pass, he, if_false, ih2,
        env_utf16_cons_neg os e l he]

theorem static_cast_int_eq (x : Int) (h0 : 0 ≤ x) (h1 : x < 2147483648) :
    static_cast_int x = x := by
  unfold static_cast_int; omega

theorem make_program_env_second_pass_eq (os : uv_env_os) (env_len : Int)
    (env_block : List (List Nat))
    (h : ∀ e ∈ env_block, 61 ∈ e → ∃ w, os.utf16 e = some w) (ptr : Int)
    (h0 : 0 ≤ ptr) (h1 : ptr + env_size (env_utf16 os env_block) ≤ env_len)
    (h2 : env_len < 2147483648) :
    make_program_env_second_pass os env_len env_block ptr =
      some (env_utf16 os env_block, ptr + env_size (env_utf16 os env_block)) := by
  induction env_block generalizing ptr with
  | nil => simp [make_program_env_second_pass, env_utf16, env_size]
  | cons e l ih =>
    by_cases he : 61 ∈ e
    · obtain ⟨w, hw⟩ := h e (by simp) he
      rw [env_utf16_cons_pos os e w l he hw, env_size_cons] at h1 ⊢
      have hn := env_size_nonneg (env_utf16 os l)
      have ih2 := ih (fun e2 h2 => h e2 (by simp [h2])) (ptr + ((w.length : Int) + 1))
        (by omega) (by omega)
      have hc : static_cast_int (env_len - ptr) = env_len - ptr :=
        static_cast_int_eq _ (by omega) (by omega)
      have hc0 : ¬ (env_len - ptr = 0) := by omega
      have hc1 : (w.length : Int) + 1 ≤ env_len - ptr := by omega
      have hlen : ¬ ((w.length : Int) + 1 ≤ 0) := by omega
      simp only [make_program_env_second_pass, he, if_true, MultiByteToWideChar, hw, hc, hc0,
        hc1, if_false, hlen, ih2, Option.getD_some]
      congr 2; omega
    · rw [env_utf16_cons_neg os e l he] at h1 ⊢
      simp only [make_program_env_second_pass, he, if_false]
      exact ih (fun e2 h2 => h e2 (by simp [h2])) ptr h0 h1

theorem make_program_env_third_pass_done (os : uv_env_os) (fuel i : Nat)
    (pc : List (List Nat)) (vl : Nat → Nat) (el : Int) (h : ¬ i < n_required_vars) :
    make_program_env_third_pass os fuel i pc vl el = (vl, el) := by
  cases fuel <;> simp [make_program_env_third_pass, h]

theorem make_program_env_third_pass_frame (os : uv_env_os) (fuel : Nat) :
    ∀ (i : Nat) (pc : List (List Nat)) (vl : Nat → Nat) (el : Int) (j : Nat), j < i →
      (make_program_env_third_pass os fuel i pc vl el).1 j = vl j := by
  induction fuel with
  | zero => intro i pc vl el j _; rfl
  | succ fuel ih =>
    intro i pc vl el j hj
    have hne : j ≠ i := by omega
    simp only [make_program_env_third_pass]
    split_ifs <;>
      first
        | rfl
        | (rw [ih (i + 1) _ _ _ j (by omega)]; simp only [hne, if_false])
        | rw [ih (i + 1) _ _ _ j (by omega)]
        | rw [ih i _ _ _ j hj]

theorem make_program_env_third_pass_mono (os : uv_env_os) (fuel : Nat) :
    ∀ (i : Nat) (pc : List (List Nat)) (vl : Nat → Nat) (el : Int),
      el ≤ (make_program_env_third_pass os fuel i pc vl el).2 := by
  induction fuel with
  | zero => intro i pc vl el; exact le_refl _
  | succ fuel ih =>
    intro i pc vl el
    simp only [make_program_env_third_pass]
    split_ifs <;>
      first
        | exact le_refl _
        | exact ih _ _ _ _
        | exact le_trans (by omega) (ih _ _ _ _)

theorem required_vars_drop (i : Nat) (h : i < n_required_vars) :
    required_vars.drop i = required_var i :: required_vars.drop (i + 1) := by
  have h2 : i < 11 := h
  interval_cases i <;> rfl

theorem required_vars_drop_done (i : Nat) (h : ¬ i < n_required_vars) :
    required_vars.drop i = [] := by
  apply List.drop_eq_nil_of_le
  unfold n_required_vars at h
  omega

theorem required_var_mem (i : Nat) (h : i < n_required_vars) :
    required_var i ∈ required_vars := by
  have h2 : i < required_vars.length := h
  simp only [required_var, List.getD_eq_getElem _ _ h2]
  exact List.getElem_mem h2

theorem required_var_len (i : Nat) (h : i < n_required_vars) :
    (required_var i).len = (required_var i).wide.length + 1 := by
  have h1 := (required_vars_all_ok _ (required_var_mem i h)).1
  conv_lhs => rw [h1]
  rfl

theorem GetEnvironmentVariableW_zero (os : uv_env_os) (name : List Nat) :
    GetEnvironmentVariableW os name 0 =
      match os.environment name with
      | none => (0, none)
      | some v => (v.length + 1, none) := by
  unfold GetEnvironmentVariableW
  cases os.environment name <;> simp

theorem make_program_env_third_pass_bound (os : uv_env_os) (fuel : Nat) :
    ∀ (i : Nat) (pc : List (List Nat)) (vl : Nat → Nat) (el : Int),
      (make_program_env_third_pass os fuel i pc vl el).2 ≤ el +
        ((required_vars.drop i).map
          (fun r => (r.len : Int) + ((GetEnvironmentVariableW os r.wide 0).1 : Int))).sum := by
  have hnn : ∀ l : List env_var, 0 ≤ (l.map
      (fun r => (r.len : Int) + ((GetEnvironmentVariableW os r.wide 0).1 : Int))).sum := by
    intro l
    induction l with
    | nil => simp
    | cons a l ih => simp only [List.map_cons, List.sum_cons]; omega
  induction fuel with
  | zero => intro i pc vl el; have := hnn (required_vars.drop i); simp only [make_program_env_third_pass]; omega
  | succ fuel ih =>
    intro i pc vl el
    by_cases hi : i < n_required_vars
    · have h1 := ih (i + 1) pc
      have h2 := ih (i + 1) pc.tail
      have h3 := ih i pc.tail
      have h4 := hnn (required_vars.drop (i + 1))
      rw [required_vars_drop i hi] at h3 ⊢
      simp only [List.map_cons, List.sum_cons] at h3 ⊢
      simp only [make_program_env_third_pass, hi, if_true]
      split_ifs
      · exact le_trans (h1 _ _) (by omega)
      · exact le_trans (h1 _ _) (by omega)
      · exact le_trans (h2 _ _) (by omega)
      · exact le_trans (h3 _ _) (by omega)
    · rw [make_program_env_third_pass_done os _ i pc vl el hi]
      have := hnn (required_vars.drop i)
      simp only; omega

theorem env_merge_inject (os : uv_env_os) (r : env_var) (rs : List env_var)
    (pc : List (List Nat))
    (hc : (match pc with
      | [] => (-1 : Int)
      | p :: _ => env_strncmp os r.wide_eq r.len p) < 0) :
    env_merge os (r :: rs) pc = env_inject os r ++ env_merge os rs pc := by
  cases pc with
  | nil => rw [env_merge]
  | cons p rest => rw [env_merge, if_pos hc]

theorem make_program_env_final_pass_eq (os : uv_env_os) (fuel : Nat) :
    ∀ (i : Nat) (pc : List (List Nat)) (vl : Nat → Nat) (el ptr : Int),
      n_required_vars - i + pc.length ≤ fuel → 0 ≤ ptr → ptr + env_size pc = el →
      (make_program_env_third_pass os fuel i pc vl el).2 < 2147483648 →
      make_program_env_final_pass os (make_program_env_third_pass os fuel i pc vl el).1
        (make_program_env_third_pass os fuel i pc vl el).2 fuel i pc ptr =
        some (env_merge os (required_vars.drop i) pc,
          (make_program_env_third_pass os fuel i pc vl el).2) := by
  induction fuel with
  | zero =>
    intro i pc vl el ptr hf h0 hinv hb
    have hi : ¬ i < n_required_vars := by omega
    have hpc : pc = [] := List.length_eq_zero.1 (by omega)
    subst hpc
    rw [required_vars_drop_done i hi]
    simp only [make_program_env_third_pass, make_program_env_final_pass, env_merge]
    simp only [env_size, List.map_nil, List.sum_nil] at hinv
    congr 2; omega
  | succ fuel ih =>
    intro i pc vl el ptr hf h0 hinv hb
    by_cases hi : i < n_required_vars
    · rw [required_vars_drop i hi]
      have hlen := required_var_len i hi
      by_cases hc : make_program_env_cmp os i pc < 0
      · rw [env_merge_inject os _ _ pc hc]
        have hT : make_program_env_third_pass os (fuel + 1) i pc vl el =
            make_program_env_third_pass os fuel (i + 1) pc
              (fun j => if j = i then (GetEnvironmentVariableW os (required_var i).wide 0).1
                else vl j)
              (if (GetEnvironmentVariableW os (required_var i).wide 0).1 ≠ 0 then
                el + (required_var i).len + (GetEnvironmentVariableW os (required_var i).wide 0).1
                else el) := by
          simp only [make_program_env_third_pass, hi, if_true, hc]
        rw [hT] at hb ⊢
        have hfr := make_program_env_third_pass_frame os fuel (i + 1) pc
          (fun j => if j = i then (GetEnvironmentVariableW os (required_var i).wide 0).1
                else vl j)
          (if (GetEnvironmentVariableW os (required_var i).wide 0).1 ≠ 0 then
                el + (required_var i).len + (GetEnvironmentVariableW os (required_var i).wide 0).1
                else el) i (by omega)
        simp only [if_true] at hfr
        have hmono := make_program_env_third_pass_mono os fuel (i + 1) pc
          (fun j => if j = i then (GetEnvironmentVariableW os (required_var i).wide 0).1
                else vl j)
          (if (GetEnvironmentVariableW os (required_var i).wide 0).1 ≠ 0 then
                el + (required_var i).len + (GetEnvironmentVariableW os (required_var i).wide 0).1
                else el)
        have ih2 := ih (i + 1) pc
          (fun j => if j = i then (GetEnvironmentVariableW os (required_var i).wide 0).1
                else vl j)
          (if (GetEnvironmentVariableW os (required_var i).wide 0).1 ≠ 0 then
                el + (required_var i).len + (GetEnvironmentVariableW os (required_var i).wide 0).1
                else el)
        have hn := env_size_nonneg pc
        have hi3 : ¬ i ≥ n_required_vars := by omega
        rw [GetEnvironmentVariableW_zero] at hfr hmono ih2 hb ⊢
        cases henv : os.environment (required_var i).wide with
        | none =>
          simp only [henv, ne_eq, not_true, if_false] at hfr hmono ih2 hb ⊢
          have ih3 := ih2 (ptr + 0) (by omega) (by omega) (by omega) hb
          simp only [make_program_env_final_pass, hi, or_true, if_true, hi3, if_false, hc, hfr,
            ne_eq, not_true]
          simp only [Nat.cast_zero]
          rw [ih3]
          simp [env_inject, henv]
        | some v =>
          simp only [henv, ne_eq, Nat.add_one_ne_zero, not_false_eq_true, if_true]
            at hfr hmono ih2 hb ⊢
          have ih3 := ih2 (ptr + (required_var i).len + ((v.length + 1 : Nat) : Int))
            (by omega) (by omega) (by omega) hb
          have hcast : static_cast_int
              ((make_program_env_third_pass os fuel (i + 1) pc
                (fun j => if j = i then v.length + 1 else vl j)
                (el + ↑(required_var i).len + ↑(v.length + 1))).2 -
                  (ptr + ↑(required_var i).len)) =
              (make_program_env_third_pass os fuel (i + 1) pc
                (fun j => if j = i then v.length + 1 else vl j)
                (el + ↑(required_var i).len + ↑(v.length + 1))).2 -
                  (ptr + ↑(required_var i).len) :=
            static_cast_int_eq _ (by omega) (by omega)
          have hfit : v.length <
              (((make_program_env_third_pass os fuel (i + 1) pc
                (fun j => if j = i then v.length + 1 else vl j)
                (el + ↑(required_var i).len + ↑(v.length + 1))).2 -
                  (ptr + ↑(required_var i).len)) % 4294967296).toNat := by
            omega
          simp only [make_program_env_final_pass, hi, or_true, if_true, hi3, if_false, hc, hfr,
            ne_eq, Nat.add_one_ne_zero, not_false_eq_true, hcast, GetEnvironmentVariableW, henv,
            hfit, Nat.add_sub_cancel, not_true, ih3, Option.getD_some]
          simp [env_inject, henv]
      · cases pc with
        | nil => exact absurd (by simp [make_program_env_cmp]) hc
        | cons p rest =>
          have hc2 : ¬ env_strncmp os (required_var i).wide_eq (required_var i).len p < 0 := hc
          have hi3 : ¬ i ≥ n_required_vars := by omega
          rw [env_size_cons] at hinv
          have hn := env_size_nonneg rest
          have e : ptr + ((p.length + 1 : Nat) : Int) = ptr + ((p.length : Int) + 1) := by
            push_cast; rfl
          by_cases hz : make_program_env_cmp os i (p :: rest) = 0
          · have hz2 : env_strncmp os (required_var i).wide_eq (required_var i).len p = 0 := hz
            have hT : make_program_env_third_pass os (fuel + 1) i (p :: rest) vl el =
                make_program_env_third_pass os fuel (i + 1) rest vl el := by
              simp only [make_program_env_third_pass, hi, if_true, hc, if_false, hz,
                List.tail_cons, lt_self_iff_false]
            rw [hT] at hb ⊢
            have ih2 := ih (i + 1) rest vl el (ptr + ((p.length : Int) + 1))
              (by simp only [List.length_cons] at hf; omega) (by omega) (by omega) hb
            simp only [make_program_env_final_pass, ne_eq, reduceCtorEq, not_false_eq_true,
              true_or, if_true, hi3, if_false, hc, hz, e, ih2, lt_self_iff_false]
            rw [env_merge, if_neg hc2, if_pos hz2]
          · have hz2 : ¬ env_strncmp os (required_var i).wide_eq (required_var i).len p = 0 := hz
            have hT : make_program_env_third_pass os (fuel + 1) i (p :: rest) vl el =
                make_program_env_third_pass os fuel i rest vl el := by
              simp only [make_program_env_third_pass, hi, if_true, hc, if_false, hz,
                List.tail_cons, lt_self_iff_false]
            rw [hT] at hb ⊢
            have ih2 := ih i rest vl el (ptr + ((p.length : Int) + 1))
              (by simp only [List.length_cons] at hf; omega) (by omega) (by omega) hb
            rw [required_vars_drop i hi] at ih2
            simp only [make_program_env_final_pass, ne_eq, reduceCtorEq, not_false_eq_true,
              true_or, if_true, hi3, if_false, hc, hz, e, ih2, lt_self_iff_false]
            rw [env_merge, if_neg hc2, if_neg hz2]
    · have hi2 : i ≥ n_required_vars := by omega
      rw [make_program_env_third_pass_done os _ i pc vl el hi] at hb ⊢
      rw [required_vars_drop_done i hi]
      cases pc with
      | nil =>
        simp only [make_program_env_final_pass, env_merge, hi, ne_eq, not_true, or_self,
          if_false]
        simp only [env_size, List.map_nil, List.sum_nil] at hinv
        congr 2; omega
      | cons p rest =>
        rw [env_size_cons] at hinv
        have hn := env_size_nonneg rest
        have ih2 := ih i rest vl el (ptr + ((p.length : Int) + 1))
          (by simp only [List.length_cons] at hf; omega) (by omega) (by omega)
        rw [make_program_env_third_pass_done os _ i rest vl el hi] at ih2
        rw [required_vars_drop_done i hi] at ih2
        simp only [env_merge] at ih2 ⊢
        simp only [make_program_env_final_pass, ne_eq, reduceCtorEq, not_false_eq_true, true_or,
          if_true, hi2]
        simp only [show ¬ ((1 : Int) < 0) by omega, if_false, show ¬ ((1 : Int) = 0) by omega]
        have e : ptr + ((p.length + 1 : Nat) : Int) = ptr + ((p.length : Int) + 1) := by
          push_cast; rfl
        rw [e, ih2 hb]

theorem qsort_perm {α : Type} (base : List α) (compar : α → α → Int) :
    (qsort base compar).Perm base :=
  List.perm_insertionSort _ base

theorem qsort_wcscmp_sorted (os : uv_env_os) (l : List (List Nat)) :
    (qsort l (qsort_wcscmp os)).Pairwise (env_le os) := by
  have htotal : IsTotal (List Nat) (fun a b => qsort_wcscmp os a b ≤ 0) := by
    constructor
    intro a b
    simp only [qsort_wcscmp_eq]
    rw [env_strncmp_loop_antisymm (env_key os a) (env_key os b)]
    omega
  have htrans : IsTrans (List Nat) (fun a b => qsort_wcscmp os a b ≤ 0) := by
    constructor
    intro a b c h1 h2
    simp only [qsort_wcscmp_eq] at h1 h2 ⊢
    exact env_strncmp_loop_trans _ _ _ h1 h2
  have h := List.sorted_insertionSort (fun a b => qsort_wcscmp os a b ≤ 0) l
  refine List.Pairwise.imp ?_ h
  intro a b hab
  simpa only [env_le, qsort_wcscmp_eq] using hab

theorem env_size_perm (l l2 : List (List Nat)) (h : l.Perm l2) : env_size l = env_size l2 := by
  unfold env_size
  exact (h.map _).sum_eq

theorem env_utf16_mem (os : uv_env_os) (env_block : List (List Nat)) (w : List Nat)
    (h : w ∈ env_utf16 os env_block) : ∃ e ∈ env_block, 61 ∈ e ∧ os.utf16 e = some w := by
  simp only [env_utf16, List.mem_filterMap, List.mem_filter, decide_eq_true_eq] at h
  obtain ⟨e, ⟨h1, h2⟩, h3⟩ := h
  exact ⟨e, h1, h2, h3⟩

theorem make_program_env_eq (os : uv_env_os) (vl : Nat → Nat) (env_block : List (List Nat))
    (hutf16 : ∀ e ∈ env_block, 61 ∈ e → ∃ w, os.utf16 e = some w ∧ 61 ∈ w)
    (hmem1 : os.dst_copy_ok = true) (hmem2 : os.dst_ok = true)
    (hsize : make_program_env_bound os env_block < 2147483648) :
    make_program_env os vl env_block =
      .ok (env_merge os required_vars (qsort (env_utf16 os env_block) (qsort_wcscmp os)))
        true := by
  have h1 : ∀ e ∈ env_block, 61 ∈ e → ∃ w, os.utf16 e = some w := by
    intro e he h
    obtain ⟨w, hw, _⟩ := hutf16 e he h
    exact ⟨w, hw⟩
  have hn := env_size_nonneg (env_utf16 os env_block)
  have hperm := qsort_perm (env_utf16 os env_block) (qsort_wcscmp os)
  have hbound := make_program_env_third_pass_bound os
    (n_required_vars + (qsort (env_utf16 os env_block) (qsort_wcscmp os)).length) 0
    (qsort (env_utf16 os env_block) (qsort_wcscmp os)) vl (env_size (env_utf16 os env_block))
  have hmono := make_program_env_third_pass_mono os
    (n_required_vars + (qsort (env_utf16 os env_block) (qsort_wcscmp os)).length) 0
    (qsort (env_utf16 os env_block) (qsort_wcscmp os)) vl (env_size (env_utf16 os env_block))
  simp only [List.drop_zero] at hbound
  unfold make_program_env_bound at hsize
  have hfinal := make_program_env_final_pass_eq os
    (n_required_vars + (qsort (env_utf16 os env_block) (qsort_wcscmp os)).length) 0
    (qsort (env_utf16 os env_block) (qsort_wcscmp os)) vl (env_size (env_utf16 os env_block)) 0
    (by omega) (le_refl _) (by rw [env_size_perm _ _ hperm]; omega) (by omega)
  simp only [List.drop_zero] at hfinal
  have hsecond := make_program_env_second_pass_eq os (env_size (env_utf16 os env_block))
    env_block h1 0 (le_refl _) (by omega) (by omega)
  have hall : (qsort (env_utf16 os env_block) (qsort_wcscmp os)).all (fun p => 61 ∈ p) = true := by
    rw [List.all_eq_true]
    intro p hp
    have hp2 := hperm.mem_iff.1 hp
    obtain ⟨e, he, he2, he3⟩ := env_utf16_mem os env_block p hp2
    obtain ⟨w, hw, hw2⟩ := hutf16 e he he2
    rw [he3] at hw
    cases hw
    simpa using hw2
  have htake : (env_utf16 os env_block).take (1 + (env_utf16 os env_block).length - 1) =
      env_utf16 os env_block := by
    apply List.take_of_length_le; omega
  unfold make_program_env
  simp only [make_program_env_first_pass_eq os env_block h1, zero_add, hmem1, hmem2, hsecond,
    htake, hfinal, hall]
  simp

theorem env_injected_mem (os : uv_env_os) (rs : List env_var) (us : List (List Nat))
    (w : List Nat) (h : w ∈ env_injected os rs us) :
    ∃ r ∈ rs, (∀ u ∈ us, env_strncmp os r.wide_eq r.len u ≠ 0) ∧
      ∃ v, os.environment r.wide = some v ∧ w = r.wide_eq ++ v := by
  induction rs with
  | nil => simp [env_injected] at h
  | cons r rs ih =>
    simp only [env_injected, List.mem_append] at h
    rcases h with h | h
    · split_ifs at h with hm
      · simp at h
      · refine ⟨r, by simp, ?_, ?_⟩
        · intro u hu e; exact hm ⟨u, hu, e⟩
        · unfold env_inject at h
          cases henv : os.environment r.wide with
          | none => simp [henv] at h
          | some v => simp only [henv, List.mem_singleton] at h; exact ⟨v, rfl, h⟩
    · obtain ⟨r2, hr2, h2⟩ := ih h
      exact ⟨r2, by simp [hr2], h2⟩

theorem env_injected_congr (os : uv_env_os) (rs : List env_var) (us us2 : List (List Nat))
    (h : ∀ u, u ∈ us ↔ u ∈ us2) : env_injected os rs us = env_injected os rs us2 := by
  induction rs with
  | nil => rfl
  | cons r rs ih =>
    have e : (∃ u ∈ us, env_strncmp os r.wide_eq r.len u = 0) ↔
        ∃ u ∈ us2, env_strncmp os r.wide_eq r.len u = 0 := by
      constructor
      · rintro ⟨u, hu, hc⟩; exact ⟨u, (h u).1 hu, hc⟩
      · rintro ⟨u, hu, hc⟩; exact ⟨u, (h u).2 hu, hc⟩
    simp only [env_injected, e, ih]

theorem env_inject_ne (os : uv_env_os) (r N : env_var) (v : List Nat)
    (hr : required_vars_ok r) (hN : required_vars_ok N) (hne : r ≠ N) :
    N.wide_eq ++ v ∉ env_inject os r := by
  intro h
  unfold env_inject at h
  cases henv : os.environment r.wide with
  | none => simp [henv] at h
  | some v2 =>
    simp only [henv, List.mem_singleton] at h
    have h61 : ∀ x : env_var, required_vars_ok x → 61 ∉ x.wide := by
      intro x hx hm
      have := hx.2 61 hm
      omega
    rw [hr.1, hN.1] at h
    have := (E_V_wide_eq_inj _ _ _ _ (h61 N hN) (h61 r hr) h).1
    apply hne
    rw [hr.1, hN.1, this]

theorem env_injected_count_zero (os : uv_env_os) (rs : List env_var) (us : List (List Nat))
    (N : env_var) (v : List Nat) (hrs : ∀ r ∈ rs, required_vars_ok r)
    (hN : required_vars_ok N) (hnot : N ∉ rs) :
    (env_injected os rs us).count (N.wide_eq ++ v) = 0 := by
  rw [List.count_eq_zero]
  intro h
  obtain ⟨r, hr, _, v2, henv, e⟩ := env_injected_mem os rs us _ h
  have hne : r ≠ N := fun e2 => hnot (e2 ▸ hr)
  apply env_inject_ne os r N v (hrs r hr) hN hne
  simp [env_inject, henv, e]

theorem env_injected_count_one (os : uv_env_os) (rs : List env_var) (us : List (List Nat))
    (N : env_var) (v : List Nat) (hrs : ∀ r ∈ rs, required_vars_ok r) (hnd : rs.Nodup)
    (hN : N ∈ rs) (hno : ∀ u ∈ us, env_strncmp os N.wide_eq N.len u ≠ 0)
    (henv : os.environment N.wide = some v) :
    (env_injected os rs us).count (N.wide_eq ++ v) = 1 := by
  induction rs with
  | nil => simp at hN
  | cons r rs ih =>
    rw [List.nodup_cons] at hnd
    have hrs2 : ∀ r2 ∈ rs, required_vars_ok r2 := fun r2 h2 => hrs r2 (by simp [h2])
    simp only [env_injected, List.count_append]
    by_cases e : r = N
    · subst e
      have hm : ¬ ∃ u ∈ us, env_strncmp os r.wide_eq r.len u = 0 := by
        rintro ⟨u, hu, hc⟩; exact hno u hu hc
      rw [if_neg hm, env_injected_count_zero os rs us r v hrs2 (hrs r (by simp)) hnd.1]
      simp [env_inject, henv]
    · have hN2 : N ∈ rs := by
        rcases List.mem_cons.1 hN with h | h
        · exact absurd h.symm e
        · exact h
      rw [ih hrs2 hnd.2 hN2]
      have h0 : (if ∃ u ∈ us, env_strncmp os r.wide_eq r.len u = 0 then []
          else env_inject os r).count (N.wide_eq ++ v) = 0 := by
        rw [List.count_eq_zero]
        intro h
        split_ifs at h
        · simp at h
        · exact env_inject_ne os r N v (hrs r (by simp)) (hrs N hN) e h
      rw [h0]

theorem required_vars_nodup : required_vars.Nodup := by decide

theorem required_vars_key_inj : ∀ r ∈ required_vars, ∀ N ∈ required_vars,
    env_strncmp_loop N.wide r.wide = 0 → r = N := by decide

theorem required_vars_keys (os : uv_env_os)
    (hupper : ∀ c, 65 ≤ c → c ≤ 90 → os.uppercase c = c) :
    (∀ r ∈ required_vars, ∀ y ∈ env_inject os r, env_key os y = env_var_key os r) ∧
    required_vars.Pairwise
      (fun r r2 => env_strncmp_loop (env_var_key os r) (env_var_key os r2) < 0) := by
  constructor
  · intro r hr y hy
    have hok := required_vars_all_ok r hr
    have hk := required_vars_ok_key os hupper r hok
    unfold env_inject at hy
    cases henv : os.environment r.wide with
    | none => simp [henv] at hy
    | some v =>
      simp only [henv, List.mem_singleton] at hy
      rw [hy, hok.1, env_key_E_V os _ v hk.2, env_var_key_E_V]
  · refine List.Pairwise.imp_of_mem ?_ required_vars_sorted
    intro r r2 hr hr2 h
    rw [(required_vars_ok_key os hupper r (required_vars_all_ok r hr)).1,
      (required_vars_ok_key os hupper r2 (required_vars_all_ok r2 hr2)).1]
    exact h

theorem ex_uppercase_ok : ∀ c, 65 ≤ c → c ≤ 90 → ex_env_os.uppercase c = c := by
  intro c h1 h2
  have h : ¬ (97 ≤ c ∧ c ≤ 122) := by omega
  simp only [ex_env_os, ex_uppercase, h, if_false]

/-- C17. For every environment list whose entries with `=` the system
converts (to strings that contain `=`), with both allocations succeeding
and a block below 2^31 code units, `make_program_env` returns 0 with all
assertions holding, and the block is sorted: every two consecutive entries
`a`, `b` of the output satisfy `env_strncmp(a, -1, b) <= 0`, the
comparison of the upper-cased names up to `=`. `LCMapStringW` is assumed
to leave the capital letters A to Z unchanged. -/
theorem make_program_env_sorted (os : uv_env_os) (required_vars_value_len : Nat → Nat)
    (env_block : List (List Nat))
    (hutf16 : ∀ e ∈ env_block, 61 ∈ e → ∃ w, os.utf16 e = some w ∧ 61 ∈ w)
    (hupper : ∀ c, 65 ≤ c → c ≤ 90 → os.uppercase c = c)
    (hmem1 : os.dst_copy_ok = true) (hmem2 : os.dst_ok = true)
    (hsize : make_program_env_bound os env_block < 2147483648) :
    ∃ dst, make_program_env os required_vars_value_len env_block = .ok dst true ∧
      dst.Chain' (fun a b => env_strncmp os a (-1) b ≤ 0) := by
  refine ⟨_, make_program_env_eq os required_vars_value_len env_block hutf16 hmem1 hmem2 hsize,
    ?_⟩
  have hk := required_vars_keys os hupper
  have h := env_merge_sorted os required_vars _ hk.1 hk.2
    (qsort_wcscmp_sorted os (env_utf16 os env_block))
  refine List.Pairwise.chain' (List.Pairwise.imp ?_ h)
  intro a b hab
  have e := qsort_wcscmp_eq os a b
  unfold qsort_wcscmp at e
  rw [e]
  exact hab

/-- C17 at the list `z=1`, `junk`, `Path=x`, `a=2`, with PATH and TEMP
defined in the parent process: the block is `a=2`, `Path=x`, `TEMP=t`,
`z=1`. -/
theorem make_program_env_sorted_witness :
    make_program_env ex_env_os (fun _ => 7) ex_env_block =
      .ok [[97, 61, 50], [80, 97, 116, 104, 61, 120], [84, 69, 77, 80, 61, 116],
        [122, 61, 49]] true ∧
    ∃ dst, make_program_env ex_env_os (fun _ => 7) ex_env_block = .ok dst true ∧
      dst.Chain' (fun a b => env_strncmp ex_env_os a (-1) b ≤ 0) :=
  ⟨by decide,
    make_program_env_sorted ex_env_os (fun _ => 7) ex_env_block
      (fun e _ h => ⟨e, rfl, h⟩) ex_uppercase_ok rfl rfl (by decide)⟩

/-- C16. For every environment list whose entries with `=` the system
converts (to strings that contain `=`), with both allocations succeeding
and a block below 2^31 code units, `make_program_env` returns 0 with all
assertions holding, and for every required name `N`: if no converted
entry of the list has a name equal to `N` under `env_strncmp` and the
parent process has the value `v` for `N`, the output holds `N=v` exactly
once and no other entry named `N`; if the list has an entry named `N`,
every output entry named `N` is an entry of the list; every converted
entry of the list occurs in the output at least as often as in the list;
and every output entry is a converted entry with `=` of the list or the
entry `N=v` injected for a required name the list lacks. `LCMapStringW`
is assumed to leave the capital letters A to Z unchanged. -/
theorem make_program_env_required (os : uv_env_os) (required_vars_value_len : Nat → Nat)
    (env_block : List (List Nat))
    (hutf16 : ∀ e ∈ env_block, 61 ∈ e → ∃ w, os.utf16 e = some w ∧ 61 ∈ w)
    (hupper : ∀ c, 65 ≤ c → c ≤ 90 → os.uppercase c = c)
    (hmem1 : os.dst_copy_ok = true) (hmem2 : os.dst_ok = true)
    (hsize : make_program_env_bound os env_block < 2147483648) :
    ∃ dst, make_program_env os required_vars_value_len env_block = .ok dst true ∧
      (∀ N ∈ required_vars, ∀ v, os.environment N.wide = some v →
        (∀ w ∈ env_utf16 os env_block, env_strncmp os N.wide_eq N.len w ≠ 0) →
        dst.count (N.wide_eq ++ v) = 1 ∧
          ∀ w ∈ dst, env_strncmp os N.wide_eq N.len w = 0 → w = N.wide_eq ++ v) ∧
      (∀ N ∈ required_vars,
        (∃ w ∈ env_utf16 os env_block, env_strncmp os N.wide_eq N.len w = 0) →
        ∀ w ∈ dst, env_strncmp os N.wide_eq N.len w = 0 → w ∈ env_utf16 os env_block) ∧
      (∀ w, (env_utf16 os env_block).count w ≤ dst.count w) ∧
      (∀ w ∈ dst, w ∈ env_utf16 os env_block ∨
        ∃ N ∈ required_vars, ∃ v, os.environment N.wide = some v ∧
          (∀ u ∈ env_utf16 os env_block, env_strncmp os N.wide_eq N.len u ≠ 0) ∧
          w = N.wide_eq ++ v) := by
  refine ⟨_, make_program_env_eq os required_vars_value_len env_block hutf16 hmem1 hmem2 hsize,
    ?_⟩
  have hk := required_vars_keys os hupper
  have hperm := qsort_perm (env_utf16 os env_block) (qsort_wcscmp os)
  have hcount : ∀ y, (env_merge os required_vars
      (qsort (env_utf16 os env_block) (qsort_wcscmp os))).count y =
      (env_utf16 os env_block).count y +
        (env_injected os required_vars (env_utf16 os env_block)).count y := by
    intro y
    rw [env_merge_count os required_vars _ hk.2 (qsort_wcscmp_sorted os _) y,
      env_injected_congr os required_vars _ _ (fun u => hperm.mem_iff)]
    congr 1
    exact hperm.countP_eq _
  have hmem : ∀ w ∈ env_merge os required_vars
      (qsort (env_utf16 os env_block) (qsort_wcscmp os)),
      w ∈ env_utf16 os env_block ∨
        w ∈ env_injected os required_vars (env_utf16 os env_block) := by
    intro w hw
    have h1 := List.count_pos_iff.2 hw
    rw [hcount] at h1
    by_cases h2 : w ∈ env_utf16 os env_block
    · exact Or.inl h2
    · rw [List.count_eq_zero.2 h2] at h1
      exact Or.inr (List.count_pos_iff.1 (by omega))
  have hname : ∀ N ∈ required_vars, ∀ w ∈ env_injected os required_vars
      (env_utf16 os env_block), env_strncmp os N.wide_eq N.len w = 0 →
      (∀ u ∈ env_utf16 os env_block, env_strncmp os N.wide_eq N.len u ≠ 0) ∧
        ∃ v, os.environment N.wide = some v ∧ w = N.wide_eq ++ v := by
    intro N hN w hw hc
    obtain ⟨r, hr, hno, v, henv, e⟩ := env_injected_mem os _ _ w hw
    have hkey : env_key os w = env_var_key os r :=
      hk.1 r hr w (by simp [env_inject, henv, e])
    rw [env_strncmp_var_eq, hkey,
      (required_vars_ok_key os hupper r (required_vars_all_ok r hr)).1,
      (required_vars_ok_key os hupper N (required_vars_all_ok N hN)).1] at hc
    have := required_vars_key_inj r hr N hN hc
    subst this
    exact ⟨hno, v, henv, e⟩
  refine ⟨?_, ?_, ?_, ?_⟩
  · intro N hN v henv hno
    constructor
    · rw [hcount, env_injected_count_one os required_vars _ N v required_vars_all_ok
        required_vars_nodup hN hno henv]
      have h0 : (env_utf16 os env_block).count (N.wide_eq ++ v) = 0 := by
        rw [List.count_eq_zero]
        intro hm
        apply hno _ hm
        have hok := required_vars_all_ok N hN
        have hk2 := required_vars_ok_key os hupper N hok
        rw [env_strncmp_var_eq]
        have : env_key os (N.wide_eq ++ v) = env_var_key os N :=
          hk.1 N hN _ (by simp [env_inject, henv])
        rw [this, env_strncmp_loop_self]
      omega
    · intro w hw hc
      rcases hmem w hw with h | h
      · exact absurd hc (hno w h)
      · obtain ⟨_, v2, henv2, e⟩ := hname N hN w h hc
        rw [henv] at henv2
        cases henv2
        exact e
  · intro N hN hex w hw hc
    rcases hmem w hw with h | h
    · exact h
    · obtain ⟨hno, _⟩ := hname N hN w h hc
      obtain ⟨u, hu, hcu⟩ := hex
      exact absurd hcu (hno u hu)
  · intro w
    rw [hcount]
    omega
  · intro w hw
    rcases hmem w hw with h | h
    · exact Or.inl h
    · obtain ⟨r, hr, hno, v, henv, e⟩ := env_injected_mem os _ _ w h
      exact Or.inr ⟨r, hr, v, henv, hno, e⟩

/-- C16 at the list `temp=u`, `x`, with PATH=/b and TEMP=t defined in the
parent process: the block is `PATH=/b`, `temp=u`; PATH is injected, TEMP
is not, and `x` is dropped. -/
theorem make_program_env_required_witness :
    make_program_env ex_env_os (fun _ => 7) ex_env_block_temp =
      .ok [[80, 65, 84, 72, 61, 47, 98], [116, 101, 109, 112, 61, 117]] true ∧
    ∃ dst, make_program_env ex_env_os (fun _ => 7) ex_env_block_temp = .ok dst true ∧
      (∀ N ∈ required_vars, ∀ v, ex_env_os.environment N.wide = some v →
        (∀ w ∈ env_utf16 ex_env_os ex_env_block_temp,
          env_strncmp ex_env_os N.wide_eq N.len w ≠ 0) →
        dst.count (N.wide_eq ++ v) = 1 ∧
          ∀ w ∈ dst, env_strncmp ex_env_os N.wide_eq N.len w = 0 → w = N.wide_eq ++ v) ∧
      (∀ N ∈ required_vars,
        (∃ w ∈ env_utf16 ex_env_os ex_env_block_temp,
          env_strncmp ex_env_os N.wide_eq N.len w = 0) →
        ∀ w ∈ dst, env_strncmp ex_env_os N.wide_eq N.len w = 0 →
          w ∈ env_utf16 ex_env_os ex_env_block_temp) ∧
      (∀ w, (env_utf16 ex_env_os ex_env_block_temp).count w ≤ dst.count w) ∧
      (∀ w ∈ dst, w ∈ env_utf16 ex_env_os ex_env_block_temp ∨
        ∃ N ∈ required_vars, ∃ v, ex_env_os.environment N.wide = some v ∧
          (∀ u ∈ env_utf16 ex_env_os ex_env_block_temp,
            env_strncmp ex_env_os N.wide_eq N.len u ≠ 0) ∧
          w = N.wide_eq ++ v) :=
  ⟨by decide,
    make_program_env_required ex_env_os (fun _ => 7) ex_env_block_temp
      (fun e _ h => ⟨e, rfl, h⟩) ex_uppercase_ok rfl rfl (by decide)⟩

/-- C28. `uv__loops_remove` returns with `uv__loops_lock` still held when it
downsizes the array: for every registry in which the loop is found, another
loop remains, the capacity is at least `4 * UV__LOOPS_CHUNK_SIZE`, fewer
than half of the entries remain in use and the reallocation succeeds, the
lock acquired at entry is not released. -/
theorem uv__loops_remove_downsize_lock (loop : Nat) (g : uv__loops_t)
    (hfound : uv__loops_remove_find loop { g with uv__loops_lock := true } g.uv__loops_size 0
      ≠ g.uv__loops_size)
    (hsize : g.uv__loops_size - 1 ≠ 0)
    (hcap : 4 * UV__LOOPS_CHUNK_SIZE ≤ g.uv__loops_capacity)
    (hhalf : g.uv__loops_size - 1 < g.uv__loops_capacity / 2) :
    (uv__loops_remove loop true g).uv__loops_lock = true ∧
    (uv__loops_remove loop true g).uv__loops_capacity = g.uv__loops_capacity / 2 ∧
    (uv__loops_remove loop true g).uv__loops_size = g.uv__loops_size - 1 := by
  unfold uv__loops_remove
  simp only [hfound, if_false, hsize]
  rw [if_neg (by omega), if_neg (by omega)]
  simp

/-- C28 at the registry that 25 calls of `uv__loops_add` and then the
removal of the loops 25 down to 17 leave (16 loops, capacity 32): the
removal of loop 16 halves the capacity and leaves the lock held, while the
nine removals before it released it. -/
theorem uv__loops_remove_downsize_lock_witness :
    uv__loops_removed (uv__loops_added 25) 25 9 = ex_loops_16 ∧
    (uv__loops_remove_find 16 { ex_loops_16 with uv__loops_lock := true }
        ex_loops_16.uv__loops_size 0 ≠ ex_loops_16.uv__loops_size ∧
      ex_loops_16.uv__loops_size - 1 ≠ 0 ∧
      4 * UV__LOOPS_CHUNK_SIZE ≤ ex_loops_16.uv__loops_capacity ∧
      ex_loops_16.uv__loops_size - 1 < ex_loops_16.uv__loops_capacity / 2) ∧
    ((uv__loops_remove 16 true ex_loops_16).uv__loops_lock = true ∧
      (uv__loops_remove 16 true ex_loops_16).uv__loops_capacity =
        ex_loops_16.uv__loops_capacity / 2 ∧
      (uv__loops_remove 16 true ex_loops_16).uv__loops_size =
        ex_loops_16.uv__loops_size - 1) :=
  ⟨by decide, by decide,
    uv__loops_remove_downsize_lock 16 ex_loops_16 (by decide) (by decide) (by decide)
      (by decide)⟩

/-! ## Early returns of the pollers -/

theorem uv_poll_next_timeout_eq (timeout_time time rep : Nat)
    (h2 : timeout_time - time ≤ INT_MAX) (h3 : rep ≤ 31) :
    uv_poll_next_timeout timeout_time time rep =
      some (timeout_time - time + uv_poll_padding (rep + 1)) := by
  unfold uv_poll_next_timeout uv_poll_padding INT_MAX at *
  by_cases h0 : rep = 0
  · subst h0
    simp only [ne_eq, not_true, if_false, zero_add, le_refl, if_true, add_zero]
    congr 1; omega
  · have hp : (2 : Nat) ^ (rep - 1) ≤ 2 ^ 30 := Nat.pow_le_pow_right (by omega) (by omega)
    have e : rep + 1 - 2 = rep - 1 := by omega
    simp only [ne_eq, h0, not_false_eq_true, if_true, show rep - 1 < 31 by omega,
      show ¬ rep + 1 ≤ 1 by omega, if_false, e]
    generalize (2 : Nat) ^ (rep - 1) = p at hp
    congr 1; omega

theorem uv__poll_loop_early {W : Type} (ops : uv_loop_ops W) (timeout_time start : Nat)
    (final : uv_poll_round W) (rest : List (uv_poll_round W))
    (hfinal : uv_poll_round.final ops false timeout_time final) (hstart : start < timeout_time)
    (hmax : timeout_time - start ≤ INT_MAX) :
    ∀ (early : List W) (rep : Nat) (loop : uv_loop_t W) (timeout : Nat) (waits : List Nat),
      0 < timeout → rep + early.length ≤ 32 →
      (∀ w ∈ early, start ≤ ops.uv__hrtime w ∧ ops.uv__hrtime w < timeout_time) →
      ∃ r, uv__poll_loop ops timeout_time (early.map uv_poll_round.timed_out ++ final :: rest)
          rep loop timeout waits = some r ∧
        (r.waits = waits ++ timeout ::
          uv_poll_reentry_waits timeout_time (rep + 1) (early.map ops.uv__hrtime)) := by
  intro early
  induction early with
  | nil =>
    intro rep loop timeout waits ht _ _
    simp only [List.map_nil, List.nil_append, uv__poll_loop, uv_poll_reentry_waits]
    unfold uv_poll_round.final at hfinal
    simp only [Bool.false_eq_true, if_false] at hfinal
    by_cases h1 : final.success = true
    · simp [h1, uv_poll_result.waits]
    · by_cases h2 : final.GetLastError ≠ WAIT_TIMEOUT
      · simp [h1, h2, uv_poll_result.waits]
      · have h3 : timeout_time ≤ ops.uv__hrtime final.world := by
          rcases hfinal with h | h | h
          · exact absurd h h1
          · exact absurd h h2
          · exact h
        have h4 : ¬ timeout_time > ops.uv__hrtime final.world := by omega
        simp only [h1, Bool.false_eq_true, if_false, h2, ht, if_true, uv_update_time, h4]
        exact ⟨_, rfl, rfl⟩
  | cons w early ih =>
    intro rep loop timeout waits ht hrep hw
    have hw1 := hw w (by simp)
    have hnt := uv_poll_next_timeout_eq timeout_time (ops.uv__hrtime w) rep
      (by omega) (by simp only [List.length_cons] at hrep; omega)
    have hpos : 0 < timeout_time - ops.uv__hrtime w + uv_poll_padding (rep + 1) := by omega
    obtain ⟨r, hr, hwaits⟩ := ih (rep + 1) (uv_update_time ops { loop with world := w })
      (timeout_time - ops.uv__hrtime w + uv_poll_padding (rep + 1)) (waits ++ [timeout]) hpos
      (by simp only [List.length_cons] at hrep; omega)
      (fun w2 h2 => hw w2 (by simp [h2]))
    refine ⟨r, ?_, ?_⟩
    · simp only [List.map_cons, List.cons_append, uv__poll_loop, uv_poll_round.timed_out,
        Bool.false_eq_true, if_false, ne_eq, not_true, ht, if_true]
      have hgt : timeout_time > (uv_update_time ops { loop with world := w }).time := hw1.2
      rw [if_pos hgt]
      have ht2 : (uv_update_time ops { loop with world := w }).time = ops.uv__hrtime w := rfl
      rw [ht2, hnt]
      exact hr
    · rw [hwaits]
      simp [uv_poll_reentry_waits]

theorem uv__poll_wine_loop_early {W : Type} (ops : uv_loop_ops W) (timeout_time start : Nat)
    (final : uv_poll_round W) (rest : List (uv_poll_round W))
    (hfinal : uv_poll_round.final ops true timeout_time final) (hstart : start < timeout_time)
    (hmax : timeout_time - start ≤ INT_MAX) :
    ∀ (early : List W) (rep : Nat) (loop : uv_loop_t W) (timeout : Nat) (waits : List Nat),
      0 < timeout → rep + early.length ≤ 32 →
      (∀ w ∈ early, start ≤ ops.uv__hrtime w ∧ ops.uv__hrtime w < timeout_time) →
      ∃ r, uv__poll_wine_loop ops timeout_time
          (early.map uv_poll_round.timed_out ++ final :: rest) rep loop timeout waits = some r ∧
        (r.waits = waits ++ timeout ::
          uv_poll_reentry_waits timeout_time (rep + 1) (early.map ops.uv__hrtime)) := by
  intro early
  induction early with
  | nil =>
    intro rep loop timeout waits ht _ _
    simp only [List.map_nil, List.nil_append, uv__poll_wine_loop, uv_poll_reentry_waits]
    unfold uv_poll_round.final at hfinal
    simp only [if_true] at hfinal
    cases h1 : final.overlappeds.head?.join with
    | some o => simp [uv_poll_result.waits]
    | none =>
      by_cases h2 : final.GetLastError ≠ WAIT_TIMEOUT
      · simp [h2, uv_poll_result.waits]
      · have h3 : timeout_time ≤ ops.uv__hrtime final.world := by
          rcases hfinal with h | h | h
          · exact absurd h1 h
          · exact absurd h h2
          · exact h
        have h4 : ¬ timeout_time > ops.uv__hrtime final.world := by omega
        simp only [h2, if_false, ht, if_true, uv_update_time, h4]
        exact ⟨_, rfl, rfl⟩
  | cons w early ih =>
    intro rep loop timeout waits ht hrep hw
    have hw1 := hw w (by simp)
    have hnt := uv_poll_next_timeout_eq timeout_time (ops.uv__hrtime w) rep
      (by omega) (by simp only [List.length_cons] at hrep; omega)
    have hpos : 0 < timeout_time - ops.uv__hrtime w + uv_poll_padding (rep + 1) := by omega
    obtain ⟨r, hr, hwaits⟩ := ih (rep + 1) (uv_update_time ops { loop with world := w })
      (timeout_time - ops.uv__hrtime w + uv_poll_padding (rep + 1)) (waits ++ [timeout]) hpos
      (by simp only [List.length_cons] at hrep; omega)
      (fun w2 h2 => hw w2 (by simp [h2]))
    refine ⟨r, ?_, ?_⟩
    · simp only [List.map_cons, List.cons_append, uv__poll_wine_loop, uv_poll_round.timed_out,
        List.head?_nil, Option.join, ne_eq, not_true, if_false, ht, if_true]
      have hgt : timeout_time > (uv_update_time ops { loop with world := w }).time := hw1.2
      rw [if_pos hgt]
      have ht2 : (uv_update_time ops { loop with world := w }).time = ops.uv__hrtime w := rfl
      rw [ht2, hnt]
      exact hr
    · rw [hwaits]
      simp [uv_poll_reentry_waits]

/-- C23, counterexample. With a timeout of 10 at time 0 and waits that time
out at the times 5, 8 and 12, both pollers wait 10, then 5, then 3: at the
second consecutive early return the remaining time is 10 - 8 = 2 and a
padding of 1 is added already. -/
theorem uv__poll_early_return_counterexample :
    (uv__poll ex_clock_ops
      [uv_poll_round.timed_out 5, uv_poll_round.timed_out 8, uv_poll_round.timed_out 12]
      ex_clock_loop 10).map uv_poll_result.waits = some [10, 5, 3] ∧
    (uv__poll_wine ex_clock_ops
      [uv_poll_round.timed_out 5, uv_poll_round.timed_out 8, uv_poll_round.timed_out 12]
      ex_clock_loop 10).map uv_poll_result.waits = some [10, 5, 3] ∧
    (3 : Nat) ≠ 10 - 8 := by
  decide

/-- C23, amended. When the waits of `uv__poll` or `uv__poll_wine` time out
before the target time (the loop time at entry plus `timeout`, with
`0 < timeout <= INT_MAX`) at most 32 times in a row, at clock readings
`now` not before the loop time at entry, the poller waits again after each
of them with the remaining time `target - now` plus a padding: nothing at
the first early return, then 1, 2, 4, ... from the second consecutive early
return on (`uv_poll_padding`). The wait that follows them, if it dequeues
something, fails with another error or times out with the target time
reached, is the last one. With `timeout = 0` a wait that times out is the
only one. -/
theorem uv__poll_early_return {W : Type} (ops : uv_loop_ops W) (loop : uv_loop_t W)
    (timeout : Nat) (early : List W) (final : uv_poll_round W) (rest : List (uv_poll_round W)) :
    (0 < timeout → timeout ≤ INT_MAX → loop.time + timeout < 18446744073709551616 →
      early.length ≤ 32 →
      (∀ w ∈ early, loop.time ≤ ops.uv__hrtime w ∧ ops.uv__hrtime w < loop.time + timeout) →
      (uv_poll_round.final ops false (loop.time + timeout) final →
        ∃ r, uv__poll ops (early.map uv_poll_round.timed_out ++ final :: rest) loop timeout
            = some r ∧
          r.waits = timeout ::
            uv_poll_reentry_waits (loop.time + timeout) 1 (early.map ops.uv__hrtime)) ∧
      (uv_poll_round.final ops true (loop.time + timeout) final →
        ∃ r, uv__poll_wine ops (early.map uv_poll_round.timed_out ++ final :: rest) loop
            timeout = some r ∧
          r.waits = timeout ::
            uv_poll_reentry_waits (loop.time + timeout) 1 (early.map ops.uv__hrtime))) ∧
    (timeout = 0 → ∀ w,
      uv__poll ops (uv_poll_round.timed_out w :: rest) loop timeout =
        some (.returned { loop with world := w } [0]) ∧
      uv__poll_wine ops (uv_poll_round.timed_out w :: rest) loop timeout =
        some (.returned { loop with world := w } [0])) := by
  constructor
  · intro ht hmax h64 hlen hearly
    have e : (loop.time + timeout) % 18446744073709551616 = loop.time + timeout :=
      Nat.mod_eq_of_lt h64
    constructor
    · intro hfinal
      obtain ⟨r, hr, hw⟩ := uv__poll_loop_early ops (loop.time + timeout) loop.time final rest
        hfinal (by omega) (by omega) early 0 loop timeout [] ht (by omega) hearly
      exact ⟨r, by unfold uv__poll; rw [e]; exact hr, by simpa using hw⟩
    · intro hfinal
      obtain ⟨r, hr, hw⟩ := uv__poll_wine_loop_early ops (loop.time + timeout) loop.time final
        rest hfinal (by omega) (by omega) early 0 loop timeout [] ht (by omega) hearly
      exact ⟨r, by unfold uv__poll_wine; rw [e]; exact hr, by simpa using hw⟩
  · intro ht w
    subst ht
    simp [uv__poll, uv__poll_wine, uv__poll_loop, uv__poll_wine_loop, uv_poll_round.timed_out]

/-- C23, amended, at a timeout of 10 from time 0 with waits that time out at
the times 5, 8 and 9 and then at 12: the waits are 10, 5, 2 + 1 and 1 + 2. -/
theorem uv__poll_early_return_witness :
    uv_poll_reentry_waits 10 1 [5, 8, 9] = [5, 3, 3] ∧
    ∃ r, uv__poll ex_clock_ops
        ([5, 8, 9].map uv_poll_round.timed_out ++ uv_poll_round.timed_out 12 :: [])
        ex_clock_loop 10 = some r ∧
      r.waits = 10 ::
        uv_poll_reentry_waits (ex_clock_loop.time + 10) 1 ([5, 8, 9].map ex_clock_ops.uv__hrtime) :=
  ⟨by decide,
    ((uv__poll_early_return ex_clock_ops ex_clock_loop 10 [5, 8, 9]
      (uv_poll_round.timed_out 12) []).1 (by decide) (by decide) (by decide) (by decide)
      (by decide)).1 (Or.inr (Or.inr (by decide)))⟩

/-- C29. For the PATH that is one lone double quote (and likewise one lone
single quote, or a lone quote after another entry), `search_path` hands
`path_search_walk_ext` a slice of length `2^64 - 1`: the length is
decremented once for the opening quote, which gives 0, and once more
because the unit before the slice is that same quote. The PATH entry has one
unit. -/
theorem search_path_lone_quote :
    search_path ex_search_path_os [97] [99] [34] =
      some (none, [([], 0), ([], 18446744073709551615)]) ∧
    search_path ex_search_path_os [97] [99] [39] =
      some (none, [([], 0), ([], 18446744073709551615)]) ∧
    search_path ex_search_path_os [97] [99] [100, 59, 34] =
      some (none, [([], 0), ([100, 59, 34], 1), ([], 18446744073709551615)]) ∧
    ¬ (18446744073709551615 ≤ [34].length) := by
  decide

/-! ## A failed start of an fs-event handle -/

/-- C30. When the conversion of the path to UTF-16 fails, `uv_fs_event_start`
on an inactive handle returns the translation of the error without undoing
what it did: the handle stays active and keeps its copy of the path, and
every later `uv_fs_event_start` on it returns `UV_EINVAL`. -/
theorem uv_fs_event_start_conversion_error {W : Type} (uv_translate_sys_error : Int → Int)
    (os os2 : uv_fs_event_start_os) (cb cb2 : Option Nat) (path path2 : List Nat)
    (flags flags2 : Nat) (st : uv_state W uv_fs_event_t) (e : Nat)
    (hinactive : uv__is_active st.handle.flags = false)
    (hdup : os.uv__strdup_ok = true) (hmalloc : os.pathw_malloc_ok = true)
    (hconv : os.MultiByteToWideChar = .error e) :
    (uv_fs_event_start uv_translate_sys_error os cb path flags st).2 =
      uv_translate_sys_error (e : Int) ∧
    uv__is_active (uv_fs_event_start uv_translate_sys_error os cb path flags st).1.handle.flags
      = true ∧
    (uv_fs_event_start uv_translate_sys_error os cb path flags st).1.handle.path = some path ∧
    (uv_fs_event_start uv_translate_sys_error os2 cb2 path2 flags2
      (uv_fs_event_start uv_translate_sys_error os cb path flags st).1).2 = UV_EINVAL := by
  have hstart : (uv__handle_start st.loop st.handle.flags).2.active = true := by
    unfold uv__handle_start
    unfold uv__is_active at hinactive
    simp only [hinactive, Bool.false_eq_true, if_false]
    split_ifs <;> rfl
  have h1 : uv_fs_event_start uv_translate_sys_error os cb path flags st =
      ({ st with loop := (uv__handle_start st.loop st.handle.flags).1,
                 handle := { st.handle with
                   cb := cb, path := some path,
                   flags := (uv__handle_start st.loop st.handle.flags).2 } },
        uv_translate_sys_error (e : Int)) := by
    unfold uv_fs_event_start
    simp [hinactive, hdup, hmalloc, hconv]
  rw [h1]
  refine ⟨rfl, hstart, rfl, ?_⟩
  unfold uv_fs_event_start
  simp only [uv__is_active, hstart, if_true]

/-- C30 at a handle as `uv_fs_event_init` leaves it, with the conversion
failing with error 1113: the call returns -1113, the handle is active, and a
second start is refused with `UV_EINVAL`. -/
theorem uv_fs_event_start_conversion_error_witness :
    (uv_fs_event_start (fun e => -e) ex_fs_event_start_os (some 4) [100] 0
      ex_fs_event_initial).2 = -1113 ∧
    (uv_fs_event_start (fun e => -e) ex_fs_event_start_os (some 4) [100] 0
        ex_fs_event_initial).2 = (fun e => -e) ((1113 : Nat) : Int) ∧
    uv__is_active (uv_fs_event_start (fun e => -e) ex_fs_event_start_os (some 4) [100] 0
        ex_fs_event_initial).1.handle.flags = true ∧
    (uv_fs_event_start (fun e => -e) ex_fs_event_start_os (some 4) [100] 0
        ex_fs_event_initial).1.handle.path = some [100] ∧
    (uv_fs_event_start (fun e => -e) { ex_fs_event_start_os with MultiByteToWideChar := .ok [100] }
      (some 4) [100] 0
      (uv_fs_event_start (fun e => -e) ex_fs_event_start_os (some 4) [100] 0
        ex_fs_event_initial).1).2 = UV_EINVAL :=
  ⟨by decide,
    uv_fs_event_start_conversion_error (fun e => -e) ex_fs_event_start_os
      { ex_fs_event_start_os with MultiByteToWideChar := .ok [100] } (some 4) (some 4) [100] [100]
      0 0 ex_fs_event_initial 1113 rfl rfl rfl rfl⟩

/-! ## A failed `select` in the worker of the second request -/

/-- C22. When `select` fails in the worker that was given `poll_req_2`, the
error is stored in `poll_req_1`: the request the worker was given keeps the
status and the `InternalHigh` it had and is posted to the loop, and the
status of the other request slot is overwritten with the error. -/
theorem uv__slow_poll_thread_proc_select_error (ops : uv_req_ops) (select : uv_select_result)
    (handle : uv_poll_t) (h : select.r = SOCKET_ERROR) :
    (uv__slow_poll_thread_proc ops select .poll_req_2 handle).1.poll_req_2 = handle.poll_req_2 ∧
    (uv__slow_poll_thread_proc ops select .poll_req_2 handle).1.poll_req_1 =
      ops.SET_REQ_ERROR handle.poll_req_1 select.WSAGetLastError ∧
    (uv__slow_poll_thread_proc ops select .poll_req_2 handle).2.1 = .poll_req_2 := by
  unfold uv__slow_poll_thread_proc
  simp [h]

/-- C22 at a handle with both requests outstanding, the second for
`UV_READABLE | UV_WRITABLE`, whose worker sees `select` fail with error 10038:
`poll_req_2` keeps its status 0, `poll_req_1` gets the status -10038, and the
processing of the posted `poll_req_2` by `uv_process_poll_req` calls no
`poll_cb`, so the error is not reported. -/
theorem uv__slow_poll_thread_proc_select_error_witness :
    ex_slow_poll_both.handle.submitted_events_1 = UV_READABLE ∧
    ex_slow_poll_both.handle.submitted_events_2 = (UV_READABLE ||| UV_WRITABLE) ∧
    (uv_process_poll_req ex_poll_ops none .poll_req_2
      { ex_slow_poll_both with
        handle := (uv__slow_poll_thread_proc ex_req_ops ex_select_error .poll_req_2
          ex_slow_poll_both.handle).1 }).log = [] ∧
    ((uv__slow_poll_thread_proc ex_req_ops ex_select_error .poll_req_2
        ex_slow_poll_both.handle).1.poll_req_2 = ex_slow_poll_both.handle.poll_req_2 ∧
      (uv__slow_poll_thread_proc ex_req_ops ex_select_error .poll_req_2
        ex_slow_poll_both.handle).1.poll_req_1 =
        ex_req_ops.SET_REQ_ERROR ex_slow_poll_both.handle.poll_req_1
          ex_select_error.WSAGetLastError ∧
      (uv__slow_poll_thread_proc ex_req_ops ex_select_error .poll_req_2
        ex_slow_poll_both.handle).2.1 = .poll_req_2) :=
  ⟨by decide, by decide, by decide,
    uv__slow_poll_thread_proc_select_error ex_req_ops ex_select_error ex_slow_poll_both.handle
      (by decide)⟩

/-! ## The read handler of the echo server -/

theorem after_read_scan_no_Q (server handle : Nat) (base : List Nat) (nread : Int) (fuel : Nat) :
    ∀ (i : Nat) (server_closed : Int) (log : List echo_event),
      (∀ j, i ≤ j → (j : Int) < nread → base.getD j 0 ≠ 81) →
      after_read_scan server handle base nread fuel i server_closed log =
        (false, server_closed, log) := by
  induction fuel with
  | zero => intro i sc log _; rfl
  | succ fuel ih =>
    intro i sc log h
    simp only [after_read_scan]
    split_ifs with h1 h2 h3
    · exact absurd h2 (h i (le_refl _) h1)
    · exact absurd h2 (h i (le_refl _) h1)
    · exact ih (i + 1) sc log (fun j hj => h j (by omega))
    · rfl

theorem after_read_scan_QS (server handle : Nat) (base : List Nat) (nread : Int) (q : Nat)
    (hq : (q : Int) + 1 < nread) (hQ : base.getD q 0 = 81) (hS : base.getD (q + 1) 0 = 83)
    (hfirst : ∀ j, j < q → base.getD j 0 ≠ 81) (fuel : Nat) :
    ∀ (i : Nat) (server_closed : Int) (log : List echo_event), i ≤ q → q < i + fuel →
      after_read_scan server handle base nread fuel i server_closed log =
        (true, server_closed, log ++ [.free base, .uv_close handle .on_close]) := by
  induction fuel with
  | zero => intro i sc log h1 h2; omega
  | succ fuel ih =>
    intro i sc log h1 h2
    simp only [after_read_scan]
    have hi : (i : Int) < nread := by omega
    rw [if_pos hi]
    by_cases e : i = q
    · subst e
      rw [if_pos hQ, if_pos ⟨hq, hS⟩]
    · rw [if_neg (hfirst i (by omega))]
      exact ih (i + 1) sc log (by omega) (by omega)

/-- C21. While the server has not been closed (`server_closed` is 0), for a
read of `nread` bytes, `0 < nread <= INT_MAX`: if none of the bytes is `Q`,
`after_read` makes one call of `uv_write` on the same stream with exactly
the `nread` bytes read, and no other call; if the first `Q` is followed by
`S` within the bytes read, it frees the buffer and closes the stream with
`on_close`, and neither writes nor closes the listening server, and
`server_closed` stays 0. -/
theorem after_read_echo (os : echo_os) (server handle : Nat) (nread : Int) (base : List Nat)
    (hpos : 0 < nread) (_hmax : nread ≤ INT_MAX) (hmalloc : os.malloc_ok = true) :
    ((∀ j : Nat, (j : Int) < nread → base.getD j 0 ≠ 81) →
      after_read os server 0 handle nread base =
        (0, [.uv_write handle (base.take nread.toNat)] ++
          (if os.uv_write ≠ 0 then [.fatal] else []))) ∧
    (∀ q : Nat, (q : Int) + 1 < nread → base.getD q 0 = 81 → base.getD (q + 1) 0 = 83 →
      (∀ j, j < q → base.getD j 0 ≠ 81) →
      after_read os server 0 handle nread base =
        (0, [.free base, .uv_close handle .on_close])) := by
  have h1 : ¬ nread < 0 := by omega
  have h2 : ¬ nread = 0 := by omega
  constructor
  · intro hno
    unfold after_read
    rw [if_neg h1, if_neg h2]
    simp only [if_true]
    rw [after_read_scan_no_Q server handle base nread nread.toNat 0 0 []
      (fun j _ hj => hno j hj)]
    simp only [Bool.false_eq_true, if_false, hmalloc, if_true, List.nil_append]
    split_ifs <;> simp
  · intro q hq hQ hS hfirst
    unfold after_read
    rw [if_neg h1, if_neg h2]
    simp only [if_true]
    rw [after_read_scan_QS server handle base nread q hq hQ hS hfirst nread.toNat 0 0 []
      (by omega) (by omega)]
    simp

/-- C21 at the read of the five bytes `hello`, which are written back, and
at the read of `abQSx`, on which the stream 7 is closed and nothing is
written. -/
theorem after_read_echo_witness :
    after_read ex_echo_os 1 0 7 5 [104, 101, 108, 108, 111] =
      (0, [.uv_write 7 [104, 101, 108, 108, 111]]) ∧
    after_read ex_echo_os 1 0 7 5 [97, 98, 81, 83, 120] =
      (0, [.free [97, 98, 81, 83, 120], .uv_close 7 .on_close]) ∧
    after_read ex_echo_os 1 0 7 5 [97, 98, 81, 83, 120] =
      (0, [.free [97, 98, 81, 83, 120], .uv_close 7 .on_close]) :=
  ⟨by decide, by decide,
    (after_read_echo ex_echo_os 1 7 5 [97, 98, 81, 83, 120] (by decide) (by decide) rfl).2 2
      (by decide) (by decide) (by decide) (by decide)⟩

/-! ## The table of `quote_cmd_arg` -/

theorem wcspbrk_eq_false (source set : List Nat) :
    wcspbrk source set = false ↔ ∀ c ∈ source, c ∉ set := by
  unfold wcspbrk
  rw [List.any_eq_false]
  simp

theorem wcspbrk_eq_true (source set : List Nat) :
    wcspbrk source set = true ↔ ∃ c ∈ source, c ∈ set := by
  unfold wcspbrk
  rw [List.any_eq_true]
  simp

/-- C24. `quote_cmd_arg` gives the outputs of the table in its comment, in
the order of the table (the strings are given by their code units: 34 is
the double quote, 92 the backslash, 32 the space); the empty argument gives
two double quotes; a non-empty argument without space, tab and double quote
is copied unchanged; an argument with a space or a tab and without double
quote and backslash is wrapped in double quotes and not changed otherwise. -/
theorem quote_cmd_arg_table :
    quote_cmd_arg [104, 101, 108, 108, 111, 34, 119, 111, 114, 108, 100] =
      [34, 104, 101, 108, 108, 111, 92, 34, 119, 111, 114, 108, 100, 34] ∧
    quote_cmd_arg [104, 101, 108, 108, 111, 34, 34, 119, 111, 114, 108, 100] =
      [34, 104, 101, 108, 108, 111, 92, 34, 92, 34, 119, 111, 114, 108, 100, 34] ∧
    quote_cmd_arg [104, 101, 108, 108, 111, 92, 119, 111, 114, 108, 100] =
      [104, 101, 108, 108, 111, 92, 119, 111, 114, 108, 100] ∧
    quote_cmd_arg [104, 101, 108, 108, 111, 92, 92, 119, 111, 114, 108, 100] =
      [104, 101, 108, 108, 111, 92, 92, 119, 111, 114, 108, 100] ∧
    quote_cmd_arg [104, 101, 108, 108, 111, 92, 34, 119, 111, 114, 108, 100] =
      [34, 104, 101, 108, 108, 111, 92, 92, 92, 34, 119, 111, 114, 108, 100, 34] ∧
    quote_cmd_arg [104, 101, 108, 108, 111, 92, 92, 34, 119, 111, 114, 108, 100] =
      [34, 104, 101, 108, 108, 111, 92, 92, 92, 92, 92, 34, 119, 111, 114, 108, 100, 34] ∧
    quote_cmd_arg [104, 101, 108, 108, 111, 32, 119, 111, 114, 108, 100, 92] =
      [34, 104, 101, 108, 108, 111, 32, 119, 111, 114, 108, 100, 92, 92, 34] ∧
    quote_cmd_arg [] = [34, 34] ∧
    (∀ source : List Nat, source ≠ [] → (∀ c ∈ source, c ≠ 32 ∧ c ≠ 9 ∧ c ≠ 34) →
      quote_cmd_arg source = source) ∧
    (∀ source : List Nat, (∃ c ∈ source, c = 32 ∨ c = 9) →
      (∀ c ∈ source, c ≠ 34 ∧ c ≠ 92) → quote_cmd_arg source = [34] ++ source ++ [34]) := by
  refine ⟨by decide, by decide, by decide, by decide, by decide, by decide, by decide,
    by decide, ?_, ?_⟩
  · intro source hne h
    have h1 : source.length ≠ 0 := fun e => hne (List.length_eq_zero.1 e)
    have h2 : wcspbrk source [32, 9, 34] = false := by
      rw [wcspbrk_eq_false]
      intro c hc hm
      have := h c hc
      simp at hm
      omega
    unfold quote_cmd_arg
    simp only [h1, if_false, h2, if_true]
  · intro source hex h
    obtain ⟨c, hc, hc2⟩ := hex
    have h1 : source.length ≠ 0 := by
      intro e
      rw [List.length_eq_zero.1 e] at hc
      simp at hc
    have h2 : ¬ wcspbrk source [32, 9, 34] = false := by
      rw [wcspbrk_eq_false]
      intro hall
      have := hall c hc
      simp at this
      omega
    have h3 : wcspbrk source [34, 92] = false := by
      rw [wcspbrk_eq_false]
      intro d hd hm
      have := h d hd
      simp at hm
      omega
    unfold quote_cmd_arg
    simp only [h1, if_false, h2, h3, if_true]
    rfl

/-- C24 at the arguments `ab`, which is copied, and `a b`, which is
wrapped in double quotes. -/
theorem quote_cmd_arg_table_witness :
    quote_cmd_arg [97, 98] = [97, 98] ∧
    quote_cmd_arg [97, 32, 98] = [34] ++ [97, 32, 98] ++ [34] :=
  ⟨quote_cmd_arg_table.2.2.2.2.2.2.2.2.1 [97, 98] (by decide) (by decide),
    quote_cmd_arg_table.2.2.2.2.2.2.2.2.2 [97, 32, 98] ⟨32, by decide, Or.inl rfl⟩ (by decide)⟩

/-! ## Decoding a quoted argument -/

theorem quote_cmd_arg_loop_escape (source : List Nat) :
    ∀ (i : Nat) (quote_hit : Bool) (target : List Nat), i ≤ source.length →
      quote_hit = (quote_cmd_arg_escape (source.drop i)).2 →
      target.reverse = (quote_cmd_arg_escape (source.drop i)).1 →
      (quote_cmd_arg_loop source i quote_hit target).reverse = (quote_cmd_arg_escape source).1 := by
  intro i
  induction i with
  | zero =>
    intro qh target _ _ ht
    simpa [quote_cmd_arg_loop] using ht
  | succ i ih =>
    intro qh target hi hq ht
    have hlt : i < source.length := by omega
    have hd : source.drop i = source[i] :: source.drop (i + 1) := List.drop_eq_getElem_cons hlt
    have hg : source.getD i 0 = source[i] := by
      simp [List.getD_eq_getElem?_getD, List.getElem?_eq_getElem hlt]
    have he := hd ▸ (rfl : quote_cmd_arg_escape (source.drop i) = quote_cmd_arg_escape (source.drop i))
    simp only [quote_cmd_arg_loop, hg]
    by_cases h1 : qh = true ∧ source[i] = 92
    · rw [if_pos h1]
      apply ih _ _ (by omega)
      · rw [hd]; simp only [quote_cmd_arg_escape]
        rw [if_pos ⟨hq ▸ h1.1, h1.2⟩]
        exact h1.1
      · rw [hd]; simp only [quote_cmd_arg_escape]
        rw [if_pos ⟨hq ▸ h1.1, h1.2⟩]
        simp [ht, h1.2]
    · rw [if_neg h1]
      have h1' : ¬ ((quote_cmd_arg_escape (source.drop (i + 1))).2 = true ∧ source[i] = 92) := by
        rw [← hq]; exact h1
      by_cases h2 : source[i] = 34
      · rw [if_pos h2]
        apply ih _ _ (by omega)
        · rw [hd]; simp only [quote_cmd_arg_escape]
          rw [if_neg h1', if_pos h2]
        · rw [hd]; simp only [quote_cmd_arg_escape]
          rw [if_neg h1', if_pos h2]
          simp [ht, h2]
      · rw [if_neg h2]
        apply ih _ _ (by omega)
        · rw [hd]; simp only [quote_cmd_arg_escape]
          rw [if_neg h1', if_neg h2]
        · rw [hd]; simp only [quote_cmd_arg_escape]
          rw [if_neg h1', if_neg h2]
          simp [ht]

theorem quote_cmd_arg_eq_escape (source : List Nat) :
    (quote_cmd_arg_loop source source.length true []).reverse =
      (quote_cmd_arg_escape source).1 := by
  apply quote_cmd_arg_loop_escape source source.length true [] (le_refl _)
  · simp [quote_cmd_arg_escape]
  · simp [quote_cmd_arg_escape]

theorem parse_cmdline_aux_plain (t : List Nat) :
    ∀ (n : Nat) (cur : Option (List Nat)), (∀ c ∈ t, c ≠ 32 ∧ c ≠ 9 ∧ c ≠ 34) →
      (cur ≠ none ∨ n ≠ 0 ∨ t ≠ []) →
      parse_cmdline_aux t false n cur = [cur.getD [] ++ List.replicate n 92 ++ t] := by
  induction t with
  | nil =>
    intro n cur _ h
    have : ¬ (cur = none ∧ n = 0) := by
      rintro ⟨h1, h2⟩
      rcases h with h | h | h
      · exact h h1
      · exact h h2
      · exact h rfl
    simp [parse_cmdline_aux, this]
  | cons c t ih =>
    intro n cur hall _
    have hc := hall c (by simp)
    have ht : ∀ d ∈ t, d ≠ 32 ∧ d ≠ 9 ∧ d ≠ 34 := fun d hd => hall d (by simp [hd])
    simp only [parse_cmdline_aux]
    by_cases h92 : c = 92
    · rw [if_pos h92, ih (n + 1) cur ht (Or.inr (Or.inl (by omega)))]
      simp [List.replicate_succ', h92]
    · rw [if_neg h92, if_neg hc.2.2, if_neg (by simp [hc.1, hc.2.1])]
      rw [ih 0 _ ht (Or.inl (by simp))]
      simp

theorem parse_cmdline_aux_quoted (t : List Nat) :
    ∀ (cur : List Nat), (∀ c ∈ t, c ≠ 34 ∧ c ≠ 92) →
      parse_cmdline_aux (t ++ [34]) true 0 (some cur) = [cur ++ t] := by
  induction t with
  | nil => intro cur _; simp [parse_cmdline_aux]
  | cons c t ih =>
    intro cur hall
    have hc := hall c (by simp)
    have ht : ∀ d ∈ t, d ≠ 34 ∧ d ≠ 92 := fun d hd => hall d (by simp [hd])
    simp only [List.cons_append, parse_cmdline_aux, List.append_eq]
    rw [if_neg hc.2, if_neg hc.1, if_neg (by simp)]
    simp only [Option.getD_some, List.replicate_zero, List.append_nil]
    rw [ih _ ht]
    simp

theorem parse_cmdline_aux_escape (t : List Nat) :
    ∀ (cur : List Nat),
      ((quote_cmd_arg_escape t).2 = true → ∀ m,
        parse_cmdline_aux ((quote_cmd_arg_escape t).1 ++ [34]) true (2 * m) (some cur) =
          [cur ++ List.replicate m 92 ++ t]) ∧
      ((quote_cmd_arg_escape t).2 = false → ∀ n,
        parse_cmdline_aux ((quote_cmd_arg_escape t).1 ++ [34]) true n (some cur) =
          [cur ++ List.replicate n 92 ++ t]) := by
  induction t with
  | nil =>
    intro cur
    constructor
    · intro _ m
      simp [quote_cmd_arg_escape, parse_cmdline_aux]
    · intro h; simp [quote_cmd_arg_escape] at h
  | cons c t ih =>
    intro cur
    by_cases h1 : (quote_cmd_arg_escape t).2 = true ∧ c = 92
    · have e : quote_cmd_arg_escape (c :: t) = (92 :: 92 :: (quote_cmd_arg_escape t).1, true) := by
        simp only [quote_cmd_arg_escape]; rw [if_pos h1]
      rw [e]
      constructor
      · intro _ m
        simp only [List.cons_append, parse_cmdline_aux, if_true, List.append_eq]
        have := (ih cur).1 h1.1 (m + 1)
        rw [show 2 * m + 1 + 1 = 2 * (m + 1) by ring, this]
        simp [List.replicate_succ', h1.2]
      · intro h; simp at h
    · by_cases h2 : c = 34
      · have e : quote_cmd_arg_escape (c :: t) = (92 :: 34 :: (quote_cmd_arg_escape t).1, true) := by
          simp only [quote_cmd_arg_escape]; rw [if_neg h1, if_pos h2]
        rw [e]
        constructor
        · intro _ m
          simp only [List.cons_append, parse_cmdline_aux, if_true, List.append_eq]
          have hodd : ¬ (2 * m + 1) % 2 = 0 := by omega
          have hdiv : (2 * m + 1) / 2 = m := by omega
          simp only [show ¬ (34 : Nat) = 92 by decide, if_false, hodd, hdiv, Option.getD_some]
          cases hq : (quote_cmd_arg_escape t).2 with
          | true =>
            have := (ih (cur ++ List.replicate m 92 ++ [34])).1 hq 0
            simp only [Nat.mul_zero] at this
            rw [this]
            simp [h2]
          | false =>
            have := (ih (cur ++ List.replicate m 92 ++ [34])).2 hq 0
            rw [this]
            simp [h2]
        · intro h; simp at h
      · have e : quote_cmd_arg_escape (c :: t) = (c :: (quote_cmd_arg_escape t).1, false) := by
          simp only [quote_cmd_arg_escape]; rw [if_neg h1, if_neg h2]
        rw [e]
        constructor
        · intro h; simp at h
        · intro _ n
          simp only [List.cons_append, parse_cmdline_aux, List.append_eq]
          by_cases h92 : c = 92
          · have hq : (quote_cmd_arg_escape t).2 = false := by
              cases hq : (quote_cmd_arg_escape t).2 with
              | true => exact absurd ⟨hq, h92⟩ h1
              | false => rfl
            rw [if_pos h92, (ih cur).2 hq (n + 1)]
            simp [List.replicate_succ', h92]
          · rw [if_neg h92, if_neg h2, if_neg (by simp)]
            simp only [Option.getD_some]
            cases hq : (quote_cmd_arg_escape t).2 with
            | true =>
              have := (ih (cur ++ List.replicate n 92 ++ [c])).1 hq 0
              simp only [Nat.mul_zero] at this
              rw [this]
              simp
            | false =>
              have := (ih (cur ++ List.replicate n 92 ++ [c])).2 hq 0
              rw [this]
              simp

/-- C26. For every argument (a wide string, which holds no NUL), the output
of `quote_cmd_arg` parsed under the command-line rules of the Microsoft C
runtime as the claim words them (`parse_cmdline`) is exactly one argument,
the argument given. -/
theorem quote_cmd_arg_decodes (source : List Nat) (_hnul : ∀ c ∈ source, c ≠ 0) :
    parse_cmdline (quote_cmd_arg source) = [source] := by
  unfold quote_cmd_arg parse_cmdline
  simp only []
  by_cases h0 : source.length = 0
  · rw [if_pos h0, List.length_eq_zero.1 h0]
    decide
  · rw [if_neg h0]
    by_cases h1 : wcspbrk source [32, 9, 34] = false
    · rw [if_pos h1]
      rw [wcspbrk_eq_false] at h1
      rw [parse_cmdline_aux_plain source 0 none
        (fun c hc => by have := h1 c hc; simp at this; omega)
        (Or.inr (Or.inr (fun e => h0 (by rw [e]; rfl))))]
      simp
    · rw [if_neg h1]
      by_cases h2 : wcspbrk source [34, 92] = false
      · rw [if_pos h2]
        rw [wcspbrk_eq_false] at h2
        simp only [List.cons_append, List.nil_append, parse_cmdline_aux, List.append_eq]
        simp only [show ¬ (34 : Nat) = 92 by decide, if_false, if_true, Nat.zero_mod,
          Bool.not_false, Option.getD_none, Nat.zero_div, List.replicate_zero, List.append_nil]
        rw [parse_cmdline_aux_quoted source []
          (fun c hc => by have := h2 c hc; simp at this; omega)]
        simp
      · rw [if_neg h2, quote_cmd_arg_eq_escape]
        simp only [List.cons_append, List.nil_append, parse_cmdline_aux, List.append_eq]
        simp only [show ¬ (34 : Nat) = 92 by decide, if_false, if_true, Nat.zero_mod,
          Bool.not_false, Option.getD_none, Nat.zero_div, List.replicate_zero, List.append_nil]
        cases hq : (quote_cmd_arg_escape source).2 with
        | true =>
          have := (parse_cmdline_aux_escape source []).1 hq 0
          simp only [Nat.mul_zero] at this
          rw [this]; simp
        | false =>
          have := (parse_cmdline_aux_escape source []).2 hq 0
          rw [this]; simp

/-- C26 at the argument `a\"b c\` (a backslash before a double quote, a
space and a final backslash): it is quoted as `"a\\\"b c\\"` and decoded
to itself. -/
theorem quote_cmd_arg_decodes_witness :
    quote_cmd_arg [97, 92, 34, 98, 32, 99, 92] =
      [34, 97, 92, 92, 92, 34, 98, 32, 99, 92, 92, 34] ∧
    parse_cmdline (quote_cmd_arg [97, 92, 34, 98, 32, 99, 92]) = [[97, 92, 34, 98, 32, 99, 92]] :=
  ⟨by decide, quote_cmd_arg_decodes [97, 92, 34, 98, 32, 99, 92] (by decide)⟩

/-! ## The size of the command-line buffer -/

theorem quote_cmd_arg_loop_length (source : List Nat) :
    ∀ (i : Nat) (quote_hit : Bool) (target : List Nat),
      (quote_cmd_arg_loop source i quote_hit target).length ≤ target.length + 2 * i := by
  intro i
  induction i with
  | zero => intro qh target; simp [quote_cmd_arg_loop]
  | succ i ih =>
    intro qh target
    simp only [quote_cmd_arg_loop]
    split_ifs
    · refine le_trans (ih _ _) ?_
      simp only [List.length_append, List.length_singleton]; omega
    · refine le_trans (ih _ _) ?_
      simp only [List.length_append, List.length_singleton]; omega
    · refine le_trans (ih _ _) ?_
      simp only [List.length_append, List.length_singleton]; omega

theorem quote_cmd_arg_length (source : List Nat) :
    (quote_cmd_arg source).length ≤ 2 * source.length + 2 := by
  unfold quote_cmd_arg
  simp only []
  split_ifs
  · simp
  · omega
  · simp only [List.length_append, List.length_singleton]; omega
  · have := quote_cmd_arg_loop_length source source.length true []
    simp only [List.length_append, List.length_singleton, List.length_reverse, List.length_nil]
      at this ⊢
    omega

theorem wmem_write_length (cells : List Nat) (pos : Nat) (s : List Nat)
    (h1 : pos ≤ cells.length) (h2 : cells.length ≤ pos + s.length) :
    (wmem_write cells pos s).length = pos + s.length := by
  unfold wmem_write
  simp only [List.length_append, List.length_take, List.length_drop, List.length_replicate]
  omega

theorem make_program_args_need_eq (os : uv_env_os) (args : List (List Nat)) :
    make_program_args_need os args = 2 * make_program_args_sum os args + 2 * args.length := by
  unfold make_program_args_need make_program_args_sum
  induction args with
  | nil => rfl
  | cons a args ih =>
    simp only [List.map_cons, List.sum_cons, List.length_cons, ih]
    ring

theorem MultiByteToWideChar_zero (os : uv_env_os) (arg : List Nat) :
    (MultiByteToWideChar os arg 0).1 =
      match os.utf16 arg with
      | none => 0
      | some w => (w.length : Int) + 1 := by
  unfold MultiByteToWideChar
  cases os.utf16 arg <;> simp

theorem make_program_args_count_some (os : uv_env_os) (args : List (List Nat)) :
    ∀ (dst_len temp_buffer_len : Nat) (arg_count : Int) (r : Nat × Nat × Int),
      make_program_args_count os args dst_len temp_buffer_len arg_count = some r →
      dst_len + make_program_args_sum os args < 18446744073709551616 →
      (∀ arg ∈ args, ∃ w, os.utf16 arg = some w) ∧
      r.1 = dst_len + make_program_args_sum os args ∧ r.2.2 = arg_count + args.length := by
  induction args with
  | nil =>
    intro d t c r h _
    simp only [make_program_args_count, Option.some.injEq] at h
    subst h
    simp [make_program_args_sum]
  | cons a args ih =>
    intro d t c r h hlt
    simp only [make_program_args_count, MultiByteToWideChar_zero] at h
    cases hw : os.utf16 a with
    | none => simp [hw] at h
    | some w =>
      simp only [hw] at h
      have hne : ¬ ((w.length : Int) + 1 = 0) := by omega
      rw [if_neg hne] at h
      have hs : make_program_args_sum os (a :: args) =
          (w.length + 1) + make_program_args_sum os args := by
        simp [make_program_args_sum, hw]
      rw [hs] at hlt ⊢
      have e : size_t ((d : Int) + ((w.length : Int) + 1)) = d + (w.length + 1) := by
        unfold size_t; omega
      rw [e] at h
      obtain ⟨h1, h2, h3⟩ := ih _ _ _ r h (by omega)
      refine ⟨?_, ?_, ?_⟩
      · intro arg harg
        rcases List.mem_cons.1 harg with e2 | e2
        · exact ⟨w, e2 ▸ hw⟩
        · exact h1 arg e2
      · rw [h2]; omega
      · rw [h3]; simp only [List.length_cons]; push_cast; ring

theorem make_program_args_fill_length (os : uv_env_os) (verbatim_arguments : Bool)
    (dst_len : Nat) (hlen : dst_len < 4294967296) (args : List (List Nat)) :
    ∀ (temp_buffer : List Nat) (pos : Nat) (cells : List Nat),
      (∀ arg ∈ args, ∃ w, os.utf16 arg = some w) → cells.length = pos →
      pos + make_program_args_need os args ≤ dst_len →
      (make_program_args_fill os verbatim_arguments dst_len args temp_buffer pos cells).2.length
        ≤ dst_len := by
  induction args with
  | nil =>
    intro temp pos cells _ hc hp
    simp only [make_program_args_fill]
    omega
  | cons a args ih =>
    intro temp pos cells hall hc hp
    obtain ⟨w, hw⟩ := hall a (by simp)
    have hn : make_program_args_need os (a :: args) =
        (2 * (w.length + 1) + 2) + make_program_args_need os args := by
      simp [make_program_args_need, hw]
    rw [hn] at hp
    simp only [make_program_args_fill]
    by_cases hr : (MultiByteToWideChar os a (static_cast_int ((dst_len : Int) - pos))).1 = 0
    · rw [if_pos hr]
      simp only []
      omega
    · rw [if_neg hr]
      have hcch : ¬ static_cast_int ((dst_len : Int) - pos) = 0 := by
        unfold static_cast_int; omega
      have hres : MultiByteToWideChar os a (static_cast_int ((dst_len : Int) - pos)) =
          ((w.length : Int) + 1, some w) := by
        unfold MultiByteToWideChar at hr ⊢
        simp only [hw, hcch, if_false] at hr ⊢
        split_ifs at hr ⊢ with h1
        · rfl
        · simp at hr
      rw [hres]
      simp only [Option.getD_some]
      have hq := quote_cmd_arg_length w
      have hall2 : ∀ arg ∈ args, ∃ w, os.utf16 arg = some w :=
        fun arg harg => hall arg (by simp [harg])
      cases verbatim_arguments with
      | true =>
        simp only [if_true]
        have e : size_t ((pos : Int) + ((w.length : Int) + 1) - 1) = pos + w.length := by
          unfold size_t; omega
        rw [e]
        have l1 : (wmem_write cells pos (w ++ [0])).length = pos + (w.length + 1) := by
          rw [wmem_write_length _ _ _ (by omega) (by simp; omega)]
          simp
        apply ih
        · exact hall2
        · rw [wmem_write_length _ _ _ (by omega) (by simp only [List.length_singleton]; omega)]
          simp
        · omega
      | false =>
        simp only [Bool.false_eq_true, if_false]
        have l1 : (wmem_write cells pos (quote_cmd_arg w)).length =
            pos + (quote_cmd_arg w).length :=
          wmem_write_length _ _ _ (by omega) (by omega)
        apply ih
        · exact hall2
        · rw [wmem_write_length _ _ _ (by omega) (by simp only [List.length_singleton]; omega)]
          simp
        · omega

/-- C25. `quote_cmd_arg` writes at most `2 * len + 2` units for an argument
of `len` units. For every argument list whose reserved size (for every
argument twice its wide length with the terminator, plus two) is below
`2^32`, in quoted and in verbatim mode, the units `make_program_args`
writes to `dst` (arguments, separating spaces, terminators) are at most
`dst_len`, and when every conversion succeeds `dst_len` is
`2 * sum(arg_len_i) + 2 * arg_count`. -/
theorem make_program_args_fits (os : uv_env_os) (args : List (List Nat))
    (verbatim_arguments : Bool) (hsize : make_program_args_need os args < 4294967296) :
    (∀ source : List Nat, (quote_cmd_arg source).length ≤ 2 * source.length + 2) ∧
    (make_program_args os args verbatim_arguments).2.2.length ≤
      (make_program_args os args verbatim_arguments).2.1 ∧
    ((∀ arg ∈ args, ∃ w, os.utf16 arg = some w) →
      (make_program_args os args verbatim_arguments).2.1 =
        2 * make_program_args_sum os args + 2 * args.length) := by
  have hneed := make_program_args_need_eq os args
  refine ⟨quote_cmd_arg_length, ?_, ?_⟩
  · unfold make_program_args
    cases hc : make_program_args_count os args 0 0 0 with
    | none => simp
    | some r =>
      obtain ⟨d, t, c⟩ := r
      obtain ⟨h1, h2, h3⟩ := make_program_args_count_some os args 0 0 0 _ hc (by omega)
      simp only [] at h2 h3 ⊢
      have e : size_t ((d : Int) * 2 + c * 2) = make_program_args_need os args := by
        rw [h2, h3, hneed]; unfold size_t; omega
      rw [e]
      split_ifs
      · simp
      · simp
      · exact make_program_args_fill_length os verbatim_arguments _ hsize args _ 0 [] h1 rfl
          (by omega)
  · intro hall
    have hsome : ∃ r, make_program_args_count os args 0 0 0 = some r := by
      have : ∀ (args : List (List Nat)) (d t : Nat) (c : Int),
          (∀ arg ∈ args, ∃ w, os.utf16 arg = some w) →
          ∃ r, make_program_args_count os args d t c = some r := by
        intro args
        induction args with
        | nil => intro d t c _; exact ⟨_, rfl⟩
        | cons a args ih =>
          intro d t c hall
          obtain ⟨w, hw⟩ := hall a (by simp)
          have hne : ¬ ((w.length : Int) + 1 = 0) := by omega
          simp only [make_program_args_count, MultiByteToWideChar_zero, hw, hne, if_false]
          exact ih _ _ _ (fun arg harg => hall arg (by simp [harg]))
      exact this args 0 0 0 hall
    obtain ⟨r, hc⟩ := hsome
    obtain ⟨d, t, c⟩ := r
    obtain ⟨h1, h2, h3⟩ := make_program_args_count_some os args 0 0 0 _ hc (by omega)
    simp only [] at h2 h3
    unfold make_program_args
    rw [hc]
    have e : size_t ((d : Int) * 2 + c * 2) = make_program_args_need os args := by
      rw [h2, h3, hneed]; unfold size_t; omega
    simp only [e]
    rw [← hneed]
    split_ifs <;> rfl

/-- C25 at the arguments `a b` and `c` in quoted mode: 16 units are
reserved and the 8 units of `"a b" c` with its terminator are written. -/
theorem make_program_args_fits_witness :
    make_program_args ex_env_os [[97, 32, 98], [99]] false =
      (0, 16, [34, 97, 32, 98, 34, 32, 99, 0]) ∧
    (make_program_args ex_env_os [[97, 32, 98], [99]] false).2.2.length ≤
      (make_program_args ex_env_os [[97, 32, 98], [99]] false).2.1 :=
  ⟨by decide,
    (make_program_args_fits ex_env_os [[97, 32, 98], [99]] false (by decide)).2.1⟩

/-! ### A slow-mode poll handle used as the interface allows fails no assertion -/

theorem uv_poll_core_submit_poll_slow (c : uv_poll_core) :
    c.submit.poll_slow = c.poll_slow ∧ c.submit.closing = c.closing := by
  unfold uv_poll_core.submit
  split_ifs <;> exact ⟨rfl, rfl⟩

theorem uv_poll_core_set_poll_slow (c : uv_poll_core) (events : Nat) :
    (c.set events).poll_slow = c.poll_slow ∧ (c.set events).closing = c.closing := by
  unfold uv_poll_core.set
  simp only []
  split_ifs
  · exact uv_poll_core_submit_poll_slow _
  · exact ⟨rfl, rfl⟩

theorem uv_poll_core_close_poll_slow (c : uv_poll_core) : c.close.poll_slow = c.poll_slow := by
  unfold uv_poll_core.close
  split_ifs <;> rfl

theorem uv_poll_start_safe {W : Type} (ops : uv_poll_ops) (events : Nat) (cb : Option Nat)
    (os_error : Option Nat) (strict : Bool) (a : Nat) (st : uv_state W uv_poll_t)
    (h : uv_poll_safe strict a st) (hopen : st.handle.flags.closing = false)
    (hmask : events &&& (UV_READABLE ||| UV_WRITABLE) = events) :
    uv_poll_safe strict a (uv_poll_start ops events cb os_error st).1 ∧
    (uv_poll_start ops events cb os_error st).1.handle.flags.closing = false := by
  obtain ⟨hinv, hj, hs⟩ := h
  have hlog := uv_poll_start_log_open ops events cb os_error st hopen hj
    (by rw [if_pos hs]; exact hmask)
  have hna : uv_event.assert_failed ∉ (uv_poll_start ops events cb os_error st).1.log := by
    rw [hlog]; exact hinv.2.1
  have hcore := uv_poll_start_core ops events cb os_error st
  have hp := uv_poll_core_set_poll_slow st.handle.core events
  refine ⟨⟨uv_poll_start_ok ops events cb os_error strict a st (fun _ => hinv) hna,
    uv_poll_start_slots_ok ops events cb os_error st (fun _ => hj) hna, ?_⟩, ?_⟩
  · have : (uv_poll_start ops events cb os_error st).1.handle.core.poll_slow = true := by
      rw [hcore, hp.1]; exact hs
    exact this
  · have : (uv_poll_start ops events cb os_error st).1.handle.core.closing = false := by
      rw [hcore, hp.2]; exact hopen
    exact this

theorem uv_poll_stop_log_start {W : Type} (ops : uv_poll_ops) (st : uv_state W uv_poll_t) :
    (uv_poll_stop ops st).1.log = (uv_poll_start ops 0 none none st).1.log := by
  unfold uv_poll_stop uv_poll_start
  simp only []
  split_ifs <;> rfl

theorem uv_poll_stop_safe {W : Type} (ops : uv_poll_ops)
    (strict : Bool) (a : Nat) (st : uv_state W uv_poll_t)
    (h : uv_poll_safe strict a st) (hopen : st.handle.flags.closing = false) :
    uv_poll_safe strict a (uv_poll_stop ops st).1 ∧
    (uv_poll_stop ops st).1.handle.flags.closing = false := by
  obtain ⟨hinv, hj, hs⟩ := h
  have hlog := uv_poll_start_log_open ops 0 none none st hopen hj
    (by rw [if_pos hs]; exact Nat.zero_and _)
  have hna : uv_event.assert_failed ∉ (uv_poll_stop ops st).1.log := by
    rw [uv_poll_stop_log_start, hlog]; exact hinv.2.1
  have hcore := uv_poll_stop_core ops st
  have hp := uv_poll_core_set_poll_slow st.handle.core 0
  refine ⟨⟨uv_poll_stop_ok ops strict a st (fun _ => hinv) hna,
    uv_poll_stop_slots_ok ops st (fun _ => hj) hna, ?_⟩, ?_⟩
  · have : (uv_poll_stop ops st).1.handle.core.poll_slow = true := by
      rw [hcore, hp.1]; exact hs
    exact this
  · have : (uv_poll_stop ops st).1.handle.core.closing = false := by
      rw [hcore, hp.2]; exact hopen
    exact this

theorem uv_poll_do_close_safe {W : Type} (cb : Option Nat) (os_error : Option Nat)
    (strict : Bool) (a : Nat) (st : uv_state W uv_poll_t)
    (h : uv_poll_safe strict a st) (hopen : st.handle.flags.closing = false) :
    uv_poll_safe strict a (uv_poll_do_close cb os_error st) := by
  obtain ⟨hinv, hj, hs⟩ := h
  have heq := uv_poll_do_close_eq cb os_error st
  rw [if_neg (by simp [hopen])] at heq
  have hlog := uv_poll_close_log_eq os_error
    { st with handle := { st.handle with close_cb := cb },
              log := st.log ++ [.close_called st.handle.addr] } hopen
  have hcore := uv_poll_close_core os_error
    { st with handle := { st.handle with close_cb := cb },
              log := st.log ++ [.close_called st.handle.addr] }
  have hna : uv_event.assert_failed ∉ (uv_poll_do_close cb os_error st).log := by
    rw [heq, hlog]
    have h0 := hinv.2.1
    unfold uv_poll_core.endgame_log
    split_ifs <;> simp [h0]
  refine ⟨uv_poll_do_close_ok cb os_error strict a st (fun _ => hinv) hna,
    uv_poll_do_close_slots_ok cb os_error st (fun _ => hj) hna, ?_⟩
  have : (uv_poll_do_close cb os_error st).handle.core.poll_slow = true := by
    rw [heq, hcore, uv_poll_core_close_poll_slow]; exact hs
  exact this

theorem uv_poll_do_calls_safe {W : Type} (ops : uv_poll_ops) (calls : List uv_poll_call)
    (strict : Bool) (a : Nat) (st : uv_state W uv_poll_t)
    (h : uv_poll_safe strict a st) (hopen : st.handle.flags.closing = false)
    (hv : uv_poll_calls_valid calls = true) :
    uv_poll_safe strict a (calls.foldl (fun s c => uv_poll_do_call ops c s) st) := by
  induction calls generalizing st with
  | nil => exact h
  | cons c rest ih =>
    simp only [List.foldl_cons]
    cases c with
    | start events cb os_error =>
      simp only [uv_poll_calls_valid, uv_poll_call_valid, Bool.and_eq_true, beq_iff_eq] at hv
      have hst := uv_poll_start_safe ops events cb os_error strict a st h hopen hv.1
      exact ih _ hst.1 hst.2 hv.2
    | stop =>
      simp only [uv_poll_calls_valid, uv_poll_call_valid, Bool.and_eq_true] at hv
      have hst := uv_poll_stop_safe ops strict a st h hopen
      exact ih _ hst.1 hst.2 hv.2
    | close cb os_error =>
      simp only [uv_poll_calls_valid, List.isEmpty_iff] at hv
      subst hv
      exact uv_poll_do_close_safe cb os_error strict a st h hopen

theorem uv_poll_invoke_cb_safe {W : Type} (ops : uv_poll_ops) (status : Int) (events : Nat)
    (strict : Bool) (a : Nat) (st : uv_state W uv_poll_t)
    (h : uv_poll_safe strict a st) (hopen : st.handle.flags.closing = false)
    (hcb : ∀ cb log handle status events,
      uv_poll_calls_valid (ops.poll_cb cb log handle status events) = true) :
    uv_poll_safe strict a (uv_poll_invoke_cb ops status events st) := by
  unfold uv_poll_invoke_cb
  simp only []
  apply uv_poll_do_calls_safe
  · exact ⟨uv_poll_inv_user_cb h.1 _ rfl, h.2.1, h.2.2⟩
  · exact hopen
  · exact hcb _ _ _ _ _

theorem uv__slow_poll_process_events_safe {W : Type} (ops : uv_poll_ops)
    (mask_events : Nat) (req : uv_req_t)
    (strict : Bool) (a : Nat) (st : uv_state W uv_poll_t)
    (h : uv_poll_safe strict a st)
    (hcb : ∀ cb log handle status events,
      uv_poll_calls_valid (ops.poll_cb cb log handle status events) = true) :
    uv_poll_safe strict a (uv__slow_poll_process_events ops mask_events req st) := by
  have hopen_of : st.handle.events ≠ 0 → st.handle.flags.closing = false := by
    intro hne
    by_contra hc
    have hc1 : st.handle.core.closing = true := by simpa using hc
    exact hne (h.1.2.2.2.1 hc1).1
  unfold uv__slow_poll_process_events
  simp only []
  split_ifs with h1 h2 h3
  · apply uv_poll_invoke_cb_safe
    · exact ⟨uv_poll_inv_events_zero h.1,
        uv_poll_slots_inv_congr h.2.1 rfl (Or.inr rfl) (Or.inl rfl) (Or.inl rfl), h.2.2⟩
    · exact hopen_of h2
    · exact hcb
  · exact h
  · apply uv_poll_invoke_cb_safe ops _ _ strict a st h _ hcb
    apply hopen_of
    intro h0
    apply h3
    rw [h0]
    simp [and_not]
  · exact h

theorem uv__slow_poll_process_end_safe {W : Type} (ops : uv_poll_ops) (os_error : Option Nat)
    (a : Nat) (st : uv_state W uv_poll_t)
    (h : uv_poll_safe false a st) (hclosed : st.handle.core.closed = false) :
    uv_poll_safe true a
      (uv_poll_process_end (uv__slow_poll_submit_poll_req ops os_error) st) := by
  obtain ⟨hinv, hj, hs⟩ := h
  have hna : uv_event.assert_failed ∉
      (uv_poll_process_end (uv__slow_poll_submit_poll_req ops os_error) st).log := by
    unfold uv_poll_process_end
    split_ifs with h1 h2
    · rw [uv__slow_poll_submit_poll_req_free ops os_error st ?_]
      · exact hinv.2.1
      · by_contra hboth
        push_neg at hboth
        obtain ⟨b0, -, -, hcov⟩ := hj hs
        have h3 : st.handle.submitted_events_1 ||| st.handle.submitted_events_2 = 3 :=
          hcov hboth.1 hboth.2
        apply h1
        rw [h3]
        exact and_not_three_of_le b0
    · rw [uv_poll_want_endgame_log_eq]
      have h0 := hinv.2.1
      split_ifs <;> simp [h0]
    · exact hinv.2.1
  refine ⟨uv_poll_process_end_ok _ (uv__slow_poll_submit_poll_req_core ops os_error)
      (uv__slow_poll_submit_poll_req_log_eq ops os_error) a st (fun _ => hinv) hclosed hna,
    uv_poll_process_end_slots_ok _ (uv__slow_poll_submit_poll_req_core ops os_error)
      (uv__slow_poll_submit_poll_req_log ops os_error) st (fun _ => hj) hna, ?_⟩
  unfold uv_poll_process_end
  split_ifs
  · have : (uv__slow_poll_submit_poll_req ops os_error st).handle.core.poll_slow = true := by
      rw [uv__slow_poll_submit_poll_req_core, (uv_poll_core_submit_poll_slow _).1]; exact hs
    exact this
  · have : (uv_poll_want_endgame st).handle.core.poll_slow = true := by
      rw [uv_poll_want_endgame_core]; exact hs
    exact this
  · exact hs

theorem uv_process_poll_req_safe {W : Type} (ops : uv_poll_ops) (os_error : Option Nat)
    (req : uv_poll_req_ref) (a : Nat) (st : uv_state W uv_poll_t)
    (h : uv_poll_safe true a st) (hout : uv_poll_outstanding req st.handle = true)
    (hcb : ∀ cb log handle status events,
      uv_poll_calls_valid (ops.poll_cb cb log handle status events) = true) :
    uv_poll_safe true a (uv_process_poll_req ops os_error req st) := by
  obtain ⟨hinv, hj, hs⟩ := h
  unfold uv_process_poll_req
  rw [if_neg (by simp [hs])]
  unfold uv__slow_poll_process_poll_req uv__slow_poll_process_body
  cases req with
  | other => simp [uv_poll_outstanding] at hout
  | poll_req_1 =>
    have hne : st.handle.core.submitted_events_1 ≠ 0 := by
      simpa [uv_poll_outstanding] using hout
    have hc := uv_poll_inv_clear_1 hinv hne
    have h1 : uv_poll_safe false a
        { st with handle := { st.handle with submitted_events_1 := 0 } } :=
      ⟨hc.1, uv_poll_slots_inv_congr hj rfl (Or.inl rfl) (Or.inr rfl) (Or.inl rfl), hs⟩
    have hev := uv__slow_poll_process_events_safe ops st.handle.mask_events_1
      st.handle.poll_req_1 false a _ h1 hcb
    simp only []
    apply uv__slow_poll_process_end_safe ops os_error a _ hev
    rw [(uv__slow_poll_process_events_ok ops _ _ false a _ (fun _ => h1.1)).2]
    exact hc.2
  | poll_req_2 =>
    have hne : st.handle.core.submitted_events_2 ≠ 0 := by
      simpa [uv_poll_outstanding] using hout
    have hc := uv_poll_inv_clear_2 hinv hne
    have h1 : uv_poll_safe false a
        { st with handle := { st.handle with submitted_events_2 := 0 } } :=
      ⟨hc.1, uv_poll_slots_inv_congr hj rfl (Or.inl rfl) (Or.inl rfl) (Or.inr rfl), hs⟩
    have hev := uv__slow_poll_process_events_safe ops st.handle.mask_events_2
      st.handle.poll_req_2 false a _ h1 hcb
    simp only []
    apply uv__slow_poll_process_end_safe ops os_error a _ hev
    rw [(uv__slow_poll_process_events_ok ops _ _ false a _ (fun _ => h1.1)).2]
    exact hc.2

theorem uv_poll_step_safe {W : Type} (ops : uv_poll_ops) (inp : uv_poll_input)
    (a : Nat) (st : uv_state W uv_poll_t)
    (h : uv_poll_safe true a st)
    (hcb : ∀ cb log handle status events,
      uv_poll_calls_valid (ops.poll_cb cb log handle status events) = true)
    (hv : uv_poll_input_valid inp st = true) :
    ∃ st1, uv_poll_step ops inp st = some st1 ∧ uv_poll_safe true a st1 := by
  cases inp with
  | call c =>
    simp only [uv_poll_input_valid, Bool.and_eq_true, Bool.not_eq_true'] at hv
    refine ⟨_, rfl, ?_⟩
    cases c with
    | start events cb os_error =>
      have hm : events &&& (UV_READABLE ||| UV_WRITABLE) = events := by
        simpa [uv_poll_call_valid] using hv.2
      exact (uv_poll_start_safe ops events cb os_error true a st h hv.1 hm).1
    | stop => exact (uv_poll_stop_safe ops true a st h hv.1).1
    | close cb os_error => exact uv_poll_do_close_safe cb os_error true a st h hv.1
  | complete c =>
    have hout : uv_poll_outstanding c.req st.handle = true := hv
    refine ⟨uv_poll_process_completion ops c st, by simp [uv_poll_step, hout], ?_⟩
    unfold uv_poll_process_completion
    have hc := uv_poll_completed_core c st
    have hcore : (uv_poll_completed c st).handle.core = st.handle.core := hc.1
    have h1 : (uv_poll_completed c st).handle.submitted_events_1 = st.handle.submitted_events_1 :=
      congrArg uv_poll_core.submitted_events_1 hcore
    have h2 : (uv_poll_completed c st).handle.submitted_events_2 = st.handle.submitted_events_2 :=
      congrArg uv_poll_core.submitted_events_2 hcore
    have h3 : (uv_poll_completed c st).handle.flags.poll_slow = st.handle.flags.poll_slow :=
      congrArg uv_poll_core.poll_slow hcore
    apply uv_process_poll_req_safe ops c.os_error c.req a _ _ _ hcb
    · refine ⟨?_, ?_, ?_⟩
      · rw [hc.1, hc.2]; exact h.1
      · rw [hc.1]; exact h.2.1
      · rw [h3]; exact h.2.2
    · unfold uv_poll_outstanding at hout ⊢
      cases hr : c.req <;> simp only [hr, h1, h2] at hout ⊢ <;> exact hout
  | endgame =>
    have hq : st.handle.flags.endgame_queued = true := hv
    refine ⟨uv_poll_process_endgame st, by simp [uv_poll_step, hq], ?_⟩
    have hna := uv_poll_process_endgame_no_assert a st h.1 hq
    refine ⟨uv_poll_process_endgame_ok a st (fun _ => h.1) hq hna, ?_, ?_⟩
    · rw [uv_poll_process_endgame_core]
      exact uv_poll_slots_inv_congr h.2.1 rfl (Or.inl rfl) (Or.inl rfl) (Or.inl rfl)
    · have : (uv_poll_process_endgame st).handle.core.poll_slow = true := by
        rw [uv_poll_process_endgame_core]; exact h.2.2
      exact this

theorem uv_poll_run_safe {W : Type} (ops : uv_poll_ops) (inputs : List uv_poll_input)
    (a : Nat) (st : uv_state W uv_poll_t)
    (h : uv_poll_safe true a st)
    (hcb : ∀ cb log handle status events,
      uv_poll_calls_valid (ops.poll_cb cb log handle status events) = true)
    (hv : uv_poll_inputs_valid ops inputs st = true) :
    ∃ st1, uv_poll_run ops inputs st = some st1 ∧ uv_poll_safe true a st1 := by
  induction inputs generalizing st with
  | nil => exact ⟨st, rfl, h⟩
  | cons inp rest ih =>
    simp only [uv_poll_inputs_valid, Bool.and_eq_true] at hv
    obtain ⟨st1, hstep, hsafe⟩ := uv_poll_step_safe ops inp a st h hcb hv.1
    rw [hstep] at hv
    obtain ⟨st2, hrun, hs2⟩ := ih st1 hsafe hv.2
    refine ⟨st2, ?_, hs2⟩
    unfold uv_poll_run
    rw [hstep]
    simp only []
    rw [if_neg hsafe.1.2.1]
    exact hrun

/-! ## The request slots of a slow-mode poll handle -/

/-- C27. A slow-mode poll handle starts as `uv_poll_init_socket` leaves it and
goes through any run of `uv_poll_start` and `uv_poll_stop` calls with masks
that are subsets of `UV_READABLE | UV_WRITABLE`, completions of outstanding
poll requests, `uv_close` and the endgame, the calls being made from outside
or from inside `poll_cb` and none of them on a handle that is already closing.
The run goes through without a failed assertion, so every submission
`uv__slow_poll_submit_poll_req` attempts finds a free slot and never reaches
its `assert(0)`; and when both slots are outstanding after the run,
`submitted_events_1 | submitted_events_2` is `UV_READABLE | UV_WRITABLE`. -/
theorem uv__slow_poll_submit_poll_req_slot_free {W : Type} (ops : uv_poll_ops)
    (inputs : List uv_poll_input) (st0 : uv_state W uv_poll_t)
    (h0 : uv_poll_initial st0) (hslow : st0.handle.flags.poll_slow = true)
    (hcb : ∀ cb log handle status events,
      uv_poll_calls_valid (ops.poll_cb cb log handle status events) = true)
    (hin : uv_poll_inputs_valid ops inputs st0 = true) :
    ∃ st, uv_poll_run ops inputs st0 = some st ∧
      uv_event.assert_failed ∉ st.log ∧
      (st.handle.submitted_events_1 ≠ 0 → st.handle.submitted_events_2 ≠ 0 →
        st.handle.submitted_events_1 ||| st.handle.submitted_events_2
          = UV_READABLE ||| UV_WRITABLE) := by
  obtain ⟨st, hrun, hinv, hj, hs⟩ := uv_poll_run_safe ops inputs st0.handle.addr st0
    ⟨uv_poll_initial_inv st0 h0, uv_poll_initial_slots_inv st0 h0, hslow⟩ hcb hin
  exact ⟨st, hrun, hinv.2.1, fun h1 h2 => (hj hs).2.2.2 h1 h2⟩

/-- C27 at the run of the examples, whose callback watches both events again:
the run goes through and leaves both requests outstanding. -/
theorem uv__slow_poll_submit_poll_req_slot_free_witness :
    ∃ st, uv_poll_run ex_poll_restart_ops ex_slow_poll_inputs ex_slow_poll_state = some st ∧
      uv_event.assert_failed ∉ st.log ∧
      (st.handle.submitted_events_1 ≠ 0 → st.handle.submitted_events_2 ≠ 0 →
        st.handle.submitted_events_1 ||| st.handle.submitted_events_2
          = UV_READABLE ||| UV_WRITABLE) :=
  uv__slow_poll_submit_poll_req_slot_free ex_poll_restart_ops ex_slow_poll_inputs
    ex_slow_poll_state (by unfold uv_poll_initial; decide) rfl (fun _ _ _ _ _ => rfl)
    (by decide)

end Uv
